import Mathlib

/-! # tmpl: the tmux orchestration engine

A shallow embedding of the Go packages `tmux` (runner, output parser,
session / window / pane entities) and `config` (validation and `Apply`) of
`michenriksen/tmpl`, followed by theorems about them.

Modelling conventions

* Go strings and byte slices are Lean `String`s (valid UTF-8 text); the three
  separators of the output format are single ASCII characters, so splitting
  bytes and splitting characters agree.
* Go pointers are addresses into the object lists of a `World`; a nil-able
  pointer is an `Option Nat`. Dereferencing nil or a dangling address, and
  indexing a slice out of range, is a runtime panic (`Result.panic`).
* A `Runner` is an arbitrary deterministic implementation of the Go interface:
  its answer may depend on the context, on every call issued before, and on
  the arguments. Every call is recorded in `World.calls`.
* A Go `map[string]string` is the list of its entries; iteration follows the
  list (Go leaves the order unspecified).
* Logging (`Log`, `Debug`) has no effect on entities or on the multiplexer and
  is left out.
* The context is not cancelled concurrently while an operation runs: the
  value of `ctx.Err()` is fixed for the duration of a call.
-/

set_option autoImplicit false
set_option maxRecDepth 100000

deriving instance DecidableEq for Except

namespace Tmpl

/-! ## Errors -/

/-- Go error values. `New` is `errors.New`, `Errorf` is `fmt.Errorf` without
`%w` (format and operands kept apart), `Wrapf` is `fmt.Errorf` whose last verb
is `%w`, `Join` is `errors.Join` of two errors, `Internal` is
`validation.NewInternalError`, and `ErrorsNil` / `ErrorsCons` spell out a
`validation.Errors` map from field names to errors. -/
inductive Error where
  | New (text : String)
  | Errorf (format : String) (args : List String)
  | Wrapf (format : String) (args : List String) (err : Error)
  | Join (a b : Error)
  | Internal (err : Error)
  | ErrorsNil
  | ErrorsCons (field : String) (err : Error) (rest : Error)
  deriving DecidableEq, Repr

/-- The function `errors.Is`: the target is the error itself or is reached by
unwrapping (`Wrapf` has one wrapped error, `Join` has two). Sentinel errors are
compared by value. -/
def Error.Is : Error → Error → Bool
  | .Wrapf f a e, t => decide (Error.Wrapf f a e = t) || Error.Is e t
  | .Join a b, t => decide (Error.Join a b = t) || Error.Is a t || Error.Is b t
  | e, t => decide (e = t)

/-- Whether `validation.Errors` (spelled as a cons list) has no entry. -/
def Error.noFields : Error → Bool
  | .ErrorsNil => true
  | _ => false

/-! ## Strings and bytes (Go standard library) -/

/-- The predicate `unicode.IsSpace`. -/
def isSpace (c : Char) : Bool :=
  let n := c.toNat
  (9 ≤ n && n ≤ 13) || n = 32 || n = 0x85 || n = 0xA0 || n = 0x1680 ||
  (0x2000 ≤ n && n ≤ 0x200A) || n = 0x2028 || n = 0x2029 || n = 0x202F ||
  n = 0x205F || n = 0x3000

/-- Drop the leading and the trailing white space of a character list. -/
def trimSpace (l : List Char) : List Char :=
  ((l.dropWhile isSpace).reverse.dropWhile isSpace).reverse

/-- The functions `bytes.TrimSpace` and `strings.TrimSpace`. -/
def TrimSpace (s : String) : String := String.mk (trimSpace s.data)

/-- The function `bytes.Split` for a one-character separator: all pieces
between separators; the empty input gives one empty piece. -/
def splitChars (sep : Char) : List Char → List (List Char)
  | [] => [[]]
  | c :: cs =>
    if c = sep then [] :: splitChars sep cs
    else
      match splitChars sep cs with
      | [] => [[c]]
      | p :: ps => (c :: p) :: ps

/-- The function `bytes.Cut` for a one-character separator: the text before
and after the first separator, or nothing when there is no separator. -/
def cutChars (sep : Char) : List Char → Option (List Char × List Char)
  | [] => none
  | c :: cs =>
    if c = sep then some ([], cs)
    else
      match cutChars sep cs with
      | none => none
      | some (k, v) => some (c :: k, v)

/-- The function `strings.Join`. -/
def Join (sep : String) : List String → String
  | [] => ""
  | [s] => s
  | s :: t :: rest => s ++ sep ++ Join sep (t :: rest)

/-- Byte-wise comparison `a < b` of Go strings (on valid UTF-8 the same as
comparing code points). -/
def lessChars : List Char → List Char → Bool
  | [], [] => false
  | [], _ :: _ => true
  | _ :: _, [] => false
  | a :: as, b :: bs =>
    if a.toNat < b.toNat then true
    else if b.toNat < a.toNat then false
    else lessChars as bs

/-- The function `sort.Strings`. -/
def sortStrings (keys : List String) : List String :=
  keys.insertionSort (fun a b => lessChars b.data a.data = false)

/-- A Go `map[string]string`, as the list of its entries. -/
abbrev Map := List (String × String)

/-- The lookup `m[k]` with its presence flag. -/
def Map.get? (m : Map) (k : String) : Option String :=
  (m.find? (fun e => decide (e.1 = k))).map Prod.snd

/-- The assignment `m[k] = v`. -/
def Map.set : Map → String → String → Map
  | [], k, v => [(k, v)]
  | (k0, v0) :: rest, k, v =>
    if k0 = k then (k0, v) :: rest else (k0, v0) :: Map.set rest k v

/-! ## Output records (tmux/output.go) -/

/-- One line of command output, a mapping from field name to value. -/
abbrev outputRecord := Map

def newline : Char := '\n'

def comma : Char := ','

def colon : Char := ':'

/-- The rendering `outputRecord.String`: `key:value` pairs joined by commas. -/
def outputRecord.String (r : outputRecord) : String :=
  Join "," (r.map (fun e => e.1 ++ ":" ++ e.2))

def outputFormatVar (name : String) : String :=
  "#\x7b" ++ name ++ "\x7d"

def outputFormat (vars : List String) : String :=
  Join "," (vars.map (fun v => v ++ ":" ++ outputFormatVar v))

/-- The inner loop of `parseOutput`: the key-value pairs of one line are added
to the record; a pair without colon or a repeated key is an error. -/
def parsePairs : List (List Char) → outputRecord → Except Error outputRecord
  | [], record => .ok record
  | kv :: keyvals, record =>
    match cutChars colon kv with
    | none =>
      .error (.Errorf "invalid key-value pair in command output: %s" [String.mk kv])
    | some (key, val) =>
      match Map.get? record (String.mk key) with
      | some _ =>
        .error (.Errorf "duplicate key in command output: %s" [String.mk key])
      | none => parsePairs keyvals (record ++ [(String.mk key, String.mk val)])

/-- The outer loop of `parseOutput` over the lines. `total` is `len(lines)`,
the length of the whole slice of lines, which the loop tests before it parses
a line. -/
def parseLines (total : Nat) : List (List Char) → List outputRecord →
    Except Error (List outputRecord)
  | [], res => .ok res
  | line :: rest, res =>
    let line := trimSpace line
    if total = 0 then parseLines total rest res
    else
      match parsePairs (splitChars comma line) [] with
      | .error e => .error e
      | .ok record => parseLines total rest (res ++ [record])

/-- The function `parseOutput`: command output to output records. -/
def parseOutput (output : String) : Except Error (List outputRecord) :=
  let output := trimSpace output.data
  if output.length = 0 then .ok []
  else
    let lines := splitChars newline output
    parseLines lines.length lines []

/-! ## Environment arguments (tmux/shared.go) -/

/-- What `os.Stat` reports about an existing path. -/
inductive FileInfo where
  | dir
  | file
  deriving DecidableEq, Repr

/-- The operating system as seen by the program: the process environment, the
file system and the executable search path. -/
structure OS where
  Getenv : String → String
  ExpandEnv : String → String
  Abs : String → Except Error String
  Stat : String → Except Error FileInfo
  LookPath : String → Except Error String

/-- The sentinel `fs.ErrNotExist`. -/
def ErrNotExist : Error := .New "file does not exist"

/-- Merge maps left to right; a later map overrides an earlier one. -/
def mergeMaps (maps : List Map) : Map :=
  maps.foldl (fun res m => m.foldl (fun res e => Map.set res e.1 e.2) res) []

/-- The tmux arguments `-e KEY=value` for the merged maps, sorted by key. -/
def envArgs (os : OS) (envs : List Map) : List String :=
  let m := mergeMaps envs
  let keys := sortStrings (m.map Prod.fst)
  keys.foldl
    (fun args k => args ++ ["-e", k ++ "=" ++ os.ExpandEnv ((Map.get? m k).getD "")])
    []

/-- The function `strings.Contains` on character lists. -/
def containsChars (sub : List Char) : List Char → Bool
  | [] => sub.isEmpty
  | c :: cs => sub.isPrefixOf (c :: cs) || containsChars sub cs

/-- Whether the program runs inside tmux. -/
def inTmux (os : OS) : Bool :=
  if os.Getenv "TERM_PROGRAM" = "tmux" then true
  else if os.Getenv "TMUX" ≠ "" then true
  else if containsChars "tmux".data (os.Getenv "TERM").data then true
  else false

/-! ## Runner, entities and the world (tmux/runner.go and the entity files) -/

/-- The lifecycle state of a session, window or pane. -/
inductive state where
  | stateNew
  | stateApplied
  | stateClosed
  deriving DecidableEq, Repr

/-- The rank of a state in the order new < applied < closed. -/
def state.rank : state → Nat
  | .stateNew => 0
  | .stateApplied => 1
  | .stateClosed => 2

/-- A `context.Context`, reduced to the value of `ctx.Err()`. -/
structure Context where
  Err : Option Error
  deriving DecidableEq, Repr

/-- The context `context.Background()`, which is never cancelled. -/
def Background : Context := { Err := none }

/-- A command issued to the runner. -/
inductive Call where
  | Run (args : List String)
  | Execve (args : List String)
  deriving DecidableEq, Repr

/-- An implementation of the `Runner` interface. `Run` and `Execve` receive
the calls issued so far, so that a runner may keep state. -/
structure Runner where
  Run : Context → List Call → List String → String × Option Error
  Execve : List Call → List String → Option Error
  IsDryRun : Bool

/-- A tmux session. The `tmux` field of the source is the runner `R` passed to
the operations: all entities of a world share one runner. -/
structure Session where
  id : String := ""
  path : String := ""
  name : String := ""
  winCmd : String := ""
  paneCmd : String := ""
  anyCmd : String := ""
  env : Map := []
  windows : List Nat := []
  state : state := .stateNew
  deriving DecidableEq, Repr

/-- A tmux window. -/
structure Window where
  sess : Option Nat := none
  id : String := ""
  name : String := ""
  path : String := ""
  cmds : List String := []
  index : String := ""
  width : String := ""
  height : String := ""
  env : Map := []
  panes : List Nat := []
  active : Bool := false
  state : state := .stateNew
  deriving DecidableEq, Repr

/-- A tmux window pane. -/
structure Pane where
  sess : Option Nat := none
  win : Option Nat := none
  pane : Option Nat := none
  env : Map := []
  id : String := ""
  path : String := ""
  cmds : List String := []
  size : String := ""
  width : String := ""
  height : String := ""
  index : String := ""
  panes : List Nat := []
  horizontal : Bool := false
  active : Bool := false
  state : state := .stateNew
  deriving DecidableEq, Repr

/-- The objects allocated so far, addressed by position, and the commands
issued to the runner, oldest first. -/
structure World where
  sessions : List Session := []
  windows : List Window := []
  panes : List Pane := []
  calls : List Call := []
  deriving DecidableEq, Repr

/-- How a computation ends: with a value, or with a runtime panic. -/
inductive Result (α : Type) where
  | ok (val : α) (w : World)
  | panic (w : World)
  deriving DecidableEq, Repr

/-- The world a computation ends in. -/
def Result.world {α : Type} : Result α → World
  | .ok _ w => w
  | .panic w => w

/-- A computation on the world. -/
def Exec (α : Type) : Type := World → Result α

instance : Monad Exec where
  pure a := fun w => .ok a w
  bind m f := fun w =>
    match m w with
    | .ok a w1 => f a w1
    | .panic w1 => .panic w1

/-- A runtime panic. -/
def panic {α : Type} : Exec α := fun w => .panic w

/-- Dereference a session pointer. -/
def getSession (s : Option Nat) : Exec Session := fun w =>
  match s with
  | none => .panic w
  | some a =>
    match w.sessions[a]? with
    | some x => .ok x w
    | none => .panic w

/-- Dereference a window pointer. -/
def getWindow (p : Option Nat) : Exec Window := fun w =>
  match p with
  | none => .panic w
  | some a =>
    match w.windows[a]? with
    | some x => .ok x w
    | none => .panic w

/-- Dereference a pane pointer. -/
def getPane (p : Option Nat) : Exec Pane := fun w =>
  match p with
  | none => .panic w
  | some a =>
    match w.panes[a]? with
    | some x => .ok x w
    | none => .panic w

/-- Store through a session pointer. -/
def setSession (a : Nat) (x : Session) : Exec Unit := fun w =>
  .ok () { w with sessions := w.sessions.set a x }

/-- Store through a window pointer. -/
def setWindow (a : Nat) (x : Window) : Exec Unit := fun w =>
  .ok () { w with windows := w.windows.set a x }

/-- Store through a pane pointer. -/
def setPane (a : Nat) (x : Pane) : Exec Unit := fun w =>
  .ok () { w with panes := w.panes.set a x }

/-- Allocate a session object. -/
def allocSession (x : Session) : Exec Nat := fun w =>
  .ok w.sessions.length { w with sessions := w.sessions ++ [x] }

/-- Allocate a window object. -/
def allocWindow (x : Window) : Exec Nat := fun w =>
  .ok w.windows.length { w with windows := w.windows ++ [x] }

/-- Allocate a pane object. -/
def allocPane (x : Pane) : Exec Nat := fun w =>
  .ok w.panes.length { w with panes := w.panes ++ [x] }

/-- The call `tmux.Run(ctx, args...)` on the runner. -/
def Run (R : Runner) (ctx : Context) (args : List String) :
    Exec (String × Option Error) := fun w =>
  .ok (R.Run ctx w.calls args) { w with calls := w.calls ++ [Call.Run args] }

/-- The call `tmux.Execve(args...)` on the runner. -/
def Execve (R : Runner) (args : List String) : Exec (Option Error) := fun w =>
  .ok (R.Execve w.calls args) { w with calls := w.calls ++ [Call.Execve args] }

/-! ## Sentinel errors (tmux/errors.go) -/

def ErrNilRunner : Error := .New "runner is nil"

def ErrNilSession : Error := .New "session is nil"

def ErrNilWindow : Error := .New "window is nil"

def ErrSessionClosed : Error := .New "session is closed"

def ErrSessionNotApplied : Error := .New "session is not applied"

def ErrWindowNotApplied : Error := .New "window is not applied"

def ErrPaneNotApplied : Error := .New "pane is not applied"

/-! ## Sessions: fields and state (tmux/session.go) -/

def sessionOutputFormat : String :=
  outputFormat ["session_id", "session_name", "session_path"]

def Session.IsClosed (s : Session) : Bool := decide (s.state = .stateClosed)

def Session.IsApplied (s : Session) : Bool := decide (s.state = .stateApplied)

def Session.Name (s : Session) : String := s.name

def Session.NumWindows (s : Session) : Nat := s.windows.length

/-- The method `Session.update` (its error result is always nil): non-empty
values of known fields are copied, then the state becomes applied. -/
def Session.update (s : Session) (record : outputRecord) : Session :=
  let s1 := record.foldl (fun s e =>
    if e.2 = "" then s
    else if e.1 = "session_id" then { s with id := e.2 }
    else if e.1 = "session_name" then { s with name := e.2 }
    else if e.1 = "session_path" then { s with path := e.2 }
    else s) s
  { s1 with state := .stateApplied }

def Session.addWindow (s : Session) (w : Nat) : Session :=
  { s with windows := s.windows ++ [w] }

/-- The method `Session.checkState`: applied and not closed. -/
def Session.checkState (s : Session) : Option Error :=
  if s.IsClosed then some ErrSessionClosed
  else if !s.IsApplied then some ErrSessionNotApplied
  else none

def Session.onWindowCommands (s : Session) : List String :=
  let cmds := if s.anyCmd ≠ "" then [s.anyCmd] else []
  if s.winCmd ≠ "" then cmds ++ [s.winCmd] else cmds

def Session.onPaneCommands (s : Session) : List String :=
  let cmds := if s.anyCmd ≠ "" then [s.anyCmd] else []
  if s.paneCmd ≠ "" then cmds ++ [s.paneCmd] else cmds

def Session.dryRunRecord (s : Session) : String :=
  outputRecord.String
    [("session_id", "$0"), ("session_name", s.name), ("session_path", s.path)]

/-- The loop of `Session.NumPanes` over the windows of the session. -/
def countPanes : List Nat → Nat → Exec Nat
  | [], n => pure n
  | a :: rest, n => do
    let win ← getWindow (some a)
    countPanes rest (n + win.panes.length)

/-- The method `Session.NumPanes`: the panes registered with the windows. -/
def Session.NumPanes (s : Option Nat) : Exec Nat := do
  let sess ← getSession s
  countPanes sess.windows 0

/-! ## Windows: fields and state (tmux/window.go) -/

def windowOutputFormat : String :=
  outputFormat ["window_id", "window_name", "window_path", "window_index",
    "window_width", "window_height"]

/-- The method `Window.Name`: session name, colon, window name. -/
def Window.Name (w : Option Nat) : Exec String := do
  let win ← getWindow w
  let sess ← getSession win.sess
  return sess.Name ++ ":" ++ win.name

def Window.IsApplied (w : Window) : Bool := decide (w.state = .stateApplied)

/-- The method `Window.IsClosed`: the window or its session is closed. -/
def Window.IsClosed (w : Option Nat) : Exec Bool := do
  let win ← getWindow w
  if win.state = .stateClosed then return true
  else
    let sess ← getSession win.sess
    return sess.IsClosed

def Window.IsActive (w : Window) : Bool := w.active

def Window.NumPanes (w : Window) : Nat := w.panes.length

/-- The method `Window.update` (its error result is always nil). -/
def Window.update (w : Window) (record : outputRecord) : Window :=
  let w1 := record.foldl (fun w e =>
    if e.2 = "" then w
    else if e.1 = "window_id" then { w with id := e.2 }
    else if e.1 = "window_name" then { w with name := e.2 }
    else if e.1 = "window_path" then { w with path := e.2 }
    else if e.1 = "session_path" then { w with path := e.2 }
    else if e.1 = "window_index" then { w with index := e.2 }
    else if e.1 = "window_width" then { w with width := e.2 }
    else if e.1 = "window_height" then { w with height := e.2 }
    else w) w
  { w1 with state := .stateApplied }

def Window.addPane (w : Window) (p : Nat) : Window :=
  { w with panes := w.panes ++ [p] }

/-- The method `Window.checkState`. -/
def Window.checkState (w : Option Nat) : Exec (Option Error) := do
  if (← Window.IsClosed w) then return some ErrSessionClosed
  else
    let win ← getWindow w
    if !win.IsApplied then return some ErrWindowNotApplied
    else return none

/-- The method `Window.dryRunRecord`. -/
def Window.dryRunRecord (w : Option Nat) : Exec String := do
  let win ← getWindow w
  let sess ← getSession win.sess
  let wID := sess.NumWindows + 1
  return outputRecord.String
    [("window_id", "@" ++ toString wID), ("window_name", win.name),
     ("window_path", win.path), ("window_index", toString wID),
     ("window_width", "80"), ("window_height", "24")]

/-! ## Panes (tmux/pane.go) -/

def paneOutputFormat : String :=
  outputFormat ["pane_id", "pane_path", "pane_index", "pane_width", "pane_height"]

/-- The method `Pane.Name`: window name, dot, pane index. -/
def Pane.Name (p : Option Nat) : Exec String := do
  let pane ← getPane p
  let wname ← Window.Name pane.win
  return wname ++ "." ++ pane.index

def Pane.IsApplied (p : Pane) : Bool := decide (p.state = .stateApplied)

/-- The method `Pane.IsClosed`: the pane, its window or its session is closed. -/
def Pane.IsClosed (p : Option Nat) : Exec Bool := do
  let pane ← getPane p
  if pane.state = .stateClosed then return true
  else Window.IsClosed pane.win

def Pane.IsActive (p : Pane) : Bool := p.active

def Pane.NumPanes (p : Pane) : Nat := p.panes.length

/-- The method `Pane.update` (its error result is always nil). -/
def Pane.update (p : Pane) (record : outputRecord) : Pane :=
  let p1 := record.foldl (fun p e =>
    if e.2 = "" then p
    else if e.1 = "pane_id" then { p with id := e.2 }
    else if e.1 = "pane_path" then { p with path := e.2 }
    else if e.1 = "pane_index" then { p with index := e.2 }
    else if e.1 = "pane_width" then { p with width := e.2 }
    else if e.1 = "pane_height" then { p with height := e.2 }
    else p) p
  { p1 with state := .stateApplied }

/-- The method `Pane.checkState`. -/
def Pane.checkState (p : Option Nat) : Exec (Option Error) := do
  if (← Pane.IsClosed p) then return some ErrPaneNotApplied
  else
    let pane ← getPane p
    if pane.IsApplied then return none
    else return some ErrPaneNotApplied

/-- The method `Pane.addPane` with receiver `p` and argument `child`: the
argument joins the receiver's panes, and the receiver joins its window's. -/
def Pane.addPane (p : Nat) (child : Nat) : Exec Unit := do
  let pane ← getPane (some p)
  setPane p { pane with panes := pane.panes ++ [child] }
  match pane.win with
  | none => panic
  | some wa =>
    let win ← getWindow (some wa)
    setWindow wa (win.addPane p)

/-- The method `Pane.envArgs`. -/
def Pane.envArgs (os : OS) (p : Option Nat) : Exec (List String) := do
  let pane ← getPane p
  match pane.pane with
  | some pp =>
    let sess ← getSession pane.sess
    let win ← getWindow pane.win
    let parent ← getPane (some pp)
    return Tmpl.envArgs os [sess.env, win.env, parent.env, pane.env]
  | none =>
    let sess ← getSession pane.sess
    let win ← getWindow pane.win
    return Tmpl.envArgs os [sess.env, win.env, pane.env]

/-- The method `Pane.dryRunRecord`. -/
def Pane.dryRunRecord (p : Option Nat) : Exec String := do
  let pane ← getPane p
  let n ← Session.NumPanes pane.sess
  let win ← getWindow pane.win
  return outputRecord.String
    [("pane_id", "%" ++ toString (n + 1)), ("pane_path", pane.path),
     ("pane_index", toString (win.NumPanes + 1)),
     ("pane_width", "40"), ("pane_height", "12")]

/-- The loop of `Pane.RunCommands`: one send-keys command per shell command. -/
def Pane.sendKeys (R : Runner) (ctx : Context) (p : Option Nat) :
    List String → Exec (Option Error)
  | [] => pure none
  | cmd :: cmds => do
    let name ← Pane.Name p
    let (_, err) ← Run R ctx ["send-keys", "-t", name, cmd, "C-m"]
    match err with
    | some err => return some (.Wrapf "running send-keys command: %w" [] err)
    | none => Pane.sendKeys R ctx p cmds

/-- The method `Pane.RunCommands`. -/
def Pane.RunCommands (R : Runner) (ctx : Context) (p : Option Nat)
    (cmds : List String) : Exec (Option Error) := do
  match ctx.Err with
  | some err => return some err
  | none =>
    if cmds.length = 0 then return none
    else
      match (← Pane.checkState p) with
      | some err => return some (.Wrapf "checking pane state: %w" [] err)
      | none => Pane.sendKeys R ctx p cmds

/-- The method `Pane.Select`. -/
def Pane.Select (R : Runner) (ctx : Context) (p : Option Nat) :
    Exec (Option Error) := do
  match ctx.Err with
  | some err => return some err
  | none =>
    match (← Pane.checkState p) with
    | some err => return some (.Wrapf "checking pane state: %w" [] err)
    | none =>
      let name ← Pane.Name p
      let (_, err) ← Run R ctx ["select-pane", "-t", name]
      match err with
      | some err => return some (.Wrapf "running select-pane command: %w" [] err)
      | none => return none

/-- The arguments of the split-window command that `Pane.Apply` builds, from
the target and the environment arguments. -/
def Pane.splitWindowArgs (pane : Pane) (target : String) (env : List String) :
    List String :=
  let args := ["split-window", "-d", "-P", "-F", paneOutputFormat, "-t", target]
  let args := args ++ env
  let args := if pane.path ≠ "" then args ++ ["-c", pane.path] else args
  let args := if pane.size ≠ "" then args ++ ["-l", pane.size] else args
  if pane.horizontal then args ++ ["-h"] else args

/-- The method `Pane.Apply`: create the pane with split-window. -/
def Pane.Apply (os : OS) (R : Runner) (ctx : Context) (p : Option Nat) :
    Exec (Option Error) := do
  match ctx.Err with
  | some err => return some err
  | none =>
    if (← Pane.IsClosed p) then return some ErrSessionClosed
    else
      let pane ← getPane p
      if pane.IsApplied then return none
      else
        let target ← Window.Name pane.win
        let target ←
          match pane.pane with
          | some pp => Pane.Name (some pp)
          | none => pure target
        let env ← Pane.envArgs os p
        let (output, err) ← Run R ctx (pane.splitWindowArgs target env)
        match err with
        | some err => return some (.Wrapf "running split-window command: %w" [] err)
        | none =>
          let output ← if R.IsDryRun then Pane.dryRunRecord p else pure output
          match parseOutput output with
          | .error err =>
            return some (.Wrapf "parsing split-window command output: %w" [] err)
          | .ok records =>
            match records, p with
            | record :: _, some a =>
              setPane a (pane.update record)
              match pane.pane with
              | some _ => Pane.addPane a a
              | none =>
                match pane.win with
                | none => panic
                | some wa =>
                  let win ← getWindow (some wa)
                  setWindow wa (win.addPane a)
              let sess ← getSession pane.sess
              Pane.RunCommands R ctx p (sess.onPaneCommands ++ pane.cmds)
            | _, _ => panic

/-! ## Windows: operations (tmux/window.go) -/

/-- The loop of `Window.RunCommands`: one send-keys command per shell
command. -/
def Window.sendKeys (R : Runner) (ctx : Context) (w : Option Nat) :
    List String → Exec (Option Error)
  | [] => pure none
  | cmd :: cmds => do
    let name ← Window.Name w
    let (_, err) ← Run R ctx ["send-keys", "-t", name, cmd, "C-m"]
    match err with
    | some err => return some (.Wrapf "running send-keys command: %w" [] err)
    | none => Window.sendKeys R ctx w cmds

/-- The method `Window.RunCommands`. -/
def Window.RunCommands (R : Runner) (ctx : Context) (w : Option Nat)
    (cmds : List String) : Exec (Option Error) := do
  match ctx.Err with
  | some err => return some err
  | none =>
    if cmds.length = 0 then return none
    else
      match (← Window.checkState w) with
      | some err => return some (.Wrapf "checking window state: %w" [] err)
      | none => Window.sendKeys R ctx w cmds

/-- The loop of `Window.selectPane` that looks for the pane flagged active;
the last flagged pane wins. -/
def findActivePane : List Nat → Option Nat → Exec (Option Nat)
  | [], activePane => pure activePane
  | a :: rest, activePane => do
    let pane ← getPane (some a)
    if pane.IsActive then findActivePane rest (some a)
    else findActivePane rest activePane

/-- The method `Window.selectPane`. -/
def Window.selectPane (R : Runner) (ctx : Context) (w : Option Nat) :
    Exec (Option Error) := do
  match ctx.Err with
  | some err => return some err
  | none =>
    match (← Window.checkState w) with
    | some err => return some (.Wrapf "checking window state: %w" [] err)
    | none =>
      let win ← getWindow w
      if win.NumPanes = 0 then return none
      else
        match (← findActivePane win.panes none) with
        | none =>
          let (baseIndex, err) ← Run R ctx ["show-option", "-gqv", "pane-base-index"]
          match err with
          | some err => return some (.Wrapf "running show-option command: %w" [] err)
          | none =>
            let name ← Window.Name w
            let pTarget := name ++ "." ++ TrimSpace baseIndex
            let (_, err) ← Run R ctx ["select-pane", "-t", pTarget]
            match err with
            | some err => return some (.Wrapf "running select-pane command: %w" [] err)
            | none => return none
        | some activePane =>
          match (← Pane.Select R ctx (some activePane)) with
          | some err => return some (.Wrapf "selecting active window pane: %w" [] err)
          | none => return none

/-- The method `Window.Select`. -/
def Window.Select (R : Runner) (ctx : Context) (w : Option Nat) :
    Exec (Option Error) := do
  match ctx.Err with
  | some err => return some err
  | none =>
    match (← Window.checkState w) with
    | some err => return some (.Wrapf "checking window state: %w" [] err)
    | none =>
      let name ← Window.Name w
      let (_, err) ← Run R ctx ["select-window", "-t", name]
      match err with
      | some err => return some (.Wrapf "running select-window command: %w" [] err)
      | none => Window.selectPane R ctx w

/-- The arguments of the new-window command that `Window.Apply` builds; `sess`
is the session `w.sess` of the window. -/
def Window.newWindowArgs (win : Window) (os : OS) (sess : Session) : List String :=
  let args := ["new-window", "-P", "-F", windowOutputFormat]
  let args :=
    if sess.NumWindows = 0 then args ++ ["-k", "-t", sess.Name ++ ":^"]
    else args ++ ["-t", sess.Name ++ ":"]
  let args := args ++ envArgs os [sess.env, win.env]
  let args := if win.name ≠ "" then args ++ ["-n", win.name] else args
  if win.path ≠ "" then args ++ ["-c", win.path] else args

/-- The method `Window.Apply`: create the window with new-window. -/
def Window.Apply (os : OS) (R : Runner) (ctx : Context) (w : Option Nat) :
    Exec (Option Error) := do
  match ctx.Err with
  | some err => return some err
  | none =>
    if (← Window.IsClosed w) then return some ErrSessionClosed
    else
      let win ← getWindow w
      if win.IsApplied then return none
      else
        let sess ← getSession win.sess
        let (output, err) ← Run R ctx (win.newWindowArgs os sess)
        match err with
        | some err => return some (.Wrapf "running new-window command: %w" [] err)
        | none =>
          let output ← if R.IsDryRun then Window.dryRunRecord w else pure output
          match parseOutput output with
          | .error err =>
            return some (.Wrapf "parsing new-window command output: %w" [] err)
          | .ok records =>
            match records, w, win.sess with
            | record :: _, some a, some sa =>
              setWindow a (win.update record)
              setSession sa (sess.addWindow a)
              Window.RunCommands R ctx w (sess.onWindowCommands ++ win.cmds)
            | _, _, _ => panic

/-! ## Sessions: operations (tmux/session.go) -/

/-- The arguments of the new-session command that `Session.Apply` builds. -/
def Session.newSessionArgs (sess : Session) : List String :=
  let args := ["new-session", "-d", "-P", "-F", sessionOutputFormat]
  if sess.name ≠ "" then args ++ ["-s", sess.name] else args

/-- The method `Session.Apply`: create the session with new-session. -/
def Session.Apply (R : Runner) (ctx : Context) (s : Option Nat) :
    Exec (Option Error) := do
  match ctx.Err with
  | some err => return some err
  | none =>
    let sess ← getSession s
    if sess.IsClosed then return some ErrSessionClosed
    else if sess.IsApplied then return none
    else
      let (output, err) ← Run R ctx sess.newSessionArgs
      match err with
      | some err => return some (.Wrapf "running new-session command: %w" [] err)
      | none =>
        let output := if R.IsDryRun then sess.dryRunRecord else output
        match parseOutput output with
        | .error err =>
          return some (.Wrapf "parsing new-session command output: %w" [] err)
        | .ok records =>
          match records, s with
          | record :: _, some a =>
            setSession a (sess.update record)
            return none
          | _, _ => panic

/-- The method `Session.Attach`: switch or attach the client through Execve. -/
def Session.Attach (os : OS) (R : Runner) (ctx : Context) (s : Option Nat) :
    Exec (Option Error) := do
  match ctx.Err with
  | some err => return some err
  | none =>
    let sess ← getSession s
    match sess.checkState with
    | some err => return some (.Wrapf "checking session state: %w" [] err)
    | none =>
      if inTmux os then
        match (← Execve R ["switch-client", "-t", sess.name]) with
        | some err => return some (.Wrapf "running switch-client command: %w" [] err)
        | none => return none
      else
        match (← Execve R ["attach-session", "-t", sess.name]) with
        | some err => return some (.Wrapf "running attach-session command: %w" [] err)
        | none => return none

/-- The loop of `Session.SelectActive` over `s.windows[1:]`; the last window
flagged active wins. -/
def findActiveWindow : List Nat → Nat → Exec Nat
  | [], activeWin => pure activeWin
  | a :: rest, activeWin => do
    let win ← getWindow (some a)
    if win.IsActive then findActiveWindow rest a
    else findActiveWindow rest activeWin

/-- The method `Session.SelectActive`. -/
def Session.SelectActive (R : Runner) (ctx : Context) (s : Option Nat) :
    Exec (Option Error) := do
  match ctx.Err with
  | some err => return some err
  | none =>
    let sess ← getSession s
    match sess.checkState with
    | some err => return some (.Wrapf "checking session state: %w" [] err)
    | none =>
      if sess.NumWindows = 1 then
        match sess.windows with
        | w0 :: _ => Window.selectPane R ctx (some w0)
        | [] => panic
      else
        match sess.windows with
        | [] => panic
        | w0 :: rest =>
          let activeWin ← findActiveWindow rest w0
          Window.Select R ctx (some activeWin)

/-- The method `Session.Close`: kill the session; a session that is closed or
not applied is left alone. -/
def Session.Close (R : Runner) (s : Option Nat) : Exec (Option Error) := do
  let sess ← getSession s
  if sess.IsClosed || !sess.IsApplied then return none
  else
    let (_, err) ← Run R Background ["kill-session", "-t", sess.name]
    match err, s with
    | some err, _ => return some (.Wrapf "running kill-session command: %w" [] err)
    | none, some a =>
      setSession a { sess with state := .stateClosed, windows := [] }
      return none
    | none, none => panic

/-- The loop of `GetSessions`: one applied session object per record. -/
def sessionsOfRecords : List outputRecord → Exec (List Nat)
  | [] => pure []
  | record :: records => do
    let a ← allocSession (Session.update { state := .stateApplied } record)
    let rest ← sessionsOfRecords records
    return a :: rest

/-- The function `GetSessions`: the sessions that list-sessions reports. -/
def GetSessions (ctx : Context) (runner : Option Runner) :
    Exec (List Nat × Option Error) := do
  match ctx.Err with
  | some err => return ([], some err)
  | none =>
    match runner with
    | none => return ([], some ErrNilRunner)
    | some R =>
      let (output, err) ← Run R ctx ["list-sessions", "-F", sessionOutputFormat]
      match err with
      | some err => return ([], some (.Wrapf "running list-sessions command: %w" [] err))
      | none =>
        match parseOutput output with
        | .error err =>
          return ([], some (.Wrapf "parsing list-sessions command output: %w" [] err))
        | .ok records =>
          let sessions ← sessionsOfRecords records
          return (sessions, none)

/-! ## Constructors and options -/

/-- A `SessionOption`: a function that configures a session or fails. -/
abbrev SessionOption := Session → Except Error Session

/-- A `WindowOption`. -/
abbrev WindowOption := Window → Except Error Window

/-- A `PaneOption`. -/
abbrev PaneOption := Pane → Except Error Pane

def SessionWithName (name : String) : SessionOption :=
  fun s => .ok { s with name := name }

def SessionWithPath (path : String) : SessionOption :=
  fun s => .ok { s with path := path }

def SessionWithOnWindowCommand (cmd : String) : SessionOption :=
  fun s => .ok { s with winCmd := TrimSpace cmd }

def SessionWithOnPaneCommand (cmd : String) : SessionOption :=
  fun s => .ok { s with paneCmd := TrimSpace cmd }

def SessionWithOnAnyCommand (cmd : String) : SessionOption :=
  fun s => .ok { s with anyCmd := TrimSpace cmd }

def SessionWithEnv (env : Map) : SessionOption :=
  fun s => .ok { s with env := env }

def WindowWithName (name : String) : WindowOption :=
  fun w =>
    if name = "" then .error (.Errorf "window name cannot be empty" [])
    else .ok { w with name := name }

def WindowWithPath (p : String) : WindowOption :=
  fun w => .ok { w with path := p }

def WindowWithCommands (cmds : List String) : WindowOption :=
  fun w => .ok { w with cmds := w.cmds ++ cmds }

def WindowAsActive : WindowOption :=
  fun w => .ok { w with active := true }

def WindowWithEnv (env : Map) : WindowOption :=
  fun w => .ok { w with env := env }

def PaneWithSize (size : String) : PaneOption :=
  fun p => .ok { p with size := size }

def PaneWithPath (s : String) : PaneOption :=
  fun p => .ok { p with path := s }

def PaneWithCommands (cmds : List String) : PaneOption :=
  fun p => .ok { p with cmds := p.cmds ++ cmds }

def PaneWithHorizontalDirection : PaneOption :=
  fun p => .ok { p with horizontal := true }

def PaneAsActive : PaneOption :=
  fun p => .ok { p with active := true }

def PaneWithEnv (env : Map) : PaneOption :=
  fun p => .ok { p with env := env }

/-- Apply options in order until one fails. -/
def applyOpts {α : Type} : List (α → Except Error α) → α → Except Error α
  | [], x => .ok x
  | opt :: opts, x =>
    match opt x with
    | .error err => .error err
    | .ok x1 => applyOpts opts x1

/-- The function `NewSession`. -/
def NewSession (runner : Option Runner) (opts : List SessionOption) :
    Exec (Option Nat × Option Error) := do
  match runner with
  | none => return (none, some ErrNilRunner)
  | some _ =>
    match applyOpts opts { state := .stateNew } with
    | .error err => return (none, some (.Wrapf "applying session option: %w" [] err))
    | .ok s =>
      let a ← allocSession s
      return (some a, none)

/-- The function `NewWindow`. -/
def NewWindow (runner : Option Runner) (session : Option Nat)
    (opts : List WindowOption) : Exec (Option Nat × Option Error) := do
  match runner with
  | none => return (none, some ErrNilRunner)
  | some _ =>
    match session with
    | none => return (none, some ErrNilSession)
    | some _ =>
      let sess ← getSession session
      match sess.checkState with
      | some err => return (none, some (.Wrapf "checking session state: %w" [] err))
      | none =>
        match applyOpts opts { sess := session, state := .stateNew } with
        | .error err => return (none, some (.Wrapf "applying window option: %w" [] err))
        | .ok w =>
          let a ← allocWindow w
          return (some a, none)

/-- The function `NewPane`. -/
def NewPane (runner : Option Runner) (window : Option Nat) (parentPane : Option Nat)
    (opts : List PaneOption) : Exec (Option Nat × Option Error) := do
  match runner with
  | none => return (none, some ErrNilRunner)
  | some _ =>
    match window with
    | none => return (none, some ErrNilWindow)
    | some _ =>
      let win ← getWindow window
      match win.sess with
      | none => return (none, some ErrNilSession)
      | some _ =>
        let sess ← getSession win.sess
        match sess.checkState with
        | some err => return (none, some (.Wrapf "checking session state: %w" [] err))
        | none =>
          let perr ←
            match parentPane with
            | some _ => Pane.checkState parentPane
            | none => pure none
          match perr with
          | some err =>
            return (none, some (.Wrapf "checking parent pane state: %w" [] err))
          | none =>
            match applyOpts opts
                { sess := win.sess, win := window, pane := parentPane,
                  state := .stateNew } with
            | .error err => return (none, some (.Wrapf "applying pane option: %w" [] err))
            | .ok p =>
              let a ← allocPane p
              return (some a, none)

/-- The method `Session.String`. -/
def Session.String (s : Session) : String := "session " ++ s.Name

/-- The method `Window.String`. -/
def Window.String (w : Option Nat) : Exec String := do
  let name ← Window.Name w
  return "window " ++ name

/-- The method `Pane.String`. -/
def Pane.String (p : Option Nat) : Exec String := do
  let name ← Pane.Name p
  return "pane " ++ name

/-! ## Configuration (config/config.go) -/

/-- A pane configuration; `Panes` are the panes split from this pane. -/
inductive PaneConfig where
  | mk (Env : Map) (Path : String) (Command : String) (Commands : List String)
      (Size : String) (Horizontal : Bool) (Panes : List PaneConfig) (Active : Bool)

def PaneConfig.Env : PaneConfig → Map
  | .mk env _ _ _ _ _ _ _ => env

def PaneConfig.Path : PaneConfig → String
  | .mk _ path _ _ _ _ _ _ => path

def PaneConfig.Command : PaneConfig → String
  | .mk _ _ command _ _ _ _ _ => command

def PaneConfig.Commands : PaneConfig → List String
  | .mk _ _ _ commands _ _ _ _ => commands

def PaneConfig.Size : PaneConfig → String
  | .mk _ _ _ _ size _ _ _ => size

def PaneConfig.Horizontal : PaneConfig → Bool
  | .mk _ _ _ _ _ horizontal _ _ => horizontal

def PaneConfig.Panes : PaneConfig → List PaneConfig
  | .mk _ _ _ _ _ _ panes _ => panes

def PaneConfig.Active : PaneConfig → Bool
  | .mk _ _ _ _ _ _ _ active => active

/-- A window configuration. -/
structure WindowConfig where
  Name : String := ""
  Path : String := ""
  Command : String := ""
  Commands : List String := []
  Env : Map := []
  Panes : List PaneConfig := []
  Active : Bool := false

/-- A session configuration. -/
structure SessionConfig where
  Name : String := ""
  Path : String := ""
  OnWindow : String := ""
  OnPane : String := ""
  OnAny : String := ""
  Env : Map := []
  Windows : List WindowConfig := []

/-- A configuration loaded from a YAML file. -/
structure Config where
  path : String := ""
  Session : SessionConfig := {}
  Tmux : String := ""
  TmuxOptions : List String := []

/-! ## Validation (config/validation.go, internal/rulefuncs/fs.go)

The rules of the validation library are modelled after its documentation: a
string rule passes on the empty string, `ValidateStruct` returns an internal
error at once and otherwise collects the field errors, and a value that has a
`Validate` method is validated after its rules. -/

/-- The rule `rulefuncs.ExecutableExists`. -/
def ExecutableExists (os : OS) (name : String) : Option Error :=
  if name = "" then none
  else
    match os.LookPath name with
    | .error err =>
      if err.Is ErrNotExist then some (.New "executable file was not found")
      else some (.Internal (.Wrapf "looking up command: %w" [] err))
    | .ok _ => none

/-- The rule `rulefuncs.DirExists`. -/
def DirExists (os : OS) (dir : String) : Option Error :=
  if dir = "" then none
  else
    match os.Abs dir with
    | .error _ => some (.New "invalid directory path")
    | .ok dir =>
      match os.Stat dir with
      | .error err =>
        if err.Is ErrNotExist then some (.New "directory does not exist")
        else some (.Internal (.Wrapf "getting directory info: %w" [] err))
      | .ok info =>
        if info ≠ .dir then some (.New "not a directory") else none

/-- The class `\w` of a Go regular expression. -/
def isWordChar (c : Char) : Bool :=
  ('0' ≤ c && c ≤ '9') || ('A' ≤ c && c ≤ 'Z') || ('a' ≤ c && c ≤ 'z') || c = '_'

/-- The class `[A-Z_]`. -/
def isEnvVarStart (c : Char) : Bool :=
  ('A' ≤ c && c ≤ 'Z') || c = '_'

/-- The class `[A-Z0-9_]`. -/
def isEnvVarChar (c : Char) : Bool :=
  ('A' ≤ c && c ≤ 'Z') || ('0' ≤ c && c ≤ '9') || c = '_'

/-- The match of `envVarRE`, the expression `^[A-Z_][A-Z0-9_]+$`. -/
def envVarRE (k : String) : Bool :=
  match k.data with
  | [] => false
  | c :: rest => isEnvVarStart c && !rest.isEmpty && rest.all isEnvVarChar

/-- The match of the expression `^[\w._-]+$` of `nameMatchRule`. -/
def nameRE (s : String) : Bool :=
  !s.data.isEmpty && s.data.all (fun c => isWordChar c || c = '.' || c = '_' || c = '-')

/-- The rule `nameMatchRule`. -/
def nameMatchRule (s : String) : Option Error :=
  if s = "" ∨ nameRE s then none
  else some (.New
    "must only contain alphanumeric characters, underscores, dots, and dashes")

/-- The rule `validation.Length(min, max)` on a string. -/
def Length (min max : Nat) (s : String) : Option Error :=
  if s = "" then none
  else
    let l := s.utf8ByteSize
    if (0 < min ∧ l < min) ∨ (0 < max ∧ max < l) ∨ (min = 0 ∧ max = 0 ∧ 0 < l) then
      some (.New "the length is out of range")
    else none

/-- The rule `envVarMapRule`: every key is a valid environment variable name. -/
def envVarMapRule : Map → Option Error
  | [] => none
  | (k, _) :: rest =>
    if !envVarRE k then
      some (.Errorf "%q is not a valid environment variable name" [k])
    else envVarMapRule rest

/-- The assignment `errs[name] = err` on a `validation.Errors` map. -/
def Error.addField : Error → String → Error → Error
  | .ErrorsCons f e rest, name, err => .ErrorsCons f e (Error.addField rest name err)
  | _, name, err => .ErrorsCons name err .ErrorsNil

/-- The rules of one field in order: the first failure. -/
def firstError : List (Option Error) → Option Error
  | [] => none
  | some err :: _ => some err
  | none :: rest => firstError rest

/-- The function `validation.ValidateStruct` on the results of the fields. -/
def ValidateStruct : List (String × Option Error) → Error → Option Error
  | [], errs => if errs.noFields then none else some errs
  | (_, none) :: rest, errs => ValidateStruct rest errs
  | (_, some (.Internal e)) :: _, _ => some (.Internal e)
  | (name, some err) :: rest, errs => ValidateStruct rest (errs.addField name err)

/-- The validation of a slice: the errors of the elements under their index. -/
def validateSlice : List (Option Error) → Nat → Error → Option Error
  | [], _, errs => if errs.noFields then none else some errs
  | none :: rest, i, errs => validateSlice rest (i + 1) errs
  | some err :: rest, i, errs => validateSlice rest (i + 1) (errs.addField (toString i) err)

mutual
/-- The method `PaneConfig.Validate`. -/
def PaneConfig.Validate (os : OS) : PaneConfig → Option Error
  | .mk env path command commands _ _ panes _ =>
    ValidateStruct
      [("path", DirExists os path),
       ("env", envVarMapRule env),
       ("command", Length 1 0 command),
       ("commands", validateSlice (commands.map (Length 1 0)) 0 .ErrorsNil),
       ("panes", validateSlice (validatePanes os panes) 0 .ErrorsNil)]
      .ErrorsNil
/-- The results of `Validate` on each pane of a slice. -/
def validatePanes (os : OS) : List PaneConfig → List (Option Error)
  | [] => []
  | p :: rest => PaneConfig.Validate os p :: validatePanes os rest
end

/-- The method `WindowConfig.Validate`. -/
def WindowConfig.Validate (os : OS) (w : WindowConfig) : Option Error :=
  ValidateStruct
    [("name", nameMatchRule w.Name),
     ("path", DirExists os w.Path),
     ("env", envVarMapRule w.Env),
     ("command", Length 1 0 w.Command),
     ("commands", validateSlice (w.Commands.map (Length 1 0)) 0 .ErrorsNil),
     ("panes", validateSlice (validatePanes os w.Panes) 0 .ErrorsNil)]
    .ErrorsNil

/-- The method `SessionConfig.Validate`. -/
def SessionConfig.Validate (os : OS) (s : SessionConfig) : Option Error :=
  ValidateStruct
    [("name", nameMatchRule s.Name),
     ("path", DirExists os s.Path),
     ("env", envVarMapRule s.Env),
     ("windows",
       validateSlice (s.Windows.map (WindowConfig.Validate os)) 0 .ErrorsNil)]
    .ErrorsNil

/-- The method `Config.Validate`. The rule `validation.Required` on the
session passes, a struct being never empty. -/
def Config.Validate (os : OS) (c : Config) : Option Error :=
  ValidateStruct
    [("tmux", ExecutableExists os c.Tmux),
     ("session", firstError [none, c.Session.Validate os])]
    .ErrorsNil

/-! ## Applying a configuration (config/apply.go) -/

def makeSessionOpts (sCfg : SessionConfig) : List SessionOption :=
  let opts := []
  let opts := if sCfg.Name ≠ "" then opts ++ [SessionWithName sCfg.Name] else opts
  let opts := if sCfg.Path ≠ "" then opts ++ [SessionWithPath sCfg.Path] else opts
  let opts :=
    if sCfg.OnWindow ≠ "" then opts ++ [SessionWithOnWindowCommand sCfg.OnWindow] else opts
  let opts :=
    if sCfg.OnPane ≠ "" then opts ++ [SessionWithOnPaneCommand sCfg.OnPane] else opts
  let opts := if sCfg.OnAny ≠ "" then opts ++ [SessionWithOnAnyCommand sCfg.OnAny] else opts
  if sCfg.Env.length ≠ 0 then opts ++ [SessionWithEnv sCfg.Env] else opts

def makeWindowOpts (wCfg : WindowConfig) : List WindowOption :=
  let opts := [WindowWithName wCfg.Name]
  let opts := if wCfg.Path ≠ "" then opts ++ [WindowWithPath wCfg.Path] else opts
  let opts := if wCfg.Command ≠ "" then opts ++ [WindowWithCommands [wCfg.Command]] else opts
  let opts :=
    if wCfg.Commands.length ≠ 0 then opts ++ [WindowWithCommands wCfg.Commands] else opts
  let opts := if wCfg.Active then opts ++ [WindowAsActive] else opts
  if wCfg.Env.length ≠ 0 then opts ++ [WindowWithEnv wCfg.Env] else opts

def makePaneOpts (pCfg : PaneConfig) : List PaneOption :=
  let opts := []
  let opts := if pCfg.Path ≠ "" then opts ++ [PaneWithPath pCfg.Path] else opts
  let opts := if pCfg.Size ≠ "" then opts ++ [PaneWithSize pCfg.Size] else opts
  let opts := if pCfg.Command ≠ "" then opts ++ [PaneWithCommands [pCfg.Command]] else opts
  let opts :=
    if pCfg.Commands.length ≠ 0 then opts ++ [PaneWithCommands pCfg.Commands] else opts
  let opts := if pCfg.Horizontal then opts ++ [PaneWithHorizontalDirection] else opts
  let opts := if pCfg.Active then opts ++ [PaneAsActive] else opts
  if pCfg.Env.length ≠ 0 then opts ++ [PaneWithEnv pCfg.Env] else opts

/-- The function `fatalf`, given the error it has formatted: close the session
if there is one, and join a close error to the error. -/
def fatalf (R : Runner) (sess : Option Nat) (err : Error) :
    Exec (Option Nat × Option Error) := do
  match sess with
  | some _ =>
    match (← Session.Close R sess) with
    | some closeErr =>
      return (none, some (.Join err (.Wrapf "closing failed session: %w" [] closeErr)))
    | none => return (none, some err)
  | none => return (none, some err)

mutual
/-- The function `applyPaneCfg`: create and apply a pane, then its panes. -/
def applyPaneCfg (os : OS) (R : Runner) (ctx : Context) (w : Option Nat)
    (pp : Option Nat) : PaneConfig → Exec (Option Nat × Option Error)
  | .mk env path command commands size horizontal panes active => do
    let (pane, err) ← NewPane (some R) w pp
      (makePaneOpts (.mk env path command commands size horizontal panes active))
    match err with
    | some err => return (none, some (.Wrapf "creating pane: %w" [] err))
    | none =>
      match (← Pane.Apply os R ctx pane) with
      | some err =>
        let str ← Pane.String pane
        return (none, some (.Wrapf "applying %s: %w" [str] err))
      | none =>
        match (← applyPaneCfgs os R ctx w pane panes) with
        | some err => return (none, some err)
        | none => return (pane, none)
/-- The loop over the panes of a window or of a pane. -/
def applyPaneCfgs (os : OS) (R : Runner) (ctx : Context) (w : Option Nat)
    (pp : Option Nat) : List PaneConfig → Exec (Option Error)
  | [] => pure none
  | pCfg :: rest => do
    let (_, err) ← applyPaneCfg os R ctx w pp pCfg
    match err with
    | some err => return some err
    | none => applyPaneCfgs os R ctx w pp rest
end

/-- The function `applyWindowCfg`: create and apply a window, then its panes. -/
def applyWindowCfg (os : OS) (R : Runner) (ctx : Context) (s : Option Nat)
    (cfg : WindowConfig) : Exec (Option Nat × Option Error) := do
  let (win, err) ← NewWindow (some R) s (makeWindowOpts cfg)
  match err with
  | some err => return (none, some (.Wrapf "creating window: %w" [] err))
  | none =>
    match (← Window.Apply os R ctx win) with
    | some err =>
      let str ← Window.String win
      return (none, some (.Wrapf "applying %s: %w" [str] err))
    | none =>
      match (← applyPaneCfgs os R ctx win none cfg.Panes) with
      | some err => return (none, some err)
      | none => return (win, none)

/-- The loop of `Apply` over the configured windows. -/
def applyWindowCfgs (os : OS) (R : Runner) (ctx : Context) (s : Option Nat) :
    List WindowConfig → Exec (Option Error)
  | [] => pure none
  | wCfg :: rest => do
    let (_, err) ← applyWindowCfg os R ctx s wCfg
    match err with
    | some err => return some err
    | none => applyWindowCfgs os R ctx s rest

/-- The loop of `Apply` over the listed sessions: the first with the name. -/
def findSession (name : String) : List Nat → Exec (Option Nat)
  | [] => pure none
  | a :: rest => do
    let sess ← getSession (some a)
    if sess.Name = name then return some a
    else findSession name rest

/-- The function `config.Apply`. -/
def Apply (os : OS) (ctx : Context) (cfg : Config) (runner : Option Runner) :
    Exec (Option Nat × Option Error) := do
  match ctx.Err with
  | some err => return (none, some err)
  | none =>
    match cfg.Validate os with
    | some err => return (none, some (.Wrapf "invalid configuration file: %w" [] err))
    | none =>
      let sCfg := cfg.Session
      let (sessions, err) ← GetSessions ctx runner
      match err, runner with
      | some err, _ =>
        return (none, some (.Wrapf "getting current tmux sessions: %w" [] err))
      | none, none => panic
      | none, some R =>
        match (← findSession sCfg.Name sessions) with
        | some s => return (some s, none)
        | none =>
          let (session, err) ← NewSession runner (makeSessionOpts cfg.Session)
          match err with
          | some err => fatalf R session (.Wrapf "creating session: %w" [] err)
          | none =>
            match (← Session.Apply R ctx session) with
            | some err =>
              let sess ← getSession session
              fatalf R session (.Wrapf "applying %s: %w" [sess.String] err)
            | none =>
              match (← applyWindowCfgs os R ctx session sCfg.Windows) with
              | some err =>
                fatalf R session (.Wrapf "applying window configuration: %w" [] err)
              | none =>
                match (← Session.SelectActive R ctx session) with
                | some err =>
                  fatalf R session (.Wrapf "selecting active window: %w" [] err)
                | none => return (session, none)

/-! ## Vocabulary of the statements -/

/-- The value a computation ends with, if it does not panic. -/
def Result.val? {α : Type} : Result α → Option α
  | .ok a _ => some a
  | .panic _ => none

/-- A call `Run` whose first argument, the tmux command, is one of `names`. -/
def Call.isRun (names : List String) : Call → Prop
  | .Run (name :: _) => name ∈ names
  | _ => False

/-- The world `w1` has the objects of `w`, and the calls of `w` followed by
calls of kind `K`. -/
def World.extendedBy (K : Call → Prop) (w w1 : World) : Prop :=
  w1.sessions = w.sessions ∧ w1.windows = w.windows ∧ w1.panes = w.panes ∧
  ∃ l, w1.calls = w.calls ++ l ∧ ∀ c ∈ l, K c

/-- A computation that leaves the world as it is. -/
def Exec.readOnly {α : Type} (m : Exec α) : Prop :=
  ∀ w, (m w).world = w

/-- A computation that leaves the objects as they are and issues only calls of
kind `K`. -/
def Exec.keeps {α : Type} (K : Call → Prop) (m : Exec α) : Prop :=
  ∀ w, World.extendedBy K w (m w).world

/-- The pane object after a successful creation: updated from the record and,
when the pane has a parent pane, listed among its own panes. -/
def Pane.created (pane : Pane) (a : Nat) (record : outputRecord) : Pane :=
  match pane.pane with
  | some _ =>
    { pane.update record with panes := (pane.update record).panes ++ [a] }
  | none => pane.update record

/-- What `Pane.Apply` does once the arguments `args` of split-window are
known, for the pane object `pane` at address `a`, its window `win` at `wa` and
its session `sess`: run the command, take the (dry-run) output, parse it,
update and register the pane, run its commands. -/
def paneApplyResult (R : Runner) (ctx : Context) (a : Nat) (pane : Pane) (wa : Nat)
    (win : Window) (sess : Session) (args : List String) (w : World) :
    Result (Option Error) :=
  let w1 : World := { w with calls := w.calls ++ [.Run args] }
  match R.Run ctx w.calls args with
  | (_, some err) => .ok (some (.Wrapf "running split-window command: %w" [] err)) w1
  | (output, none) =>
    match (if R.IsDryRun then (Pane.dryRunRecord (some a) w1).val? else some output) with
    | none => .panic w1
    | some out =>
      match parseOutput out with
      | .error err =>
        .ok (some (.Wrapf "parsing split-window command output: %w" [] err)) w1
      | .ok [] => .panic w1
      | .ok (record :: _) =>
        Pane.RunCommands R ctx (some a) (sess.onPaneCommands ++ pane.cmds)
          { w with
            panes := w.panes.set a (pane.created a record)
            windows := w.windows.set wa (win.addPane a)
            calls := w.calls ++ [.Run args] }

/-- A reference to an entity: a session, window or pane at an address. -/
inductive Ref where
  | session (a : Nat)
  | window (a : Nat)
  | pane (a : Nat)
  deriving DecidableEq, Repr

/-- The lifecycle state of the entity `e`, if there is such an object. -/
def World.stateOf (w : World) : Ref → Option state
  | .session a => (w.sessions[a]?).map (fun x => x.state)
  | .window a => (w.windows[a]?).map (fun x => x.state)
  | .pane a => (w.panes[a]?).map (fun x => x.state)

/-- The public operations on sessions, windows and panes. -/
inductive Op where
  | SessionApply (s : Option Nat)
  | SessionSelectActive (s : Option Nat)
  | SessionAttach (s : Option Nat)
  | SessionClose (s : Option Nat)
  | WindowApply (w : Option Nat)
  | WindowRunCommands (w : Option Nat) (cmds : List String)
  | WindowSelect (w : Option Nat)
  | PaneApply (p : Option Nat)
  | PaneRunCommands (p : Option Nat) (cmds : List String)
  | PaneSelect (p : Option Nat)

/-- The computation an operation stands for. -/
def Op.run (os : OS) (R : Runner) (ctx : Context) : Op → Exec (Option Error)
  | .SessionApply s => Session.Apply R ctx s
  | .SessionSelectActive s => Session.SelectActive R ctx s
  | .SessionAttach s => Session.Attach os R ctx s
  | .SessionClose s => Session.Close R s
  | .WindowApply w => Window.Apply os R ctx w
  | .WindowRunCommands w cmds => Window.RunCommands R ctx w cmds
  | .WindowSelect w => Window.Select R ctx w
  | .PaneApply p => Pane.Apply os R ctx p
  | .PaneRunCommands p cmds => Pane.RunCommands R ctx p cmds
  | .PaneSelect p => Pane.Select R ctx p

/-- The operation is `Apply` called on the entity `e` itself. -/
def Op.isApplyOf : Op → Ref → Prop
  | .SessionApply (some a), .session b => a = b
  | .WindowApply (some a), .window b => a = b
  | .PaneApply (some a), .pane b => a = b
  | _, _ => False

/-- The change of states allowed to an operation `op`: no state decreases, and
an entity leaves the state new only to become applied by its own `Apply`. -/
def stateStep (op : Op) (w w1 : World) : Prop :=
  ∀ e st, w.stateOf e = some st →
    ∃ st1, w1.stateOf e = some st1 ∧ st.rank ≤ st1.rank ∧
      (st = .stateNew → st1 ≠ .stateNew → op.isApplyOf e ∧ st1 = .stateApplied)


/-- The arguments of the list-sessions command of `GetSessions`. -/
def listSessionsArgs : List String := ["list-sessions", "-F", sessionOutputFormat]

/-- The session objects that `GetSessions` makes of the listed records. -/
def listedSessions (records : List outputRecord) : List Session :=
  records.map (Session.update { state := .stateApplied })

/-- The session object that `NewSession` makes of a session configuration. -/
def configuredSession (sCfg : SessionConfig) : Session :=
  { name := sCfg.Name, path := sCfg.Path, winCmd := TrimSpace sCfg.OnWindow,
    paneCmd := TrimSpace sCfg.OnPane, anyCmd := TrimSpace sCfg.OnAny, env := sCfg.Env,
    state := .stateNew }

/-- A call of the kill-session command. -/
def Call.isKillSession (c : Call) : Bool :=
  match c with
  | .Run ("kill-session" :: _) => true
  | _ => false

/-- The world `w1` comes after `w`: calls of kind `K` were issued, and every
session of `w` is still there with its state and its name. -/
def World.advancedBy (K : Call → Prop) (w w1 : World) : Prop :=
  (∃ l, w1.calls = w.calls ++ l ∧ ∀ c ∈ l, K c) ∧
  ∀ (i : Nat) (s : Session), w.sessions[i]? = some s →
    ∃ s1 : Session, w1.sessions[i]? = some s1 ∧ s1.state = s.state ∧ s1.name = s.name

/-- A computation that only issues calls of kind `K` and keeps the state and
the name of every session. -/
def Exec.advances {α : Type} (K : Call → Prop) (m : Exec α) : Prop :=
  ∀ w, World.advancedBy K w (m w).world

/-- The kinds of command issued while windows and panes are created. -/
def creationKinds : List String := ["new-window", "split-window", "send-keys"]

/-! ## A simulated multiplexer

The runner of the statements about applying a configuration twice: a
multiplexer that keeps the sessions it was asked to create and lists them. It
names a session as the `-s` argument says, and reports an empty name (as the
dry-run record of `Session.Apply` does) when there is none. -/

/-- The value of the `-s` argument of a new-session command. -/
def sessionNameArg : List String → String
  | [] => ""
  | [_] => ""
  | flag :: value :: rest =>
    if flag = "-s" then value else sessionNameArg (value :: rest)

/-- The effect of one call on the sessions of the simulated multiplexer. -/
def simStep (names : List String) : Call → List String
  | .Run ("new-session" :: args) => names ++ [sessionNameArg args]
  | .Run ["kill-session", "-t", name] => names.filter (fun n => n ≠ name)
  | _ => names

/-- The sessions of the simulated multiplexer after the calls `calls`. -/
def simSessions (calls : List Call) : List String :=
  calls.foldl simStep []

/-- The simulated multiplexer: list-sessions prints one record per session it
has created and not killed, a creation command prints a record of the object,
and no command fails. -/
def simTmux : Runner :=
  { Run := fun _ calls args =>
      match args with
      | "list-sessions" :: _ =>
        (Join "\n" ((simSessions calls).map (fun n => "session_name:" ++ n)), none)
      | "new-session" :: rest => ("session_name:" ++ sessionNameArg rest, none)
      | "new-window" :: _ => ("window_id:@1", none)
      | "split-window" :: _ => ("pane_id:%1", none)
      | _ => ("", none)
    Execve := fun _ _ => none
    IsDryRun := false }

/-! ## Example objects

Concrete inputs at which the statements below are evaluated. -/

/-- An operating system in which every path is a directory, every executable
is found and the environment is empty. -/
def exampleOS : OS :=
  { Getenv := fun _ => ""
    ExpandEnv := fun s => s
    Abs := fun p => .ok p
    Stat := fun _ => .ok .dir
    LookPath := fun n => .ok n }

/-- A runner outside dry-run mode: a command named in `failing` exits with an
error, list-sessions prints `listing`, and a creation command prints a record
of the object it made. -/
def exampleRunner (failing : List String) (listing : String) : Runner :=
  { Run := fun _ _ args =>
      match args with
      | [] => ("", none)
      | name :: _ =>
        if name ∈ failing then ("", some (.New "exit status 1"))
        else if name = "list-sessions" then (listing, none)
        else if name = "new-session" then ("session_name:" ++ sessionNameArg args, none)
        else if name = "new-window" then ("window_id:@1", none)
        else if name = "split-window" then ("pane_id:%1", none)
        else ("", none)
    Execve := fun _ _ => none
    IsDryRun := false }

/-- A cancelled context. -/
def cancelled : Context := { Err := some (.New "context canceled") }

/-- The applied session `demo` with one window. -/
def demoSession : Session :=
  { id := "$1", name := "demo", windows := [0], state := .stateApplied }

/-- A session that was constructed and not applied. -/
def draftSession : Session := { name := "draft" }

/-- The applied window `code` of the session `demo`, with one pane. -/
def codeWindow : Window :=
  { sess := some 0, id := "@1", name := "code", index := "1", panes := [0],
    state := .stateApplied }

/-- A window of the session `demo` that was constructed and not applied. -/
def logsWindow : Window := { sess := some 0, name := "logs", cmds := ["tail -f log"] }

/-- The applied pane of the window `code`. -/
def codePane : Pane :=
  { sess := some 0, win := some 0, id := "%1", index := "1", state := .stateApplied }

/-- A pane of the window `code` that was constructed and not applied. -/
def shellPane : Pane := { sess := some 0, win := some 0, cmds := ["ls"] }

/-- A world with the sessions `demo` (address 0) and `draft` (1), the windows
`code` (0) and `logs` (1) and the two panes (0 and 1), and no command issued. -/
def exampleWorld : World :=
  { sessions := [demoSession, draftSession]
    windows := [codeWindow, logsWindow]
    panes := [codePane, shellPane] }

/-- A configuration of the session `demo` with the window `code`. -/
def exampleConfig : Config :=
  { Tmux := "tmux"
    Session := { Name := "demo", Windows := [{ Name := "code" }] } }

/-- A configuration whose session name has a space and so is invalid. -/
def invalidConfig : Config :=
  { Tmux := "tmux", Session := { Name := "my session" } }

/-- The empty world after list-sessions. -/
def listedWorld : World := { calls := [.Run listSessionsArgs] }

/-- The world after `NewSession` for `exampleConfig`. -/
def constructedWorld : World :=
  { sessions := [configuredSession exampleConfig.Session]
    calls := [.Run listSessionsArgs] }

/-- The world after the session of `exampleConfig` was created. -/
def createdWorld : World :=
  { sessions := [{ name := "demo", state := .stateApplied }]
    calls :=
      [.Run listSessionsArgs, .Run (configuredSession exampleConfig.Session).newSessionArgs] }

/-- The new-window command for the window `code` of `exampleConfig`. -/
def codeWindowCall : Call :=
  .Run (Window.newWindowArgs { sess := some 0, name := "code" } exampleOS
    { name := "demo", state := .stateApplied })

/-- The world after the new-window command of `exampleConfig` failed. -/
def failedWorld : World :=
  { sessions := [{ name := "demo", state := .stateApplied }]
    windows := [{ sess := some 0, name := "code" }]
    calls :=
      [.Run listSessionsArgs, .Run (configuredSession exampleConfig.Session).newSessionArgs,
       codeWindowCall] }

/-- The world after `exampleConfig` was applied to the empty world. -/
def appliedWorld : World :=
  { sessions := [{ name := "demo", windows := [0], state := .stateApplied }]
    windows := [{ sess := some 0, id := "@1", name := "code", state := .stateApplied }]
    calls :=
      [.Run listSessionsArgs, .Run (configuredSession exampleConfig.Session).newSessionArgs,
       codeWindowCall] }

/-! ## Vocabulary of the statements about commands, records and environments -/

/-- The send-keys command that types the shell command `cmd`, followed by a
carriage return, into the target `name`. -/
def sendKeysCall (name cmd : String) : Call :=
  .Run ["send-keys", "-t", name, cmd, "C-m"]

/-- The send-keys loop for a target whose name is known: what the loops of
`Window.RunCommands` and `Pane.RunCommands` do once `Name()` is evaluated. -/
def sendKeysTo (R : Runner) (ctx : Context) (name : String) :
    List String → Exec (Option Error)
  | [] => pure none
  | cmd :: cmds => do
    let (_, err) ← Run R ctx ["send-keys", "-t", name, cmd, "C-m"]
    match err with
    | some err => return some (.Wrapf "running send-keys command: %w" [] err)
    | none => sendKeysTo R ctx name cmds

/-- How a run of send-keys commands for `cmds` in the target `name` ends, when
it starts in the world `w` and ends as `res`: when the commands before
position `k` succeed and the command at position `k` fails with `e`, the
send-keys commands up to and with that one were issued, in order, and the
error wraps `e`; when no command fails, the send-keys commands of all of
`cmds` were issued, in order, and the result is nil. The answer of the runner
to a command is taken at the calls issued before it. -/
def sendKeysOutcome (R : Runner) (ctx : Context) (name : String) (cmds : List String)
    (w : World) (res : Result (Option Error)) : Prop :=
  (∀ (k : Nat) (c : String) (e : Error), cmds[k]? = some c →
    (∀ i ci, i < k → cmds[i]? = some ci →
      (R.Run ctx (w.calls ++ (cmds.take i).map (sendKeysCall name))
        ["send-keys", "-t", name, ci, "C-m"]).2 = none) →
    (R.Run ctx (w.calls ++ (cmds.take k).map (sendKeysCall name))
      ["send-keys", "-t", name, c, "C-m"]).2 = some e →
    res =
      .ok (some (.Wrapf "running send-keys command: %w" [] e))
        { w with calls := w.calls ++ (cmds.take (k + 1)).map (sendKeysCall name) }) ∧
  ((∀ i ci, cmds[i]? = some ci →
      (R.Run ctx (w.calls ++ (cmds.take i).map (sendKeysCall name))
        ["send-keys", "-t", name, ci, "C-m"]).2 = none) →
    res = .ok none { w with calls := w.calls ++ cmds.map (sendKeysCall name) })

/-- The contract of `RunCommands` for an entity whose `Name()` is `name`, in
the world `w`: no command and nil for the empty list, and otherwise a run of
send-keys commands. -/
def sendsKeysInOrder (R : Runner) (ctx : Context) (name : String)
    (run : List String → Exec (Option Error)) (w : World) : Prop :=
  run [] w = .ok none w ∧ ∀ cmds, sendKeysOutcome R ctx name cmds w (run cmds w)

/-- A runner that fails the send-keys command of the shell command `false`,
and answers every other command with empty output. -/
def pickyRunner : Runner :=
  { Run := fun _ _ args =>
      if args = ["send-keys", "-t", "demo:code", "false", "C-m"] then
        ("", some (.New "exit status 1"))
      else ("", none)
    Execve := fun _ _ => none
    IsDryRun := false }

/-- A session with the three hooks set. -/
def hookSession : Session :=
  { id := "$1", name := "demo", anyCmd := "echo any", winCmd := "echo win",
    paneCmd := "echo pane", windows := [0], state := .stateApplied }

/-- The applied window `code` with a command of its own. -/
def topWindow : Window :=
  { sess := some 0, id := "@1", name := "code", index := "1", cmds := ["top"], panes := [0],
    state := .stateApplied }

/-- A new pane whose parent is the pane at address 0. -/
def nestedPane : Pane := { sess := some 0, win := some 0, pane := some 0, cmds := ["ls"] }

/-- A world with the session of the three hooks, its applied window `code`
with an applied pane, and a new window `logs` and a new nested pane. -/
def hookWorld : World :=
  { sessions := [hookSession]
    windows := [topWindow, logsWindow]
    panes := [codePane, nestedPane] }

/-- The lines of an output: the trimmed output, split at newlines. -/
def outputLines (output : String) : List (List Char) :=
  splitChars newline (trimSpace output.data)

/-- The comma-separated tokens of a line, after the line is trimmed. -/
def lineTokens (line : List Char) : List (List Char) :=
  splitChars comma (trimSpace line)

/-- The key and the value of a token: the text before its first colon and the
text after it; nothing for a token without colon. -/
def tokenPair (tok : List Char) : Option (String × String) :=
  (cutChars colon tok).map (fun kv => (String.mk kv.1, String.mk kv.2))

/-- The record that a line stands for: the key and the value of each of its
tokens, in the order of the tokens. -/
def lineRecord (line : List Char) : outputRecord :=
  (lineTokens line).filterMap tokenPair

/-- The value that the key `k` has in the last map of the chain that defines
it, if any map does. -/
def chainValue : List Map → String → Option String
  | [], _ => none
  | m :: ms, k =>
    match chainValue ms k with
    | some v => some v
    | none => Map.get? m k

/-- The applied pane at address 0 with a variable of its own. -/
def outerPane : Pane :=
  { sess := some 0, win := some 0, env := [("OUTER", "1")], id := "%1", index := "1",
    panes := [0], state := .stateApplied }

/-- The applied pane at address 1, nested in the pane at address 0, with a
variable of its own. -/
def middlePane : Pane :=
  { sess := some 0, win := some 0, pane := some 0, env := [("MIDDLE", "2")], id := "%2",
    index := "2", panes := [1], state := .stateApplied }

/-- A new pane nested in the pane at address 1. -/
def innerPane : Pane := { sess := some 0, win := some 0, pane := some 1 }

/-- A world with three panes nested in each other: the two outer ones are
applied, the innermost is new. -/
def nestedWorld : World :=
  { sessions := [demoSession]
    windows := [{ codeWindow with panes := [0, 1] }]
    panes := [outerPane, middlePane, innerPane] }

/-- A runner that answers new-window and split-window with the output `text`
and every other command with empty output; no command fails. -/
def recordRunner (text : String) : Runner :=
  { Run := fun _ _ args =>
      match args with
      | "new-window" :: _ => (text, none)
      | "split-window" :: _ => (text, none)
      | _ => ("", none)
    Execve := fun _ _ => none
    IsDryRun := false }

/-- Whether the window at the address `x` is flagged active. -/
def World.windowActive (w : World) (x : Nat) : Bool :=
  match w.windows[x]? with
  | some win => win.IsActive
  | none => false

/-- The window that is to be selected among `windows`: the first that is
flagged active, and the first window when none is flagged. -/
def selectedWindow (w : World) (windows : List Nat) : Option Nat :=
  match windows.filter w.windowActive with
  | x :: _ => some x
  | [] => windows.head?

/-- The session `demo` with two windows. -/
def twoWindowSession : Session :=
  { id := "$1", name := "demo", windows := [0, 1], state := .stateApplied }

/-- The applied window `logs`, flagged active, with one pane. -/
def flaggedWindow : Window :=
  { sess := some 0, id := "@2", name := "logs", index := "2", panes := [0], active := true,
    state := .stateApplied }

/-- A world with the session `demo` and its applied windows `code`, without
panes, and `logs`, flagged active, with one applied pane. -/
def twoWindowWorld : World :=
  { sessions := [twoWindowSession]
    windows :=
      [{ sess := some 0, id := "@1", name := "code", index := "1", state := .stateApplied },
       flaggedWindow]
    panes :=
      [{ sess := some 0, win := some 1, id := "%1", index := "1", state := .stateApplied }] }

/-- A runner that answers the show-option query with `base` and every other
command with empty output; no command fails. -/
def baseIndexRunner (base : String) : Runner :=
  { Run := fun _ _ args =>
      match args with
      | "show-option" :: _ => (base, none)
      | _ => ("", none)
    Execve := fun _ _ => none
    IsDryRun := false }

/-- A pane configuration with a command and a size. -/
def sidePaneConfig : PaneConfig := .mk [] "" "htop" [] "20%" false [] false

/-! ## The default runner (tmux/runner.go) -/

/-- An invocation of the injected `OSCommandRunner`: the name of the
executable and its arguments. -/
structure Invocation where
  name : String
  args : List String
  deriving DecidableEq, Repr

/-- The type `DefaultRunner`, without its logger and its `execveRunner`. The
callable `cmdRunner` receives the context, the name and the arguments. -/
structure DefaultRunner where
  cmdRunner : Context → String → List String → String × Option Error
  tmux : String := "tmux"
  tmuxOpts : List String := []
  dryRun : Bool := false

/-- The method `DefaultRunner.Run`. The invocations of `cmdRunner` made so far
are passed along, and an invocation is added to them when `cmdRunner` is
called. -/
def DefaultRunner.Run (c : DefaultRunner) (ctx : Context) (args : List String)
    (invoked : List Invocation) : (String × Option Error) × List Invocation :=
  let args := c.tmuxOpts ++ args
  if c.dryRun then (("", none), invoked)
  else (c.cmdRunner ctx c.tmux args, invoked ++ [{ name := c.tmux, args := args }])

/-- A command runner that ignores the context and prints `ok`. -/
def echoRunner : DefaultRunner :=
  { cmdRunner := fun _ _ _ => ("ok", none) }

/-! ## Vocabulary of the statements about creation commands -/

/-- What `Session.Apply` does on the new session object `sess` at address
`a`: run new-session, take the (dry-run) output, parse it, update the session
from the first record. Without a first record the index expression
`records[0]` panics. -/
def sessionApplyResult (R : Runner) (ctx : Context) (a : Nat) (sess : Session)
    (w : World) : Result (Option Error) :=
  let w1 : World := { w with calls := w.calls ++ [.Run sess.newSessionArgs] }
  match R.Run ctx w.calls sess.newSessionArgs with
  | (_, some err) => .ok (some (.Wrapf "running new-session command: %w" [] err)) w1
  | (output, none) =>
    match parseOutput (if R.IsDryRun then sess.dryRunRecord else output) with
    | .error err =>
      .ok (some (.Wrapf "parsing new-session command output: %w" [] err)) w1
    | .ok [] => .panic w1
    | .ok (record :: _) =>
      .ok none
        { w with
          sessions := w.sessions.set a (sess.update record)
          calls := w.calls ++ [.Run sess.newSessionArgs] }

/-- What `Window.Apply` does on the new window object `win` at address `a` of
the session `sess` at `sa`. -/
def windowApplyResult (os : OS) (R : Runner) (ctx : Context) (a : Nat) (win : Window)
    (sa : Nat) (sess : Session) (w : World) : Result (Option Error) :=
  let w1 : World := { w with calls := w.calls ++ [.Run (win.newWindowArgs os sess)] }
  match R.Run ctx w.calls (win.newWindowArgs os sess) with
  | (_, some err) => .ok (some (.Wrapf "running new-window command: %w" [] err)) w1
  | (output, none) =>
    match (if R.IsDryRun then (Window.dryRunRecord (some a) w1).val? else some output) with
    | none => .panic w1
    | some out =>
      match parseOutput out with
      | .error err =>
        .ok (some (.Wrapf "parsing new-window command output: %w" [] err)) w1
      | .ok [] => .panic w1
      | .ok (record :: _) =>
        Window.RunCommands R ctx (some a) (sess.onWindowCommands ++ win.cmds)
          { w with
            windows := w.windows.set a (win.update record)
            sessions := w.sessions.set sa (sess.addWindow a)
            calls := w.calls ++ [.Run (win.newWindowArgs os sess)] }

/-- A runner outside dry-run mode whose commands all succeed with the output
`text`. -/
def blankRunner (text : String) : Runner :=
  { Run := fun _ _ _ => (text, none)
    Execve := fun _ _ => none
    IsDryRun := false }

/-- A session with a working directory and an environment that was
constructed and not applied. -/
def workSession : Session :=
  { name := "work", path := "/srv/app", env := [("GO_ENV", "dev")] }

/-- A world with the session `work` only. -/
def workWorld : World := { sessions := [workSession] }

/-- A valid configuration of the session `demo` that declares no window. -/
def bareConfig : Config := { Tmux := "tmux", Session := { Name := "demo" } }

/-- A world with an applied session without windows. -/
def bareWorld : World :=
  { sessions := [{ id := "$1", name := "demo", state := .stateApplied }] }

/-- The applied window `code` with two panes. -/
def editorWindow : Window :=
  { sess := some 0, id := "@1", name := "code", index := "1", panes := [0, 1],
    state := .stateApplied }

/-- The second pane of the window `code`, flagged active. -/
def activePane : Pane :=
  { sess := some 0, win := some 0, id := "%2", index := "2", active := true,
    state := .stateApplied }

/-- A world with the session `demo`, its window `code` and the two applied
panes of the window, the second flagged active. -/
def editorWorld : World :=
  { sessions := [demoSession]
    windows := [editorWindow]
    panes := [codePane, activePane] }

/-! ## Defaults of a configuration (config/config.go, internal/env/fs.go) -/

/-- The parts of the process environment and of the package `path/filepath`
that `setDefaults` reads. -/
structure WorkEnv where
  LookupEnv : String → Option String
  Getwd : Except Error String
  UserHomeDir : Except Error String
  Abs : String → Except Error String
  Join : String → String → String
  Clean : String → String
  Base : String → String

/-- The function `filepath.IsAbs` on a Unix system: the path starts with a
slash. -/
def IsAbs (path : String) : Bool :=
  match path.data with
  | c :: _ => c = '/'
  | [] => false

/-- The function `env.Getwd`: the stubbed working directory of the tests when
it is set and absolute, the working directory of the process otherwise. -/
def Getwd (e : WorkEnv) : Except Error String :=
  let osGetwd : Except Error String :=
    match e.Getwd with
    | .error err => .error (.Wrapf "getting current working directory: %w" [] err)
    | .ok dir => .ok dir
  match e.LookupEnv "TMPL_PWD" with
  | some dir => if IsAbs dir then .ok dir else osGetwd
  | none => osGetwd

/-- The function `env.AbsPath`. -/
def AbsPath (e : WorkEnv) (path : String) : Except Error String :=
  if IsAbs path then .ok path
  else
    match path.data with
    | '~' :: rest =>
      match e.UserHomeDir with
      | .error err => .error (.Wrapf "getting user home directory: %w" [] err)
      | .ok home => .ok (e.Join home (e.Clean (String.mk rest)))
    | _ =>
      match e.Abs path with
      | .error err => .error (.Wrapf "getting absolute path: %w" [] err)
      | .ok abs => .ok abs

/-- The replacement `specialCharsRegexp.ReplaceAllString(s, "_")`: every run
of characters that are not word characters becomes one underscore. `inRun`
tells that the character before was replaced. -/
def replaceSpecial : Bool → List Char → List Char
  | _, [] => []
  | inRun, c :: cs =>
    if isWordChar c then c :: replaceSpecial false cs
    else if inRun then replaceSpecial true cs
    else '_' :: replaceSpecial true cs

/-- The assignment `p.Path = path` on a pane configuration. -/
def PaneConfig.withPath : PaneConfig → String → PaneConfig
  | .mk env _ command commands size horizontal panes active, path =>
    .mk env path command commands size horizontal panes active

/-- The path that `setDefaults` gives to an entity: the inherited path when
its own is empty, its own path made absolute otherwise. `what` names the
entity in the error. -/
def defaultPath (e : WorkEnv) (what : String) (inherited path : String) :
    Except Error String :=
  if path = "" then .ok inherited
  else
    match AbsPath e path with
    | .error err => .error (.Wrapf ("expanding " ++ what ++ " path: %w") [] err)
    | .ok abs => .ok abs

/-- The inner loop of `setDefaults`, over the panes `w.Panes` of a window
whose path is `wpath`. The panes of a pane are not visited. -/
def defaultPanes (e : WorkEnv) (wpath : String) :
    List PaneConfig → Except Error (List PaneConfig)
  | [] => .ok []
  | p :: rest =>
    match defaultPath e "pane" wpath p.Path with
    | .error err => .error err
    | .ok path =>
      match defaultPanes e wpath rest with
      | .error err => .error err
      | .ok rest1 => .ok (p.withPath path :: rest1)

/-- The outer loop of `setDefaults`, over the windows of the session whose
path is `spath`. -/
def defaultWindows (e : WorkEnv) (spath : String) :
    List WindowConfig → Except Error (List WindowConfig)
  | [] => .ok []
  | w :: rest =>
    match defaultPath e "window" spath w.Path with
    | .error err => .error err
    | .ok path =>
      match defaultPanes e path w.Panes with
      | .error err => .error err
      | .ok panes =>
        match defaultWindows e spath rest with
        | .error err => .error err
        | .ok rest1 => .ok ({ w with Path := path, Panes := panes } :: rest1)

/-- The function `setDefaults`. -/
def setDefaults (e : WorkEnv) (cfg : Config) : Except Error Config :=
  match Getwd e with
  | .error err => .error (.Wrapf "getting current working directory: %w" [] err)
  | .ok wd =>
    let name :=
      if cfg.Session.Name = "" then String.mk (replaceSpecial false (e.Base wd).data)
      else cfg.Session.Name
    match defaultPath e "session" wd cfg.Session.Path with
    | .error err => .error err
    | .ok spath =>
      match defaultWindows e spath cfg.Session.Windows with
      | .error err => .error err
      | .ok windows =>
        .ok { cfg with
          Session := { cfg.Session with Name := name, Path := spath, Windows := windows } }

/-- A process environment with the working directory /home/dev/my app. -/
def exampleWorkEnv : WorkEnv :=
  { LookupEnv := fun _ => none
    Getwd := .ok "/home/dev/my app"
    UserHomeDir := .ok "/home/dev"
    Abs := fun p => .ok ("/home/dev/my app/" ++ p)
    Join := fun a b => a ++ "/" ++ b
    Clean := fun p => p
    Base := fun _ => "my app" }

/-- A pane configuration without path and without panes. -/
def leafPaneConfig : PaneConfig := .mk [] "" "" [] "" false [] false

/-- A configuration without paths: a window with a pane that has a pane. -/
def nestedConfig : Config :=
  { Session :=
      { Windows := [{ Name := "code", Panes := [.mk [] "" "" [] "" false [leafPaneConfig] false] }] } }

/-! ## Vocabulary of the statements about dry-run mode -/

/-- The characters of a token `key:value`. -/
def tokenChars (e : String × String) : List Char := e.1.data ++ colon :: e.2.data

/-- The characters of `outputRecord.String`: the tokens joined by commas. -/
def recordChars : outputRecord → List Char
  | [] => []
  | [e] => tokenChars e
  | e :: e1 :: rest => tokenChars e ++ comma :: recordChars (e1 :: rest)

/-- A text that may be the value of a token: it has no comma and no line
break. -/
def cleanText (s : String) : Bool :=
  s.data.all (fun c => c != comma && c != newline)

mutual
/-- Whether the paths of a pane configuration and of the panes nested in it
are clean texts. -/
def PaneConfig.cleanPaths : PaneConfig → Bool
  | .mk _ path _ _ _ _ panes _ => cleanText path && cleanPanePaths panes
/-- Whether the paths of the pane configurations of a list are clean texts. -/
def cleanPanePaths : List PaneConfig → Bool
  | [] => true
  | p :: rest => p.cleanPaths && cleanPanePaths rest
end

mutual
/-- The number of panes that a pane configuration declares: the pane and the
panes nested in it, at every depth. -/
def PaneConfig.count : PaneConfig → Nat
  | .mk _ _ _ _ _ _ panes _ => 1 + countPaneCfgs panes
/-- The number of panes that a list of pane configurations declares. -/
def countPaneCfgs : List PaneConfig → Nat
  | [] => 0
  | p :: rest => p.count + countPaneCfgs rest
end

/-- The number of panes that a list of window configurations declares. -/
def countWindowPanes : List WindowConfig → Nat
  | [] => 0
  | w :: rest => countPaneCfgs w.Panes + countWindowPanes rest

/-- Whether a call runs the tmux command `name`. -/
def Call.isCmd (name : String) : Call → Bool
  | .Run (n :: _) => n == name
  | _ => false

/-- The number of calls that run the tmux command `name`. -/
def countCmd (name : String) (calls : List Call) : Nat :=
  (calls.filter (Call.isCmd name)).length

/-- The tree of a session that was built in dry-run mode, in the world `w`
that came from the world `w0`: the session at `sa` is applied and has the `nW`
windows allocated since `w0`, in order; these are applied, belong to the
session and have the identities @1, @2, and so on; the `nP` panes allocated
since `w0` are applied, belong to the session and to one of its windows and
have the identities %1, %2, and so on; the windows list `nP` panes in all; and
since `w0` there were `nW` new-window and `nP` split-window commands. -/
structure DryTree (w0 w : World) (sa nW nP : Nat) : Prop where
  sess : ∃ s, w.sessions[sa]? = some s ∧ s.state = .stateApplied ∧
    s.windows = List.range' w0.windows.length nW
  wlen : w.windows.length = w0.windows.length + nW
  wins : ∀ i, i < nW → ∃ win, w.windows[w0.windows.length + i]? = some win ∧
    win.state = .stateApplied ∧ win.sess = some sa ∧ win.id = "@" ++ toString (i + 1) ∧
    ∀ x ∈ win.panes, w0.panes.length ≤ x ∧ x < w0.panes.length + nP
  plen : w.panes.length = w0.panes.length + nP
  panes : ∀ j, j < nP → ∃ p, w.panes[w0.panes.length + j]? = some p ∧
    p.state = .stateApplied ∧ p.sess = some sa ∧
    (∃ i, i < nW ∧ p.win = some (w0.windows.length + i)) ∧
    p.id = "%" ++ toString (j + 1)
  count : countPanes (List.range' w0.windows.length nW) 0 w = .ok nP w
  calls : ∃ l, w.calls = w0.calls ++ l ∧ countCmd "new-window" l = nW ∧
    countCmd "split-window" l = nP

/-- The window object that `NewWindow` makes of a window configuration with a
name. -/
def configuredWindow (sa : Nat) (wCfg : WindowConfig) : Window :=
  { sess := some sa, name := wCfg.Name, path := wCfg.Path,
    cmds := (if wCfg.Command ≠ "" then [wCfg.Command] else []) ++ wCfg.Commands,
    active := wCfg.Active, env := wCfg.Env, state := .stateNew }

/-- The pane object that `NewPane` makes of a pane configuration. -/
def configuredPane (sa wa : Nat) (parent : Option Nat) (pCfg : PaneConfig) : Pane :=
  { sess := some sa, win := some wa, pane := parent, path := pCfg.Path, size := pCfg.Size,
    cmds := (if pCfg.Command ≠ "" then [pCfg.Command] else []) ++ pCfg.Commands,
    horizontal := pCfg.Horizontal, active := pCfg.Active, env := pCfg.Env,
    state := .stateNew }

/-- A runner in dry-run mode, as `DefaultRunner` is in that mode: every
command succeeds with an empty output and nothing is executed. -/
def dryRunner : Runner :=
  { Run := fun _ _ _ => ("", none)
    Execve := fun _ _ => none
    IsDryRun := true }

/-- A valid configuration of the session `demo` with two windows, the first
with a pane that has a pane, the second with a path that has a space. -/
def treeConfig : Config :=
  { Tmux := "tmux"
    Session :=
      { Name := "demo", Path := "/srv/my app"
        Windows :=
          [{ Name := "code"
             Panes := [.mk [] "/srv/my app" "vim" [] "" false [sidePaneConfig] true] },
           { Name := "logs", Path := "/var/log/my app", Command := "tail -f app.log" }] } }

/-- A valid configuration whose window has no name. -/
def namelessConfig : Config :=
  { Tmux := "tmux", Session := { Name := "demo", Windows := [{ Command := "top" }] } }

/-- A valid configuration whose window has a path with a comma. -/
def commaConfig : Config :=
  { Tmux := "tmux"
    Session := { Name := "demo", Windows := [{ Name := "code", Path := "/srv/a,b" }] } }

/-! # Theorems -/

/-! ## Basic facts about computations -/

@[simp] theorem pure_run {α : Type} (a : α) (w : World) :
    (pure a : Exec α) w = .ok a w := rfl

@[simp] theorem bind_run {α β : Type} (m : Exec α) (f : α → Exec β) (w : World) :
    (m >>= f) w = match m w with
      | .ok a w1 => f a w1
      | .panic w1 => .panic w1 := rfl

@[simp] theorem panic_run {α : Type} (w : World) : (panic : Exec α) w = .panic w := rfl

@[simp] theorem world_ok {α : Type} (a : α) (w : World) : (Result.ok a w).world = w := rfl

@[simp] theorem world_panic {α : Type} (w : World) :
    (Result.panic w : Result α).world = w := rfl

@[simp] theorem val_ok {α : Type} (a : α) (w : World) : (Result.ok a w).val? = some a := rfl

@[simp] theorem val_panic {α : Type} (w : World) :
    (Result.panic w : Result α).val? = none := rfl

theorem result_eq_of_readOnly {α : Type} {m : Exec α} (h : m.readOnly) (w : World) :
    m w = match (m w).val? with
      | some a => .ok a w
      | none => .panic w := by
  have hw := h w
  cases hm : m w with
  | ok a w1 => rw [hm] at hw; simp at hw; simp [hw]
  | panic w1 => rw [hm] at hw; simp at hw; simp [hw]

theorem bind_readOnly {α β : Type} {m : Exec α} (h : m.readOnly) (f : α → Exec β)
    (w : World) :
    (m >>= f) w = match (m w).val? with
      | some a => f a w
      | none => .panic w := by
  rw [bind_run, result_eq_of_readOnly h w]
  cases (m w).val? <;> rfl

theorem readOnly_pure {α : Type} (a : α) : (pure a : Exec α).readOnly := fun _ => rfl

theorem readOnly_panic {α : Type} : (panic : Exec α).readOnly := fun _ => rfl

theorem readOnly_bind {α β : Type} {m : Exec α} {f : α → Exec β}
    (hm : m.readOnly) (hf : ∀ a, (f a).readOnly) : (m >>= f).readOnly := by
  intro w
  rw [bind_readOnly hm]
  cases (m w).val? with
  | none => rfl
  | some a => exact hf a w

theorem readOnly_getSession (p : Option Nat) : (getSession p).readOnly := by
  intro w
  unfold getSession
  split
  · rfl
  · split <;> rfl

theorem readOnly_getWindow (p : Option Nat) : (getWindow p).readOnly := by
  intro w
  unfold getWindow
  split
  · rfl
  · split <;> rfl

theorem readOnly_getPane (p : Option Nat) : (getPane p).readOnly := by
  intro w
  unfold getPane
  split
  · rfl
  · split <;> rfl

theorem readOnly_WindowName (p : Option Nat) : (Window.Name p).readOnly := by
  unfold Window.Name
  repeat' first
    | exact readOnly_pure _
    | exact readOnly_panic
    | exact readOnly_getSession _
    | exact readOnly_getWindow _
    | exact readOnly_getPane _
    | refine readOnly_bind ?_ (fun _ => ?_)

theorem readOnly_WindowIsClosed (p : Option Nat) : (Window.IsClosed p).readOnly := by
  unfold Window.IsClosed
  repeat' first
    | exact readOnly_pure _
    | exact readOnly_panic
    | exact readOnly_getSession _
    | exact readOnly_getWindow _
    | exact readOnly_getPane _
    | refine readOnly_bind ?_ (fun _ => ?_)
    | split

theorem readOnly_WindowCheckState (p : Option Nat) : (Window.checkState p).readOnly := by
  unfold Window.checkState
  repeat' first
    | exact readOnly_pure _
    | exact readOnly_panic
    | exact readOnly_getWindow _
    | exact readOnly_WindowIsClosed _
    | refine readOnly_bind ?_ (fun _ => ?_)
    | split

theorem readOnly_WindowDryRunRecord (p : Option Nat) : (Window.dryRunRecord p).readOnly := by
  unfold Window.dryRunRecord
  repeat' first
    | exact readOnly_pure _
    | exact readOnly_panic
    | exact readOnly_getSession _
    | exact readOnly_getWindow _
    | refine readOnly_bind ?_ (fun _ => ?_)

theorem readOnly_PaneName (p : Option Nat) : (Pane.Name p).readOnly := by
  unfold Pane.Name
  repeat' first
    | exact readOnly_pure _
    | exact readOnly_getPane _
    | exact readOnly_WindowName _
    | refine readOnly_bind ?_ (fun _ => ?_)

theorem readOnly_PaneIsClosed (p : Option Nat) : (Pane.IsClosed p).readOnly := by
  unfold Pane.IsClosed
  repeat' first
    | exact readOnly_pure _
    | exact readOnly_getPane _
    | exact readOnly_WindowIsClosed _
    | refine readOnly_bind ?_ (fun _ => ?_)
    | split

theorem readOnly_PaneCheckState (p : Option Nat) : (Pane.checkState p).readOnly := by
  unfold Pane.checkState
  repeat' first
    | exact readOnly_pure _
    | exact readOnly_getPane _
    | exact readOnly_PaneIsClosed _
    | refine readOnly_bind ?_ (fun _ => ?_)
    | split

theorem readOnly_PaneEnvArgs (os : OS) (p : Option Nat) : (Pane.envArgs os p).readOnly := by
  unfold Pane.envArgs
  repeat' first
    | exact readOnly_pure _
    | exact readOnly_getPane _
    | exact readOnly_getSession _
    | exact readOnly_getWindow _
    | refine readOnly_bind ?_ (fun _ => ?_)
    | split

theorem readOnly_countPanes (l : List Nat) (n : Nat) : (countPanes l n).readOnly := by
  induction l generalizing n with
  | nil => exact readOnly_pure _
  | cons a rest ih =>
    unfold countPanes
    exact readOnly_bind (readOnly_getWindow _) (fun _ => ih _)

theorem readOnly_SessionNumPanes (p : Option Nat) : (Session.NumPanes p).readOnly := by
  unfold Session.NumPanes
  exact readOnly_bind (readOnly_getSession _) (fun _ => readOnly_countPanes _ _)

theorem readOnly_PaneDryRunRecord (p : Option Nat) : (Pane.dryRunRecord p).readOnly := by
  unfold Pane.dryRunRecord
  repeat' first
    | exact readOnly_pure _
    | exact readOnly_getPane _
    | exact readOnly_getWindow _
    | exact readOnly_SessionNumPanes _
    | refine readOnly_bind ?_ (fun _ => ?_)

theorem readOnly_findActivePane (l : List Nat) (r : Option Nat) :
    (findActivePane l r).readOnly := by
  induction l generalizing r with
  | nil => exact readOnly_pure _
  | cons a rest ih =>
    unfold findActivePane
    refine readOnly_bind (readOnly_getPane _) (fun _ => ?_)
    split
    · exact ih _
    · exact ih _

theorem readOnly_findActiveWindow (l : List Nat) (r : Nat) :
    (findActiveWindow l r).readOnly := by
  induction l generalizing r with
  | nil => exact readOnly_pure _
  | cons a rest ih =>
    unfold findActiveWindow
    refine readOnly_bind (readOnly_getWindow _) (fun _ => ?_)
    split
    · exact ih _
    · exact ih _

theorem readOnly_findSession (name : String) (l : List Nat) :
    (findSession name l).readOnly := by
  induction l with
  | nil => exact readOnly_pure _
  | cons a rest ih =>
    unfold findSession
    refine readOnly_bind (readOnly_getSession _) (fun _ => ?_)
    split
    · exact readOnly_pure _
    · exact ih

/-! ## Worlds that differ by issued calls -/

theorem extendedBy_refl (K : Call → Prop) (w : World) : World.extendedBy K w w :=
  ⟨rfl, rfl, rfl, [], by simp, by simp⟩

theorem extendedBy_trans {K : Call → Prop} {w w1 w2 : World}
    (h1 : World.extendedBy K w w1) (h2 : World.extendedBy K w1 w2) :
    World.extendedBy K w w2 := by
  obtain ⟨a1, b1, c1, l1, d1, e1⟩ := h1
  obtain ⟨a2, b2, c2, l2, d2, e2⟩ := h2
  refine ⟨a2.trans a1, b2.trans b1, c2.trans c1, l1 ++ l2, ?_, ?_⟩
  · rw [d2, d1, List.append_assoc]
  · intro c hc
    rcases List.mem_append.1 hc with h | h
    · exact e1 c h
    · exact e2 c h

theorem extendedBy_mono {K K1 : Call → Prop} (hK : ∀ c, K c → K1 c) {w w1 : World}
    (h : World.extendedBy K w w1) : World.extendedBy K1 w w1 := by
  obtain ⟨a, b, c, l, d, e⟩ := h
  exact ⟨a, b, c, l, d, fun x hx => hK x (e x hx)⟩

theorem extendedBy_call {K : Call → Prop} (w : World) {c : Call} (h : K c) :
    World.extendedBy K w { w with calls := w.calls ++ [c] } :=
  ⟨rfl, rfl, rfl, [c], rfl, by simpa using h⟩

theorem isRun_mono {l1 l2 : List String} (h : ∀ x ∈ l1, x ∈ l2) (c : Call)
    (hc : Call.isRun l1 c) : Call.isRun l2 c := by
  cases c with
  | Run args =>
    cases args with
    | nil => exact hc
    | cons n rest => exact h n hc
  | Execve args => exact hc

theorem keeps_of_readOnly {α : Type} {m : Exec α} (K : Call → Prop) (h : m.readOnly) :
    m.keeps K := by
  intro w
  rw [h w]
  exact extendedBy_refl K w

theorem keeps_pure {α : Type} (K : Call → Prop) (a : α) : (pure a : Exec α).keeps K :=
  fun w => extendedBy_refl K w

theorem keeps_panic {α : Type} (K : Call → Prop) : (panic : Exec α).keeps K :=
  fun w => extendedBy_refl K w

theorem keeps_bind {α β : Type} {K : Call → Prop} {m : Exec α} {f : α → Exec β}
    (hm : m.keeps K) (hf : ∀ a, (f a).keeps K) : (m >>= f).keeps K := by
  intro w
  have h1 := hm w
  simp only [bind_run]
  cases hmw : m w with
  | ok a w1 =>
    rw [hmw] at h1
    exact extendedBy_trans h1 (hf a w1)
  | panic w1 =>
    rw [hmw] at h1
    exact h1

theorem keeps_mono {α : Type} {K K1 : Call → Prop} (hK : ∀ c, K c → K1 c) {m : Exec α}
    (h : m.keeps K) : m.keeps K1 :=
  fun w => extendedBy_mono hK (h w)

theorem keeps_Run {K : Call → Prop} (R : Runner) (ctx : Context) (args : List String)
    (h : K (.Run args)) : (Run R ctx args).keeps K :=
  fun w => extendedBy_call w h

theorem keeps_Execve {K : Call → Prop} (R : Runner) (args : List String)
    (h : K (.Execve args)) : (Execve R args).keeps K :=
  fun w => extendedBy_call w h

theorem keeps_WindowSendKeys (R : Runner) (ctx : Context) (p : Option Nat)
    (cmds : List String) :
    (Window.sendKeys R ctx p cmds).keeps (Call.isRun ["send-keys"]) := by
  induction cmds with
  | nil => exact keeps_pure _ _
  | cons c cs ih =>
    unfold Window.sendKeys
    repeat' first
      | exact keeps_pure _ _
      | exact ih
      | exact keeps_of_readOnly _ (readOnly_WindowName _)
      | exact keeps_Run _ _ _ (by simp [Call.isRun])
      | refine keeps_bind ?_ (fun _ => ?_)
      | split

theorem keeps_WindowRunCommands (R : Runner) (ctx : Context) (p : Option Nat)
    (cmds : List String) :
    (Window.RunCommands R ctx p cmds).keeps (Call.isRun ["send-keys"]) := by
  unfold Window.RunCommands
  repeat' first
    | exact keeps_pure _ _
    | exact keeps_of_readOnly _ (readOnly_WindowCheckState _)
    | exact keeps_WindowSendKeys _ _ _ _
    | refine keeps_bind ?_ (fun _ => ?_)
    | split

theorem keeps_PaneSendKeys (R : Runner) (ctx : Context) (p : Option Nat)
    (cmds : List String) :
    (Pane.sendKeys R ctx p cmds).keeps (Call.isRun ["send-keys"]) := by
  induction cmds with
  | nil => exact keeps_pure _ _
  | cons c cs ih =>
    unfold Pane.sendKeys
    repeat' first
      | exact keeps_pure _ _
      | exact ih
      | exact keeps_of_readOnly _ (readOnly_PaneName _)
      | exact keeps_Run _ _ _ (by simp [Call.isRun])
      | refine keeps_bind ?_ (fun _ => ?_)
      | split

theorem keeps_PaneRunCommands (R : Runner) (ctx : Context) (p : Option Nat)
    (cmds : List String) :
    (Pane.RunCommands R ctx p cmds).keeps (Call.isRun ["send-keys"]) := by
  unfold Pane.RunCommands
  repeat' first
    | exact keeps_pure _ _
    | exact keeps_of_readOnly _ (readOnly_PaneCheckState _)
    | exact keeps_PaneSendKeys _ _ _ _
    | refine keeps_bind ?_ (fun _ => ?_)
    | split

theorem keeps_PaneSelect (R : Runner) (ctx : Context) (p : Option Nat) :
    (Pane.Select R ctx p).keeps (Call.isRun ["select-pane"]) := by
  unfold Pane.Select
  repeat' first
    | exact keeps_pure _ _
    | exact keeps_of_readOnly _ (readOnly_PaneCheckState _)
    | exact keeps_of_readOnly _ (readOnly_PaneName _)
    | exact keeps_Run _ _ _ (by simp [Call.isRun])
    | refine keeps_bind ?_ (fun _ => ?_)
    | split

theorem keeps_WindowSelectPane (R : Runner) (ctx : Context) (p : Option Nat) :
    (Window.selectPane R ctx p).keeps (Call.isRun ["show-option", "select-pane"]) := by
  unfold Window.selectPane
  repeat' first
    | exact keeps_pure _ _
    | exact keeps_of_readOnly _ (readOnly_WindowCheckState _)
    | exact keeps_of_readOnly _ (readOnly_WindowName _)
    | exact keeps_of_readOnly _ (readOnly_getWindow _)
    | exact keeps_of_readOnly _ (readOnly_findActivePane _ _)
    | exact keeps_mono (isRun_mono (by simp)) (keeps_PaneSelect _ _ _)
    | exact keeps_Run _ _ _ (by simp [Call.isRun])
    | refine keeps_bind ?_ (fun _ => ?_)
    | split

theorem keeps_WindowSelect (R : Runner) (ctx : Context) (p : Option Nat) :
    (Window.Select R ctx p).keeps
      (Call.isRun ["select-window", "show-option", "select-pane"]) := by
  unfold Window.Select
  repeat' first
    | exact keeps_pure _ _
    | exact keeps_of_readOnly _ (readOnly_WindowCheckState _)
    | exact keeps_of_readOnly _ (readOnly_WindowName _)
    | exact keeps_mono (isRun_mono (by simp)) (keeps_WindowSelectPane _ _ _)
    | exact keeps_Run _ _ _ (by simp [Call.isRun])
    | refine keeps_bind ?_ (fun _ => ?_)
    | split

theorem keeps_SessionSelectActive (R : Runner) (ctx : Context) (p : Option Nat) :
    (Session.SelectActive R ctx p).keeps
      (Call.isRun ["select-window", "show-option", "select-pane"]) := by
  unfold Session.SelectActive
  repeat' first
    | exact keeps_pure _ _
    | exact keeps_panic _
    | exact keeps_of_readOnly _ (readOnly_getSession _)
    | exact keeps_of_readOnly _ (readOnly_findActiveWindow _ _)
    | exact keeps_mono (isRun_mono (by simp)) (keeps_WindowSelectPane _ _ _)
    | exact keeps_WindowSelect _ _ _
    | refine keeps_bind ?_ (fun _ => ?_)
    | split

theorem keeps_SessionAttach (os : OS) (R : Runner) (ctx : Context) (p : Option Nat) :
    (Session.Attach os R ctx p).keeps (fun c => ∃ args, c = .Execve args) := by
  unfold Session.Attach
  repeat' first
    | exact keeps_pure _ _
    | exact keeps_of_readOnly _ (readOnly_getSession _)
    | exact keeps_Execve _ _ ⟨_, rfl⟩
    | refine keeps_bind ?_ (fun _ => ?_)
    | split

/-! ## Outcomes of the operations that change objects -/

theorem getSession_val (a : Nat) (w : World) :
    (getSession (some a) w).val? = w.sessions[a]? := by
  simp only [getSession]
  split <;> simp_all

theorem getWindow_val (a : Nat) (w : World) :
    (getWindow (some a) w).val? = w.windows[a]? := by
  simp only [getWindow]
  split <;> simp_all

theorem getPane_val (a : Nat) (w : World) :
    (getPane (some a) w).val? = w.panes[a]? := by
  simp only [getPane]
  split <;> simp_all

theorem state_new_of_not {st : state} (h1 : st ≠ .stateClosed) (h2 : st ≠ .stateApplied) :
    st = .stateNew := by
  cases st <;> simp_all

/-- Every run of `Window.Apply` either leaves the objects alone, issuing at most
the new-window command, and then it returns no error only for a window that is
already applied; or it is the good case: a new window of a session that is
not closed, a successful command and a first record; the window is updated,
registered, and its commands run. -/
theorem windowApply_outcome (os : OS) (R : Runner) (ctx : Context) (p : Option Nat)
    (w : World) :
    (World.extendedBy (Call.isRun ["new-window"]) w (Window.Apply os R ctx p w).world ∧
      ((Window.Apply os R ctx p w).val? = some none →
        Window.Apply os R ctx p w = .ok none w ∧
        ∃ a win, p = some a ∧ w.windows[a]? = some win ∧ win.state = .stateApplied)) ∨
    ∃ a sa win sess record,
      p = some a ∧ w.windows[a]? = some win ∧ win.sess = some sa ∧
      w.sessions[sa]? = some sess ∧ win.state = .stateNew ∧
      sess.state ≠ .stateClosed ∧ ctx.Err = none ∧
      Window.Apply os R ctx p w =
        Window.RunCommands R ctx p (sess.onWindowCommands ++ win.cmds)
          { w with
            windows := w.windows.set a (win.update record)
            sessions := w.sessions.set sa (sess.addWindow a)
            calls := w.calls ++ [.Run (win.newWindowArgs os sess)] } := by
  generalize hres : Window.Apply os R ctx p w = res
  cases hctx : ctx.Err with
  | some err =>
    left; simp [Window.Apply, hctx] at hres; subst hres
    exact ⟨extendedBy_refl _ _, by simp⟩
  | none =>
  cases p with
  | none =>
    left; simp [Window.Apply, Window.IsClosed, getWindow, hctx] at hres; subst hres
    exact ⟨extendedBy_refl _ _, by simp⟩
  | some a =>
  cases hw : w.windows[a]? with
  | none =>
    left; simp [Window.Apply, Window.IsClosed, getWindow, hctx, hw] at hres; subst hres
    exact ⟨extendedBy_refl _ _, by simp⟩
  | some win =>
  by_cases hwc : win.state = .stateClosed
  · left; simp [Window.Apply, Window.IsClosed, getWindow, hctx, hw, hwc] at hres; subst hres
    exact ⟨extendedBy_refl _ _, by simp⟩
  cases hsa : win.sess with
  | none =>
    left
    simp [Window.Apply, Window.IsClosed, getWindow, getSession, hctx, hw, hwc, hsa] at hres
    subst hres
    exact ⟨extendedBy_refl _ _, by simp⟩
  | some sa =>
  cases hs : w.sessions[sa]? with
  | none =>
    left
    simp [Window.Apply, Window.IsClosed, getWindow, getSession, hctx, hw, hwc, hsa,
      hs] at hres
    subst hres
    exact ⟨extendedBy_refl _ _, by simp⟩
  | some sess =>
  by_cases hsc : sess.state = .stateClosed
  · left
    simp [Window.Apply, Window.IsClosed, getWindow, getSession, hctx, hw, hwc, hsa, hs, hsc,
      Session.IsClosed] at hres
    subst hres
    exact ⟨extendedBy_refl _ _, by simp⟩
  by_cases hwa : win.state = .stateApplied
  · left
    simp [Window.Apply, Window.IsClosed, getWindow, getSession, hctx, hw, hwc, hsa, hs, hsc,
      Session.IsClosed, hwa, Window.IsApplied] at hres
    subst hres
    exact ⟨extendedBy_refl _ _, fun _ => ⟨rfl, a, win, rfl, hw, hwa⟩⟩
  have hargs : Call.isRun ["new-window"] (.Run (win.newWindowArgs os sess)) := by
    simp only [Window.newWindowArgs]
    repeat' split
    all_goals simp [Call.isRun]
  cases hr : R.Run ctx w.calls (win.newWindowArgs os sess) with
  | mk output err =>
  cases err with
  | some e =>
    left
    simp [Window.Apply, Window.IsClosed, getWindow, getSession, hctx, hw, hwc, hsa, hs, hsc,
      Session.IsClosed, hwa, Window.IsApplied, Run, hr] at hres
    subst hres
    exact ⟨extendedBy_call w hargs, by simp⟩
  | none =>
  cases hp : parseOutput (if R.IsDryRun then outputRecord.String
      [("window_id", "@" ++ toString (sess.NumWindows + 1)), ("window_name", win.name),
       ("window_path", win.path), ("window_index", toString (sess.NumWindows + 1)),
       ("window_width", "80"), ("window_height", "24")] else output) with
  | error e =>
    left
    by_cases hd : R.IsDryRun = true
    · simp [hd] at hp
      simp [Window.Apply, Window.IsClosed, getWindow, getSession, hctx, hw, hwc, hsa, hs, hsc,
        Session.IsClosed, hwa, Window.IsApplied, Run, hr, hd, Window.dryRunRecord,
        hp] at hres
      subst hres
      exact ⟨extendedBy_call w hargs, by simp⟩
    · simp [hd] at hp
      simp [Window.Apply, Window.IsClosed, getWindow, getSession, hctx, hw, hwc, hsa, hs, hsc,
        Session.IsClosed, hwa, Window.IsApplied, Run, hr, hd, Window.dryRunRecord,
        hp] at hres
      subst hres
      exact ⟨extendedBy_call w hargs, by simp⟩
  | ok records =>
  cases records with
  | nil =>
    left
    by_cases hd : R.IsDryRun = true
    · simp [hd] at hp
      simp [Window.Apply, Window.IsClosed, getWindow, getSession, hctx, hw, hwc, hsa, hs, hsc,
        Session.IsClosed, hwa, Window.IsApplied, Run, hr, hd, Window.dryRunRecord,
        hp] at hres
      subst hres
      exact ⟨extendedBy_call w hargs, by simp⟩
    · simp [hd] at hp
      simp [Window.Apply, Window.IsClosed, getWindow, getSession, hctx, hw, hwc, hsa, hs, hsc,
        Session.IsClosed, hwa, Window.IsApplied, Run, hr, hd, Window.dryRunRecord,
        hp] at hres
      subst hres
      exact ⟨extendedBy_call w hargs, by simp⟩
  | cons record rest =>
    right
    refine ⟨a, sa, win, sess, record, rfl, hw, hsa, hs, state_new_of_not hwc hwa, hsc, rfl, ?_⟩
    rw [← hres]
    by_cases hd : R.IsDryRun = true
    · simp [hd] at hp
      simp [Window.Apply, Window.IsClosed, getWindow, getSession, hctx, hw, hwc, hsa, hs, hsc,
        Session.IsClosed, hwa, Window.IsApplied, Run, hr, hd, Window.dryRunRecord, hp,
        setWindow, setSession]
    · simp [hd] at hp
      simp [Window.Apply, Window.IsClosed, getWindow, getSession, hctx, hw, hwc, hsa, hs, hsc,
        Session.IsClosed, hwa, Window.IsApplied, Run, hr, hd, Window.dryRunRecord, hp,
        setWindow, setSession]

/-! ## What `update` keeps -/

theorem foldl_invariant {α β : Type} (P : α → Prop) (f : α → β → α)
    (hf : ∀ a b, P a → P (f a b)) (l : List β) (a : α) (h : P a) : P (l.foldl f a) := by
  induction l generalizing a with
  | nil => exact h
  | cons b rest ih => exact ih _ (hf a b h)

theorem sessionUpdate_keeps (s : Session) (record : outputRecord) :
    (s.update record).winCmd = s.winCmd ∧ (s.update record).paneCmd = s.paneCmd ∧
    (s.update record).anyCmd = s.anyCmd ∧ (s.update record).env = s.env ∧
    (s.update record).windows = s.windows ∧
    (s.update record).state = .stateApplied := by
  unfold Session.update
  refine foldl_invariant
    (fun x : Session => x.winCmd = s.winCmd ∧ x.paneCmd = s.paneCmd ∧
      x.anyCmd = s.anyCmd ∧ x.env = s.env ∧ x.windows = s.windows ∧ True) _ ?_ record s
    ⟨rfl, rfl, rfl, rfl, rfl, trivial⟩ |> fun h => ⟨h.1, h.2.1, h.2.2.1, h.2.2.2.1, h.2.2.2.2.1, rfl⟩
  intro a b h
  split_ifs <;> exact h

theorem windowUpdate_keeps (x : Window) (record : outputRecord) :
    (x.update record).sess = x.sess ∧ (x.update record).cmds = x.cmds ∧
    (x.update record).env = x.env ∧ (x.update record).panes = x.panes ∧
    (x.update record).active = x.active ∧
    (x.update record).state = .stateApplied := by
  unfold Window.update
  refine foldl_invariant
    (fun y : Window => y.sess = x.sess ∧ y.cmds = x.cmds ∧
      y.env = x.env ∧ y.panes = x.panes ∧ y.active = x.active ∧ True) _ ?_ record x
    ⟨rfl, rfl, rfl, rfl, rfl, trivial⟩ |> fun h => ⟨h.1, h.2.1, h.2.2.1, h.2.2.2.1, h.2.2.2.2.1, rfl⟩
  intro a b h
  split_ifs <;> exact h

theorem paneUpdate_keeps (x : Pane) (record : outputRecord) :
    (x.update record).sess = x.sess ∧ (x.update record).win = x.win ∧
    (x.update record).pane = x.pane ∧ (x.update record).env = x.env ∧
    (x.update record).cmds = x.cmds ∧ (x.update record).size = x.size ∧
    (x.update record).panes = x.panes ∧ (x.update record).horizontal = x.horizontal ∧
    (x.update record).active = x.active ∧
    (x.update record).state = .stateApplied := by
  unfold Pane.update
  refine foldl_invariant
    (fun y : Pane => y.sess = x.sess ∧ y.win = x.win ∧ y.pane = x.pane ∧ y.env = x.env ∧
      y.cmds = x.cmds ∧ y.size = x.size ∧ y.panes = x.panes ∧
      y.horizontal = x.horizontal ∧ y.active = x.active ∧ True) _ ?_ record x
    ⟨rfl, rfl, rfl, rfl, rfl, rfl, rfl, rfl, rfl, trivial⟩ |> fun h =>
      ⟨h.1, h.2.1, h.2.2.1, h.2.2.2.1, h.2.2.2.2.1, h.2.2.2.2.2.1, h.2.2.2.2.2.2.1,
        h.2.2.2.2.2.2.2.1, h.2.2.2.2.2.2.2.2.1, rfl⟩
  intro a b h
  split_ifs <;> exact h

@[simp] theorem sessionUpdate_state (s : Session) (r : outputRecord) :
    (s.update r).state = .stateApplied := (sessionUpdate_keeps s r).2.2.2.2.2

@[simp] theorem sessionUpdate_windows (s : Session) (r : outputRecord) :
    (s.update r).windows = s.windows := (sessionUpdate_keeps s r).2.2.2.2.1

@[simp] theorem sessionUpdate_env (s : Session) (r : outputRecord) :
    (s.update r).env = s.env := (sessionUpdate_keeps s r).2.2.2.1

@[simp] theorem sessionUpdate_anyCmd (s : Session) (r : outputRecord) :
    (s.update r).anyCmd = s.anyCmd := (sessionUpdate_keeps s r).2.2.1

@[simp] theorem sessionUpdate_paneCmd (s : Session) (r : outputRecord) :
    (s.update r).paneCmd = s.paneCmd := (sessionUpdate_keeps s r).2.1

@[simp] theorem sessionUpdate_winCmd (s : Session) (r : outputRecord) :
    (s.update r).winCmd = s.winCmd := (sessionUpdate_keeps s r).1

@[simp] theorem windowUpdate_state (x : Window) (r : outputRecord) :
    (x.update r).state = .stateApplied := (windowUpdate_keeps x r).2.2.2.2.2

@[simp] theorem windowUpdate_active (x : Window) (r : outputRecord) :
    (x.update r).active = x.active := (windowUpdate_keeps x r).2.2.2.2.1

@[simp] theorem windowUpdate_panes (x : Window) (r : outputRecord) :
    (x.update r).panes = x.panes := (windowUpdate_keeps x r).2.2.2.1

@[simp] theorem windowUpdate_env (x : Window) (r : outputRecord) :
    (x.update r).env = x.env := (windowUpdate_keeps x r).2.2.1

@[simp] theorem windowUpdate_cmds (x : Window) (r : outputRecord) :
    (x.update r).cmds = x.cmds := (windowUpdate_keeps x r).2.1

@[simp] theorem windowUpdate_sess (x : Window) (r : outputRecord) :
    (x.update r).sess = x.sess := (windowUpdate_keeps x r).1

@[simp] theorem paneUpdate_state (x : Pane) (r : outputRecord) :
    (x.update r).state = .stateApplied := (paneUpdate_keeps x r).2.2.2.2.2.2.2.2.2

@[simp] theorem paneUpdate_active (x : Pane) (r : outputRecord) :
    (x.update r).active = x.active := (paneUpdate_keeps x r).2.2.2.2.2.2.2.2.1

@[simp] theorem paneUpdate_horizontal (x : Pane) (r : outputRecord) :
    (x.update r).horizontal = x.horizontal := (paneUpdate_keeps x r).2.2.2.2.2.2.2.1

@[simp] theorem paneUpdate_panes (x : Pane) (r : outputRecord) :
    (x.update r).panes = x.panes := (paneUpdate_keeps x r).2.2.2.2.2.2.1

@[simp] theorem paneUpdate_size (x : Pane) (r : outputRecord) :
    (x.update r).size = x.size := (paneUpdate_keeps x r).2.2.2.2.2.1

@[simp] theorem paneUpdate_cmds (x : Pane) (r : outputRecord) :
    (x.update r).cmds = x.cmds := (paneUpdate_keeps x r).2.2.2.2.1

@[simp] theorem paneUpdate_env (x : Pane) (r : outputRecord) :
    (x.update r).env = x.env := (paneUpdate_keeps x r).2.2.2.1

@[simp] theorem paneUpdate_pane (x : Pane) (r : outputRecord) :
    (x.update r).pane = x.pane := (paneUpdate_keeps x r).2.2.1

@[simp] theorem paneUpdate_win (x : Pane) (r : outputRecord) :
    (x.update r).win = x.win := (paneUpdate_keeps x r).2.1

@[simp] theorem paneUpdate_sess (x : Pane) (r : outputRecord) :
    (x.update r).sess = x.sess := (paneUpdate_keeps x r).1

theorem world_of_ok {α : Type} {m : Exec α} (h : m.readOnly) {w w1 : World} {a : α}
    (hm : m w = .ok a w1) : w1 = w := by
  have := h w
  rw [hm] at this
  exact this

theorem world_of_panic {α : Type} {m : Exec α} (h : m.readOnly) {w w1 : World}
    (hm : m w = .panic w1) : w1 = w := by
  have := h w
  rw [hm] at this
  exact this

theorem windowName_ok {q : Option Nat} {w w1 : World} {n : String}
    (h : Window.Name q w = .ok n w1) :
    ∃ wa win, q = some wa ∧ w.windows[wa]? = some win := by
  cases q with
  | none => simp [Window.Name, getWindow] at h
  | some wa =>
    cases hw : w.windows[wa]? with
    | none => simp [Window.Name, getWindow, hw] at h
    | some win => exact ⟨wa, win, rfl, hw⟩

theorem paneEnvArgs_ok {os : OS} {a : Nat} {w w1 : World} {pane : Pane}
    {env : List String} (hp : w.panes[a]? = some pane)
    (h : Pane.envArgs os (some a) w = .ok env w1) :
    ∃ sa sess, pane.sess = some sa ∧ w.sessions[sa]? = some sess := by
  cases hsa : pane.sess with
  | none =>
    cases hpp : pane.pane <;> simp [Pane.envArgs, getPane, getSession, hp, hsa, hpp] at h
  | some sa =>
    cases hs : w.sessions[sa]? with
    | none =>
      cases hpp : pane.pane <;> simp [Pane.envArgs, getPane, getSession, hp, hsa, hpp, hs] at h
    | some sess => exact ⟨sa, sess, rfl, hs⟩

theorem paneIsClosed_false {a : Nat} {w w1 : World} {pane : Pane}
    (hp : w.panes[a]? = some pane)
    (h : Pane.IsClosed (some a) w = .ok false w1) :
    pane.state ≠ .stateClosed := by
  intro hc
  simp [Pane.IsClosed, getPane, hp, hc] at h

/-- The run of `Pane.Apply` on a new pane whose window, session, target and
environment arguments can be read. -/
theorem paneApply_eq {os : OS} {R : Runner} {ctx : Context} {a : Nat} {w : World}
    {pane : Pane} {wa : Nat} {win : Window} {sa : Nat} {sess : Session}
    {target0 target : String} {env : List String}
    (hctx : ctx.Err = none) (hp : w.panes[a]? = some pane)
    (hcl : Pane.IsClosed (some a) w = .ok false w)
    (hpa : pane.state ≠ .stateApplied)
    (hwa : pane.win = some wa) (hw : w.windows[wa]? = some win)
    (hsa : pane.sess = some sa) (hs : w.sessions[sa]? = some sess)
    (hn : Window.Name pane.win w = .ok target0 w)
    (htm : match pane.pane with
      | none => target = target0
      | some pp => Pane.Name (some pp) w = .ok target w)
    (hen : Pane.envArgs os (some a) w = .ok env w) :
    Pane.Apply os R ctx (some a) w =
      paneApplyResult R ctx a pane wa win sess (pane.splitWindowArgs target env) w := by
  have hlen := (List.getElem?_eq_some_iff.1 hp).1
  have hn1 := hn
  rw [hwa] at hn1
  unfold paneApplyResult
  cases hr : R.Run ctx w.calls (pane.splitWindowArgs target env) with
  | mk output err =>
  cases err with
  | some e =>
    cases hpp : pane.pane with
    | none =>
      simp only [hpp] at htm
      subst htm
      simp [Pane.Apply, hctx, hcl, getPane, hp, hpa, Pane.IsApplied, hn, hpp, hen, Run, hr]
    | some pp =>
      simp only [hpp] at htm
      simp [Pane.Apply, hctx, hcl, getPane, hp, hpa, Pane.IsApplied, hn, hpp, hen, Run, hr, htm]
  | none =>
  by_cases hd : R.IsDryRun = true
  · cases hdr : Pane.dryRunRecord (some a)
        { w with calls := w.calls ++ [.Run (pane.splitWindowArgs target env)] } with
    | panic w1 =>
      cases world_of_panic (readOnly_PaneDryRunRecord _) hdr
      cases hpp : pane.pane with
      | none =>
        simp only [hpp] at htm
        subst htm
        simp [Pane.Apply, hctx, hcl, getPane, hp, hpa, Pane.IsApplied, hn, hpp, hen, Run, hr,
          hd, hdr]
      | some pp =>
        simp only [hpp] at htm
        simp [Pane.Apply, hctx, hcl, getPane, hp, hpa, Pane.IsApplied, hn, hpp, hen, Run, hr,
          htm, hd, hdr]
    | ok out w1 =>
      cases world_of_ok (readOnly_PaneDryRunRecord _) hdr
      cases hpo : parseOutput out with
      | error e =>
        cases hpp : pane.pane with
        | none =>
          simp only [hpp] at htm
          subst htm
          simp [Pane.Apply, hctx, hcl, getPane, hp, hpa, Pane.IsApplied, hn, hpp, hen, Run,
            hr, hd, hdr, hpo]
        | some pp =>
          simp only [hpp] at htm
          simp [Pane.Apply, hctx, hcl, getPane, hp, hpa, Pane.IsApplied, hn, hpp, hen, Run,
            hr, htm, hd, hdr, hpo]
      | ok records =>
      cases records with
      | nil =>
        cases hpp : pane.pane with
        | none =>
          simp only [hpp] at htm
          subst htm
          simp [Pane.Apply, hctx, hcl, getPane, hp, hpa, Pane.IsApplied, hn, hpp, hen, Run,
            hr, hd, hdr, hpo]
        | some pp =>
          simp only [hpp] at htm
          simp [Pane.Apply, hctx, hcl, getPane, hp, hpa, Pane.IsApplied, hn, hpp, hen, Run,
            hr, htm, hd, hdr, hpo]
      | cons record rest =>
        cases hpp : pane.pane with
        | none =>
          simp only [hpp] at htm
          subst htm
          simp [Pane.Apply, hctx, hcl, getPane, hp, hpa, Pane.IsApplied, hn, hpp, hen, Run,
            hr, hd, hdr, hpo, setPane, hwa, hn1, getWindow, hw, setWindow, getSession, hsa, hs,
            Pane.created]
        | some pp =>
          simp only [hpp] at htm
          simp [Pane.Apply, hctx, hcl, getPane, hp, hpa, Pane.IsApplied, hn, hpp, hen, Run,
            hr, htm, hd, hdr, hpo, setPane, hwa, hn1, getWindow, hw, setWindow, getSession, hsa,
            hs, Pane.created, Pane.addPane, List.getElem?_set, hlen]
  · cases hpo : parseOutput output with
    | error e =>
      cases hpp : pane.pane with
      | none =>
        simp only [hpp] at htm
        subst htm
        simp [Pane.Apply, hctx, hcl, getPane, hp, hpa, Pane.IsApplied, hn, hpp, hen, Run,
          hr, hd, hpo]
      | some pp =>
        simp only [hpp] at htm
        simp [Pane.Apply, hctx, hcl, getPane, hp, hpa, Pane.IsApplied, hn, hpp, hen, Run,
          hr, htm, hd, hpo]
    | ok records =>
    cases records with
    | nil =>
      cases hpp : pane.pane with
      | none =>
        simp only [hpp] at htm
        subst htm
        simp [Pane.Apply, hctx, hcl, getPane, hp, hpa, Pane.IsApplied, hn, hpp, hen, Run,
          hr, hd, hpo]
      | some pp =>
        simp only [hpp] at htm
        simp [Pane.Apply, hctx, hcl, getPane, hp, hpa, Pane.IsApplied, hn, hpp, hen, Run,
          hr, htm, hd, hpo]
    | cons record rest =>
      cases hpp : pane.pane with
      | none =>
        simp only [hpp] at htm
        subst htm
        simp [Pane.Apply, hctx, hcl, getPane, hp, hpa, Pane.IsApplied, hn, hpp, hen, Run,
          hr, hd, hpo, setPane, hwa, hn1, getWindow, hw, setWindow, getSession, hsa, hs,
          Pane.created]
      | some pp =>
        simp only [hpp] at htm
        simp [Pane.Apply, hctx, hcl, getPane, hp, hpa, Pane.IsApplied, hn, hpp, hen, Run,
          hr, htm, hd, hpo, setPane, hwa, hn1, getWindow, hw, setWindow, getSession, hsa,
          hs, Pane.created, Pane.addPane, List.getElem?_set, hlen]

theorem isRun_splitWindow (pane : Pane) (target : String) (env : List String) :
    Call.isRun ["split-window"] (.Run (pane.splitWindowArgs target env)) := by
  simp only [Pane.splitWindowArgs]
  repeat' split
  all_goals simp [Call.isRun]

theorem isRun_newWindow (win : Window) (os : OS) (sess : Session) :
    Call.isRun ["new-window"] (.Run (win.newWindowArgs os sess)) := by
  simp only [Window.newWindowArgs]
  repeat' split
  all_goals simp [Call.isRun]

theorem isRun_newSession (sess : Session) :
    Call.isRun ["new-session"] (.Run sess.newSessionArgs) := by
  simp only [Session.newSessionArgs]
  split <;> simp [Call.isRun]

/-- The two ways `paneApplyResult` ends: the objects are as before, or the
pane was created and its commands run. -/
theorem paneApplyResult_cases (R : Runner) (ctx : Context) (a : Nat) (pane : Pane)
    (wa : Nat) (win : Window) (sess : Session) (args : List String) (w : World)
    (hargs : Call.isRun ["split-window"] (.Run args)) :
    (World.extendedBy (Call.isRun ["split-window"]) w
        (paneApplyResult R ctx a pane wa win sess args w).world ∧
      (paneApplyResult R ctx a pane wa win sess args w).val? ≠ some none) ∨
    ∃ record,
      paneApplyResult R ctx a pane wa win sess args w =
        Pane.RunCommands R ctx (some a) (sess.onPaneCommands ++ pane.cmds)
          { w with
            panes := w.panes.set a (pane.created a record)
            windows := w.windows.set wa (win.addPane a)
            calls := w.calls ++ [.Run args] } := by
  unfold paneApplyResult
  cases hr : R.Run ctx w.calls args with
  | mk output err =>
  cases err with
  | some e => left; simp; exact extendedBy_call w hargs
  | none =>
  simp only []
  cases hout : (if R.IsDryRun = true then
      (Pane.dryRunRecord (some a) { w with calls := w.calls ++ [.Run args] }).val?
      else some output) with
  | none => left; simp; exact extendedBy_call w hargs
  | some out =>
  simp only []
  cases hpo : parseOutput out with
  | error e => left; simp; exact extendedBy_call w hargs
  | ok records =>
  cases records with
  | nil => left; simp; exact extendedBy_call w hargs
  | cons record rest => right; exact ⟨record, rfl⟩

/-- Every run of `Pane.Apply` either leaves the objects alone, issuing at most
the split-window command, and then it returns no error only for a pane that is
already applied; or it is the good case: a new pane, a successful command and
a first record; the pane is updated, registered, and its commands run. -/
theorem paneApply_outcome (os : OS) (R : Runner) (ctx : Context) (p : Option Nat)
    (w : World) :
    (World.extendedBy (Call.isRun ["split-window"]) w (Pane.Apply os R ctx p w).world ∧
      ((Pane.Apply os R ctx p w).val? = some none →
        Pane.Apply os R ctx p w = .ok none w ∧
        ∃ a pane, p = some a ∧ w.panes[a]? = some pane ∧ pane.state = .stateApplied)) ∨
    ∃ a pane wa win sa sess record args,
      p = some a ∧ w.panes[a]? = some pane ∧ pane.state = .stateNew ∧
      pane.win = some wa ∧ w.windows[wa]? = some win ∧
      pane.sess = some sa ∧ w.sessions[sa]? = some sess ∧
      Pane.IsClosed (some a) w = .ok false w ∧ ctx.Err = none ∧
      Call.isRun ["split-window"] (.Run args) ∧
      Pane.Apply os R ctx p w =
        Pane.RunCommands R ctx p (sess.onPaneCommands ++ pane.cmds)
          { w with
            panes := w.panes.set a (pane.created a record)
            windows := w.windows.set wa (win.addPane a)
            calls := w.calls ++ [.Run args] } := by
  generalize hres : Pane.Apply os R ctx p w = res
  cases hctx : ctx.Err with
  | some err =>
    left; simp [Pane.Apply, hctx] at hres; subst hres
    exact ⟨extendedBy_refl _ _, by simp⟩
  | none =>
  cases hcl : Pane.IsClosed p w with
  | panic w1 =>
    cases world_of_panic (readOnly_PaneIsClosed _) hcl
    left; simp [Pane.Apply, hctx, hcl] at hres; subst hres
    exact ⟨extendedBy_refl _ _, by simp⟩
  | ok b w1 =>
  cases world_of_ok (readOnly_PaneIsClosed _) hcl
  cases b with
  | true =>
    left; simp [Pane.Apply, hctx, hcl] at hres; subst hres
    exact ⟨extendedBy_refl _ _, by simp⟩
  | false =>
  cases p with
  | none => simp [Pane.IsClosed, getPane] at hcl
  | some a =>
  cases hp : w.panes[a]? with
  | none => simp [Pane.IsClosed, getPane, hp] at hcl
  | some pane =>
  by_cases hpa : pane.state = .stateApplied
  · left
    simp [Pane.Apply, hctx, hcl, getPane, hp, hpa, Pane.IsApplied] at hres
    subst hres
    exact ⟨extendedBy_refl _ _, fun _ => ⟨rfl, a, pane, rfl, hp, hpa⟩⟩
  cases hn : Window.Name pane.win w with
  | panic w1 =>
    cases world_of_panic (readOnly_WindowName _) hn
    left
    simp [Pane.Apply, hctx, hcl, getPane, hp, hpa, Pane.IsApplied, hn] at hres
    subst hres
    exact ⟨extendedBy_refl _ _, by simp⟩
  | ok target0 w1 =>
  cases world_of_ok (readOnly_WindowName _) hn
  obtain ⟨wa, win, hwa, hw⟩ := windowName_ok hn
  have hnew := state_new_of_not (paneIsClosed_false hp hcl) hpa
  have hfin : ∀ target : String,
      (match pane.pane with
        | none => target = target0
        | some pp => Pane.Name (some pp) w = .ok target w) →
      ((World.extendedBy (Call.isRun ["split-window"]) w res.world ∧
        res.val? ≠ some none) ∨
      ∃ wa1 win1 sa sess record args,
        pane.win = some wa1 ∧ w.windows[wa1]? = some win1 ∧
        pane.sess = some sa ∧ w.sessions[sa]? = some sess ∧
        Call.isRun ["split-window"] (.Run args) ∧
        res =
          Pane.RunCommands R ctx (some a) (sess.onPaneCommands ++ pane.cmds)
            { w with
              panes := w.panes.set a (pane.created a record)
              windows := w.windows.set wa1 (win1.addPane a)
              calls := w.calls ++ [.Run args] }) := by
    intro target htm
    cases hen : Pane.envArgs os (some a) w with
    | panic w1 =>
      cases world_of_panic (readOnly_PaneEnvArgs _ _) hen
      left
      cases hpp : pane.pane with
      | none =>
        simp [Pane.Apply, hctx, hcl, getPane, hp, hpa, Pane.IsApplied, hn, hpp, hen] at hres
        subst hres
        exact ⟨extendedBy_refl _ _, by simp⟩
      | some pp =>
        simp only [hpp] at htm
        simp [Pane.Apply, hctx, hcl, getPane, hp, hpa, Pane.IsApplied, hn, hpp, htm,
          hen] at hres
        subst hres
        exact ⟨extendedBy_refl _ _, by simp⟩
    | ok env w1 =>
    cases world_of_ok (readOnly_PaneEnvArgs _ _) hen
    obtain ⟨sa, sess, hsa, hs⟩ := paneEnvArgs_ok hp hen
    rw [paneApply_eq hctx hp hcl hpa hwa hw hsa hs hn htm hen] at hres
    rcases paneApplyResult_cases R ctx a pane wa win sess _ w
      (isRun_splitWindow pane target env) with h | ⟨record, h⟩
    · left; rw [← hres]; exact h
    · right
      exact ⟨wa, win, sa, sess, record, _, hwa, hw, hsa, hs,
        isRun_splitWindow pane target env, by rw [← hres]; exact h⟩
  have hwrap : ((World.extendedBy (Call.isRun ["split-window"]) w res.world ∧
        res.val? ≠ some none) ∨
      ∃ wa1 win1 sa sess record args,
        pane.win = some wa1 ∧ w.windows[wa1]? = some win1 ∧
        pane.sess = some sa ∧ w.sessions[sa]? = some sess ∧
        Call.isRun ["split-window"] (.Run args) ∧
        res =
          Pane.RunCommands R ctx (some a) (sess.onPaneCommands ++ pane.cmds)
            { w with
              panes := w.panes.set a (pane.created a record)
              windows := w.windows.set wa1 (win1.addPane a)
              calls := w.calls ++ [.Run args] }) := by
    cases hpp : pane.pane with
    | none => exact hfin target0 (by simp [hpp])
    | some pp =>
      cases hpn : Pane.Name (some pp) w with
      | panic w1 =>
        cases world_of_panic (readOnly_PaneName _) hpn
        left
        simp [Pane.Apply, hctx, hcl, getPane, hp, hpa, Pane.IsApplied, hn, hpp, hpn] at hres
        subst hres
        exact ⟨extendedBy_refl _ _, by simp⟩
      | ok target w1 =>
        cases world_of_ok (readOnly_PaneName _) hpn
        exact hfin target (by simp [hpp, hpn])
  rcases hwrap with h | ⟨wa1, win1, sa, sess, record, args, h1, h2, h3, h4, h5, h6⟩
  · exact Or.inl ⟨h.1, fun hv => absurd hv h.2⟩
  · exact Or.inr ⟨a, pane, wa1, win1, sa, sess, record, args, rfl, hp, hnew, h1, h2, h3, h4,
      hcl, rfl, h5, h6⟩

/-- Every run of `Session.Apply` either leaves the objects alone, issuing at
most the new-session command, or creates a new session. -/
theorem sessionApply_outcome (R : Runner) (ctx : Context) (p : Option Nat) (w : World) :
    (World.extendedBy (Call.isRun ["new-session"]) w (Session.Apply R ctx p w).world ∧
      ((Session.Apply R ctx p w).val? = some none →
        Session.Apply R ctx p w = .ok none w ∧
        ∃ a sess, p = some a ∧ w.sessions[a]? = some sess ∧
          sess.state = .stateApplied)) ∨
    ∃ a sess record,
      p = some a ∧ w.sessions[a]? = some sess ∧ sess.state = .stateNew ∧
      ctx.Err = none ∧
      Session.Apply R ctx p w = .ok none
        { w with
          sessions := w.sessions.set a (sess.update record)
          calls := w.calls ++ [.Run sess.newSessionArgs] } := by
  generalize hres : Session.Apply R ctx p w = res
  cases hctx : ctx.Err with
  | some err =>
    left; simp [Session.Apply, hctx] at hres; subst hres; exact ⟨extendedBy_refl _ _, by simp⟩
  | none =>
  cases p with
  | none =>
    left; simp [Session.Apply, hctx, getSession] at hres; subst hres
    exact ⟨extendedBy_refl _ _, by simp⟩
  | some a =>
  cases hs : w.sessions[a]? with
  | none =>
    left; simp [Session.Apply, hctx, getSession, hs] at hres; subst hres
    exact ⟨extendedBy_refl _ _, by simp⟩
  | some sess =>
  by_cases hc : sess.state = .stateClosed
  · left; simp [Session.Apply, hctx, getSession, hs, Session.IsClosed, hc] at hres
    subst hres; exact ⟨extendedBy_refl _ _, by simp⟩
  by_cases ha : sess.state = .stateApplied
  · left
    simp [Session.Apply, hctx, getSession, hs, Session.IsClosed, hc, Session.IsApplied,
      ha] at hres
    subst hres; exact ⟨extendedBy_refl _ _, fun _ => ⟨rfl, a, sess, rfl, hs, ha⟩⟩
  cases hr : R.Run ctx w.calls sess.newSessionArgs with
  | mk output err =>
  cases err with
  | some e =>
    left
    simp [Session.Apply, hctx, getSession, hs, Session.IsClosed, hc, Session.IsApplied,
      ha, Run, hr] at hres
    subst hres; exact ⟨extendedBy_call w (isRun_newSession sess), by simp⟩
  | none =>
  cases hpo : parseOutput (if R.IsDryRun = true then sess.dryRunRecord else output) with
  | error e =>
    left
    simp [Session.Apply, hctx, getSession, hs, Session.IsClosed, hc, Session.IsApplied,
      ha, Run, hr, hpo] at hres
    subst hres; exact ⟨extendedBy_call w (isRun_newSession sess), by simp⟩
  | ok records =>
  cases records with
  | nil =>
    left
    simp [Session.Apply, hctx, getSession, hs, Session.IsClosed, hc, Session.IsApplied,
      ha, Run, hr, hpo] at hres
    subst hres; exact ⟨extendedBy_call w (isRun_newSession sess), by simp⟩
  | cons record rest =>
    right
    simp [Session.Apply, hctx, getSession, hs, Session.IsClosed, hc, Session.IsApplied,
      ha, Run, hr, hpo, setSession] at hres
    exact ⟨a, sess, record, rfl, hs, state_new_of_not hc ha, rfl, hres.symm⟩

/-- Every run of `Session.Close` either leaves the objects alone, issuing at
most the kill-session command, or closes an applied session. -/
theorem sessionClose_outcome (R : Runner) (p : Option Nat) (w : World) :
    World.extendedBy (Call.isRun ["kill-session"]) w (Session.Close R p w).world ∨
    ∃ a sess,
      p = some a ∧ w.sessions[a]? = some sess ∧ sess.state = .stateApplied ∧
      Session.Close R p w = .ok none
        { w with
          sessions := w.sessions.set a { sess with state := .stateClosed, windows := [] }
          calls := w.calls ++ [.Run ["kill-session", "-t", sess.name]] } := by
  generalize hres : Session.Close R p w = res
  cases p with
  | none =>
    left; simp [Session.Close, getSession] at hres; subst hres
    exact extendedBy_refl _ _
  | some a =>
  cases hs : w.sessions[a]? with
  | none =>
    left; simp [Session.Close, getSession, hs] at hres; subst hres
    exact extendedBy_refl _ _
  | some sess =>
  by_cases ha : sess.state = .stateApplied
  · cases hr : R.Run Background w.calls ["kill-session", "-t", sess.name] with
    | mk output err =>
    cases err with
    | some e =>
      left
      simp [Session.Close, getSession, hs, Session.IsClosed, Session.IsApplied, ha, Run,
        hr] at hres
      subst hres; exact extendedBy_call w (by simp [Call.isRun])
    | none =>
      right
      simp [Session.Close, getSession, hs, Session.IsClosed, Session.IsApplied, ha, Run,
        hr, setSession] at hres
      exact ⟨a, sess, rfl, hs, ha, hres.symm⟩
  · left
    simp [Session.Close, getSession, hs, Session.IsClosed, Session.IsApplied, ha] at hres
    subst hres; exact extendedBy_refl _ _

/-! ## Lifecycle states along the operations -/

theorem stateOf_extendedBy {K : Call → Prop} {w w1 : World}
    (h : World.extendedBy K w w1) (e : Ref) : w1.stateOf e = w.stateOf e := by
  obtain ⟨h1, h2, h3, _⟩ := h
  cases e <;> simp [World.stateOf, h1, h2, h3]

theorem paneCreated_state (pane : Pane) (a : Nat) (record : outputRecord) :
    (pane.created a record).state = .stateApplied := by
  unfold Pane.created
  split <;> simp

theorem getElem?_set_state {α : Type} (f : α → state) (l : List α) (a i : Nat) (x y : α)
    (hx : l[a]? = some x) :
    ((l.set a y)[i]?).map f = if a = i then some (f y) else (l[i]?).map f := by
  have hlen := (List.getElem?_eq_some_iff.1 hx).1
  rw [List.getElem?_set]
  by_cases h : a = i
  · subst h
    simp [hlen]
  · simp [h]

theorem stateStep_of_extendedBy {K : Call → Prop} (op : Op) {w w1 : World}
    (h : World.extendedBy K w w1) : stateStep op w w1 := by
  intro e st hst
  refine ⟨st, by rw [stateOf_extendedBy h, hst], le_refl _, ?_⟩
  intro h1 h2
  exact absurd h1 h2

theorem stateStep_keeps {K : Call → Prop} (op : Op) {m : Exec (Option Error)}
    (h : m.keeps K) (w : World) : stateStep op w (m w).world :=
  stateStep_of_extendedBy op (h w)

theorem stateStep_sessionApply (R : Runner) (ctx : Context) (p : Option Nat) (w : World) :
    stateStep (.SessionApply p) w (Session.Apply R ctx p w).world := by
  rcases sessionApply_outcome R ctx p w with h | ⟨a, sess, record, rfl, hs, hnew, _, h⟩
  · exact stateStep_of_extendedBy _ h.1
  · rw [h]
    intro e st hst
    cases e with
    | session b =>
      simp only [World.stateOf, world_ok] at hst ⊢
      rw [getElem?_set_state _ _ _ _ _ _ hs]
      by_cases hab : a = b
      · subst hab
        simp only [hs, Option.map_some', Option.some.injEq] at hst
        subst hst
        refine ⟨.stateApplied, by simp, by simp [hnew, state.rank], ?_⟩
        intro _ _
        exact ⟨rfl, rfl⟩
      · refine ⟨st, by simp [hab, hst], le_refl _, fun h1 h2 => absurd h1 h2⟩
    | window b => exact ⟨st, hst, le_refl _, fun h1 h2 => absurd h1 h2⟩
    | pane b => exact ⟨st, hst, le_refl _, fun h1 h2 => absurd h1 h2⟩

theorem stateStep_sessionClose (R : Runner) (p : Option Nat) (w : World) :
    stateStep (.SessionClose p) w (Session.Close R p w).world := by
  rcases sessionClose_outcome R p w with h | ⟨a, sess, rfl, hs, happ, h⟩
  · exact stateStep_of_extendedBy _ h
  · rw [h]
    intro e st hst
    cases e with
    | session b =>
      simp only [World.stateOf, world_ok] at hst ⊢
      rw [getElem?_set_state _ _ _ _ _ _ hs]
      by_cases hab : a = b
      · subst hab
        simp only [hs, Option.map_some', Option.some.injEq] at hst
        subst hst
        refine ⟨.stateClosed, by simp, by simp [happ, state.rank], ?_⟩
        intro h1 _
        rw [happ] at h1
        cases h1
      · refine ⟨st, by simp [hab, hst], le_refl _, fun h1 h2 => absurd h1 h2⟩
    | window b => exact ⟨st, hst, le_refl _, fun h1 h2 => absurd h1 h2⟩
    | pane b => exact ⟨st, hst, le_refl _, fun h1 h2 => absurd h1 h2⟩

theorem stateStep_windowApply (os : OS) (R : Runner) (ctx : Context) (p : Option Nat)
    (w : World) : stateStep (.WindowApply p) w (Window.Apply os R ctx p w).world := by
  rcases windowApply_outcome os R ctx p w with
    h | ⟨a, sa, win, sess, record, rfl, hw, hsa, hs, hnew, _, _, h⟩
  · exact stateStep_of_extendedBy _ h.1
  · rw [h]
    intro e st hst
    rw [stateOf_extendedBy (keeps_WindowRunCommands R ctx (some a) _ _)]
    cases e with
    | session b =>
      simp only [World.stateOf] at hst ⊢
      rw [getElem?_set_state _ _ _ _ _ _ hs]
      by_cases hab : sa = b
      · subst hab
        simp only [hs, Option.map_some', Option.some.injEq] at hst
        subst hst
        exact ⟨sess.state, by simp [Session.addWindow], le_refl _,
          fun h1 h2 => absurd h1 h2⟩
      · refine ⟨st, by simp [hab, hst], le_refl _, fun h1 h2 => absurd h1 h2⟩
    | window b =>
      simp only [World.stateOf] at hst ⊢
      rw [getElem?_set_state _ _ _ _ _ _ hw]
      by_cases hab : a = b
      · subst hab
        simp only [hw, Option.map_some', Option.some.injEq] at hst
        subst hst
        refine ⟨.stateApplied, by simp, by simp [hnew, state.rank], ?_⟩
        intro _ _
        exact ⟨rfl, rfl⟩
      · refine ⟨st, by simp [hab, hst], le_refl _, fun h1 h2 => absurd h1 h2⟩
    | pane b => exact ⟨st, hst, le_refl _, fun h1 h2 => absurd h1 h2⟩

theorem stateStep_paneApply (os : OS) (R : Runner) (ctx : Context) (p : Option Nat)
    (w : World) : stateStep (.PaneApply p) w (Pane.Apply os R ctx p w).world := by
  rcases paneApply_outcome os R ctx p w with
    h | ⟨a, pane, wa, win, sa, sess, record, args, rfl, hp, hnew, hwa, hw, _, _, _, _, _, h⟩
  · exact stateStep_of_extendedBy _ h.1
  · rw [h]
    intro e st hst
    rw [stateOf_extendedBy (keeps_PaneRunCommands R ctx (some a) _ _)]
    cases e with
    | session b => exact ⟨st, hst, le_refl _, fun h1 h2 => absurd h1 h2⟩
    | window b =>
      simp only [World.stateOf] at hst ⊢
      rw [getElem?_set_state _ _ _ _ _ _ hw]
      by_cases hab : wa = b
      · subst hab
        simp only [hw, Option.map_some', Option.some.injEq] at hst
        subst hst
        exact ⟨win.state, by simp [Window.addPane], le_refl _,
          fun h1 h2 => absurd h1 h2⟩
      · refine ⟨st, by simp [hab, hst], le_refl _, fun h1 h2 => absurd h1 h2⟩
    | pane b =>
      simp only [World.stateOf] at hst ⊢
      rw [getElem?_set_state _ _ _ _ _ _ hp]
      by_cases hab : a = b
      · subst hab
        simp only [hp, Option.map_some', Option.some.injEq] at hst
        subst hst
        refine ⟨.stateApplied, by simp [paneCreated_state], by simp [hnew, state.rank], ?_⟩
        intro _ _
        exact ⟨rfl, rfl⟩
      · refine ⟨st, by simp [hab, hst], le_refl _, fun h1 h2 => absurd h1 h2⟩

/-! ## Listing and finding sessions -/

theorem sessionsOfRecords_run (records : List outputRecord) (w : World) :
    sessionsOfRecords records w =
      .ok (List.range' w.sessions.length records.length)
        { w with sessions := w.sessions ++ listedSessions records } := by
  induction records generalizing w with
  | nil => simp [sessionsOfRecords, listedSessions]
  | cons r rest ih =>
    simp [sessionsOfRecords, allocSession, ih, listedSessions, List.range'_succ]

theorem getSessions_run {R : Runner} {ctx : Context} {w : World} {out : String}
    {records : List outputRecord} (hctx : ctx.Err = none)
    (hr : R.Run ctx w.calls listSessionsArgs = (out, none))
    (hp : parseOutput out = .ok records) :
    GetSessions ctx (some R) w =
      .ok (List.range' w.sessions.length records.length, none)
        { w with
          sessions := w.sessions ++ listedSessions records
          calls := w.calls ++ [.Run listSessionsArgs] } := by
  simp only [listSessionsArgs] at hr
  simp [GetSessions, hctx, Run, hr, hp, sessionsOfRecords_run, listSessionsArgs]

theorem findSession_none (name : String) (l : List Session) (w : World) (n : Nat)
    (pre : List Session) (hn : pre.length = n) (hw : w.sessions = pre ++ l)
    (h : ∀ x ∈ l, x.Name ≠ name) :
    findSession name (List.range' n l.length) w = .ok none w := by
  induction l generalizing n pre with
  | nil => simp [findSession]
  | cons x rest ih =>
    have hx : w.sessions[n]? = some x := by
      rw [hw, ← hn, List.getElem?_append_right (le_refl _)]
      simp
    have hne : x.Name ≠ name := h x (by simp)
    simp only [List.length_cons, List.range'_succ, findSession, bind_run, getSession, hx]
    simp only [hne, if_false]
    exact ih (n + 1) (pre ++ [x]) (by simp [hn]) (by simp [hw])
      (fun y hy => h y (by simp [hy]))

theorem findSession_some (name : String) (l : List Session) (w : World) (n : Nat)
    (pre : List Session) (hn : pre.length = n) (hw : w.sessions = pre ++ l)
    (h : ∃ x ∈ l, x.Name = name) :
    ∃ a x, findSession name (List.range' n l.length) w = .ok (some a) w ∧
      w.sessions[a]? = some x ∧ x ∈ l ∧ x.Name = name := by
  induction l generalizing n pre with
  | nil => simp at h
  | cons x rest ih =>
    have hx : w.sessions[n]? = some x := by
      rw [hw, ← hn, List.getElem?_append_right (le_refl _)]
      simp
    simp only [List.length_cons, List.range'_succ, findSession, bind_run, getSession, hx]
    by_cases hname : x.Name = name
    · exact ⟨n, x, by simp [hname], hx, by simp, hname⟩
    · simp only [hname, if_false]
      obtain ⟨y, hy, hyn⟩ := h
      have hy1 : y ∈ rest := by
        rcases List.mem_cons.1 hy with h1 | h1
        · subst h1
          exact absurd hyn hname
        · exact h1
      obtain ⟨a, z, h1, h2, h3, h4⟩ :=
        ih (n + 1) (pre ++ [x]) (by simp [hn]) (by simp [hw]) ⟨y, hy1, hyn⟩
      exact ⟨a, z, h1, h2, by simp [h3], h4⟩

/-! ## What `config.Apply` builds -/

theorem trimSpace_empty : TrimSpace "" = "" := by decide

theorem applyOpts_append {α : Type} (o1 o2 : List (α → Except Error α)) (x y : α)
    (h : applyOpts o1 x = .ok y) : applyOpts (o1 ++ o2) x = applyOpts o2 y := by
  induction o1 generalizing x with
  | nil =>
    simp only [applyOpts] at h
    cases h
    rfl
  | cons o rest ih =>
    simp only [List.cons_append, applyOpts] at h ⊢
    cases ho : o x with
    | error e => simp [ho] at h
    | ok x1 =>
      simp only [ho] at h ⊢
      exact ih x1 h

theorem applyOpts_makeSessionOpts (sCfg : SessionConfig) :
    applyOpts (makeSessionOpts sCfg) { state := .stateNew } = .ok (configuredSession sCfg) := by
  obtain ⟨name, path, onWindow, onPane, onAny, env, windows⟩ := sCfg
  simp only [makeSessionOpts, configuredSession]
  by_cases h1 : name = "" <;> by_cases h2 : path = "" <;> by_cases h3 : onWindow = "" <;>
    by_cases h4 : onPane = "" <;> by_cases h5 : onAny = "" <;> by_cases h6 : env = [] <;>
    simp [h1, h2, h3, h4, h5, h6, applyOpts, SessionWithName, SessionWithPath,
      SessionWithOnWindowCommand, SessionWithOnPaneCommand, SessionWithOnAnyCommand,
      SessionWithEnv, trimSpace_empty]

theorem newSession_run (R : Runner) (sCfg : SessionConfig) (w : World) :
    NewSession (some R) (makeSessionOpts sCfg) w =
      .ok (some w.sessions.length, none)
        { w with sessions := w.sessions ++ [configuredSession sCfg] } := by
  simp [NewSession, applyOpts_makeSessionOpts, allocSession]

/-! ## Records have no repeated key -/

theorem mapGet?_none_iff (m : Map) (k : String) :
    Map.get? m k = none ↔ k ∉ m.map Prod.fst := by
  unfold Map.get?
  induction m with
  | nil => simp
  | cons e rest ih =>
    by_cases h : e.1 = k
    · simp [List.find?, h]
    · simp only [List.find?, h, decide_False, List.map_cons, List.mem_cons, not_or]
      rw [ih]
      constructor
      · intro h1
        exact ⟨fun h2 => h h2.symm, h1⟩
      · intro h1
        exact h1.2

theorem parsePairs_nodup (kvs : List (List Char)) (acc record : outputRecord)
    (hacc : (acc.map Prod.fst).Nodup) (h : parsePairs kvs acc = .ok record) :
    (record.map Prod.fst).Nodup := by
  induction kvs generalizing acc with
  | nil =>
    simp only [parsePairs] at h
    cases h
    exact hacc
  | cons kv rest ih =>
    simp only [parsePairs] at h
    cases hc : cutChars colon kv with
    | none => simp [hc] at h
    | some kvp =>
      obtain ⟨key, val⟩ := kvp
      simp only [hc] at h
      cases hg : Map.get? acc (String.mk key) with
      | some v => simp [hg] at h
      | none =>
        simp only [hg] at h
        refine ih _ ?_ h
        rw [List.map_append, List.nodup_append]
        refine ⟨hacc, by simp, ?_⟩
        intro x hx1 hx2
        simp only [List.map_cons, List.map_nil, List.mem_singleton] at hx2
        subst hx2
        exact (mapGet?_none_iff _ _).1 hg hx1

theorem parseLines_nodup (total : Nat) (lines : List (List Char))
    (acc records : List outputRecord)
    (hacc : ∀ r ∈ acc, (r.map Prod.fst).Nodup)
    (h : parseLines total lines acc = .ok records) :
    ∀ r ∈ records, (r.map Prod.fst).Nodup := by
  induction lines generalizing acc with
  | nil =>
    simp only [parseLines] at h
    cases h
    exact hacc
  | cons line rest ih =>
    simp only [parseLines] at h
    split at h
    · exact ih acc hacc h
    · cases hp : parsePairs (splitChars comma (trimSpace line)) [] with
      | error e => simp [hp] at h
      | ok record =>
        simp only [hp] at h
        refine ih _ ?_ h
        intro r hr
        rcases List.mem_append.1 hr with h1 | h1
        · exact hacc r h1
        · simp only [List.mem_singleton] at h1
          subst h1
          exact parsePairs_nodup _ [] _ (by simp) hp

theorem parseOutput_nodup {output : String} {records : List outputRecord}
    (h : parseOutput output = .ok records) :
    ∀ r ∈ records, (r.map Prod.fst).Nodup := by
  unfold parseOutput at h
  simp only at h
  split at h
  · cases h
    simp
  · exact parseLines_nodup _ _ [] _ (by simp) h

/-- The name of a session updated from a record that has no repeated key. -/
theorem sessionUpdate_name (record : outputRecord) (s : Session) (v : String)
    (hnd : (record.map Prod.fst).Nodup)
    (hv : Map.get? record "session_name" = some v) :
    (s.update record).name = if v = "" then s.name else v := by
  have hkeep : ∀ (r : outputRecord) (s0 : Session), "session_name" ∉ r.map Prod.fst →
      (r.foldl (fun s e =>
        if e.2 = "" then s
        else if e.1 = "session_id" then { s with id := e.2 }
        else if e.1 = "session_name" then { s with name := e.2 }
        else if e.1 = "session_path" then { s with path := e.2 }
        else s) s0).name = s0.name := by
    intro r
    induction r with
    | nil => intro s0 _; rfl
    | cons e rest ih =>
      intro s0 hno
      simp only [List.map_cons, List.mem_cons, not_or] at hno
      simp only [List.foldl_cons]
      rw [ih _ hno.2]
      have hne : ¬ e.1 = "session_name" := fun h => hno.1 h.symm
      split_ifs <;> rfl
  unfold Session.update
  simp only
  induction record generalizing s with
  | nil => simp [Map.get?] at hv
  | cons e rest ih =>
    simp only [List.map_cons, List.nodup_cons] at hnd
    simp only [List.foldl_cons]
    by_cases hk : e.1 = "session_name"
    · have hev : e.2 = v := by
        simpa [Map.get?, List.find?, hk] using hv
      rw [hkeep rest _ (by rw [← hk]; exact hnd.1)]
      subst hev
      by_cases he : e.2 = ""
      · simp [he]
      · have h1 : ¬ e.1 = "session_id" := by rw [hk]; decide
        simp [he, hk, h1]
    · have hv1 : Map.get? rest "session_name" = some v := by
        simpa [Map.get?, List.find?, hk] using hv
      rw [ih _ hnd.2 hv1]
      split_ifs <;> rfl

theorem errorIs_refl (e : Error) : e.Is e = true := by
  cases e <;> simp [Error.Is]

/-! ## Calls issued while windows and panes are applied -/

theorem advancedBy_refl (K : Call → Prop) (w : World) : World.advancedBy K w w :=
  ⟨⟨[], by simp, by simp⟩, fun _ s h => ⟨s, h, rfl, rfl⟩⟩

theorem advancedBy_trans {K : Call → Prop} {w w1 w2 : World}
    (h1 : World.advancedBy K w w1) (h2 : World.advancedBy K w1 w2) :
    World.advancedBy K w w2 := by
  obtain ⟨⟨l1, d1, e1⟩, s1⟩ := h1
  obtain ⟨⟨l2, d2, e2⟩, s2⟩ := h2
  refine ⟨⟨l1 ++ l2, by rw [d2, d1, List.append_assoc], ?_⟩, ?_⟩
  · intro c hc
    rcases List.mem_append.1 hc with h | h
    · exact e1 c h
    · exact e2 c h
  · intro i s hs
    obtain ⟨x, hx, hx1, hx2⟩ := s1 i s hs
    obtain ⟨y, hy, hy1, hy2⟩ := s2 i x hx
    exact ⟨y, hy, hy1.trans hx1, hy2.trans hx2⟩

theorem advancedBy_of_extendedBy {K K1 : Call → Prop} (hK : ∀ c, K c → K1 c)
    {w w1 : World} (h : World.extendedBy K w w1) : World.advancedBy K1 w w1 := by
  obtain ⟨h1, _, _, l, h4, h5⟩ := h
  exact ⟨⟨l, h4, fun c hc => hK c (h5 c hc)⟩, fun i s hs => ⟨s, by rw [h1]; exact hs, rfl, rfl⟩⟩

theorem advances_of_keeps {α : Type} {K K1 : Call → Prop} (hK : ∀ c, K c → K1 c)
    {m : Exec α} (h : m.keeps K) : m.advances K1 :=
  fun w => advancedBy_of_extendedBy hK (h w)

theorem advances_pure {α : Type} (K : Call → Prop) (a : α) : (pure a : Exec α).advances K :=
  fun w => advancedBy_refl K w

theorem advances_bind {α β : Type} {K : Call → Prop} {m : Exec α} {f : α → Exec β}
    (hm : m.advances K) (hf : ∀ a, (f a).advances K) : (m >>= f).advances K := by
  intro w
  have h1 := hm w
  simp only [bind_run]
  cases hmw : m w with
  | ok a w1 =>
    rw [hmw] at h1
    exact advancedBy_trans h1 (hf a w1)
  | panic w1 =>
    rw [hmw] at h1
    exact h1

theorem advancedBy_alloc (K : Call → Prop) (w : World) (ws : List Window) (ps : List Pane) :
    World.advancedBy K w { w with windows := ws, panes := ps } :=
  ⟨⟨[], by simp, by simp⟩, fun _ s h => ⟨s, h, rfl, rfl⟩⟩

theorem advances_NewWindow (K : Call → Prop) (runner : Option Runner) (s : Option Nat)
    (opts : List WindowOption) : (NewWindow runner s opts).advances K := by
  unfold NewWindow
  repeat' first
    | exact advances_pure _ _
    | exact advances_of_keeps (fun _ h => h) (keeps_of_readOnly _ (readOnly_getSession _))
    | exact fun w => advancedBy_alloc K w _ _
    | refine advances_bind ?_ (fun _ => ?_)
    | split

theorem advances_NewPane (K : Call → Prop) (runner : Option Runner) (wp pp : Option Nat)
    (opts : List PaneOption) : (NewPane runner wp pp opts).advances K := by
  unfold NewPane
  repeat' first
    | exact advances_pure _ _
    | exact advances_of_keeps (fun _ h => h) (keeps_of_readOnly _ (readOnly_getSession _))
    | exact advances_of_keeps (fun _ h => h) (keeps_of_readOnly _ (readOnly_getWindow _))
    | exact advances_of_keeps (fun _ h => h) (keeps_of_readOnly _ (readOnly_PaneCheckState _))
    | exact fun w => advancedBy_alloc K w _ _
    | refine advances_bind ?_ (fun _ => ?_)
    | split
    | dsimp only

theorem advances_WindowApply (os : OS) (R : Runner) (ctx : Context) (p : Option Nat) :
    (Window.Apply os R ctx p).advances (Call.isRun creationKinds) := by
  intro w
  rcases windowApply_outcome os R ctx p w with
    h | ⟨a, sa, win, sess, record, rfl, hw, hsa, hs, hnew, _, _, h⟩
  · exact advancedBy_of_extendedBy (isRun_mono (by simp [creationKinds])) h.1
  · rw [h]
    refine advancedBy_trans ?_ (advancedBy_of_extendedBy
      (isRun_mono (by simp [creationKinds])) (keeps_WindowRunCommands R ctx (some a) _ _))
    refine ⟨⟨[_], rfl, ?_⟩, ?_⟩
    · intro c hc
      simp only [List.mem_singleton] at hc
      subst hc
      exact isRun_mono (by simp [creationKinds]) _ (isRun_newWindow win os sess)
    · intro i s hi
      simp only [List.getElem?_set]
      by_cases hab : sa = i
      · subst hab
        rw [hs] at hi
        cases hi
        exact ⟨sess.addWindow a, by simp [(List.getElem?_eq_some_iff.1 hs).1], rfl, rfl⟩
      · exact ⟨s, by simp [hab, hi], rfl, rfl⟩

theorem advances_PaneApply (os : OS) (R : Runner) (ctx : Context) (p : Option Nat) :
    (Pane.Apply os R ctx p).advances (Call.isRun creationKinds) := by
  intro w
  rcases paneApply_outcome os R ctx p w with
    h | ⟨a, pane, wa, win, sa, sess, record, args, rfl, hp, hnew, hwa, hw, _, _, _, _, hK, h⟩
  · exact advancedBy_of_extendedBy (isRun_mono (by simp [creationKinds])) h.1
  · rw [h]
    refine advancedBy_trans ?_ (advancedBy_of_extendedBy
      (isRun_mono (by simp [creationKinds])) (keeps_PaneRunCommands R ctx (some a) _ _))
    refine ⟨⟨[_], rfl, ?_⟩, fun i s hi => ⟨s, hi, rfl, rfl⟩⟩
    intro c hc
    simp only [List.mem_singleton] at hc
    subst hc
    exact isRun_mono (by simp [creationKinds]) _ hK

theorem advances_PaneString (K : Call → Prop) (p : Option Nat) :
    (Pane.String p).advances K := by
  unfold Pane.String
  exact advances_bind
    (advances_of_keeps (fun _ h => h) (keeps_of_readOnly _ (readOnly_PaneName _)))
    (fun _ => advances_pure _ _)

theorem advances_WindowString (K : Call → Prop) (p : Option Nat) :
    (Window.String p).advances K := by
  unfold Window.String
  exact advances_bind
    (advances_of_keeps (fun _ h => h) (keeps_of_readOnly _ (readOnly_WindowName _)))
    (fun _ => advances_pure _ _)

mutual

theorem advances_applyPaneCfg (os : OS) (R : Runner) (ctx : Context) (w pp : Option Nat) :
    (cfg : PaneConfig) →
      (applyPaneCfg os R ctx w pp cfg).advances (Call.isRun creationKinds)
  | .mk env path command commands size horizontal panes active => by
    unfold applyPaneCfg
    refine advances_bind (advances_NewPane _ _ _ _ _) (fun r => ?_)
    split
    split
    · exact advances_pure _ _
    · refine advances_bind (advances_PaneApply _ _ _ _) (fun e => ?_)
      split
      · exact advances_bind (advances_PaneString _ _) (fun _ => advances_pure _ _)
      · refine advances_bind (advances_applyPaneCfgs os R ctx w _ panes) (fun e => ?_)
        split
        · exact advances_pure _ _
        · exact advances_pure _ _

theorem advances_applyPaneCfgs (os : OS) (R : Runner) (ctx : Context) (w pp : Option Nat) :
    (cfgs : List PaneConfig) →
      (applyPaneCfgs os R ctx w pp cfgs).advances (Call.isRun creationKinds)
  | [] => by
    unfold applyPaneCfgs
    exact advances_pure _ _
  | cfg :: rest => by
    unfold applyPaneCfgs
    refine advances_bind (advances_applyPaneCfg os R ctx w pp cfg) (fun r => ?_)
    split
    split
    · exact advances_pure _ _
    · exact advances_applyPaneCfgs os R ctx w pp rest

end

theorem advances_applyWindowCfg (os : OS) (R : Runner) (ctx : Context) (s : Option Nat)
    (cfg : WindowConfig) :
    (applyWindowCfg os R ctx s cfg).advances (Call.isRun creationKinds) := by
  unfold applyWindowCfg
  refine advances_bind (advances_NewWindow _ _ _ _) (fun r => ?_)
  split
  split
  · exact advances_pure _ _
  · refine advances_bind (advances_WindowApply _ _ _ _) (fun e => ?_)
    split
    · exact advances_bind (advances_WindowString _ _) (fun _ => advances_pure _ _)
    · refine advances_bind (advances_applyPaneCfgs os R ctx _ _ _) (fun e => ?_)
      split
      · exact advances_pure _ _
      · exact advances_pure _ _

theorem advances_applyWindowCfgs (os : OS) (R : Runner) (ctx : Context) (s : Option Nat)
    (cfgs : List WindowConfig) :
    (applyWindowCfgs os R ctx s cfgs).advances (Call.isRun creationKinds) := by
  induction cfgs with
  | nil => exact advances_pure _ _
  | cons cfg rest ih =>
    unfold applyWindowCfgs
    refine advances_bind (advances_applyWindowCfg os R ctx s cfg) (fun r => ?_)
    split
    split
    · exact advances_pure _ _
    · exact ih

/-! ## Steps of `config.Apply` -/

theorem getSessions_ok_calls {R : Runner} {ctx : Context} {w w1 : World}
    {sessions : List Nat} (h : GetSessions ctx (some R) w = .ok (sessions, none) w1) :
    w1.calls = w.calls ++ [.Run listSessionsArgs] := by
  cases hctx : ctx.Err with
  | some err => simp [GetSessions, hctx] at h
  | none =>
  cases hr : R.Run ctx w.calls listSessionsArgs with
  | mk out err =>
  cases err with
  | some e =>
    simp only [listSessionsArgs] at hr
    simp [GetSessions, hctx, Run, hr] at h
  | none =>
  cases hp : parseOutput out with
  | error e =>
    simp only [listSessionsArgs] at hr
    simp [GetSessions, hctx, Run, hr, hp] at h
  | ok records =>
    rw [getSessions_run hctx hr hp] at h
    simp only [Result.ok.injEq] at h
    rw [← h.2]

theorem findSession_ok_world {name : String} {l : List Nat} {w w1 : World}
    {r : Option Nat} (h : findSession name l w = .ok r w1) : w1 = w :=
  world_of_ok (readOnly_findSession name l) h

/-- A new session for which `Session.Apply` returns no error was created. -/
theorem sessionApply_new_ok {R : Runner} {ctx : Context} {a : Nat} {w w1 : World}
    {sess : Session} (hs : w.sessions[a]? = some sess) (hnew : sess.state = .stateNew)
    (h : Session.Apply R ctx (some a) w = .ok none w1) :
    ∃ record, w1 =
      { w with
        sessions := w.sessions.set a (sess.update record)
        calls := w.calls ++ [.Run sess.newSessionArgs] } := by
  cases hctx : ctx.Err with
  | some err => simp [Session.Apply, hctx] at h
  | none =>
  cases hr : R.Run ctx w.calls sess.newSessionArgs with
  | mk output err =>
  cases err with
  | some e =>
    simp [Session.Apply, hctx, getSession, hs, Session.IsClosed, Session.IsApplied, hnew,
      Run, hr] at h
  | none =>
  cases hpo : parseOutput (if R.IsDryRun = true then sess.dryRunRecord else output) with
  | error e =>
    simp [Session.Apply, hctx, getSession, hs, Session.IsClosed, Session.IsApplied, hnew,
      Run, hr, hpo] at h
  | ok records =>
  cases records with
  | nil =>
    simp [Session.Apply, hctx, getSession, hs, Session.IsClosed, Session.IsApplied, hnew,
      Run, hr, hpo] at h
  | cons record rest =>
    simp [Session.Apply, hctx, getSession, hs, Session.IsClosed, Session.IsApplied, hnew,
      Run, hr, hpo, setSession] at h
    exact ⟨record, h.symm⟩

theorem isKillSession_of_isRun {names : List String} (hn : "kill-session" ∉ names)
    {c : Call} (h : Call.isRun names c) : c.isKillSession = false := by
  cases c with
  | Execve args => rfl
  | Run args =>
    cases args with
    | nil => rfl
    | cons n rest =>
      simp only [Call.isRun] at h
      by_cases hk : n = "kill-session"
      · subst hk
        exact absurd h hn
      · simp [Call.isKillSession, hk]

theorem filter_kill_of_isRun {names : List String} (hn : "kill-session" ∉ names)
    (l : List Call) (h : ∀ c ∈ l, Call.isRun names c) :
    l.filter Call.isKillSession = [] := by
  rw [List.filter_eq_nil_iff]
  intro c hc
  simp [isKillSession_of_isRun hn (h c hc)]

/-- The run of `fatalf` on an applied session. -/
theorem fatalf_applied {R : Runner} {a : Nat} {w : World} {sess : Session} (err : Error)
    (hs : w.sessions[a]? = some sess) (happ : sess.state = .stateApplied) :
    (fatalf R (some a) err w).world.calls =
      w.calls ++ [.Run ["kill-session", "-t", sess.name]] ∧
    (fatalf R (some a) err w).val? =
      match (R.Run Background w.calls ["kill-session", "-t", sess.name]).2 with
      | none => some (none, some err)
      | some ke =>
        some (none, some (.Join err (.Wrapf "closing failed session: %w" []
          (.Wrapf "running kill-session command: %w" [] ke)))) := by
  cases hr : R.Run Background w.calls ["kill-session", "-t", sess.name] with
  | mk output kerr =>
  cases kerr with
  | some ke =>
    simp [fatalf, Session.Close, getSession, hs, Session.IsClosed, Session.IsApplied, happ,
      Run, hr]
  | none =>
    simp [fatalf, Session.Close, getSession, hs, Session.IsClosed, Session.IsApplied, happ,
      Run, hr, setSession]

/-! ## Running commands in an applied entity -/

theorem windowSendKeys_error {R : Runner} {ctx : Context} {p : Option Nat}
    {cmds : List String} {w w1 : World} {e : Error}
    (h : Window.sendKeys R ctx p cmds w = .ok (some e) w1) :
    ∃ e1, e = .Wrapf "running send-keys command: %w" [] e1 := by
  induction cmds generalizing w with
  | nil => simp [Window.sendKeys] at h
  | cons c cs ih =>
    simp only [Window.sendKeys, bind_run] at h
    cases hn : Window.Name p w with
    | panic w2 => simp [hn] at h
    | ok name w2 =>
      simp only [hn, Run] at h
      cases hr : (R.Run ctx w2.calls ["send-keys", "-t", name, c, "C-m"]).2 with
      | none =>
        simp only [hr] at h
        exact ih h
      | some e1 =>
        simp only [hr, pure_run, Result.ok.injEq, Option.some.injEq] at h
        exact ⟨e1, h.1.symm⟩

theorem paneSendKeys_error {R : Runner} {ctx : Context} {p : Option Nat}
    {cmds : List String} {w w1 : World} {e : Error}
    (h : Pane.sendKeys R ctx p cmds w = .ok (some e) w1) :
    ∃ e1, e = .Wrapf "running send-keys command: %w" [] e1 := by
  induction cmds generalizing w with
  | nil => simp [Pane.sendKeys] at h
  | cons c cs ih =>
    simp only [Pane.sendKeys, bind_run] at h
    cases hn : Pane.Name p w with
    | panic w2 => simp [hn] at h
    | ok name w2 =>
      simp only [hn, Run] at h
      cases hr : (R.Run ctx w2.calls ["send-keys", "-t", name, c, "C-m"]).2 with
      | none =>
        simp only [hr] at h
        exact ih h
      | some e1 =>
        simp only [hr, pure_run, Result.ok.injEq, Option.some.injEq] at h
        exact ⟨e1, h.1.symm⟩

/-- In an applied window of a session that is not closed, `RunCommands` is the
loop of send-keys commands. -/
theorem windowRunCommands_applied {R : Runner} {ctx : Context} {a sa : Nat} {w : World}
    {win : Window} {sess : Session} (cmds : List String)
    (hctx : ctx.Err = none) (hw : w.windows[a]? = some win) (hsa : win.sess = some sa)
    (hs : w.sessions[sa]? = some sess) (happ : win.state = .stateApplied)
    (hsc : sess.state ≠ .stateClosed) :
    Window.RunCommands R ctx (some a) cmds w = Window.sendKeys R ctx (some a) cmds w := by
  cases cmds with
  | nil => simp [Window.RunCommands, hctx, Window.sendKeys]
  | cons c cs =>
    simp [Window.RunCommands, hctx, Window.checkState, Window.IsClosed, getWindow, hw, happ,
      getSession, hsa, hs, Session.IsClosed, hsc, Window.IsApplied]

/-- What `Pane.IsClosed` returning false says about the pane, its window and
the session of the window. -/
theorem paneIsClosed_false_inv {a : Nat} {w : World} {pane : Pane}
    (hp : w.panes[a]? = some pane) (h : Pane.IsClosed (some a) w = .ok false w) :
    pane.state ≠ .stateClosed ∧
    ∃ wa win sa sess, pane.win = some wa ∧ w.windows[wa]? = some win ∧
      win.state ≠ .stateClosed ∧ win.sess = some sa ∧ w.sessions[sa]? = some sess ∧
      sess.state ≠ .stateClosed := by
  have hpc : pane.state ≠ .stateClosed := paneIsClosed_false hp h
  refine ⟨hpc, ?_⟩
  cases hwa : pane.win with
  | none => simp [Pane.IsClosed, getPane, hp, hpc, Window.IsClosed, getWindow, hwa] at h
  | some wa =>
  cases hw : w.windows[wa]? with
  | none => simp [Pane.IsClosed, getPane, hp, hpc, Window.IsClosed, getWindow, hwa, hw] at h
  | some win =>
  by_cases hwc : win.state = .stateClosed
  · simp [Pane.IsClosed, getPane, hp, hpc, Window.IsClosed, getWindow, hwa, hw, hwc] at h
  cases hsa : win.sess with
  | none =>
    simp [Pane.IsClosed, getPane, hp, hpc, Window.IsClosed, getWindow, hwa, hw, hwc,
      getSession, hsa] at h
  | some sa =>
  cases hs : w.sessions[sa]? with
  | none =>
    simp [Pane.IsClosed, getPane, hp, hpc, Window.IsClosed, getWindow, hwa, hw, hwc,
      getSession, hsa, hs] at h
  | some sess =>
    by_cases hsc : sess.state = .stateClosed
    · simp [Pane.IsClosed, getPane, hp, hpc, Window.IsClosed, getWindow, hwa, hw, hwc,
        getSession, hsa, hs, Session.IsClosed, hsc] at h
    · exact ⟨wa, win, sa, sess, rfl, hw, hwc, hsa, hs, hsc⟩

/-- In an applied pane whose window and session are not closed, `RunCommands`
is the loop of send-keys commands. -/
theorem paneRunCommands_applied {R : Runner} {ctx : Context} {a wa sa : Nat} {w : World}
    {pane : Pane} {win : Window} {sess : Session} (cmds : List String)
    (hctx : ctx.Err = none) (hp : w.panes[a]? = some pane)
    (happ : pane.state = .stateApplied) (hwa : pane.win = some wa)
    (hw : w.windows[wa]? = some win) (hwc : win.state ≠ .stateClosed)
    (hsa : win.sess = some sa) (hs : w.sessions[sa]? = some sess)
    (hsc : sess.state ≠ .stateClosed) :
    Pane.RunCommands R ctx (some a) cmds w = Pane.sendKeys R ctx (some a) cmds w := by
  cases cmds with
  | nil => simp [Pane.RunCommands, hctx, Pane.sendKeys]
  | cons c cs =>
    simp [Pane.RunCommands, hctx, Pane.checkState, Pane.IsClosed, getPane, hp, happ,
      Window.IsClosed, getWindow, hwa, hw, hwc, getSession, hsa, hs, Session.IsClosed, hsc,
      Pane.IsApplied]

/-- What is known of the world after the good case of `Window.Apply`. -/
theorem windowApply_good {R : Runner} {ctx : Context} {a sa : Nat} {w : World}
    {win : Window} {sess : Session} (record : outputRecord) (call : Call)
    (cmds : List String) (hctx : ctx.Err = none)
    (hw : w.windows[a]? = some win) (hsa : win.sess = some sa)
    (hs : w.sessions[sa]? = some sess) (hsc : sess.state ≠ .stateClosed) :
    Window.RunCommands R ctx (some a) cmds
        { w with
          windows := w.windows.set a (win.update record)
          sessions := w.sessions.set sa (sess.addWindow a)
          calls := w.calls ++ [call] } =
      Window.sendKeys R ctx (some a) cmds
        { w with
          windows := w.windows.set a (win.update record)
          sessions := w.sessions.set sa (sess.addWindow a)
          calls := w.calls ++ [call] } := by
  have hl1 := (List.getElem?_eq_some_iff.1 hw).1
  have hl2 := (List.getElem?_eq_some_iff.1 hs).1
  exact @windowRunCommands_applied R ctx a sa _ (win.update record) (sess.addWindow a)
    cmds hctx (by simp [hl1]) (by simp [hsa]) (by simp [hl2]) (by simp)
    (by simpa [Session.addWindow] using hsc)

/-- What is known of the world after the good case of `Pane.Apply`. -/
theorem paneApply_good {R : Runner} {ctx : Context} {a wa : Nat} {w : World}
    {pane : Pane} {win : Window} (record : outputRecord) (call : Call)
    (cmds : List String) (hctx : ctx.Err = none)
    (hp : w.panes[a]? = some pane) (hwa : pane.win = some wa)
    (hw : w.windows[wa]? = some win)
    (hcl : Pane.IsClosed (some a) w = .ok false w) :
    Pane.RunCommands R ctx (some a) cmds
        { w with
          panes := w.panes.set a (pane.created a record)
          windows := w.windows.set wa (win.addPane a)
          calls := w.calls ++ [call] } =
      Pane.sendKeys R ctx (some a) cmds
        { w with
          panes := w.panes.set a (pane.created a record)
          windows := w.windows.set wa (win.addPane a)
          calls := w.calls ++ [call] } := by
  obtain ⟨_, wa1, win1, sa, sess, hwa1, hw1, hwc, hsa, hs, hsc⟩ := paneIsClosed_false_inv hp hcl
  rw [hwa] at hwa1
  cases hwa1
  rw [hw] at hw1
  cases hw1
  have hl1 := (List.getElem?_eq_some_iff.1 hp).1
  have hl2 := (List.getElem?_eq_some_iff.1 hw).1
  have hcw : (pane.created a record).win = some wa := by
    unfold Pane.created
    split <;> simp [hwa]
  exact @paneRunCommands_applied R ctx a wa sa _ (pane.created a record) (win.addPane a)
    sess cmds hctx (by simp [hl1])
    (paneCreated_state _ _ _) hcw (by simp [hl2])
    (by simpa [Window.addPane] using hwc) (by simpa [Window.addPane] using hsa) hs hsc

/-! ## The short-circuit of `config.Apply` -/

/-- When list-sessions prints a record with the configured session name,
`config.Apply` returns the first listed session of that name after that one
command. -/
theorem apply_finds_listed {os : OS} {ctx : Context} {cfg : Config} {R : Runner}
    {w : World} {out : String} {records : List outputRecord}
    (hctx : ctx.Err = none) (hval : cfg.Validate os = none)
    (hr : R.Run ctx w.calls listSessionsArgs = (out, none))
    (hp : parseOutput out = .ok records)
    (hmem : ∃ r ∈ records, Map.get? r "session_name" = some cfg.Session.Name) :
    ∃ a sess,
      Apply os ctx cfg (some R) w =
        .ok (some a, none)
          { w with
            sessions := w.sessions ++ listedSessions records
            calls := w.calls ++ [.Run listSessionsArgs] } ∧
      (w.sessions ++ listedSessions records)[a]? = some sess ∧
      sess.name = cfg.Session.Name ∧ sess.state = .stateApplied := by
  obtain ⟨r, hrm, hrn⟩ := hmem
  have hx : ∃ x ∈ listedSessions records, x.Name = cfg.Session.Name := by
    refine ⟨Session.update { state := .stateApplied } r, ?_, ?_⟩
    · exact List.mem_map_of_mem _ hrm
    · have hn := sessionUpdate_name r { state := .stateApplied } cfg.Session.Name
        (parseOutput_nodup hp r hrm) hrn
      simp only [Session.Name, hn]
      split <;> simp_all
  obtain ⟨a, x, hf, hxa, hxm, hxn⟩ :=
    findSession_some cfg.Session.Name (listedSessions records)
      { w with
        sessions := w.sessions ++ listedSessions records
        calls := w.calls ++ [.Run listSessionsArgs] }
      w.sessions.length w.sessions rfl rfl hx
  have hlen : (listedSessions records).length = records.length := by
    simp [listedSessions]
  rw [hlen] at hf
  refine ⟨a, x, ?_, hxa, hxn, ?_⟩
  · simp [Apply, hctx, hval, getSessions_run hctx hr hp, hf]
  · simp only [listedSessions, List.mem_map] at hxm
    obtain ⟨r1, _, hr1⟩ := hxm
    rw [← hr1]
    simp

/-! ## The simulated multiplexer -/

theorem simSessions_append (pre l : List Call)
    (h : ∀ c ∈ l, ∀ names, simStep names c = names) :
    simSessions (pre ++ l) = simSessions pre := by
  unfold simSessions
  rw [List.foldl_append]
  generalize List.foldl simStep [] pre = names
  induction l generalizing names with
  | nil => rfl
  | cons c rest ih =>
    simp only [List.foldl_cons]
    rw [h c (by simp)]
    exact ih (fun c hc => h c (by simp [hc])) names

theorem simStep_of_isRun {names : List String} (hn : "new-session" ∉ names)
    (hk : "kill-session" ∉ names) {c : Call} (h : Call.isRun names c)
    (l : List String) : simStep l c = l := by
  cases c with
  | Execve args => rfl
  | Run args =>
    cases args with
    | nil => rfl
    | cons n rest =>
      simp only [Call.isRun] at h
      have h1 : n ≠ "new-session" := fun e => hn (e ▸ h)
      have h2 : n ≠ "kill-session" := fun e => hk (e ▸ h)
      unfold simStep
      split
      · rename_i heq
        simp only [Call.Run.injEq, List.cons.injEq] at heq
        exact absurd heq.1 h1
      · rename_i heq
        simp only [Call.Run.injEq, List.cons.injEq] at heq
        exact absurd heq.1 h2
      · rfl

theorem sessionNameArg_newSession (sess : Session) :
    sessionNameArg sess.newSessionArgs.tail = sess.name := by
  unfold Session.newSessionArgs
  by_cases h : sess.name = ""
  · simp [h, sessionNameArg, sessionOutputFormat, outputFormat, Join, outputFormatVar]
  · simp [h, sessionNameArg, sessionOutputFormat, outputFormat, Join, outputFormatVar]

/-! ## Names that pass `nameMatchRule`, and the records they print as -/

theorem nameChar_toNat {c : Char}
    (h : (isWordChar c || c = '.' || c = '_' || c = '-') = true) :
    (48 ≤ c.toNat ∧ c.toNat ≤ 57) ∨ (65 ≤ c.toNat ∧ c.toNat ≤ 90) ∨
    (97 ≤ c.toNat ∧ c.toNat ≤ 122) ∨ c.toNat = 95 ∨ c.toNat = 46 ∨ c.toNat = 45 := by
  simp only [isWordChar, Bool.or_eq_true, Bool.and_eq_true, decide_eq_true_eq] at h
  rcases h with (((((h | h) | h) | h) | h) | h) | h
  · exact Or.inl ⟨h.1, h.2⟩
  · exact Or.inr (Or.inl ⟨h.1, h.2⟩)
  · exact Or.inr (Or.inr (Or.inl ⟨h.1, h.2⟩))
  · subst h; decide
  · subst h; decide
  · subst h; decide
  · subst h; decide

theorem nameChar_notSpace {c : Char}
    (h : (isWordChar c || c = '.' || c = '_' || c = '-') = true) : isSpace c = false := by
  have := nameChar_toNat h
  simp only [isSpace, Bool.or_eq_false_iff, Bool.and_eq_false_imp, decide_eq_false_iff_not,
    decide_eq_true_eq]
  omega

theorem nameChar_ne {c : Char}
    (h : (isWordChar c || c = '.' || c = '_' || c = '-') = true) :
    c ≠ newline ∧ c ≠ comma ∧ c ≠ colon := by
  refine ⟨?_, ?_, ?_⟩ <;> intro e <;> subst e <;> revert h <;> decide

theorem trimSpace_of_noSpace (l : List Char) (h : ∀ c ∈ l, isSpace c = false) :
    trimSpace l = l := by
  have hd : ∀ l : List Char, (∀ c ∈ l, isSpace c = false) → l.dropWhile isSpace = l := by
    intro l hl
    cases l with
    | nil => rfl
    | cons c rest => simp [List.dropWhile, hl c (by simp)]
  unfold trimSpace
  rw [hd l h, hd l.reverse (fun c hc => h c (List.mem_reverse.1 hc)), List.reverse_reverse]

theorem splitChars_of_not_mem (sep : Char) (l : List Char) (h : sep ∉ l) :
    splitChars sep l = [l] := by
  induction l with
  | nil => rfl
  | cons c rest ih =>
    have hc : c ≠ sep := fun e => h (by simp [e])
    have hr : sep ∉ rest := fun e => h (by simp [e])
    simp [splitChars, hc, ih hr]

theorem cutChars_append (sep : Char) (k v : List Char) (h : sep ∉ k) :
    cutChars sep (k ++ sep :: v) = some (k, v) := by
  induction k with
  | nil => simp [cutChars]
  | cons c rest ih =>
    have hc : c ≠ sep := fun e => h (by simp [e])
    have hr : sep ∉ rest := fun e => h (by simp [e])
    simp [cutChars, hc, ih hr]

/-- The record that a line `session_name:<name>` parses to, for a name of
characters that `nameMatchRule` allows (the empty name included). -/
theorem parseOutput_sessionName (name : String)
    (h : ∀ c ∈ name.data, (isWordChar c || c = '.' || c = '_' || c = '-') = true) :
    parseOutput ("session_name:" ++ name) = .ok [[("session_name", name)]] := by
  have hdata : ("session_name:" ++ name).data = "session_name".data ++ colon :: name.data := by
    rw [String.data_append]
    rfl
  have hpre : ∀ c ∈ "session_name".data,
      isSpace c = false ∧ c ≠ newline ∧ c ≠ comma := by
    decide
  have hall : ∀ c ∈ "session_name".data ++ colon :: name.data,
      isSpace c = false ∧ c ≠ newline ∧ c ≠ comma := by
    intro c hc
    rcases List.mem_append.1 hc with hc | hc
    · exact hpre c hc
    rcases List.mem_cons.1 hc with hc | hc
    · subst hc
      decide
    · exact ⟨nameChar_notSpace (h c hc), (nameChar_ne (h c hc)).1, (nameChar_ne (h c hc)).2.1⟩
  have htrim := trimSpace_of_noSpace _ (fun c hc => (hall c hc).1)
  have hnl := splitChars_of_not_mem newline _ (fun hc => (hall _ hc).2.1 rfl)
  have hcm := splitChars_of_not_mem comma _ (fun hc => (hall _ hc).2.2 rfl)
  have hcut := cutChars_append colon "session_name".data name.data (by decide)
  unfold parseOutput
  simp only [hdata, htrim]
  rw [if_neg (by simp)]
  simp only [hnl, List.length_singleton, parseLines, htrim, hcm, parsePairs, hcut]
  simp [Map.get?]

/-- A session name that passes validation has allowed characters only. -/
theorem nameMatchRule_chars {s : String} (h : nameMatchRule s = none) :
    ∀ c ∈ s.data, (isWordChar c || c = '.' || c = '_' || c = '-') = true := by
  unfold nameMatchRule at h
  split at h
  · rename_i hs
    rcases hs with hs | hs
    · subst hs
      simp
    · simp only [nameRE, Bool.and_eq_true, List.all_eq_true] at hs
      exact hs.2
  · cases h

theorem validateStruct_none_head {name : String} {r : Option Error}
    {rest : List (String × Option Error)}
    (h : ValidateStruct ((name, r) :: rest) .ErrorsNil = none) : r = none := by
  have hcons : ∀ (fields : List (String × Option Error)) (f : String) (e errs : Error),
      ValidateStruct fields (.ErrorsCons f e errs) ≠ none := by
    intro fields
    induction fields with
    | nil => intro f e errs; simp [ValidateStruct, Error.noFields]
    | cons x rest ih =>
      intro f e errs
      obtain ⟨n, r⟩ := x
      cases r with
      | none => simpa [ValidateStruct] using ih f e errs
      | some err =>
        cases err <;> simp only [ValidateStruct, Error.addField, ne_eq] <;>
          first
          | exact ih _ _ _
          | simp
  cases r with
  | none => rfl
  | some err =>
    exfalso
    cases err <;> simp only [ValidateStruct, Error.addField] at h <;>
      first
      | exact hcons _ _ _ _ h
      | cases h

theorem validateStruct_none_tail {name : String} {r : Option Error}
    {rest : List (String × Option Error)}
    (h : ValidateStruct ((name, r) :: rest) .ErrorsNil = none) :
    ValidateStruct rest .ErrorsNil = none := by
  have hr := validateStruct_none_head h
  subst hr
  simpa [ValidateStruct] using h

/-- The session name of a valid configuration has allowed characters only. -/
theorem validate_name_chars {os : OS} {cfg : Config} (h : cfg.Validate os = none) :
    ∀ c ∈ cfg.Session.Name.data,
      (isWordChar c || c = '.' || c = '_' || c = '-') = true := by
  unfold Config.Validate at h
  have h1 := validateStruct_none_head (validateStruct_none_tail h)
  have h2 : cfg.Session.Validate os = none := by
    cases hv : cfg.Session.Validate os with
    | none => rfl
    | some e => simp [firstError, hv] at h1
  unfold SessionConfig.Validate at h2
  exact nameMatchRule_chars (validateStruct_none_head h2)

/-! ## Two applications against the simulated multiplexer -/

theorem fatalf_no_session {R : Runner} {s : Option Nat} {err : Error} {w w1 : World}
    {a : Nat} {e : Option Error} (h : fatalf R s err w = .ok (some a, e) w1) : False := by
  cases s with
  | none => simp [fatalf] at h
  | some sa =>
    simp only [fatalf, bind_run] at h
    cases hc : Session.Close R (some sa) w with
    | panic w2 => simp [hc] at h
    | ok r w2 =>
      cases r with
      | none => simp [hc] at h
      | some ce => simp [hc] at h

theorem simTmux_newSession (ctx : Context) (calls : List Call) (sess : Session) :
    simTmux.Run ctx calls sess.newSessionArgs = ("session_name:" ++ sess.name, none) := by
  have h := sessionNameArg_newSession sess
  have ht : sess.newSessionArgs = "new-session" :: sess.newSessionArgs.tail := by
    unfold Session.newSessionArgs
    split <;> rfl
  rw [ht]
  simp only [simTmux, h]

theorem simTmux_list (ctx : Context) (calls : List Call) :
    simTmux.Run ctx calls listSessionsArgs =
      (Join "\n" ((simSessions calls).map (fun n => "session_name:" ++ n)), none) := rfl

theorem simSessions_created (sess : Session) (l : List Call)
    (h : ∀ c ∈ l, Call.isRun (creationKinds ++ ["select-window", "show-option", "select-pane"])
      c) :
    simSessions ([.Run listSessionsArgs, .Run sess.newSessionArgs] ++ l) = [sess.name] := by
  rw [simSessions_append _ _
    (fun c hc names => simStep_of_isRun (by decide) (by decide) (h c hc) names)]
  have h := sessionNameArg_newSession sess
  have ht : sess.newSessionArgs = "new-session" :: sess.newSessionArgs.tail := by
    unfold Session.newSessionArgs
    split <;> rfl
  rw [ht]
  simp [simSessions, simStep, listSessionsArgs, h]

/-- The first application against a fresh simulated multiplexer, when it
returns a session: the session has the configured name, and the multiplexer
has that one session. -/
theorem apply_sim_first {os : OS} {ctx : Context} {cfg : Config} {w0 w1 : World} {a1 : Nat}
    (hctx : ctx.Err = none) (hval : cfg.Validate os = none) (hfresh : w0.calls = [])
    (h1 : Apply os ctx cfg (some simTmux) w0 = .ok (some a1, none) w1) :
    (∃ s1, w1.sessions[a1]? = some s1 ∧ s1.name = cfg.Session.Name) ∧
    simSessions w1.calls = [cfg.Session.Name] := by
  have hchars := validate_name_chars hval
  have hr0 : simTmux.Run ctx w0.calls listSessionsArgs = ("", none) := by
    rw [simTmux_list, hfresh]
    rfl
  have hp0 : parseOutput "" = .ok [] := by decide
  have hg := getSessions_run hctx hr0 hp0
  simp only [listedSessions, List.map_nil, List.append_nil, List.length_nil,
    List.range'_zero] at hg
  have hrn := simTmux_newSession ctx (w0.calls ++ [.Run listSessionsArgs])
    (configuredSession cfg.Session)
  have hname : (configuredSession cfg.Session).name = cfg.Session.Name := rfl
  rw [hname] at hrn
  have hpn := parseOutput_sessionName cfg.Session.Name hchars
  have hdry : simTmux.IsDryRun = false := rfl
  have hs2 : (w0.sessions ++ [configuredSession cfg.Session])[w0.sessions.length]? =
      some (configuredSession cfg.Session) := by
    simp
  have h4 : Session.Apply simTmux ctx (some w0.sessions.length)
      { w0 with
        sessions := w0.sessions ++ [configuredSession cfg.Session]
        calls := w0.calls ++ [.Run listSessionsArgs] } =
      .ok none
        { w0 with
          sessions := (w0.sessions ++ [configuredSession cfg.Session]).set w0.sessions.length
            ((configuredSession cfg.Session).update [("session_name", cfg.Session.Name)])
          calls := w0.calls ++ [.Run listSessionsArgs] ++
            [.Run (configuredSession cfg.Session).newSessionArgs] } := by
    have hst : (configuredSession cfg.Session).state = .stateNew := rfl
    simp [Session.Apply, hctx, getSession, Session.IsClosed, Session.IsApplied, hst, Run,
      hrn, hdry, hpn, setSession]
  generalize hw3 : ({ w0 with
      sessions := (w0.sessions ++ [configuredSession cfg.Session]).set w0.sessions.length
        ((configuredSession cfg.Session).update [("session_name", cfg.Session.Name)])
      calls := w0.calls ++ [.Run listSessionsArgs] ++
        [.Run (configuredSession cfg.Session).newSessionArgs] } : World) = w3 at h4
  have hs3 : ∃ s3, w3.sessions[w0.sessions.length]? = some s3 ∧
      s3.name = cfg.Session.Name := by
    refine ⟨(configuredSession cfg.Session).update [("session_name", cfg.Session.Name)], ?_, ?_⟩
    · rw [← hw3]
      simp
    · rw [sessionUpdate_name _ _ cfg.Session.Name (by simp) (by simp [Map.get?])]
      split
      · rename_i he
        rw [hname, he]
      · rfl
  have hc3 : w3.calls = [.Run listSessionsArgs,
      .Run (configuredSession cfg.Session).newSessionArgs] := by
    rw [← hw3]
    simp [hfresh]
  have hA : Apply os ctx cfg (some simTmux) w0 =
      (do
        match (← applyWindowCfgs os simTmux ctx (some w0.sessions.length)
          cfg.Session.Windows) with
        | some err =>
          fatalf simTmux (some w0.sessions.length)
            (.Wrapf "applying window configuration: %w" [] err)
        | none =>
          match (← Session.SelectActive simTmux ctx (some w0.sessions.length)) with
          | some err =>
            fatalf simTmux (some w0.sessions.length)
              (.Wrapf "selecting active window: %w" [] err)
          | none => return (some w0.sessions.length, none)) w3 := by
    simp [Apply, hctx, hval, hg, findSession, newSession_run, h4]
  rw [hA] at h1
  simp only [bind_run] at h1
  have hadv := advances_applyWindowCfgs os simTmux ctx (some w0.sessions.length)
    cfg.Session.Windows w3
  cases h5 : applyWindowCfgs os simTmux ctx (some w0.sessions.length)
      cfg.Session.Windows w3 with
  | panic w4 => simp [h5] at h1
  | ok r4 w4 =>
  rw [h5] at hadv
  simp only [h5] at h1
  cases r4 with
  | some e => exact (fatalf_no_session h1).elim
  | none =>
  simp only [bind_run] at h1
  have hkeep := keeps_SessionSelectActive simTmux ctx (some w0.sessions.length) w4
  cases h6 : Session.SelectActive simTmux ctx (some w0.sessions.length) w4 with
  | panic w5 => simp [h6] at h1
  | ok r5 w5 =>
  rw [h6] at hkeep
  simp only [h6] at h1
  cases r5 with
  | some e => exact (fatalf_no_session h1).elim
  | none =>
  simp only [pure_run, Result.ok.injEq, Prod.mk.injEq, Option.some.injEq, and_true] at h1
  obtain ⟨ha, hw⟩ := h1
  subst ha
  subst hw
  obtain ⟨⟨l4, hl4, hK4⟩, hsess4⟩ := hadv
  obtain ⟨hs5, _, _, l5, hl5, hK5⟩ := hkeep
  simp only [world_ok] at hl4 hsess4 hs5 hl5
  obtain ⟨s3, hs3, hn3⟩ := hs3
  obtain ⟨s4, hs4, _, hn4⟩ := hsess4 _ _ hs3
  refine ⟨⟨s4, by rw [hs5]; exact hs4, by rw [hn4, hn3]⟩, ?_⟩
  rw [hl5, hl4, hc3, List.append_assoc]
  have := simSessions_created (configuredSession cfg.Session) (l4 ++ l5) (by
    intro c hc
    rcases List.mem_append.1 hc with hc | hc
    · exact isRun_mono (by simp [creationKinds]) c (hK4 c hc)
    · exact isRun_mono (by simp [creationKinds]) c (hK5 c hc))
  rw [hname] at this
  exact this

/-! ## The send-keys loop -/

theorem windowSendKeys_eq {R : Runner} {ctx : Context} {a sa : Nat} {win : Window}
    {sess : Session} (cmds : List String) (w : World)
    (hw : w.windows[a]? = some win) (hsa : win.sess = some sa)
    (hs : w.sessions[sa]? = some sess) :
    Window.sendKeys R ctx (some a) cmds w =
      sendKeysTo R ctx (sess.name ++ ":" ++ win.name) cmds w := by
  induction cmds generalizing w with
  | nil => rfl
  | cons c cs ih =>
    simp only [Window.sendKeys, sendKeysTo, bind_run, Window.Name, getWindow, hw, getSession,
      hsa, hs, pure_run, Session.Name, Run]
    generalize (R.Run ctx w.calls _).2 = r
    cases r with
    | none => exact ih _ hw hs
    | some e => rfl

theorem paneSendKeys_eq {R : Runner} {ctx : Context} {a wa sa : Nat} {pane : Pane}
    {win : Window} {sess : Session} (cmds : List String) (w : World)
    (hp : w.panes[a]? = some pane) (hwa : pane.win = some wa)
    (hw : w.windows[wa]? = some win) (hsa : win.sess = some sa)
    (hs : w.sessions[sa]? = some sess) :
    Pane.sendKeys R ctx (some a) cmds w =
      sendKeysTo R ctx (sess.name ++ ":" ++ win.name ++ "." ++ pane.index) cmds w := by
  induction cmds generalizing w with
  | nil => rfl
  | cons c cs ih =>
    simp only [Pane.sendKeys, sendKeysTo, bind_run, Pane.Name, getPane, hp, Window.Name,
      getWindow, hwa, hw, getSession, hsa, hs, pure_run, Session.Name, Run]
    generalize (R.Run ctx w.calls _).2 = r
    cases r with
    | none => exact ih _ hp hw hs
    | some e => rfl

/-- The trace of the send-keys loop: it stops after the first command that
fails, and runs all commands when none fails. -/
theorem sendKeysTo_trace (R : Runner) (ctx : Context) (name : String) (cmds : List String)
    (w : World) : sendKeysOutcome R ctx name cmds w (sendKeysTo R ctx name cmds w) := by
  unfold sendKeysOutcome
  induction cmds generalizing w with
  | nil =>
    refine ⟨fun k c e h => by simp at h, fun _ => ?_⟩
    simp [sendKeysTo]
  | cons c0 cs ih =>
    have hstep : ∀ i, w.calls ++ ((c0 :: cs).take (i + 1)).map (sendKeysCall name) =
        (w.calls ++ [sendKeysCall name c0]) ++ (cs.take i).map (sendKeysCall name) := by
      intro i
      simp
    constructor
    · intro k c e hk hprev hfail
      cases k with
      | zero =>
        simp only [List.getElem?_cons_zero, Option.some.injEq] at hk
        subst hk
        simp only [List.take_zero, List.map_nil, List.append_nil] at hfail
        cases hr : R.Run ctx w.calls ["send-keys", "-t", name, c0, "C-m"] with
        | mk out err =>
        rw [hr] at hfail
        simp only at hfail
        subst hfail
        simp [sendKeysTo, Run, hr, sendKeysCall]
      | succ k =>
        have h0 := hprev 0 c0 (Nat.succ_pos k) (by simp)
        simp only [List.take_zero, List.map_nil, List.append_nil] at h0
        cases hr : R.Run ctx w.calls ["send-keys", "-t", name, c0, "C-m"] with
        | mk out err =>
        rw [hr] at h0
        simp only at h0
        subst h0
        have hk1 : cs[k]? = some c := by simpa using hk
        have := (ih { w with calls := w.calls ++ [sendKeysCall name c0] }).1 k c e hk1
          (fun i ci hi hci => by
            have := hprev (i + 1) ci (Nat.succ_lt_succ hi) (by simpa using hci)
            rw [hstep] at this
            exact this)
          (by rw [hstep] at hfail; exact hfail)
        simp only [sendKeysTo, bind_run, Run, hr]
        rw [hstep]
        exact this
    · intro hall
      have h0 := hall 0 c0 (by simp)
      simp only [List.take_zero, List.map_nil, List.append_nil] at h0
      cases hr : R.Run ctx w.calls ["send-keys", "-t", name, c0, "C-m"] with
      | mk out err =>
      rw [hr] at h0
      simp only at h0
      subst h0
      have := (ih { w with calls := w.calls ++ [sendKeysCall name c0] }).2
        (fun i ci hci => by
          have := hall (i + 1) ci (by simpa using hci)
          rw [hstep] at this
          exact this)
      simp only [sendKeysTo, bind_run, Run, hr]
      refine this.trans ?_
      simp

/-! ## The creation step of `Window.Apply` and `Pane.Apply` -/

/-- The good case of `Window.Apply`: the new-window command returns no error
and its output (in dry-run mode, the dry-run record) parses to at least one
record; the window is updated from the first record, registered with its
session, and the hook commands and its own commands are run. -/
theorem windowApply_created {os : OS} {R : Runner} {ctx : Context} {a sa : Nat} {w : World}
    {win : Window} {sess : Session} {out text : String} {record : outputRecord}
    {rest : List outputRecord}
    (hctx : ctx.Err = none) (hw : w.windows[a]? = some win) (hnew : win.state = .stateNew)
    (hsa : win.sess = some sa) (hs : w.sessions[sa]? = some sess)
    (hsc : sess.state ≠ .stateClosed)
    (hr : R.Run ctx w.calls (win.newWindowArgs os sess) = (out, none))
    (hout : (if R.IsDryRun then
        (Window.dryRunRecord (some a)
          { w with calls := w.calls ++ [.Run (win.newWindowArgs os sess)] }).val?
        else some out) = some text)
    (hp : parseOutput text = .ok (record :: rest)) :
    Window.Apply os R ctx (some a) w =
      Window.RunCommands R ctx (some a) (sess.onWindowCommands ++ win.cmds)
        { w with
          windows := w.windows.set a (win.update record)
          sessions := w.sessions.set sa (sess.addWindow a)
          calls := w.calls ++ [.Run (win.newWindowArgs os sess)] } := by
  have hwc : win.state ≠ .stateClosed := by rw [hnew]; decide
  have hwa : win.state ≠ .stateApplied := by rw [hnew]; decide
  cases hd : R.IsDryRun with
  | false =>
    simp only [hd, Bool.false_eq_true, if_false, Option.some.injEq] at hout
    subst hout
    simp [Window.Apply, hctx, Window.IsClosed, getWindow, hw, hwc, getSession, hsa, hs,
      Session.IsClosed, hsc, Window.IsApplied, hwa, Run, hr, hd, hp, setWindow, setSession]
  | true =>
    simp only [hd, if_true] at hout
    cases hdr : Window.dryRunRecord (some a)
        { w with calls := w.calls ++ [.Run (win.newWindowArgs os sess)] } with
    | panic w1 => simp [hdr, Result.val?] at hout
    | ok text1 w1 =>
      cases world_of_ok (readOnly_WindowDryRunRecord _) hdr
      simp only [hdr, Result.val?, Option.some.injEq] at hout
      subst hout
      simp [Window.Apply, hctx, Window.IsClosed, getWindow, hw, hwc, getSession, hsa, hs,
        Session.IsClosed, hsc, Window.IsApplied, hwa, Run, hr, hd, hdr, hp, setWindow,
        setSession]

/-- The good case of `Pane.Apply`: the split-window command returns no error
and its output (in dry-run mode, the dry-run record) parses to at least one
record; the pane is updated from the first record and registered, and the hook
commands and its own commands are run. -/
theorem paneApply_created {os : OS} {R : Runner} {ctx : Context} {a : Nat} {w : World}
    {pane : Pane} {wa : Nat} {win : Window} {sa : Nat} {sess : Session}
    {target0 target : String} {env : List String} {out text : String}
    {record : outputRecord} {rest : List outputRecord}
    (hctx : ctx.Err = none) (hp : w.panes[a]? = some pane)
    (hcl : Pane.IsClosed (some a) w = .ok false w)
    (hnew : pane.state = .stateNew)
    (hwa : pane.win = some wa) (hw : w.windows[wa]? = some win)
    (hsa : pane.sess = some sa) (hs : w.sessions[sa]? = some sess)
    (hn : Window.Name pane.win w = .ok target0 w)
    (htm : match pane.pane with
      | none => target = target0
      | some pp => Pane.Name (some pp) w = .ok target w)
    (hen : Pane.envArgs os (some a) w = .ok env w)
    (hr : R.Run ctx w.calls (pane.splitWindowArgs target env) = (out, none))
    (hout : (if R.IsDryRun then
        (Pane.dryRunRecord (some a)
          { w with calls := w.calls ++ [.Run (pane.splitWindowArgs target env)] }).val?
        else some out) = some text)
    (hpo : parseOutput text = .ok (record :: rest)) :
    Pane.Apply os R ctx (some a) w =
      Pane.RunCommands R ctx (some a) (sess.onPaneCommands ++ pane.cmds)
        { w with
          panes := w.panes.set a (pane.created a record)
          windows := w.windows.set wa (win.addPane a)
          calls := w.calls ++ [.Run (pane.splitWindowArgs target env)] } := by
  rw [paneApply_eq hctx hp hcl (by rw [hnew]; decide) hwa hw hsa hs hn htm hen]
  unfold paneApplyResult
  simp only [hr, hout, hpo]

theorem sendsKeysInOrder_of_eq {R : Runner} {ctx : Context} {name : String}
    {run : List String → Exec (Option Error)} {w : World}
    (h : ∀ cmds, run cmds w = sendKeysTo R ctx name cmds w) :
    sendsKeysInOrder R ctx name run w := by
  refine ⟨?_, ?_⟩
  · rw [h]
    rfl
  · intro cmds
    rw [h]
    exact sendKeysTo_trace R ctx name cmds w

theorem onWindowCommands_eq (sess : Session) :
    sess.onWindowCommands =
      (if sess.anyCmd ≠ "" then [sess.anyCmd] else []) ++
        (if sess.winCmd ≠ "" then [sess.winCmd] else []) := by
  unfold Session.onWindowCommands
  by_cases h1 : sess.anyCmd = "" <;> by_cases h2 : sess.winCmd = "" <;> simp [h1, h2]

theorem onPaneCommands_eq (sess : Session) :
    sess.onPaneCommands =
      (if sess.anyCmd ≠ "" then [sess.anyCmd] else []) ++
        (if sess.paneCmd ≠ "" then [sess.paneCmd] else []) := by
  unfold Session.onPaneCommands
  by_cases h1 : sess.anyCmd = "" <;> by_cases h2 : sess.paneCmd = "" <;> simp [h1, h2]

theorem paneCreated_fields (pane : Pane) (a : Nat) (record : outputRecord) :
    (pane.created a record).win = pane.win ∧
    (pane.created a record).index = (pane.update record).index := by
  unfold Pane.created
  split <;> simp

/-! ## The output parser, line by line -/

theorem trimSpace_of_allSpace (l : List Char) (h : ∀ c ∈ l, isSpace c = true) :
    trimSpace l = [] := by
  have hd : l.dropWhile isSpace = [] := by
    rw [List.dropWhile_eq_nil_iff]
    exact h
  simp [trimSpace, hd]

theorem parsePairs_ok (toks : List (List Char)) (acc : outputRecord)
    (hc : ∀ tok ∈ toks, (cutChars colon tok).isSome = true)
    (hnd : ((acc ++ toks.filterMap tokenPair).map Prod.fst).Nodup) :
    parsePairs toks acc = .ok (acc ++ toks.filterMap tokenPair) := by
  induction toks generalizing acc with
  | nil => simp [parsePairs]
  | cons tok rest ih =>
    have h1 := hc tok (by simp)
    cases hcut : cutChars colon tok with
    | none => simp [hcut] at h1
    | some kv =>
      obtain ⟨key, val⟩ := kv
      have htp : tokenPair tok = some (String.mk key, String.mk val) := by
        simp [tokenPair, hcut]
      simp only [List.filterMap_cons, htp] at hnd ⊢
      have hnd1 : (((acc ++ [(String.mk key, String.mk val)]) ++
          rest.filterMap tokenPair).map Prod.fst).Nodup := by
        simpa using hnd
      have hnot : Map.get? acc (String.mk key) = none := by
        rw [mapGet?_none_iff]
        intro hmem
        rw [List.map_append, List.nodup_append] at hnd
        exact hnd.2.2 hmem (by simp)
      simp only [parsePairs, hcut, hnot]
      rw [ih _ (fun t ht => hc t (by simp [ht])) hnd1]
      simp

theorem parsePairs_malformed (toks : List (List Char)) (acc : outputRecord)
    (h : ∃ tok ∈ toks, cutChars colon tok = none) :
    ∃ e, parsePairs toks acc = .error e := by
  induction toks generalizing acc with
  | nil => simp at h
  | cons tok rest ih =>
    cases hcut : cutChars colon tok with
    | none =>
      exact ⟨.Errorf "invalid key-value pair in command output: %s" [String.mk tok],
        by simp [parsePairs, hcut]⟩
    | some kv =>
      obtain ⟨key, val⟩ := kv
      have hrest : ∃ t ∈ rest, cutChars colon t = none := by
        obtain ⟨t, ht, hcn⟩ := h
        rcases List.mem_cons.1 ht with ht | ht
        · subst ht
          rw [hcut] at hcn
          cases hcn
        · exact ⟨t, ht, hcn⟩
      cases hg : Map.get? acc (String.mk key) with
      | some v =>
        exact ⟨.Errorf "duplicate key in command output: %s" [String.mk key],
          by simp [parsePairs, hcut, hg]⟩
      | none =>
        obtain ⟨e, he⟩ := ih (acc ++ [(String.mk key, String.mk val)]) hrest
        exact ⟨e, by simp [parsePairs, hcut, hg, he]⟩

theorem parsePairs_duplicate (toks : List (List Char)) (acc : outputRecord)
    (hc : ∀ tok ∈ toks, (cutChars colon tok).isSome = true)
    (hacc : (acc.map Prod.fst).Nodup)
    (hnd : ¬ ((acc ++ toks.filterMap tokenPair).map Prod.fst).Nodup) :
    ∃ key, parsePairs toks acc =
      .error (.Errorf "duplicate key in command output: %s" [key]) := by
  induction toks generalizing acc with
  | nil => simp [hacc] at hnd
  | cons tok rest ih =>
    have h1 := hc tok (by simp)
    cases hcut : cutChars colon tok with
    | none => simp [hcut] at h1
    | some kv =>
      obtain ⟨key, val⟩ := kv
      have htp : tokenPair tok = some (String.mk key, String.mk val) := by
        simp [tokenPair, hcut]
      cases hg : Map.get? acc (String.mk key) with
      | some v => exact ⟨String.mk key, by simp [parsePairs, hcut, hg]⟩
      | none =>
        have hnm : String.mk key ∉ acc.map Prod.fst := (mapGet?_none_iff _ _).1 hg
        have hacc1 : ((acc ++ [(String.mk key, String.mk val)]).map Prod.fst).Nodup := by
          rw [List.map_append, List.nodup_append]
          refine ⟨hacc, by simp, ?_⟩
          intro x hx hx1
          simp only [List.map_cons, List.map_nil, List.mem_singleton] at hx1
          subst hx1
          exact hnm hx
        have hnd1 : ¬ (((acc ++ [(String.mk key, String.mk val)]) ++
            rest.filterMap tokenPair).map Prod.fst).Nodup := by
          simpa [List.filterMap_cons, htp] using hnd
        obtain ⟨k, hk⟩ := ih _ (fun t ht => hc t (by simp [ht])) hacc1 hnd1
        exact ⟨k, by simp [parsePairs, hcut, hg, hk]⟩

theorem parseLines_ok (total : Nat) (ht : total ≠ 0) (lines : List (List Char))
    (acc : List outputRecord)
    (h : ∀ line ∈ lines, (∀ tok ∈ lineTokens line, (cutChars colon tok).isSome = true) ∧
      ((lineRecord line).map Prod.fst).Nodup) :
    parseLines total lines acc = .ok (acc ++ lines.map lineRecord) := by
  induction lines generalizing acc with
  | nil => simp [parseLines]
  | cons line rest ih =>
    obtain ⟨h1, h2⟩ := h line (by simp)
    have hp := parsePairs_ok (lineTokens line) [] h1 (by simpa [lineRecord] using h2)
    simp only [lineTokens, List.nil_append] at hp
    simp only [parseLines, ht, if_false, hp]
    rw [ih _ (fun l hl => h l (by simp [hl]))]
    simp [lineRecord, lineTokens]

theorem parseLines_malformed (total : Nat) (ht : total ≠ 0) (lines : List (List Char))
    (acc : List outputRecord)
    (h : ∃ line ∈ lines, ∃ tok ∈ lineTokens line, cutChars colon tok = none) :
    ∃ e, parseLines total lines acc = .error e := by
  induction lines generalizing acc with
  | nil => simp at h
  | cons line rest ih =>
    cases hp : parsePairs (splitChars comma (trimSpace line)) [] with
    | error e => exact ⟨e, by simp [parseLines, ht, hp]⟩
    | ok record =>
      have hrest : ∃ l ∈ rest, ∃ tok ∈ lineTokens l, cutChars colon tok = none := by
        obtain ⟨l, hl, hbad⟩ := h
        rcases List.mem_cons.1 hl with hl | hl
        · subst hl
          obtain ⟨e, he⟩ := parsePairs_malformed (lineTokens l) [] hbad
          simp only [lineTokens] at he
          rw [hp] at he
          cases he
        · exact ⟨l, hl, hbad⟩
      obtain ⟨e, he⟩ := ih (acc ++ [record]) hrest
      exact ⟨e, by simp [parseLines, ht, hp, he]⟩

theorem parseLines_duplicate (total : Nat) (ht : total ≠ 0) (lines : List (List Char))
    (acc : List outputRecord)
    (hc : ∀ line ∈ lines, ∀ tok ∈ lineTokens line, (cutChars colon tok).isSome = true)
    (h : ∃ line ∈ lines, ¬ ((lineRecord line).map Prod.fst).Nodup) :
    ∃ key, parseLines total lines acc =
      .error (.Errorf "duplicate key in command output: %s" [key]) := by
  induction lines generalizing acc with
  | nil => simp at h
  | cons line rest ih =>
    by_cases hnd : ((lineRecord line).map Prod.fst).Nodup
    · have hp := parsePairs_ok (lineTokens line) [] (hc line (by simp))
        (by simpa [lineRecord] using hnd)
      simp only [lineTokens, List.nil_append] at hp
      have hrest : ∃ l ∈ rest, ¬ ((lineRecord l).map Prod.fst).Nodup := by
        obtain ⟨l, hl, hbad⟩ := h
        rcases List.mem_cons.1 hl with hl | hl
        · subst hl
          exact absurd hnd hbad
        · exact ⟨l, hl, hbad⟩
      obtain ⟨k, hk⟩ := ih (acc ++ [(lineTokens line).filterMap tokenPair])
        (fun l hl => hc l (by simp [hl])) hrest
      refine ⟨k, ?_⟩
      simp only [parseLines, ht, if_false, hp]
      simpa [lineTokens] using hk
    · obtain ⟨k, hk⟩ := parsePairs_duplicate (lineTokens line) [] (hc line (by simp))
        (by simp) (by simpa [lineRecord] using hnd)
      simp only [lineTokens] at hk
      exact ⟨k, by simp [parseLines, ht, hk]⟩

theorem splitChars_length_pos (sep : Char) (l : List Char) :
    (splitChars sep l).length ≠ 0 := by
  induction l with
  | nil => simp [splitChars]
  | cons c rest ih =>
    unfold splitChars
    split
    · simp
    · split
      · simp
      · simp

theorem parseOutput_eq_parseLines (output : String) (h : trimSpace output.data ≠ []) :
    parseOutput output =
      parseLines (outputLines output).length (outputLines output) [] := by
  unfold parseOutput outputLines
  simp [h]

theorem outputLines_length_pos (output : String) : (outputLines output).length ≠ 0 :=
  splitChars_length_pos _ _

/-! ## Maps, merging and sorted keys -/

theorem mapGet?_cons (k0 v0 : String) (rest : Map) (k : String) :
    Map.get? ((k0, v0) :: rest) k = if k0 = k then some v0 else Map.get? rest k := by
  unfold Map.get?
  by_cases h : k0 = k <;> simp [List.find?, h]

theorem mapGet?_set (m : Map) (k v k1 : String) :
    Map.get? (Map.set m k v) k1 = if k = k1 then some v else Map.get? m k1 := by
  induction m with
  | nil => simp [Map.set, mapGet?_cons, Map.get?]
  | cons e rest ih =>
    obtain ⟨k0, v0⟩ := e
    by_cases h : k0 = k
    · subst h
      simp only [Map.set, if_true, mapGet?_cons]
      split <;> rfl
    · simp only [Map.set, h, if_false, mapGet?_cons, ih]
      by_cases h1 : k0 = k1
      · subst h1
        simp [Ne.symm h]
      · simp [h1]

theorem mapSet_keys (m : Map) (k v : String) :
    (Map.set m k v).map Prod.fst =
      if k ∈ m.map Prod.fst then m.map Prod.fst else m.map Prod.fst ++ [k] := by
  induction m with
  | nil => simp [Map.set]
  | cons e rest ih =>
    obtain ⟨k0, v0⟩ := e
    by_cases h : k0 = k
    · subst h
      simp [Map.set]
    · simp only [Map.set, h, if_false, List.map_cons, ih, List.mem_cons, Ne.symm h, false_or]
      split <;> simp

theorem mapSet_mem_keys (m : Map) (k v k1 : String) :
    k1 ∈ (Map.set m k v).map Prod.fst ↔ k1 = k ∨ k1 ∈ m.map Prod.fst := by
  rw [mapSet_keys]
  split
  · rename_i h
    constructor
    · exact Or.inr
    · rintro (h1 | h1)
      · rw [h1]
        exact h
      · exact h1
  · simp [or_comm]

theorem mapSet_nodup (m : Map) (k v : String) (h : (m.map Prod.fst).Nodup) :
    ((Map.set m k v).map Prod.fst).Nodup := by
  rw [mapSet_keys]
  split
  · exact h
  · rename_i hk
    rw [List.nodup_append]
    refine ⟨h, by simp, ?_⟩
    intro x hx hx1
    simp only [List.mem_singleton] at hx1
    subst hx1
    exact hk hx

/-- One map merged into `res`: the value of a key is its value in the map, or
else its value in `res`. -/
theorem mergeOne_get? (m : Map) (hm : (m.map Prod.fst).Nodup) (res : Map) (k : String) :
    Map.get? (m.foldl (fun res e => Map.set res e.1 e.2) res) k =
      match Map.get? m k with
      | some v => some v
      | none => Map.get? res k := by
  induction m generalizing res with
  | nil => simp [Map.get?]
  | cons e rest ih =>
    obtain ⟨k0, v0⟩ := e
    simp only [List.map_cons, List.nodup_cons] at hm
    simp only [List.foldl_cons, ih hm.2, mapGet?_cons, mapGet?_set]
    by_cases h : k0 = k
    · subst h
      have : Map.get? rest k0 = none := (mapGet?_none_iff _ _).2 hm.1
      simp [this]
    · simp [h]

theorem mergeOne_mem_keys (m res : Map) (k : String) :
    k ∈ (m.foldl (fun res e => Map.set res e.1 e.2) res).map Prod.fst ↔
      k ∈ res.map Prod.fst ∨ k ∈ m.map Prod.fst := by
  induction m generalizing res with
  | nil => simp
  | cons e rest ih =>
    simp only [List.foldl_cons, ih, mapSet_mem_keys, List.map_cons, List.mem_cons]
    tauto

theorem mergeOne_nodup (m res : Map) (h : (res.map Prod.fst).Nodup) :
    ((m.foldl (fun res e => Map.set res e.1 e.2) res).map Prod.fst).Nodup := by
  induction m generalizing res with
  | nil => exact h
  | cons e rest ih => exact ih _ (mapSet_nodup _ _ _ h)

theorem mergeFold_get? (maps : List Map) (hm : ∀ m ∈ maps, (m.map Prod.fst).Nodup)
    (res : Map) (k : String) :
    Map.get?
        (maps.foldl (fun res m => m.foldl (fun res e => Map.set res e.1 e.2) res) res) k =
      match chainValue maps k with
      | some v => some v
      | none => Map.get? res k := by
  induction maps generalizing res with
  | nil => simp [chainValue]
  | cons m ms ih =>
    simp only [List.foldl_cons, ih (fun x hx => hm x (by simp [hx])), chainValue,
      mergeOne_get? m (hm m (by simp))]
    cases chainValue ms k <;> simp

theorem mergeFold_mem_keys (maps : List Map) (res : Map) (k : String) :
    k ∈ (maps.foldl (fun res m => m.foldl (fun res e => Map.set res e.1 e.2) res)
        res).map Prod.fst ↔
      k ∈ res.map Prod.fst ∨ ∃ m ∈ maps, k ∈ m.map Prod.fst := by
  induction maps generalizing res with
  | nil => simp
  | cons m ms ih =>
    simp only [List.foldl_cons, ih, mergeOne_mem_keys, List.mem_cons, exists_eq_or_imp]
    tauto

theorem mergeFold_nodup (maps : List Map) (res : Map) (h : (res.map Prod.fst).Nodup) :
    ((maps.foldl (fun res m => m.foldl (fun res e => Map.set res e.1 e.2) res)
        res).map Prod.fst).Nodup := by
  induction maps generalizing res with
  | nil => exact h
  | cons m ms ih => exact ih _ (mergeOne_nodup _ _ h)

theorem mergeMaps_get? (maps : List Map) (hm : ∀ m ∈ maps, (m.map Prod.fst).Nodup)
    (k : String) : Map.get? (mergeMaps maps) k = chainValue maps k := by
  unfold mergeMaps
  rw [mergeFold_get? maps hm]
  cases chainValue maps k <;> simp [Map.get?]

theorem mergeMaps_mem_keys (maps : List Map) (k : String) :
    k ∈ (mergeMaps maps).map Prod.fst ↔ ∃ m ∈ maps, k ∈ m.map Prod.fst := by
  unfold mergeMaps
  rw [mergeFold_mem_keys]
  simp

theorem mergeMaps_nodup (maps : List Map) : ((mergeMaps maps).map Prod.fst).Nodup :=
  mergeFold_nodup maps [] (by simp)

/-! ## The order of keys -/

theorem char_eq_of_toNat {a b : Char} (h : a.toNat = b.toNat) : a = b := by
  rw [← Char.ofNat_toNat a, ← Char.ofNat_toNat b, h]

theorem lessChars_irrefl (a : List Char) : lessChars a a = false := by
  induction a with
  | nil => rfl
  | cons c rest ih => simp [lessChars, ih]

theorem lessChars_asymm (a b : List Char) (h : lessChars a b = true) :
    lessChars b a = false := by
  induction a generalizing b with
  | nil =>
    cases b with
    | nil => rfl
    | cons d bs => rfl
  | cons c rest ih =>
    cases b with
    | nil => simp [lessChars] at h
    | cons d bs =>
      simp only [lessChars] at h ⊢
      split_ifs at h ⊢
      all_goals first
        | rfl
        | omega
        | exact ih bs h

theorem lessChars_trans (a b c : List Char) (h1 : lessChars a b = true)
    (h2 : lessChars b c = true) : lessChars a c = true := by
  induction a generalizing b c with
  | nil =>
    cases b with
    | nil => simp [lessChars] at h1
    | cons d bs =>
      cases c with
      | nil => simp [lessChars] at h2
      | cons e cs => rfl
  | cons x rest ih =>
    cases b with
    | nil => simp [lessChars] at h1
    | cons d bs =>
      cases c with
      | nil => simp [lessChars] at h2
      | cons e cs =>
        simp only [lessChars] at h1 h2 ⊢
        split_ifs at h1 h2 ⊢
        all_goals first
          | rfl
          | omega
          | exact ih bs cs h1 h2

theorem lessChars_total (a b : List Char) (h : a ≠ b) :
    lessChars a b = true ∨ lessChars b a = true := by
  induction a generalizing b with
  | nil =>
    cases b with
    | nil => exact absurd rfl h
    | cons d bs => exact Or.inl rfl
  | cons c rest ih =>
    cases b with
    | nil => exact Or.inr rfl
    | cons d bs =>
      simp only [lessChars]
      by_cases h1 : c.toNat < d.toNat
      · simp [h1]
      · by_cases h2 : d.toNat < c.toNat
        · simp [h2]
        · have hcd : c = d := char_eq_of_toNat (by omega)
          subst hcd
          have hne : rest ≠ bs := fun e => h (by rw [e])
          simpa [h1] using ih bs hne

theorem string_eq_of_data {a b : String} (h : a.data = b.data) : a = b := by
  cases a
  cases b
  simp only at h
  rw [h]

/-- The list that `sort.Strings` returns is a permutation of its input in
ascending order; without repeated strings, in strictly ascending order. -/
theorem sortStrings_spec (keys : List String) :
    (sortStrings keys).Perm keys ∧
    (keys.Nodup →
      (sortStrings keys).Pairwise (fun a b => lessChars a.data b.data = true)) := by
  have htotal : IsTotal String (fun a b => lessChars b.data a.data = false) :=
    ⟨fun a b => by
      by_cases h : lessChars b.data a.data = true
      · exact Or.inr (lessChars_asymm _ _ h)
      · exact Or.inl (by simpa using h)⟩
  have htrans : IsTrans String (fun a b => lessChars b.data a.data = false) :=
    ⟨fun a b c hab hbc => by
      by_contra hca
      have hca : lessChars c.data a.data = true := by simpa using hca
      by_cases hbc1 : b.data = c.data
      · rw [hbc1, hca] at hab
        cases hab
      · rcases lessChars_total _ _ hbc1 with h | h
        · rw [lessChars_trans _ _ _ h hca] at hab
          cases hab
        · rw [h] at hbc
          cases hbc⟩
  refine ⟨List.perm_insertionSort _ _, fun hnd => ?_⟩
  have hs : (sortStrings keys).Pairwise (fun a b => lessChars b.data a.data = false) :=
    List.sorted_insertionSort _ _
  have hn : (sortStrings keys).Pairwise (fun a b => a ≠ b) :=
    ((List.perm_insertionSort _ _).nodup_iff.2 hnd)
  refine (hs.and hn).imp ?_
  intro a b hab
  have hne : a.data ≠ b.data := fun e => hab.2 (string_eq_of_data e)
  rcases lessChars_total _ _ hne with h | h
  · exact h
  · rw [h] at hab
    exact absurd hab.1 (by simp)

/-- Two strictly ascending lists with the same members are equal. -/
theorem eq_of_strictly_ascending {l1 l2 : List String}
    (h1 : l1.Pairwise (fun a b => lessChars a.data b.data = true))
    (h2 : l2.Pairwise (fun a b => lessChars a.data b.data = true))
    (hmem : ∀ k, k ∈ l1 ↔ k ∈ l2) : l1 = l2 := by
  have hanti : IsAntisymm String (fun a b => lessChars a.data b.data = true) :=
    ⟨fun a b hab hba => by
      rw [lessChars_asymm _ _ hab] at hba
      cases hba⟩
  have hnd : ∀ l : List String, l.Pairwise (fun a b => lessChars a.data b.data = true) →
      l.Nodup := by
    intro l hl
    refine hl.imp ?_
    intro a b hab e
    subst e
    rw [lessChars_irrefl] at hab
    cases hab
  exact List.eq_of_perm_of_sorted ((List.perm_ext_iff_of_nodup (hnd _ h1) (hnd _ h2)).2 hmem)
    h1 h2

theorem foldl_append_flatMap {α β : Type} (f : α → List β) (l : List α) (init : List β) :
    l.foldl (fun args k => args ++ f k) init = init ++ l.flatMap f := by
  induction l generalizing init with
  | nil => simp
  | cons x rest ih => simp [ih, List.flatMap_cons]

theorem mapGet?_eq_some_iff (m : Map) (hm : (m.map Prod.fst).Nodup) (k v : String) :
    Map.get? m k = some v ↔ (k, v) ∈ m := by
  induction m with
  | nil => simp [Map.get?]
  | cons e rest ih =>
    obtain ⟨k0, v0⟩ := e
    simp only [List.map_cons, List.nodup_cons] at hm
    rw [mapGet?_cons]
    by_cases h : k0 = k
    · subst h
      simp only [if_true, Option.some.injEq, List.mem_cons, Prod.mk.injEq, true_and]
      constructor
      · intro e
        exact Or.inl e.symm
      · rintro (e | e)
        · exact e.symm
        · exact absurd (List.mem_map_of_mem Prod.fst e) hm.1
    · simp only [h, if_false, ih hm.2, List.mem_cons, Prod.mk.injEq]
      constructor
      · exact Or.inr
      · rintro (e | e)
        · exact absurd e.1.symm h
        · exact e

theorem mapGet?_perm {m1 m2 : Map} (hp : m1.Perm m2) (hm : (m1.map Prod.fst).Nodup)
    (k : String) : Map.get? m1 k = Map.get? m2 k := by
  have hm2 : (m2.map Prod.fst).Nodup := (hp.map Prod.fst).nodup_iff.1 hm
  cases h1 : Map.get? m1 k with
  | some v =>
    exact ((mapGet?_eq_some_iff m2 hm2 k v).2
      (hp.mem_iff.1 ((mapGet?_eq_some_iff m1 hm k v).1 h1))).symm
  | none =>
    cases h2 : Map.get? m2 k with
    | none => rfl
    | some v =>
      have := (mapGet?_eq_some_iff m1 hm k v).2
        (hp.mem_iff.2 ((mapGet?_eq_some_iff m2 hm2 k v).1 h2))
      rw [h1] at this
      cases this

theorem chainValue_perm {maps1 maps2 : List Map}
    (hp : List.Forall₂ (fun m1 m2 => m1.Perm m2) maps1 maps2)
    (hm : ∀ m ∈ maps1, (m.map Prod.fst).Nodup) (k : String) :
    chainValue maps1 k = chainValue maps2 k := by
  induction hp with
  | nil => rfl
  | cons h _ ih =>
    simp only [chainValue, ih (fun m hmem => hm m (by simp [hmem])),
      mapGet?_perm h (hm _ (by simp))]

/-- What `envArgs` returns for maps without repeated keys: the `-e` flags of
a strictly ascending list of the keys of the maps. -/
theorem envArgs_flags (os : OS) (maps : List Map)
    (hm : ∀ m ∈ maps, (m.map Prod.fst).Nodup) :
    ∃ keys : List String,
      envArgs os maps =
        keys.flatMap
          (fun k => ["-e", k ++ "=" ++ os.ExpandEnv ((chainValue maps k).getD "")]) ∧
      keys.Pairwise (fun a b => lessChars a.data b.data = true) ∧
      ∀ k, k ∈ keys ↔ ∃ m ∈ maps, k ∈ m.map Prod.fst := by
  refine ⟨sortStrings ((mergeMaps maps).map Prod.fst), ?_,
    (sortStrings_spec _).2 (mergeMaps_nodup maps), ?_⟩
  · unfold envArgs
    simp only [foldl_append_flatMap, List.nil_append, mergeMaps_get? maps hm]
  · intro k
    rw [(sortStrings_spec _).1.mem_iff, mergeMaps_mem_keys]

theorem paneApplyResult_calls (R : Runner) (ctx : Context) (a : Nat) (pane : Pane)
    (wa : Nat) (win : Window) (sess : Session) (args : List String) (w : World) :
    ∃ l, (paneApplyResult R ctx a pane wa win sess args w).world.calls =
      w.calls ++ .Run args :: l := by
  unfold paneApplyResult
  cases hr : R.Run ctx w.calls args with
  | mk output err =>
  cases err with
  | some e => exact ⟨[], by simp⟩
  | none =>
  simp only []
  cases hout : (if R.IsDryRun = true then
      (Pane.dryRunRecord (some a) { w with calls := w.calls ++ [.Run args] }).val?
      else some output) with
  | none => exact ⟨[], by simp⟩
  | some out =>
  simp only []
  cases hpo : parseOutput out with
  | error e => exact ⟨[], by simp⟩
  | ok records =>
  cases records with
  | nil => exact ⟨[], by simp⟩
  | cons record rest =>
    simp only []
    obtain ⟨_, _, _, l, hl, _⟩ := keeps_PaneRunCommands R ctx (some a)
      (sess.onPaneCommands ++ pane.cmds)
      { w with
        panes := w.panes.set a (pane.created a record)
        windows := w.windows.set wa (win.addPane a)
        calls := w.calls ++ [.Run args] }
    exact ⟨l, by rw [hl]; simp⟩

/-! ## The index of a created pane -/

/-- The index that `Pane.update` leaves: the value of `pane_index` in the
record when there is one that is not empty, and the old index otherwise. -/
theorem paneUpdate_index (record : outputRecord) (p : Pane)
    (hnd : (record.map Prod.fst).Nodup) :
    (p.update record).index =
      if (Map.get? record "pane_index").getD "" = "" then p.index
      else (Map.get? record "pane_index").getD "" := by
  have hkeep : ∀ (r : outputRecord) (p0 : Pane), "pane_index" ∉ r.map Prod.fst →
      (r.foldl (fun p e =>
        if e.2 = "" then p
        else if e.1 = "pane_id" then { p with id := e.2 }
        else if e.1 = "pane_path" then { p with path := e.2 }
        else if e.1 = "pane_index" then { p with index := e.2 }
        else if e.1 = "pane_width" then { p with width := e.2 }
        else if e.1 = "pane_height" then { p with height := e.2 }
        else p) p0).index = p0.index := by
    intro r
    induction r with
    | nil => intro p0 _; rfl
    | cons e rest ih =>
      intro p0 hno
      simp only [List.map_cons, List.mem_cons, not_or] at hno
      simp only [List.foldl_cons]
      rw [ih _ hno.2]
      have hne : ¬ e.1 = "pane_index" := fun h => hno.1 h.symm
      split_ifs <;> rfl
  unfold Pane.update
  simp only
  induction record generalizing p with
  | nil => simp [Map.get?]
  | cons e rest ih =>
    obtain ⟨k, v⟩ := e
    simp only [List.map_cons, List.nodup_cons] at hnd
    simp only [List.foldl_cons, mapGet?_cons]
    by_cases hk : k = "pane_index"
    · subst hk
      rw [hkeep rest _ hnd.1]
      by_cases he : v = ""
      · simp [he]
      · have h1 : ¬ "pane_index" = "pane_id" := by decide
        have h2 : ¬ "pane_index" = "pane_path" := by decide
        simp [he, h1, h2]
    · simp only [hk, if_false]
      rw [ih _ hnd.2]
      split_ifs <;> rfl

theorem applyOpts_index (opts : List PaneOption)
    (h : ∀ opt ∈ opts, ∀ p p1 : Pane, opt p = .ok p1 → p1.index = p.index)
    (p p1 : Pane) (hp : applyOpts opts p = .ok p1) : p1.index = p.index := by
  induction opts generalizing p with
  | nil =>
    simp only [applyOpts, Except.ok.injEq] at hp
    rw [hp]
  | cons opt rest ih =>
    simp only [applyOpts] at hp
    cases ho : opt p with
    | error e => simp [ho] at hp
    | ok p2 =>
      simp only [ho] at hp
      rw [ih (fun o hmem => h o (by simp [hmem])) p2 hp, h opt (by simp) p p2 ho]

/-- The options that `makePaneOpts` builds leave the index of a pane alone. -/
theorem makePaneOpts_index (pCfg : PaneConfig) (p p1 : Pane)
    (hp : applyOpts (makePaneOpts pCfg) p = .ok p1) : p1.index = p.index := by
  refine applyOpts_index _ ?_ p p1 hp
  have step : ∀ (c : Prop) [Decidable c] (opts : List PaneOption) (o : PaneOption),
      (∀ opt ∈ opts, ∀ p p1 : Pane, opt p = .ok p1 → p1.index = p.index) →
      (∀ p p1 : Pane, o p = .ok p1 → p1.index = p.index) →
      ∀ opt ∈ (if c then opts ++ [o] else opts),
        ∀ p p1 : Pane, opt p = .ok p1 → p1.index = p.index := by
    intro c _ opts o h1 h2 opt hmem
    split at hmem
    · rcases List.mem_append.1 hmem with hm | hm
      · exact h1 opt hm
      · simp only [List.mem_singleton] at hm
        subst hm
        exact h2
    · exact h1 opt hmem
  have pres : ∀ (f : Pane → Pane), (∀ p, (f p).index = p.index) →
      ∀ p p1 : Pane, (fun p => Except.ok (f p) : PaneOption) p = .ok p1 →
        p1.index = p.index := by
    intro f hf p p1 h
    simp only [Except.ok.injEq] at h
    rw [← h, hf]
  unfold makePaneOpts
  exact step _ _ _
    (step _ _ _
      (step _ _ _
        (step _ _ _
          (step _ _ _
            (step _ _ _
              (step _ _ _ (by simp) (pres _ (fun _ => rfl)))
              (pres _ (fun _ => rfl)))
            (pres _ (fun _ => rfl)))
          (pres _ (fun _ => rfl)))
        (pres _ (fun _ => rfl)))
      (pres _ (fun _ => rfl)))
    (pres _ (fun _ => rfl))

/-- A pane that `NewPane` builds from a pane configuration has no index. -/
theorem newPane_index {runner : Option Runner} {window parent : Option Nat}
    {pCfg : PaneConfig} {w w1 : World} {a : Nat}
    (h : NewPane runner window parent (makePaneOpts pCfg) w = .ok (some a, none) w1) :
    ∃ pane, w1.panes[a]? = some pane ∧ pane.index = "" := by
  unfold NewPane at h
  cases runner with
  | none => simp at h
  | some R =>
  cases window with
  | none => simp at h
  | some wa =>
  simp only [bind_run] at h
  cases hw : getWindow (some wa) w with
  | panic w2 => simp [hw] at h
  | ok win w2 =>
  cases world_of_ok (readOnly_getWindow _) hw
  simp only [hw] at h
  cases hsa : win.sess with
  | none => simp [hsa] at h
  | some sa =>
  simp only [hsa, bind_run] at h
  cases hs : getSession (some sa) w with
  | panic w2 => simp [hs] at h
  | ok sess w2 =>
  cases world_of_ok (readOnly_getSession _) hs
  simp only [hs] at h
  cases hcs : sess.checkState with
  | some e => simp [hcs] at h
  | none =>
  simp only [hcs, bind_run] at h
  have hperr : ∀ (perr : Option Error) (w3 : World), w3 = w →
      (match perr with
        | some err =>
          (pure (none, some (Error.Wrapf "checking parent pane state: %w" [] err)) :
            Exec (Option Nat × Option Error))
        | none =>
          match applyOpts (makePaneOpts pCfg)
              ({ sess := some sa, win := some wa, pane := parent, state := .stateNew } :
                Pane) with
          | .error err => pure (none, some (Error.Wrapf "applying pane option: %w" [] err))
          | .ok p => do
            let a ← allocPane p
            pure (some a, none)) w3 = .ok (some a, none) w1 →
      ∃ pane, w1.panes[a]? = some pane ∧ pane.index = "" := by
    intro perr w3 hw3 hres
    subst hw3
    cases perr with
    | some e => simp at hres
    | none =>
      simp only at hres
      cases ho : applyOpts (makePaneOpts pCfg)
          ({ sess := some sa, win := some wa, pane := parent, state := .stateNew } : Pane) with
      | error e => simp [ho] at hres
      | ok p =>
        simp only [ho, bind_run, allocPane, pure_run, Result.ok.injEq, Prod.mk.injEq,
          Option.some.injEq, and_true] at hres
        obtain ⟨ha, hw1⟩ := hres
        subst ha
        subst hw1
        exact ⟨p, by simp, by rw [makePaneOpts_index pCfg _ p ho]⟩
  cases parent with
  | none =>
    simp only [pure_run] at h
    exact hperr none w rfl h
  | some pp =>
    simp only at h
    cases hcp : Pane.checkState (some pp) w with
    | panic w2 => simp [bind_run, hcp] at h
    | ok perr w2 =>
      cases world_of_ok (readOnly_PaneCheckState _) hcp
      simp only [bind_run, hcp] at h
      exact hperr perr w rfl h

theorem getLast?_getD_cons (x cur : Nat) (l : List Nat) :
    ((x :: l).getLast?).getD cur = (l.getLast?).getD x := by
  cases l with
  | nil => rfl
  | cons y l1 =>
    rw [List.getLast?_cons_cons, List.getLast?_eq_getLast _ (by simp)]
    rfl

theorem findActiveWindow_eq (w : World) (rest : List Nat) (cur : Nat)
    (hv : ∀ x ∈ rest, (w.windows[x]?).isSome = true) :
    findActiveWindow rest cur w =
      .ok (((rest.filter w.windowActive).getLast?).getD cur) w := by
  induction rest generalizing cur with
  | nil => rfl
  | cons x rest ih =>
    have hx := hv x (by simp)
    cases hwx : w.windows[x]? with
    | none => simp [hwx] at hx
    | some win =>
      have hrest : ∀ y ∈ rest, (w.windows[y]?).isSome = true :=
        fun y hy => hv y (by simp [hy])
      simp only [findActiveWindow, bind_run, getWindow, hwx]
      by_cases ha : win.IsActive = true
      · have hax : w.windowActive x = true := by simp [World.windowActive, hwx, ha]
        simp only [ha, if_true, ih x hrest, List.filter_cons, hax, getLast?_getD_cons]
      · have hax : w.windowActive x = false := by simp [World.windowActive, hwx, ha]
        simp [ha, ih cur hrest, List.filter_cons, hax]

theorem findActivePane_none (w : World) (panes : List Nat)
    (h : ∀ p ∈ panes, ∃ pane, w.panes[p]? = some pane ∧ pane.active = false) :
    findActivePane panes none w = .ok none w := by
  induction panes with
  | nil => rfl
  | cons p rest ih =>
    obtain ⟨pane, hp, ha⟩ := h p (by simp)
    simp only [findActivePane, bind_run, getPane, hp, Pane.IsActive, ha]
    exact ih (fun q hq => h q (by simp [hq]))

/-! ## Selecting a window and its pane -/

theorem findActivePane_some (w : World) (p : Nat) (pane : Pane) (panes : List Nat)
    (acc : Option Nat) (hp : w.panes[p]? = some pane) (hact : pane.active = true)
    (h : ∀ q ∈ panes, q ≠ p → ∃ other, w.panes[q]? = some other ∧ other.active = false) :
    findActivePane panes acc w = .ok (if p ∈ panes then some p else acc) w := by
  induction panes generalizing acc with
  | nil => rfl
  | cons q rest ih =>
    by_cases hq : q = p
    · subst hq
      simp only [findActivePane, bind_run, getPane, hp, Pane.IsActive, hact, if_true]
      rw [ih (some q) (fun x hx => h x (by simp [hx]))]
      simp
    · obtain ⟨other, ho, hna⟩ := h q (by simp) hq
      simp only [findActivePane, bind_run, getPane, ho, Pane.IsActive, hna,
        Bool.false_eq_true, if_false]
      rw [ih acc (fun x hx => h x (by simp [hx]))]
      have hpq : ¬ p = q := fun e => hq e.symm
      simp [hpq]

/-! ## The creation step of `Session.Apply`, and the step of `Window.Apply` in all its cases -/

theorem sessionApply_eq {R : Runner} {ctx : Context} {a : Nat} {w : World} {sess : Session}
    (hctx : ctx.Err = none) (hs : w.sessions[a]? = some sess)
    (hnew : sess.state = .stateNew) :
    Session.Apply R ctx (some a) w = sessionApplyResult R ctx a sess w := by
  have hc : sess.state ≠ .stateClosed := by rw [hnew]; decide
  have ha : sess.state ≠ .stateApplied := by rw [hnew]; decide
  unfold sessionApplyResult
  cases hr : R.Run ctx w.calls sess.newSessionArgs with
  | mk output err =>
  cases err with
  | some e =>
    simp [Session.Apply, hctx, getSession, hs, Session.IsClosed, Session.IsApplied, hc, ha,
      Run, hr]
  | none =>
    cases hpo : parseOutput (if R.IsDryRun = true then sess.dryRunRecord else output) with
    | error e =>
      simp [Session.Apply, hctx, getSession, hs, Session.IsClosed, Session.IsApplied, hc, ha,
        Run, hr, hpo]
    | ok records =>
      cases records with
      | nil =>
        simp [Session.Apply, hctx, getSession, hs, Session.IsClosed, Session.IsApplied, hc,
          ha, Run, hr, hpo, panic]
      | cons record rest =>
        simp [Session.Apply, hctx, getSession, hs, Session.IsClosed, Session.IsApplied, hc,
          ha, Run, hr, hpo, setSession]

theorem sessionApplyResult_calls (R : Runner) (ctx : Context) (a : Nat) (sess : Session)
    (w : World) :
    (sessionApplyResult R ctx a sess w).world.calls =
      w.calls ++ [.Run sess.newSessionArgs] := by
  unfold sessionApplyResult
  cases hr : R.Run ctx w.calls sess.newSessionArgs with
  | mk output err =>
  cases err with
  | some e => simp [Result.world]
  | none =>
    cases hpo : parseOutput (if R.IsDryRun = true then sess.dryRunRecord else output) with
    | error e => simp [Result.world, hpo]
    | ok records =>
      cases records with
      | nil => simp [Result.world, hpo]
      | cons record rest => simp [Result.world, hpo]

theorem windowApply_eq {os : OS} {R : Runner} {ctx : Context} {a sa : Nat} {w : World}
    {win : Window} {sess : Session}
    (hctx : ctx.Err = none) (hw : w.windows[a]? = some win) (hnew : win.state = .stateNew)
    (hsa : win.sess = some sa) (hs : w.sessions[sa]? = some sess)
    (hsc : sess.state ≠ .stateClosed) :
    Window.Apply os R ctx (some a) w = windowApplyResult os R ctx a win sa sess w := by
  have hwc : win.state ≠ .stateClosed := by rw [hnew]; decide
  have hwa : win.state ≠ .stateApplied := by rw [hnew]; decide
  unfold windowApplyResult
  cases hr : R.Run ctx w.calls (win.newWindowArgs os sess) with
  | mk output err =>
  cases err with
  | some e =>
    simp [Window.Apply, hctx, Window.IsClosed, getWindow, hw, hwc, getSession, hsa, hs,
      Session.IsClosed, hsc, Window.IsApplied, hwa, Run, hr]
  | none =>
  cases hd : R.IsDryRun with
  | false =>
    cases hpo : parseOutput output with
    | error e =>
      simp [Window.Apply, hctx, Window.IsClosed, getWindow, hw, hwc, getSession, hsa, hs,
        Session.IsClosed, hsc, Window.IsApplied, hwa, Run, hr, hd, hpo]
    | ok records =>
      cases records with
      | nil =>
        simp [Window.Apply, hctx, Window.IsClosed, getWindow, hw, hwc, getSession, hsa, hs,
          Session.IsClosed, hsc, Window.IsApplied, hwa, Run, hr, hd, hpo, panic]
      | cons record rest =>
        simp [Window.Apply, hctx, Window.IsClosed, getWindow, hw, hwc, getSession, hsa, hs,
          Session.IsClosed, hsc, Window.IsApplied, hwa, Run, hr, hd, hpo, setWindow,
          setSession]
  | true =>
    cases hdr : Window.dryRunRecord (some a)
        { w with calls := w.calls ++ [.Run (win.newWindowArgs os sess)] } with
    | panic w1 =>
      cases world_of_panic (readOnly_WindowDryRunRecord _) hdr
      simp [Window.Apply, hctx, Window.IsClosed, getWindow, hw, hwc, getSession, hsa, hs,
        Session.IsClosed, hsc, Window.IsApplied, hwa, Run, hr, hd, hdr, Result.val?]
    | ok text w1 =>
      cases world_of_ok (readOnly_WindowDryRunRecord _) hdr
      cases hpo : parseOutput text with
      | error e =>
        simp [Window.Apply, hctx, Window.IsClosed, getWindow, hw, hwc, getSession, hsa, hs,
          Session.IsClosed, hsc, Window.IsApplied, hwa, Run, hr, hd, hdr, hpo, Result.val?]
      | ok records =>
        cases records with
        | nil =>
          simp [Window.Apply, hctx, Window.IsClosed, getWindow, hw, hwc, getSession, hsa,
            hs, Session.IsClosed, hsc, Window.IsApplied, hwa, Run, hr, hd, hdr, hpo,
            Result.val?, panic]
        | cons record rest =>
          simp [Window.Apply, hctx, Window.IsClosed, getWindow, hw, hwc, getSession, hsa,
            hs, Session.IsClosed, hsc, Window.IsApplied, hwa, Run, hr, hd, hdr, hpo,
            Result.val?, setWindow, setSession]

/-! ## What the constructors check -/

theorem applyOpts_state {α : Type} (st : α → state) (opts : List (α → Except Error α))
    (h : ∀ opt ∈ opts, ∀ x x1 : α, opt x = .ok x1 → st x1 = st x)
    (x x1 : α) (hx : applyOpts opts x = .ok x1) : st x1 = st x := by
  induction opts generalizing x with
  | nil =>
    simp only [applyOpts, Except.ok.injEq] at hx
    rw [hx]
  | cons opt rest ih =>
    simp only [applyOpts] at hx
    cases ho : opt x with
    | error e => simp [ho] at hx
    | ok x2 =>
      simp only [ho] at hx
      rw [ih (fun o hmem => h o (by simp [hmem])) x2 hx, h opt (by simp) x x2 ho]

/-- What a successful `NewSession` has done. -/
theorem newSession_ok {runner : Option Runner} {opts : List SessionOption} {w w1 : World}
    {a : Nat} (h : NewSession runner opts w = .ok (some a, none) w1) :
    runner ≠ none ∧ a = w.sessions.length ∧
    ∃ s, applyOpts opts ({ state := .stateNew } : Session) = .ok s ∧
      w1 = { w with sessions := w.sessions ++ [s] } := by
  unfold NewSession at h
  cases runner with
  | none => simp at h
  | some R =>
    simp only at h
    cases ho : applyOpts opts ({ state := .stateNew } : Session) with
    | error e => simp [ho] at h
    | ok s =>
      simp only [ho, bind_run, allocSession, pure_run, Result.ok.injEq, Prod.mk.injEq,
        Option.some.injEq, and_true] at h
      exact ⟨by simp, h.1.symm, s, rfl, h.2.symm⟩

/-- What a successful `NewWindow` has checked and done. -/
theorem newWindow_ok {runner : Option Runner} {session : Option Nat}
    {opts : List WindowOption} {w w1 : World} {a : Nat}
    (h : NewWindow runner session opts w = .ok (some a, none) w1) :
    runner ≠ none ∧ a = w.windows.length ∧
    ∃ sa sess x, session = some sa ∧ w.sessions[sa]? = some sess ∧
      sess.state = .stateApplied ∧
      applyOpts opts ({ sess := session, state := .stateNew } : Window) = .ok x ∧
      w1 = { w with windows := w.windows ++ [x] } := by
  unfold NewWindow at h
  cases runner with
  | none => simp at h
  | some R =>
  cases session with
  | none => simp at h
  | some sa =>
  simp only [bind_run] at h
  cases hs : getSession (some sa) w with
  | panic w2 => simp [hs] at h
  | ok sess w2 =>
  cases world_of_ok (readOnly_getSession _) hs
  have hs1 : w.sessions[sa]? = some sess := by
    simp only [getSession] at hs
    cases hx : w.sessions[sa]? with
    | none => simp [hx] at hs
    | some y =>
      simp only [hx, Result.ok.injEq, and_true] at hs
      rw [hs]
  simp only [hs] at h
  cases hcs : sess.checkState with
  | some e => simp [hcs] at h
  | none =>
  have happ : sess.state = .stateApplied := by
    simp only [Session.checkState, Session.IsClosed, Session.IsApplied] at hcs
    by_contra hne
    by_cases hc : sess.state = .stateClosed
    · simp [hc] at hcs
    · simp [hc, hne] at hcs
  simp only [hcs] at h
  cases ho : applyOpts opts ({ sess := some sa, state := .stateNew } : Window) with
  | error e => simp [ho] at h
  | ok x =>
    simp only [ho, bind_run, allocWindow, pure_run, Result.ok.injEq, Prod.mk.injEq,
      Option.some.injEq, and_true] at h
    exact ⟨by simp, h.1.symm, sa, sess, x, rfl, hs1, happ, rfl, h.2.symm⟩

/-- What a successful `NewPane` has checked and done. The state of the window
is not among the things checked. -/
theorem newPane_ok {runner : Option Runner} {window parent : Option Nat}
    {opts : List PaneOption} {w w1 : World} {a : Nat}
    (h : NewPane runner window parent opts w = .ok (some a, none) w1) :
    runner ≠ none ∧ a = w.panes.length ∧
    ∃ wa win sa sess x, window = some wa ∧ w.windows[wa]? = some win ∧
      win.sess = some sa ∧ w.sessions[sa]? = some sess ∧ sess.state = .stateApplied ∧
      (∀ pp, parent = some pp → Pane.checkState (some pp) w = .ok none w) ∧
      applyOpts opts
        ({ sess := win.sess, win := window, pane := parent, state := .stateNew } : Pane) =
          .ok x ∧
      w1 = { w with panes := w.panes ++ [x] } := by
  unfold NewPane at h
  cases runner with
  | none => simp at h
  | some R =>
  cases window with
  | none => simp at h
  | some wa =>
  simp only [bind_run] at h
  cases hw : getWindow (some wa) w with
  | panic w2 => simp [hw] at h
  | ok win w2 =>
  cases world_of_ok (readOnly_getWindow _) hw
  have hw1 : w.windows[wa]? = some win := by
    simp only [getWindow] at hw
    cases hx : w.windows[wa]? with
    | none => simp [hx] at hw
    | some y =>
      simp only [hx, Result.ok.injEq, and_true] at hw
      rw [hw]
  simp only [hw] at h
  cases hsa : win.sess with
  | none => simp [hsa] at h
  | some sa =>
  simp only [hsa, bind_run] at h
  cases hs : getSession (some sa) w with
  | panic w2 => simp [hs] at h
  | ok sess w2 =>
  cases world_of_ok (readOnly_getSession _) hs
  have hs1 : w.sessions[sa]? = some sess := by
    simp only [getSession] at hs
    cases hx : w.sessions[sa]? with
    | none => simp [hx] at hs
    | some y =>
      simp only [hx, Result.ok.injEq, and_true] at hs
      rw [hs]
  simp only [hs] at h
  cases hcs : sess.checkState with
  | some e => simp [hcs] at h
  | none =>
  have happ : sess.state = .stateApplied := by
    simp only [Session.checkState, Session.IsClosed, Session.IsApplied] at hcs
    by_contra hne
    by_cases hc : sess.state = .stateClosed
    · simp [hc] at hcs
    · simp [hc, hne] at hcs
  simp only [hcs, bind_run] at h
  have hperr : ∀ (perr : Option Error),
      (match perr with
        | some err =>
          (pure (none, some (Error.Wrapf "checking parent pane state: %w" [] err)) :
            Exec (Option Nat × Option Error))
        | none =>
          match applyOpts opts
              ({ sess := some sa, win := some wa, pane := parent, state := .stateNew } :
                Pane) with
          | .error err => pure (none, some (Error.Wrapf "applying pane option: %w" [] err))
          | .ok p => do
            let a ← allocPane p
            pure (some a, none)) w = .ok (some a, none) w1 →
      perr = none ∧ a = w.panes.length ∧
      ∃ x, applyOpts opts
          ({ sess := some sa, win := some wa, pane := parent, state := .stateNew } : Pane) =
            .ok x ∧
        w1 = { w with panes := w.panes ++ [x] } := by
    intro perr hres
    cases perr with
    | some e => simp at hres
    | none =>
      simp only at hres
      cases ho : applyOpts opts
          ({ sess := some sa, win := some wa, pane := parent, state := .stateNew } : Pane) with
      | error e => simp [ho] at hres
      | ok p =>
        simp only [ho, bind_run, allocPane, pure_run, Result.ok.injEq, Prod.mk.injEq,
          Option.some.injEq, and_true] at hres
        exact ⟨rfl, hres.1.symm, p, rfl, hres.2.symm⟩
  cases parent with
  | none =>
    simp only [pure_run] at h
    obtain ⟨_, ha, x, hx, hw1'⟩ := hperr none h
    exact ⟨by simp, ha, wa, win, sa, sess, x, rfl, hw1, hsa, hs1, happ, by simp,
      by rw [hsa]; exact hx, hw1'⟩
  | some pp =>
    simp only at h
    cases hcp : Pane.checkState (some pp) w with
    | panic w2 => simp [bind_run, hcp] at h
    | ok perr w2 =>
      cases world_of_ok (readOnly_PaneCheckState _) hcp
      simp only [bind_run, hcp] at h
      obtain ⟨hpe, ha, x, hx, hw1'⟩ := hperr perr h
      subst hpe
      refine ⟨by simp, ha, wa, win, sa, sess, x, rfl, hw1, hsa, hs1, happ, ?_,
        by rw [hsa]; exact hx, hw1'⟩
      intro pp1 hpp1
      cases hpp1
      exact hcp

/-- The check of `Pane.checkState` passes for applied panes only. -/
theorem paneCheckState_none {pp : Nat} {w : World}
    (h : Pane.checkState (some pp) w = .ok none w) :
    ∃ parent, w.panes[pp]? = some parent ∧ parent.state = .stateApplied := by
  simp only [Pane.checkState, bind_run] at h
  cases hc : Pane.IsClosed (some pp) w with
  | panic w2 => simp [hc] at h
  | ok b w2 =>
    cases world_of_ok (readOnly_PaneIsClosed _) hc
    simp only [hc] at h
    cases b with
    | true => simp at h
    | false =>
      simp only [Bool.false_eq_true, if_false, bind_run] at h
      cases hg : getPane (some pp) w with
      | panic w3 => simp [hg] at h
      | ok parent w3 =>
        cases world_of_ok (readOnly_getPane _) hg
        simp only [hg] at h
        have hp1 : w.panes[pp]? = some parent := by
          simp only [getPane] at hg
          cases hx : w.panes[pp]? with
          | none => simp [hx] at hg
          | some y =>
            simp only [hx, Result.ok.injEq, and_true] at hg
            rw [hg]
        refine ⟨parent, hp1, ?_⟩
        by_contra hne
        simp [Pane.IsApplied, hne] at h

theorem newWindow_run {R : Runner} {sa : Nat} {sess : Session} {opts : List WindowOption}
    {x : Window} {w : World} (hs : w.sessions[sa]? = some sess)
    (happ : sess.state = .stateApplied)
    (ho : applyOpts opts ({ sess := some sa, state := .stateNew } : Window) = .ok x) :
    NewWindow (some R) (some sa) opts w =
      .ok (some w.windows.length, none) { w with windows := w.windows ++ [x] } := by
  simp [NewWindow, getSession, hs, Session.checkState, Session.IsClosed, Session.IsApplied,
    happ, ho, allocWindow]

theorem newPane_run {R : Runner} {wa sa : Nat} {win : Window} {sess : Session}
    {parent : Option Nat} {opts : List PaneOption} {x : Pane} {w : World}
    (hw : w.windows[wa]? = some win) (hsa : win.sess = some sa)
    (hs : w.sessions[sa]? = some sess) (happ : sess.state = .stateApplied)
    (hpar : ∀ pp, parent = some pp → Pane.checkState (some pp) w = .ok none w)
    (ho : applyOpts opts
      ({ sess := win.sess, win := some wa, pane := parent, state := .stateNew } : Pane) =
        .ok x) :
    NewPane (some R) (some wa) parent opts w =
      .ok (some w.panes.length, none) { w with panes := w.panes ++ [x] } := by
  rw [hsa] at ho
  cases parent with
  | none =>
    simp [NewPane, getWindow, hw, hsa, getSession, hs, Session.checkState, Session.IsClosed,
      Session.IsApplied, happ, ho, allocPane]
  | some pp =>
    have hc := hpar pp rfl
    simp [NewPane, getWindow, hw, hsa, getSession, hs, Session.checkState, Session.IsClosed,
      Session.IsApplied, happ, hc, ho, allocPane]

/-! ## Names of environment variables -/

theorem envVarRE_iff (k : String) :
    envVarRE k = true ↔
      ∃ c rest, k.data = c :: rest ∧ isEnvVarStart c = true ∧ rest ≠ [] ∧
        ∀ d ∈ rest, isEnvVarChar d = true := by
  unfold envVarRE
  cases hk : k.data with
  | nil => simp
  | cons c rest =>
    simp only [Bool.and_eq_true, Bool.not_eq_true', List.isEmpty_eq_false, List.all_eq_true,
      List.cons.injEq, exists_and_left]
    constructor
    · rintro ⟨⟨h1, h2⟩, h3⟩
      exact ⟨c, rest, ⟨rfl, rfl⟩, h1, h2, h3⟩
    · rintro ⟨c1, rest1, ⟨rfl, rfl⟩, h1, h2, h3⟩
      exact ⟨⟨h1, h2⟩, h3⟩

theorem envVarMapRule_none_iff (m : Map) :
    envVarMapRule m = none ↔ ∀ k ∈ m.map Prod.fst, envVarRE k = true := by
  induction m with
  | nil => simp [envVarMapRule]
  | cons e rest ih =>
    obtain ⟨k, v⟩ := e
    by_cases hk : envVarRE k = true
    · simp [envVarMapRule, hk, ih]
    · simp [envVarMapRule, hk]

theorem envVarMapRule_some (m : Map) (e : Error) (h : envVarMapRule m = some e) :
    ∃ k ∈ m.map Prod.fst, envVarRE k = false ∧
      e = .Errorf "%q is not a valid environment variable name" [k] := by
  induction m with
  | nil => simp [envVarMapRule] at h
  | cons x rest ih =>
    obtain ⟨k, v⟩ := x
    by_cases hk : envVarRE k = true
    · simp only [envVarMapRule, hk, Bool.not_true, Bool.false_eq_true, if_false] at h
      obtain ⟨k1, hk1, h1⟩ := ih h
      exact ⟨k1, by simp only [List.map_cons, List.mem_cons]; exact Or.inr hk1, h1⟩
    · simp only [Bool.not_eq_true] at hk
      simp only [envVarMapRule, hk, Bool.not_false, if_true, Option.some.injEq] at h
      exact ⟨k, by simp, hk, h.symm⟩

/-! ## Default paths -/

theorem forall₂_mem_right {α β : Type} {R : α → β → Prop} {l1 : List α} {l2 : List β}
    (h : List.Forall₂ R l1 l2) {b : β} (hb : b ∈ l2) : ∃ a, a ∈ l1 ∧ R a b := by
  induction h with
  | nil => simp at hb
  | cons hab _ ih =>
    rcases List.mem_cons.1 hb with heq | hmem
    · subst heq
      exact ⟨_, by simp, hab⟩
    · obtain ⟨x, hx, hxs⟩ := ih hmem
      exact ⟨x, by simp [hx], hxs⟩

theorem paneWithPath_fields (p : PaneConfig) (s : String) :
    (p.withPath s).Path = s ∧ (p.withPath s).Panes = p.Panes := by
  cases p
  exact ⟨rfl, rfl⟩

theorem defaultPath_spec {e : WorkEnv} {what inherited path s : String}
    (h : defaultPath e what inherited path = .ok s) :
    (path = "" → s = inherited) ∧ (path ≠ "" → AbsPath e path = .ok s) := by
  unfold defaultPath at h
  by_cases hp : path = ""
  · simp only [hp, if_true, Except.ok.injEq] at h
    exact ⟨fun _ => h.symm, fun hne => absurd hp hne⟩
  · simp only [hp, if_false] at h
    cases ha : AbsPath e path with
    | error err => simp [ha] at h
    | ok abs =>
      simp only [ha, Except.ok.injEq] at h
      exact ⟨fun he => absurd he hp, fun _ => by rw [h]⟩

theorem defaultPanes_spec {e : WorkEnv} {wpath : String} {ps ps1 : List PaneConfig}
    (h : defaultPanes e wpath ps = .ok ps1) :
    List.Forall₂ (fun p p1 : PaneConfig =>
      (p.Path = "" → p1.Path = wpath) ∧ (p.Path ≠ "" → AbsPath e p.Path = .ok p1.Path) ∧
      p1.Panes = p.Panes) ps ps1 := by
  induction ps generalizing ps1 with
  | nil =>
    simp only [defaultPanes, Except.ok.injEq] at h
    subst h
    exact List.Forall₂.nil
  | cons p rest ih =>
    simp only [defaultPanes] at h
    cases hd : defaultPath e "pane" wpath p.Path with
    | error err => simp [hd] at h
    | ok path =>
      simp only [hd] at h
      cases hr : defaultPanes e wpath rest with
      | error err => simp [hr] at h
      | ok rest1 =>
        simp only [hr, Except.ok.injEq] at h
        subst h
        obtain ⟨h1, h2⟩ := defaultPath_spec hd
        refine List.Forall₂.cons ⟨?_, ?_, (paneWithPath_fields p path).2⟩ (ih hr)
        · rw [(paneWithPath_fields p path).1]
          exact h1
        · rw [(paneWithPath_fields p path).1]
          exact h2

theorem defaultWindows_spec {e : WorkEnv} {spath : String} {ws ws1 : List WindowConfig}
    (h : defaultWindows e spath ws = .ok ws1) :
    List.Forall₂ (fun w w1 : WindowConfig =>
      (w.Path = "" → w1.Path = spath) ∧ (w.Path ≠ "" → AbsPath e w.Path = .ok w1.Path) ∧
      List.Forall₂ (fun p p1 : PaneConfig =>
        (p.Path = "" → p1.Path = w1.Path) ∧
        (p.Path ≠ "" → AbsPath e p.Path = .ok p1.Path) ∧
        p1.Panes = p.Panes) w.Panes w1.Panes) ws ws1 := by
  induction ws generalizing ws1 with
  | nil =>
    simp only [defaultWindows, Except.ok.injEq] at h
    subst h
    exact List.Forall₂.nil
  | cons w rest ih =>
    simp only [defaultWindows] at h
    cases hd : defaultPath e "window" spath w.Path with
    | error err => simp [hd] at h
    | ok path =>
      simp only [hd] at h
      cases hp : defaultPanes e path w.Panes with
      | error err => simp [hp] at h
      | ok panes =>
        simp only [hp] at h
        cases hr : defaultWindows e spath rest with
        | error err => simp [hr] at h
        | ok rest1 =>
          simp only [hr, Except.ok.injEq] at h
          subst h
          obtain ⟨h1, h2⟩ := defaultPath_spec hd
          exact List.Forall₂.cons ⟨h1, h2, defaultPanes_spec hp⟩ (ih hr)

/-! ## Creation commands without output -/

theorem parseOutput_blank (output : String) (h : ∀ c ∈ output.data, isSpace c = true) :
    parseOutput output = .ok [] := by
  simp [parseOutput, trimSpace_of_allSpace _ h]

/-! ## `config.Apply` up to the loop over the windows -/

/-- The steps of `config.Apply` before the loop over the windows, when no
listed session has the configured name and the session is created: what is
left is the loop and the selection, run on the created session. -/
theorem apply_creates_session {os : OS} {ctx : Context} {cfg : Config} {R : Runner}
    {w : World} {out out2 : String} {records rest : List outputRecord}
    {record : outputRecord}
    (hctx : ctx.Err = none) (hval : cfg.Validate os = none)
    (hr : R.Run ctx w.calls listSessionsArgs = (out, none))
    (hp : parseOutput out = .ok records)
    (hno : ∀ x ∈ listedSessions records, x.Name ≠ cfg.Session.Name)
    (hr2 : R.Run ctx (w.calls ++ [.Run listSessionsArgs])
      (configuredSession cfg.Session).newSessionArgs = (out2, none))
    (hp2 : parseOutput
      (if R.IsDryRun then (configuredSession cfg.Session).dryRunRecord else out2) =
        .ok (record :: rest)) :
    Apply os ctx cfg (some R) w =
      (do
        match (← applyWindowCfgs os R ctx (some (w.sessions.length + records.length))
          cfg.Session.Windows) with
        | some err =>
          fatalf R (some (w.sessions.length + records.length))
            (.Wrapf "applying window configuration: %w" [] err)
        | none =>
          match (← Session.SelectActive R ctx
            (some (w.sessions.length + records.length))) with
          | some err =>
            fatalf R (some (w.sessions.length + records.length))
              (.Wrapf "selecting active window: %w" [] err)
          | none => return (some (w.sessions.length + records.length), none))
        { w with
          sessions := w.sessions ++ listedSessions records ++
            [(configuredSession cfg.Session).update record]
          calls := w.calls ++
            [Call.Run listSessionsArgs,
             Call.Run (configuredSession cfg.Session).newSessionArgs] } := by
  have hg := getSessions_run hctx hr hp
  have hf := findSession_none cfg.Session.Name (listedSessions records)
    { w with
      sessions := w.sessions ++ listedSessions records
      calls := w.calls ++ [.Run listSessionsArgs] }
    w.sessions.length w.sessions rfl rfl hno
  have hll : (listedSessions records).length = records.length := by simp [listedSessions]
  rw [hll] at hf
  have hn := newSession_run R cfg.Session
    { w with
      sessions := w.sessions ++ listedSessions records
      calls := w.calls ++ [.Run listSessionsArgs] }
  simp only [List.length_append, hll] at hn
  have hst : (configuredSession cfg.Session).state = .stateNew := rfl
  have hs2 : (w.sessions ++ listedSessions records ++
      [configuredSession cfg.Session])[w.sessions.length + records.length]? =
      some (configuredSession cfg.Session) := by
    rw [List.getElem?_append_right (by simp [hll])]
    simp [hll]
  have h4 := @sessionApply_eq R ctx (w.sessions.length + records.length)
    { w with
      sessions := w.sessions ++ listedSessions records ++ [configuredSession cfg.Session]
      calls := w.calls ++ [.Run listSessionsArgs] }
    (configuredSession cfg.Session) hctx hs2 hst
  have hset : (w.sessions ++ listedSessions records ++
      [configuredSession cfg.Session]).set (w.sessions.length + records.length)
        ((configuredSession cfg.Session).update record) =
      w.sessions ++ listedSessions records ++
        [(configuredSession cfg.Session).update record] := by
    rw [List.set_append_right _ _ (by simp [hll])]
    simp [hll]
  simp only [sessionApplyResult, hr2, hp2] at h4
  rw [hset] at h4
  simp only [List.append_assoc, List.singleton_append] at h4
  simp only [List.append_assoc] at hn
  simp [Apply, hctx, hval, hg, hf, hn, h4]

theorem selectActive_no_window {R : Runner} {ctx : Context} {a : Nat} {w : World}
    {sess : Session} (hctx : ctx.Err = none) (hs : w.sessions[a]? = some sess)
    (happ : sess.state = .stateApplied) (hnw : sess.windows = []) :
    Session.SelectActive R ctx (some a) w = .panic w := by
  have hc : sess.state ≠ .stateClosed := by rw [happ]; decide
  simp [Session.SelectActive, hctx, getSession, hs, Session.checkState, Session.IsClosed,
    Session.IsApplied, happ, Session.NumWindows, hnw, panic]

/-! ## Blank lines in the output -/

theorem parseLines_append (total : Nat) (ht : total ≠ 0) (pre rest : List (List Char))
    (acc : List outputRecord)
    (h : ∀ line ∈ pre, (∀ tok ∈ lineTokens line, (cutChars colon tok).isSome = true) ∧
      ((lineRecord line).map Prod.fst).Nodup) :
    parseLines total (pre ++ rest) acc = parseLines total rest (acc ++ pre.map lineRecord) := by
  induction pre generalizing acc with
  | nil => simp
  | cons line pre ih =>
    obtain ⟨h1, h2⟩ := h line (by simp)
    have hp := parsePairs_ok (lineTokens line) [] h1 (by simpa [lineRecord] using h2)
    simp only [lineTokens, List.nil_append] at hp
    have hih := ih (acc ++ [lineRecord line]) (fun l hl => h l (by simp [hl]))
    simp only [lineRecord, lineTokens] at hih
    simp only [List.cons_append, parseLines, ht, if_false, hp]
    refine hih.trans ?_
    simp [lineRecord, lineTokens]

theorem parseLines_blank (total : Nat) (ht : total ≠ 0) (line : List Char)
    (rest : List (List Char)) (acc : List outputRecord) (hb : trimSpace line = []) :
    parseLines total (line :: rest) acc =
      .error (.Errorf "invalid key-value pair in command output: %s" [""]) := by
  simp only [parseLines, ht, if_false, hb, splitChars, parsePairs, cutChars]

/-! ## The text of a record, parsed back -/

theorem toDigitsCore_mem (fuel n : Nat) (ds : List Char) (c : Char)
    (h : c ∈ Nat.toDigitsCore 10 fuel n ds) :
    c ∈ ds ∨ ∃ d, d < 10 ∧ c = Nat.digitChar d := by
  induction fuel generalizing n ds with
  | zero => exact Or.inl (by simpa [Nat.toDigitsCore] using h)
  | succ fuel ih =>
    simp only [Nat.toDigitsCore] at h
    split at h
    · rcases List.mem_cons.1 h with h | h
      · exact Or.inr ⟨n % 10, Nat.mod_lt _ (by decide), h⟩
      · exact Or.inl h
    · rcases ih _ _ h with h | h
      · rcases List.mem_cons.1 h with h | h
        · exact Or.inr ⟨n % 10, Nat.mod_lt _ (by decide), h⟩
        · exact Or.inl h
      · exact Or.inr h

/-- The decimal digits of a number have no comma and no line break. -/
theorem toString_nat_clean (n : Nat) (c : Char) (h : c ∈ (toString n).data) :
    c ≠ comma ∧ c ≠ newline := by
  have h1 : c ∈ Nat.toDigitsCore 10 (n + 1) n [] := h
  rcases toDigitsCore_mem _ _ _ _ h1 with h2 | ⟨d, hd, rfl⟩
  · simp at h2
  · have : ∀ d, d < 10 → Nat.digitChar d ≠ comma ∧ Nat.digitChar d ≠ newline := by decide
    exact this d hd

theorem cleanText_iff (s : String) :
    cleanText s = true ↔ ∀ c ∈ s.data, c ≠ comma ∧ c ≠ newline := by
  simp [cleanText, List.all_eq_true]

theorem recordChars_cons (e : String × String) (r : outputRecord) (hr : r ≠ []) :
    recordChars (e :: r) = tokenChars e ++ comma :: recordChars r := by
  cases r with
  | nil => exact absurd rfl hr
  | cons e1 rest => rfl

theorem recordString_data (r : outputRecord) :
    (outputRecord.String r).data = recordChars r := by
  unfold outputRecord.String
  induction r with
  | nil => rfl
  | cons e rest ih =>
    cases rest with
    | nil =>
      simp only [List.map, Join, recordChars, tokenChars, String.data_append]
      simp [colon]
    | cons e1 rest1 =>
      simp only [List.map, Join, String.data_append] at ih ⊢
      rw [ih]
      simp only [recordChars, tokenChars, List.append_assoc]
      simp [colon, comma]

theorem recordChars_mem {r : outputRecord} {c : Char} (h : c ∈ recordChars r) :
    c = colon ∨ c = comma ∨ ∃ e ∈ r, c ∈ e.1.data ∨ c ∈ e.2.data := by
  induction r with
  | nil => simp [recordChars] at h
  | cons e rest ih =>
    by_cases hr : rest = []
    · subst hr
      simp only [recordChars, tokenChars, List.mem_append, List.mem_cons] at h
      rcases h with h | h | h
      · exact Or.inr (Or.inr ⟨e, by simp, Or.inl h⟩)
      · exact Or.inl h
      · exact Or.inr (Or.inr ⟨e, by simp, Or.inr h⟩)
    · rw [recordChars_cons e rest hr] at h
      simp only [tokenChars, List.mem_append, List.mem_cons] at h
      rcases h with (h | h | h) | h | h
      · exact Or.inr (Or.inr ⟨e, by simp, Or.inl h⟩)
      · exact Or.inl h
      · exact Or.inr (Or.inr ⟨e, by simp, Or.inr h⟩)
      · exact Or.inr (Or.inl h)
      · rcases ih h with h | h | ⟨e1, he1, h⟩
        · exact Or.inl h
        · exact Or.inr (Or.inl h)
        · exact Or.inr (Or.inr ⟨e1, by simp [he1], h⟩)

theorem splitChars_append_sep (sep : Char) (a b : List Char) (h : sep ∉ a) :
    splitChars sep (a ++ sep :: b) = a :: splitChars sep b := by
  induction a with
  | nil => simp [splitChars]
  | cons c rest ih =>
    have hc : c ≠ sep := fun e => h (by simp [e])
    have hr : sep ∉ rest := fun e => h (by simp [e])
    simp [splitChars, hc, ih hr]

theorem splitChars_recordChars (r : outputRecord) (hr : r ≠ [])
    (hc : ∀ e ∈ r, comma ∉ tokenChars e) :
    splitChars comma (recordChars r) = r.map tokenChars := by
  induction r with
  | nil => exact absurd rfl hr
  | cons e rest ih =>
    by_cases hrest : rest = []
    · subst hrest
      simp only [recordChars, List.map]
      exact splitChars_of_not_mem comma _ (hc e (by simp))
    · rw [recordChars_cons e rest hrest, splitChars_append_sep comma _ _ (hc e (by simp)),
        ih hrest (fun x hx => hc x (by simp [hx]))]
      rfl

theorem tokenPair_tokenChars (e : String × String) (h : colon ∉ e.1.data) :
    tokenPair (tokenChars e) = some e := by
  unfold tokenPair tokenChars
  rw [cutChars_append colon _ _ h]
  rfl

theorem parsePairs_record (r : outputRecord) (hk : ∀ e ∈ r, colon ∉ e.1.data)
    (hnd : (r.map Prod.fst).Nodup) :
    parsePairs (r.map tokenChars) [] = .ok r := by
  have hf : (r.map tokenChars).filterMap tokenPair = r := by
    clear hnd
    induction r with
    | nil => rfl
    | cons e rest ih =>
      simp only [List.map, List.filterMap_cons, tokenPair_tokenChars e (hk e (by simp))]
      rw [ih (fun x hx => hk x (by simp [hx]))]
  have := parsePairs_ok (r.map tokenChars) []
    (by
      intro tok htok
      obtain ⟨e, he, rfl⟩ := List.mem_map.1 htok
      have := tokenPair_tokenChars e (hk e he)
      unfold tokenPair at this
      cases hcut : cutChars colon (tokenChars e) with
      | none => simp [hcut] at this
      | some x => rfl)
    (by simpa [hf] using hnd)
  simpa [hf] using this

/-- The text of a record with clean keys and values, once trimmed, parses
back to the record. -/
theorem parseOutput_of_trim (s : String) (r : outputRecord) (hr : r ≠ [])
    (hs : trimSpace s.data = recordChars r)
    (ht : trimSpace (recordChars r) = recordChars r)
    (hk : ∀ e ∈ r, ∀ c ∈ e.1.data, c ≠ colon ∧ c ≠ comma ∧ c ≠ newline)
    (hv : ∀ e ∈ r, ∀ c ∈ e.2.data, c ≠ comma ∧ c ≠ newline)
    (hnd : (r.map Prod.fst).Nodup) :
    parseOutput s = .ok [r] := by
  have hne : recordChars r ≠ [] := by
    cases r with
    | nil => exact absurd rfl hr
    | cons e rest =>
      by_cases hrest : rest = []
      · subst hrest
        simp [recordChars, tokenChars]
      · rw [recordChars_cons e rest hrest]
        simp [tokenChars]
  have hnl : newline ∉ recordChars r := by
    intro hmem
    rcases recordChars_mem hmem with h | h | ⟨e, he, h | h⟩
    · exact absurd h (by decide)
    · exact absurd h (by decide)
    · exact (hk e he _ h).2.2 rfl
    · exact (hv e he _ h).2 rfl
  have hcm : ∀ e ∈ r, comma ∉ tokenChars e := by
    intro e he hmem
    simp only [tokenChars, List.mem_append, List.mem_cons] at hmem
    rcases hmem with h | h | h
    · exact (hk e he _ h).2.1 rfl
    · exact absurd h (by decide)
    · exact (hv e he _ h).1 rfl
  have hlen : ¬ (recordChars r).length = 0 := by
    intro h0
    exact hne (List.length_eq_zero.1 h0)
  unfold parseOutput
  simp only [hs, hlen, if_false, splitChars_of_not_mem newline _ hnl, List.length_singleton,
    parseLines, ht, splitChars_recordChars r hr hcm,
    parsePairs_record r (fun e he hc => (hk e he _ hc).1 rfl) hnd]
  simp

theorem dropWhile_append_of_head {α : Type} (p : α → Bool) (a : List α) (c : α)
    (b : List α) (hc : p c = false) :
    (a ++ c :: b).dropWhile p = a.dropWhile p ++ c :: b := by
  induction a with
  | nil => simp [List.dropWhile, hc]
  | cons x rest ih =>
    by_cases hx : p x = true
    · simp [List.dropWhile, hx, ih]
    · simp [List.dropWhile, hx]

/-- Trimming a text that starts and ends with characters that are not white
space, followed by a tail: only the tail is trimmed, at its end. -/
theorem trimSpace_append_tail (c d : Char) (mid v : List Char) (hc : isSpace c = false)
    (hd : isSpace d = false) :
    trimSpace (c :: mid ++ d :: v) = c :: mid ++ d :: (v.reverse.dropWhile isSpace).reverse := by
  unfold trimSpace
  have h1 : (c :: mid ++ d :: v).dropWhile isSpace = c :: mid ++ d :: v := by
    simp [List.dropWhile, hc]
  rw [h1]
  have h2 : (c :: mid ++ d :: v).reverse = v.reverse ++ d :: (c :: mid).reverse := by
    simp
  rw [h2, dropWhile_append_of_head isSpace _ d _ hd]
  simp

theorem trimSpace_of_ends (c d : Char) (mid : List Char) (hc : isSpace c = false)
    (hd : isSpace d = false) : trimSpace (c :: mid ++ [d]) = c :: mid ++ [d] := by
  have := trimSpace_append_tail c d mid [] hc hd
  simpa using this

/-! ## The dry-run records -/

theorem trimSpace_of_head_last (pre v : List Char) (c d : Char) (hh : pre.head? = some c)
    (hl : pre.getLast? = some d) (hc : isSpace c = false) (hd : isSpace d = false) :
    trimSpace (pre ++ v) = pre ++ (v.reverse.dropWhile isSpace).reverse := by
  unfold trimSpace
  have h1 : (pre ++ v).dropWhile isSpace = pre ++ v := by
    cases pre with
    | nil => simp at hh
    | cons x rest =>
      simp only [List.head?_cons, Option.some.injEq] at hh
      subst hh
      simp [List.dropWhile, hc]
  have h2 : ∃ rest, pre.reverse = d :: rest := by
    have : pre.reverse.head? = some d := by rw [List.head?_reverse]; exact hl
    cases hr : pre.reverse with
    | nil => simp [hr] at this
    | cons x rest =>
      simp only [hr, List.head?_cons, Option.some.injEq] at this
      exact ⟨rest, by rw [this]⟩
  obtain ⟨rest, hrest⟩ := h2
  rw [h1, List.reverse_append, hrest, dropWhile_append_of_head isSpace _ d _ hd,
    List.reverse_append, ← hrest, List.reverse_reverse]

theorem rtrim_mem {v : List Char} {c : Char}
    (h : c ∈ (v.reverse.dropWhile isSpace).reverse) : c ∈ v := by
  have h1 : c ∈ v.reverse.dropWhile isSpace := List.mem_reverse.1 h
  exact List.mem_reverse.1 ((List.dropWhile_suffix isSpace).subset h1)

/-- The dry-run record of a session parses to a record, for a name of allowed
characters and a path without comma and line break. -/
theorem sessionDryRun_parse (sess : Session)
    (hname : ∀ c ∈ sess.name.data, (isWordChar c || c = '.' || c = '_' || c = '-') = true)
    (hpath : cleanText sess.path = true) :
    ∃ record, parseOutput sess.dryRunRecord = .ok [record] := by
  have hp := (cleanText_iff sess.path).1 hpath
  refine ⟨[("session_id", "$0"), ("session_name", sess.name),
    ("session_path", String.mk (sess.path.data.reverse.dropWhile isSpace).reverse)], ?_⟩
  have hdata : sess.dryRunRecord.data =
      ("session_id:$0,session_name:".data ++ sess.name.data ++ ",session_path:".data) ++
        sess.path.data := by
    unfold Session.dryRunRecord
    rw [recordString_data]
    simp [recordChars, tokenChars, colon, comma]
  have hh : ("session_id:$0,session_name:".data ++ sess.name.data ++
      ",session_path:".data).head? = some 's' := by
    simp
  have hl : ("session_id:$0,session_name:".data ++ sess.name.data ++
      ",session_path:".data).getLast? = some ':' := by
    rw [List.getLast?_append]
    rfl
  have htrim := fun v => trimSpace_of_head_last
    ("session_id:$0,session_name:".data ++ sess.name.data ++ ",session_path:".data) v
    's' ':' hh hl (by decide) (by decide)
  have hrc : recordChars [("session_id", "$0"), ("session_name", sess.name),
      ("session_path", String.mk (sess.path.data.reverse.dropWhile isSpace).reverse)] =
      ("session_id:$0,session_name:".data ++ sess.name.data ++ ",session_path:".data) ++
        (sess.path.data.reverse.dropWhile isSpace).reverse := by
    simp [recordChars, tokenChars, colon, comma]
  refine parseOutput_of_trim _ _ (by simp) ?_ ?_ ?_ ?_ (by simp)
  · rw [hdata, htrim, hrc]
  · rw [hrc, htrim, List.reverse_reverse, List.dropWhile_idempotent]
  · intro e he
    simp only [List.mem_cons, List.mem_singleton, List.not_mem_nil, or_false] at he
    rcases he with rfl | rfl | rfl
    · exact (by decide : ∀ c ∈ "session_id".data, c ≠ colon ∧ c ≠ comma ∧ c ≠ newline)
    · exact (by decide : ∀ c ∈ "session_name".data, c ≠ colon ∧ c ≠ comma ∧ c ≠ newline)
    · exact (by decide : ∀ c ∈ "session_path".data, c ≠ colon ∧ c ≠ comma ∧ c ≠ newline)
  · intro e he c hc
    simp only [List.mem_cons, List.mem_singleton, List.not_mem_nil, or_false] at he
    rcases he with rfl | rfl | rfl
    · exact (by decide : ∀ c ∈ "$0".data, c ≠ comma ∧ c ≠ newline) c hc
    · exact ⟨(nameChar_ne (hname c hc)).2.1, (nameChar_ne (hname c hc)).1⟩
    · exact hp c (rtrim_mem hc)

/-- The dry-run record of a window parses to the record it is the text of. -/
theorem windowDryRun_parse (n : Nat) (name path : String)
    (hname : ∀ c ∈ name.data, (isWordChar c || c = '.' || c = '_' || c = '-') = true)
    (hpath : cleanText path = true) :
    parseOutput (outputRecord.String
      [("window_id", "@" ++ toString n), ("window_name", name), ("window_path", path),
       ("window_index", toString n), ("window_width", "80"), ("window_height", "24")]) =
      .ok [[("window_id", "@" ++ toString n), ("window_name", name), ("window_path", path),
       ("window_index", toString n), ("window_width", "80"), ("window_height", "24")]] := by
  have hp := (cleanText_iff path).1 hpath
  have hrc : recordChars
      [("window_id", "@" ++ toString n), ("window_name", name), ("window_path", path),
       ("window_index", toString n), ("window_width", "80"), ("window_height", "24")] =
      ("window_id:@".data ++ (toString n).data ++ ",window_name:".data ++ name.data ++
        ",window_path:".data ++ path.data ++ ",window_index:".data ++ (toString n).data ++
        ",window_width:80,window_height:24".data) ++ [] := by
    simp [recordChars, tokenChars, colon, comma]
  have hh : ("window_id:@".data ++ (toString n).data ++ ",window_name:".data ++ name.data ++
      ",window_path:".data ++ path.data ++ ",window_index:".data ++ (toString n).data ++
      ",window_width:80,window_height:24".data).head? = some 'w' := by
    simp
  have hl : ("window_id:@".data ++ (toString n).data ++ ",window_name:".data ++ name.data ++
      ",window_path:".data ++ path.data ++ ",window_index:".data ++ (toString n).data ++
      ",window_width:80,window_height:24".data).getLast? = some '4' := by
    rw [List.getLast?_append]
    rfl
  have htrim := trimSpace_of_head_last _ [] 'w' '4' hh hl (by decide) (by decide)
  simp only [List.reverse_nil, List.dropWhile_nil] at htrim
  refine parseOutput_of_trim _ _ (by simp) ?_ ?_ ?_ ?_ (by simp)
  · rw [recordString_data, hrc, htrim]
  · rw [hrc, htrim]
  · intro e he
    simp only [List.mem_cons, List.mem_singleton, List.not_mem_nil, or_false] at he
    rcases he with rfl | rfl | rfl | rfl | rfl | rfl
    · exact (by decide : ∀ c ∈ "window_id".data, c ≠ colon ∧ c ≠ comma ∧ c ≠ newline)
    · exact (by decide : ∀ c ∈ "window_name".data, c ≠ colon ∧ c ≠ comma ∧ c ≠ newline)
    · exact (by decide : ∀ c ∈ "window_path".data, c ≠ colon ∧ c ≠ comma ∧ c ≠ newline)
    · exact (by decide : ∀ c ∈ "window_index".data, c ≠ colon ∧ c ≠ comma ∧ c ≠ newline)
    · exact (by decide : ∀ c ∈ "window_width".data, c ≠ colon ∧ c ≠ comma ∧ c ≠ newline)
    · exact (by decide : ∀ c ∈ "window_height".data, c ≠ colon ∧ c ≠ comma ∧ c ≠ newline)
  · intro e he c hc
    simp only [List.mem_cons, List.mem_singleton, List.not_mem_nil, or_false] at he
    rcases he with rfl | rfl | rfl | rfl | rfl | rfl
    · simp only [String.data_append, List.mem_append] at hc
      rcases hc with hc | hc
      · exact (by decide : ∀ c ∈ "@".data, c ≠ comma ∧ c ≠ newline) c hc
      · exact toString_nat_clean n c hc
    · exact ⟨(nameChar_ne (hname c hc)).2.1, (nameChar_ne (hname c hc)).1⟩
    · exact hp c hc
    · exact toString_nat_clean n c hc
    · exact (by decide : ∀ c ∈ "80".data, c ≠ comma ∧ c ≠ newline) c hc
    · exact (by decide : ∀ c ∈ "24".data, c ≠ comma ∧ c ≠ newline) c hc

/-- The dry-run record of a pane parses to the record it is the text of. -/
theorem paneDryRun_parse (n k : Nat) (path : String) (hpath : cleanText path = true) :
    parseOutput (outputRecord.String
      [("pane_id", "%" ++ toString n), ("pane_path", path), ("pane_index", toString k),
       ("pane_width", "40"), ("pane_height", "12")]) =
      .ok [[("pane_id", "%" ++ toString n), ("pane_path", path), ("pane_index", toString k),
       ("pane_width", "40"), ("pane_height", "12")]] := by
  have hp := (cleanText_iff path).1 hpath
  have hrc : recordChars
      [("pane_id", "%" ++ toString n), ("pane_path", path), ("pane_index", toString k),
       ("pane_width", "40"), ("pane_height", "12")] =
      ("pane_id:%".data ++ (toString n).data ++ ",pane_path:".data ++ path.data ++
        ",pane_index:".data ++ (toString k).data ++
        ",pane_width:40,pane_height:12".data) ++ [] := by
    simp [recordChars, tokenChars, colon, comma]
  have hh : ("pane_id:%".data ++ (toString n).data ++ ",pane_path:".data ++ path.data ++
      ",pane_index:".data ++ (toString k).data ++
      ",pane_width:40,pane_height:12".data).head? = some 'p' := by
    simp
  have hl : ("pane_id:%".data ++ (toString n).data ++ ",pane_path:".data ++ path.data ++
      ",pane_index:".data ++ (toString k).data ++
      ",pane_width:40,pane_height:12".data).getLast? = some '2' := by
    rw [List.getLast?_append]
    rfl
  have htrim := trimSpace_of_head_last _ [] 'p' '2' hh hl (by decide) (by decide)
  simp only [List.reverse_nil, List.dropWhile_nil] at htrim
  refine parseOutput_of_trim _ _ (by simp) ?_ ?_ ?_ ?_ (by simp)
  · rw [recordString_data, hrc, htrim]
  · rw [hrc, htrim]
  · intro e he
    simp only [List.mem_cons, List.mem_singleton, List.not_mem_nil, or_false] at he
    rcases he with rfl | rfl | rfl | rfl | rfl
    · exact (by decide : ∀ c ∈ "pane_id".data, c ≠ colon ∧ c ≠ comma ∧ c ≠ newline)
    · exact (by decide : ∀ c ∈ "pane_path".data, c ≠ colon ∧ c ≠ comma ∧ c ≠ newline)
    · exact (by decide : ∀ c ∈ "pane_index".data, c ≠ colon ∧ c ≠ comma ∧ c ≠ newline)
    · exact (by decide : ∀ c ∈ "pane_width".data, c ≠ colon ∧ c ≠ comma ∧ c ≠ newline)
    · exact (by decide : ∀ c ∈ "pane_height".data, c ≠ colon ∧ c ≠ comma ∧ c ≠ newline)
  · intro e he c hc
    simp only [List.mem_cons, List.mem_singleton, List.not_mem_nil, or_false] at he
    rcases he with rfl | rfl | rfl | rfl | rfl
    · simp only [String.data_append, List.mem_append] at hc
      rcases hc with hc | hc
      · exact (by decide : ∀ c ∈ "%".data, c ≠ comma ∧ c ≠ newline) c hc
      · exact toString_nat_clean n c hc
    · exact hp c hc
    · exact toString_nat_clean k c hc
    · exact (by decide : ∀ c ∈ "40".data, c ≠ comma ∧ c ≠ newline) c hc
    · exact (by decide : ∀ c ∈ "12".data, c ≠ comma ∧ c ≠ newline) c hc

theorem string_append_ne_empty (c : Char) (s : String) : String.mk [c] ++ s ≠ "" := by
  intro h
  have := congrArg String.data h
  simp at this

theorem windowUpdate_id (record : outputRecord) (x : Window)
    (hnd : (record.map Prod.fst).Nodup) :
    (x.update record).id =
      if (Map.get? record "window_id").getD "" = "" then x.id
      else (Map.get? record "window_id").getD "" := by
  have hkeep : ∀ (r : outputRecord) (x0 : Window), "window_id" ∉ r.map Prod.fst →
      (r.foldl (fun w e =>
        if e.2 = "" then w
        else if e.1 = "window_id" then { w with id := e.2 }
        else if e.1 = "window_name" then { w with name := e.2 }
        else if e.1 = "window_path" then { w with path := e.2 }
        else if e.1 = "session_path" then { w with path := e.2 }
        else if e.1 = "window_index" then { w with index := e.2 }
        else if e.1 = "window_width" then { w with width := e.2 }
        else if e.1 = "window_height" then { w with height := e.2 }
        else w) x0).id = x0.id := by
    intro r
    induction r with
    | nil => intro x0 _; rfl
    | cons e rest ih =>
      intro x0 hno
      simp only [List.map_cons, List.mem_cons, not_or] at hno
      simp only [List.foldl_cons]
      rw [ih _ hno.2]
      have hne : ¬ e.1 = "window_id" := fun h => hno.1 h.symm
      split_ifs <;> rfl
  unfold Window.update
  simp only
  induction record generalizing x with
  | nil => simp [Map.get?]
  | cons e rest ih =>
    obtain ⟨k, v⟩ := e
    simp only [List.map_cons, List.nodup_cons] at hnd
    simp only [List.foldl_cons, mapGet?_cons]
    by_cases hk : k = "window_id"
    · subst hk
      rw [hkeep rest _ hnd.1]
      by_cases he : v = ""
      · simp [he]
      · simp [he]
    · simp only [hk, if_false]
      rw [ih _ hnd.2]
      split_ifs <;> rfl

theorem paneUpdate_id (record : outputRecord) (p : Pane)
    (hnd : (record.map Prod.fst).Nodup) :
    (p.update record).id =
      if (Map.get? record "pane_id").getD "" = "" then p.id
      else (Map.get? record "pane_id").getD "" := by
  have hkeep : ∀ (r : outputRecord) (p0 : Pane), "pane_id" ∉ r.map Prod.fst →
      (r.foldl (fun p e =>
        if e.2 = "" then p
        else if e.1 = "pane_id" then { p with id := e.2 }
        else if e.1 = "pane_path" then { p with path := e.2 }
        else if e.1 = "pane_index" then { p with index := e.2 }
        else if e.1 = "pane_width" then { p with width := e.2 }
        else if e.1 = "pane_height" then { p with height := e.2 }
        else p) p0).id = p0.id := by
    intro r
    induction r with
    | nil => intro p0 _; rfl
    | cons e rest ih =>
      intro p0 hno
      simp only [List.map_cons, List.mem_cons, not_or] at hno
      simp only [List.foldl_cons]
      rw [ih _ hno.2]
      have hne : ¬ e.1 = "pane_id" := fun h => hno.1 h.symm
      split_ifs <;> rfl
  unfold Pane.update
  simp only
  induction record generalizing p with
  | nil => simp [Map.get?]
  | cons e rest ih =>
    obtain ⟨k, v⟩ := e
    simp only [List.map_cons, List.nodup_cons] at hnd
    simp only [List.foldl_cons, mapGet?_cons]
    by_cases hk : k = "pane_id"
    · subst hk
      rw [hkeep rest _ hnd.1]
      by_cases he : v = ""
      · simp [he]
      · simp [he]
    · simp only [hk, if_false]
      rw [ih _ hnd.2]
      split_ifs <;> rfl

theorem windowUpdate_dry_id (win : Window) (idv name path ix : String) (hid : idv ≠ "") :
    (win.update
      [("window_id", idv), ("window_name", name), ("window_path", path),
       ("window_index", ix), ("window_width", "80"), ("window_height", "24")]).id = idv := by
  rw [windowUpdate_id _ _ (by simp)]
  simp [Map.get?, hid]

theorem paneUpdate_dry_id (pane : Pane) (idv path ix : String) (hid : idv ≠ "") :
    (pane.update
      [("pane_id", idv), ("pane_path", path), ("pane_index", ix),
       ("pane_width", "40"), ("pane_height", "12")]).id = idv := by
  rw [paneUpdate_id _ _ (by simp)]
  simp [Map.get?, hid]

theorem paneCreated_keeps (pane : Pane) (a : Nat) (record : outputRecord) :
    (pane.created a record).sess = pane.sess ∧
    (pane.created a record).id = (pane.update record).id := by
  unfold Pane.created
  split <;> simp

/-! ## Objects built from a configuration, and commands in dry-run mode -/

theorem applyOpts_makeWindowOpts (sa : Nat) (wCfg : WindowConfig) (hn : wCfg.Name ≠ "") :
    applyOpts (makeWindowOpts wCfg) ({ sess := some sa, state := .stateNew } : Window) =
      .ok (configuredWindow sa wCfg) := by
  obtain ⟨name, path, command, commands, env, panes, active⟩ := wCfg
  simp only at hn
  simp only [makeWindowOpts, configuredWindow]
  by_cases h2 : path = "" <;> by_cases h3 : command = "" <;>
    by_cases h4 : commands = [] <;> by_cases h5 : active = true <;>
    by_cases h6 : env = [] <;>
    simp [hn, h2, h3, h4, h5, h6, applyOpts, WindowWithName, WindowWithPath,
      WindowWithCommands, WindowAsActive, WindowWithEnv]

theorem applyOpts_makePaneOpts (sa wa : Nat) (parent : Option Nat) (pCfg : PaneConfig) :
    applyOpts (makePaneOpts pCfg)
      ({ sess := some sa, win := some wa, pane := parent, state := .stateNew } : Pane) =
      .ok (configuredPane sa wa parent pCfg) := by
  obtain ⟨env, path, command, commands, size, horizontal, panes, active⟩ := pCfg
  simp only [makePaneOpts, configuredPane, PaneConfig.Path, PaneConfig.Size,
    PaneConfig.Command, PaneConfig.Commands, PaneConfig.Horizontal, PaneConfig.Active,
    PaneConfig.Env]
  by_cases h1 : path = "" <;> by_cases h2 : size = "" <;> by_cases h3 : command = "" <;>
    by_cases h4 : commands = [] <;> by_cases h5 : horizontal = true <;>
    by_cases h6 : active = true <;> by_cases h7 : env = [] <;>
    simp [h1, h2, h3, h4, h5, h6, h7, applyOpts, PaneWithPath, PaneWithSize,
      PaneWithCommands, PaneWithHorizontalDirection, PaneAsActive, PaneWithEnv]

/-- The send-keys loop with a runner whose commands all succeed. -/
theorem sendKeysTo_total {R : Runner} {ctx : Context} (name : String) (cmds : List String)
    (w : World) (hrun : ∀ c calls args, (R.Run c calls args).2 = none) :
    sendKeysTo R ctx name cmds w =
      .ok none { w with calls := w.calls ++ cmds.map (sendKeysCall name) } := by
  induction cmds generalizing w with
  | nil => simp [sendKeysTo]
  | cons c cs ih =>
    have h := hrun ctx w.calls ["send-keys", "-t", name, c, "C-m"]
    simp only [sendKeysTo, bind_run, Run, h]
    rw [ih]
    simp [sendKeysCall]

theorem isCmd_sendKeys (name target : String) (cmds : List String) (hn : name ≠ "send-keys") :
    countCmd name (cmds.map (sendKeysCall target)) = 0 := by
  unfold countCmd
  rw [List.length_eq_zero, List.filter_eq_nil_iff]
  intro c hc
  obtain ⟨cmd, _, rfl⟩ := List.mem_map.1 hc
  simp only [sendKeysCall, Call.isCmd, beq_iff_eq]
  exact fun h => hn h.symm

theorem countCmd_append (name : String) (l1 l2 : List Call) :
    countCmd name (l1 ++ l2) = countCmd name l1 + countCmd name l2 := by
  simp [countCmd, List.filter_append]

theorem isCmd_newWindow (win : Window) (os : OS) (sess : Session) :
    Call.isCmd "new-window" (.Run (win.newWindowArgs os sess)) = true ∧
    Call.isCmd "split-window" (.Run (win.newWindowArgs os sess)) = false := by
  have h : ∃ t, win.newWindowArgs os sess = "new-window" :: t := by
    unfold Window.newWindowArgs
    by_cases h1 : sess.NumWindows = 0 <;> by_cases h2 : win.name = "" <;>
      by_cases h3 : win.path = "" <;> simp [h1, h2, h3]
  obtain ⟨t, ht⟩ := h
  rw [ht]
  exact ⟨by simp [Call.isCmd], by simp [Call.isCmd]⟩

theorem isCmd_splitWindow (pane : Pane) (target : String) (env : List String) :
    Call.isCmd "split-window" (.Run (pane.splitWindowArgs target env)) = true ∧
    Call.isCmd "new-window" (.Run (pane.splitWindowArgs target env)) = false := by
  have h : ∃ t, pane.splitWindowArgs target env = "split-window" :: t := by
    unfold Pane.splitWindowArgs
    by_cases h1 : pane.path = "" <;> by_cases h2 : pane.size = "" <;>
      by_cases h3 : pane.horizontal = true <;> simp [h1, h2, h3]
  obtain ⟨t, ht⟩ := h
  rw [ht]
  exact ⟨by simp [Call.isCmd], by simp [Call.isCmd]⟩

/-! ## Counting the panes of the windows -/

/-- The number of panes listed by the window at the address `a`. -/
theorem countPanes_eq (l : List Nat) (n : Nat) (w : World)
    (h : ∀ a ∈ l, ∃ win, w.windows[a]? = some win) :
    countPanes l n w =
      .ok (n + (l.map (fun a => ((w.windows[a]?).map (fun x => x.panes.length)).getD 0)).sum)
        w := by
  induction l generalizing n with
  | nil => simp [countPanes]
  | cons a rest ih =>
    obtain ⟨win, hw⟩ := h a (by simp)
    simp only [countPanes, bind_run, getWindow, hw]
    rw [ih _ (fun b hb => h b (by simp [hb]))]
    simp [hw, Nat.add_assoc]

theorem sum_map_congr (l : List Nat) (f g : Nat → Nat) (h : ∀ a ∈ l, g a = f a) :
    (l.map g).sum = (l.map f).sum := by
  induction l with
  | nil => rfl
  | cons a rest ih =>
    simp only [List.map_cons, List.sum_cons, h a (by simp),
      ih (fun b hb => h b (by simp [hb]))]

theorem sum_map_bump (l : List Nat) (x : Nat) (f g : Nat → Nat) (hnd : l.Nodup)
    (hx : x ∈ l) (hg : g x = f x + 1) (h : ∀ a ∈ l, a ≠ x → g a = f a) :
    (l.map g).sum = (l.map f).sum + 1 := by
  induction l with
  | nil => simp at hx
  | cons a rest ih =>
    simp only [List.nodup_cons] at hnd
    simp only [List.map_cons, List.sum_cons]
    by_cases hax : a = x
    · subst hax
      rw [hg, sum_map_congr rest f g (fun b hb => h b (by simp [hb])
        (fun e => hnd.1 (e ▸ hb)))]
      omega
    · have hx1 : x ∈ rest := by
        rcases List.mem_cons.1 hx with e | e
        · exact absurd e.symm hax
        · exact e
      rw [h a (by simp) hax, ih hnd.2 hx1 (fun b hb => h b (by simp [hb]))]
      omega

/-! ## The tree of a session, as it grows -/

theorem getElem?_append_new {α : Type} (l : List α) (x : α) : (l ++ [x])[l.length]? = some x := by
  simp

theorem getElem?_append_old {α : Type} (l : List α) (x : α) (i : Nat) (h : i < l.length) :
    (l ++ [x])[i]? = l[i]? := by
  rw [List.getElem?_append_left h]

theorem set_append_new {α : Type} (l : List α) (x y : α) :
    (l ++ [x]).set l.length y = l ++ [y] := by
  rw [List.set_append_right _ _ (le_refl _)]
  simp

theorem dryTree_session {w0 w : World} {sa nW nP : Nat} (ht : DryTree w0 w sa nW nP) :
    ∃ sess, w.sessions[sa]? = some sess ∧ sess.state = .stateApplied ∧
      sess.windows = List.range' w0.windows.length nW ∧ sess.NumWindows = nW := by
  obtain ⟨s, hs, happ, hws⟩ := ht.sess
  exact ⟨s, hs, happ, hws, by simp [Session.NumWindows, hws]⟩

/-- The number of panes that the windows of the tree list, as a sum. -/
theorem dryTree_sum {w0 w : World} {sa nW nP : Nat} (ht : DryTree w0 w sa nW nP) :
    ((List.range' w0.windows.length nW).map
      (fun a => ((w.windows[a]?).map (fun x => x.panes.length)).getD 0)).sum = nP := by
  have hv : ∀ a ∈ List.range' w0.windows.length nW, ∃ win, w.windows[a]? = some win := by
    intro a ha
    obtain ⟨i, hi, rfl⟩ := List.mem_range'.1 ha
    obtain ⟨win, hw, _⟩ := ht.wins i hi
    exact ⟨win, by simpa using hw⟩
  have h := countPanes_eq _ 0 w hv
  rw [ht.count] at h
  simp only [Result.ok.injEq, and_true, Nat.zero_add] at h
  exact h.symm

theorem countPanes_of_sum (w0 w : World) (nW nP : Nat)
    (hv : ∀ i, i < nW → ∃ win, w.windows[w0.windows.length + i]? = some win)
    (hsum : ((List.range' w0.windows.length nW).map
      (fun a => ((w.windows[a]?).map (fun x => x.panes.length)).getD 0)).sum = nP) :
    countPanes (List.range' w0.windows.length nW) 0 w = .ok nP w := by
  have hv1 : ∀ a ∈ List.range' w0.windows.length nW, ∃ win, w.windows[a]? = some win := by
    intro a ha
    obtain ⟨i, hi, rfl⟩ := List.mem_range'.1 ha
    obtain ⟨win, hw⟩ := hv i hi
    exact ⟨win, by simpa using hw⟩
  rw [countPanes_eq _ 0 w hv1, hsum]
  simp

/-- The tree after calls that create nothing. -/
theorem dryTree_calls {w0 w w2 : World} {sa nW nP : Nat} (ht : DryTree w0 w sa nW nP)
    (hs : w2.sessions = w.sessions) (hw : w2.windows = w.windows) (hp : w2.panes = w.panes)
    (l : List Call) (hc : w2.calls = w.calls ++ l) (hn : countCmd "new-window" l = 0)
    (hsp : countCmd "split-window" l = 0) : DryTree w0 w2 sa nW nP := by
  obtain ⟨l0, hl0, h1, h2⟩ := ht.calls
  refine ⟨by rw [hs]; exact ht.sess, by rw [hw]; exact ht.wlen, ?_, by rw [hp]; exact ht.plen,
    ?_, ?_, ⟨l0 ++ l, by rw [hc, hl0, List.append_assoc], ?_, ?_⟩⟩
  · intro i hi
    rw [hw]
    exact ht.wins i hi
  · intro j hj
    rw [hp]
    exact ht.panes j hj
  · refine countPanes_of_sum w0 w2 nW nP ?_ ?_
    · intro i hi
      obtain ⟨win, hwin, _⟩ := ht.wins i hi
      exact ⟨win, by rw [hw]; exact hwin⟩
    · rw [hw]
      exact dryTree_sum ht
  · rw [countCmd_append, h1, hn]
    try rfl
  · rw [countCmd_append, h2, hsp]
    try rfl

/-- The tree after a window was created and registered. -/
theorem dryTree_add_window {w0 w w2 : World} {sa nW nP : Nat} (ht : DryTree w0 w sa nW nP)
    (sess : Session) (x : Window) (hsess : w.sessions[sa]? = some sess)
    (hs : w2.sessions = w.sessions.set sa (sess.addWindow (w0.windows.length + nW)))
    (hw : w2.windows = w.windows ++ [x]) (hp : w2.panes = w.panes)
    (hx : x.state = .stateApplied ∧ x.sess = some sa ∧
      x.id = "@" ++ toString (nW + 1) ∧ x.panes = [])
    (l : List Call) (hc : w2.calls = w.calls ++ l) (hn : countCmd "new-window" l = 1)
    (hsp : countCmd "split-window" l = 0) : DryTree w0 w2 sa (nW + 1) nP := by
  obtain ⟨l0, hl0, h1, h2⟩ := ht.calls
  obtain ⟨s, hs0, happ, hws⟩ := ht.sess
  rw [hsess] at hs0
  cases hs0
  have hlen := (List.getElem?_eq_some_iff.1 hsess).1
  have hwl := ht.wlen
  have hwins : ∀ i, i < nW + 1 → ∃ win, w2.windows[w0.windows.length + i]? = some win ∧
      win.state = .stateApplied ∧ win.sess = some sa ∧ win.id = "@" ++ toString (i + 1) ∧
      ∀ y ∈ win.panes, w0.panes.length ≤ y ∧ y < w0.panes.length + nP := by
    intro i hi
    by_cases hlt : i < nW
    · obtain ⟨win, hwin, hrest⟩ := ht.wins i hlt
      refine ⟨win, ?_, hrest⟩
      rw [hw, getElem?_append_old _ _ _ (by omega)]
      exact hwin
    · have hi' : i = nW := by omega
      subst hi'
      refine ⟨x, ?_, hx.1, hx.2.1, hx.2.2.1, ?_⟩
      · rw [hw, ← hwl]
        exact getElem?_append_new _ _
      · intro y hy
        rw [hx.2.2.2] at hy
        simp at hy
  refine ⟨⟨sess.addWindow (w0.windows.length + nW), ?_, happ, ?_⟩, ?_, hwins, ?_, ?_, ?_,
    ⟨l0 ++ l, by rw [hc, hl0, List.append_assoc], ?_, ?_⟩⟩
  · rw [hs]
    simp [hlen]
  · simp only [Session.addWindow, hws]
    rw [List.range'_concat]
    simp
  · rw [hw, List.length_append, hwl]
    simp [Nat.add_assoc]
  · rw [hp]
    exact ht.plen
  · intro j hj
    obtain ⟨p, hpj, h3, h4, ⟨i, hi, h5⟩, h6⟩ := ht.panes j hj
    exact ⟨p, by rw [hp]; exact hpj, h3, h4, ⟨i, by omega, h5⟩, h6⟩
  · refine countPanes_of_sum w0 w2 (nW + 1) nP ?_ ?_
    · intro i hi
      obtain ⟨win, hwin, _⟩ := hwins i hi
      exact ⟨win, hwin⟩
    · rw [List.range'_concat, List.map_append, List.sum_append]
      have hold := dryTree_sum ht
      rw [sum_map_congr (List.range' w0.windows.length nW)
        (fun a => ((w.windows[a]?).map (fun x => x.panes.length)).getD 0)
        (fun a => ((w2.windows[a]?).map (fun x => x.panes.length)).getD 0) ?_, hold]
      · have hnew : w2.windows[w0.windows.length + nW]? = some x := by
          rw [hw, ← hwl]
          exact getElem?_append_new _ _
        simp [hnew, hx.2.2.2]
      · intro a ha
        obtain ⟨i, hi, rfl⟩ := List.mem_range'.1 ha
        simp only
        rw [hw, getElem?_append_old _ _ _ (by omega)]
  · rw [countCmd_append, h1, hn]
    try rfl
  · rw [countCmd_append, h2, hsp]
    try rfl

/-- The tree after a pane was created and registered with a window. -/
theorem dryTree_add_pane {w0 w w2 : World} {sa nW nP : Nat} (ht : DryTree w0 w sa nW nP)
    (i : Nat) (hi : i < nW) (win : Window) (p : Pane)
    (hwin : w.windows[w0.windows.length + i]? = some win)
    (hs : w2.sessions = w.sessions)
    (hw : w2.windows =
      w.windows.set (w0.windows.length + i) (win.addPane (w0.panes.length + nP)))
    (hp : w2.panes = w.panes ++ [p])
    (hx : p.state = .stateApplied ∧ p.sess = some sa ∧
      p.win = some (w0.windows.length + i) ∧ p.id = "%" ++ toString (nP + 1))
    (l : List Call) (hc : w2.calls = w.calls ++ l) (hn : countCmd "new-window" l = 0)
    (hsp : countCmd "split-window" l = 1) : DryTree w0 w2 sa nW (nP + 1) := by
  obtain ⟨l0, hl0, h1, h2⟩ := ht.calls
  have hwl := ht.wlen
  have hpl := ht.plen
  have hlen := (List.getElem?_eq_some_iff.1 hwin).1
  obtain ⟨win0, hwin0, hw1, hw2, hw3, hw4⟩ := ht.wins i hi
  rw [hwin] at hwin0
  cases hwin0
  have hwins : ∀ k, k < nW → ∃ x, w2.windows[w0.windows.length + k]? = some x ∧
      x.state = .stateApplied ∧ x.sess = some sa ∧ x.id = "@" ++ toString (k + 1) ∧
      ∀ y ∈ x.panes, w0.panes.length ≤ y ∧ y < w0.panes.length + (nP + 1) := by
    intro k hk
    by_cases hki : k = i
    · subst hki
      refine ⟨win.addPane (w0.panes.length + nP), ?_, hw1, hw2, hw3, ?_⟩
      · rw [hw]
        simp [hlen]
      · intro y hy
        simp only [Window.addPane, List.mem_append, List.mem_singleton] at hy
        rcases hy with hy | hy
        · have := hw4 y hy
          omega
        · omega
    · obtain ⟨x, hxk, h3, h4, h5, h6⟩ := ht.wins k hk
      refine ⟨x, ?_, h3, h4, h5, ?_⟩
      · rw [hw, List.getElem?_set_ne (by omega)]
        exact hxk
      · intro y hy
        have := h6 y hy
        omega
  refine ⟨by rw [hs]; exact ht.sess, by rw [hw]; simpa using hwl, hwins, ?_, ?_, ?_,
    ⟨l0 ++ l, by rw [hc, hl0, List.append_assoc], ?_, ?_⟩⟩
  · rw [hp, List.length_append, hpl]
    simp [Nat.add_assoc]
  · intro j hj
    by_cases hlt : j < nP
    · obtain ⟨q, hq, hrest⟩ := ht.panes j hlt
      refine ⟨q, ?_, hrest⟩
      rw [hp, getElem?_append_old _ _ _ (by omega)]
      exact hq
    · have hj' : j = nP := by omega
      subst hj'
      refine ⟨p, ?_, hx.1, hx.2.1, ⟨i, hi, hx.2.2.1⟩, hx.2.2.2⟩
      rw [hp, ← hpl]
      exact getElem?_append_new _ _
  · refine countPanes_of_sum w0 w2 nW (nP + 1) ?_ ?_
    · intro k hk
      obtain ⟨x, hxk, _⟩ := hwins k hk
      exact ⟨x, hxk⟩
    · have hold := dryTree_sum ht
      rw [sum_map_bump (List.range' w0.windows.length nW) (w0.windows.length + i)
        (fun a => ((w.windows[a]?).map (fun x => x.panes.length)).getD 0)
        (fun a => ((w2.windows[a]?).map (fun x => x.panes.length)).getD 0)
        (List.nodup_range' _ _) (List.mem_range'.2 ⟨i, hi, by simp⟩) ?_ ?_, hold]
      · simp only
        rw [hw, hwin]
        simp [hlen, Window.addPane]
      · intro a _ hne
        simp only
        rw [hw, List.getElem?_set_ne (fun e => hne e.symm)]
  · rw [countCmd_append, h1, hn]
    try rfl
  · rw [countCmd_append, h2, hsp]
    try rfl

/-! ## One window and one pane in dry-run mode -/

/-- The record of a window in dry-run mode. -/
theorem dry_windowApply {os : OS} {R : Runner} {ctx : Context} {w0 w : World}
    {sa nW nP : Nat} (w1 : World) (win : Window)
    (hctx : ctx.Err = none) (hdry : R.IsDryRun = true)
    (hrun : ∀ c calls args, R.Run c calls args = ("", none))
    (ht : DryTree w0 w sa nW nP)
    (h1s : w1.sessions = w.sessions) (h1w : w1.windows = w.windows ++ [win])
    (h1p : w1.panes = w.panes) (h1c : w1.calls = w.calls)
    (hnew : win.state = .stateNew) (hsa : win.sess = some sa) (hpn : win.panes = [])
    (hname : ∀ c ∈ win.name.data, (isWordChar c || c = '.' || c = '_' || c = '-') = true)
    (hpath : cleanText win.path = true) :
    ∃ w2, Window.Apply os R ctx (some (w0.windows.length + nW)) w1 = .ok none w2 ∧
      DryTree w0 w2 sa (nW + 1) nP := by
  obtain ⟨sess, hs, happ, hws, hnum⟩ := dryTree_session ht
  have hwl := ht.wlen
  have hsc : sess.state ≠ .stateClosed := by rw [happ]; decide
  have hw1 : w1.windows[w0.windows.length + nW]? = some win := by
    rw [h1w, ← hwl]
    exact getElem?_append_new _ _
  have hs1 : w1.sessions[sa]? = some sess := by rw [h1s]; exact hs
  have hrec := windowDryRun_parse (nW + 1) win.name win.path hname hpath
  have hout : (if R.IsDryRun then
      (Window.dryRunRecord (some (w0.windows.length + nW))
        { w1 with calls := w1.calls ++ [.Run (win.newWindowArgs os sess)] }).val?
      else some "") = some (outputRecord.String
        [("window_id", "@" ++ toString (nW + 1)), ("window_name", win.name),
         ("window_path", win.path), ("window_index", toString (nW + 1)),
         ("window_width", "80"), ("window_height", "24")]) := by
    simp [hdry, Window.dryRunRecord, getWindow, hw1, getSession, hsa, hs1, hnum]
  have hid := windowUpdate_dry_id win ("@" ++ toString (nW + 1)) win.name win.path
    (toString (nW + 1)) (string_append_ne_empty '@' _)
  generalize [("window_id", "@" ++ toString (nW + 1)), ("window_name", win.name),
    ("window_path", win.path), ("window_index", toString (nW + 1)),
    ("window_width", "80"), ("window_height", "24")] = record at hrec hout hid
  have hcr := windowApply_created hctx hw1 hnew hsa hs1 hsc (hrun _ _ _) hout hrec
  rw [hcr]
  have hlen : w0.windows.length + nW < w1.windows.length := by
    rw [h1w]
    simp [hwl]
  have hslen := (List.getElem?_eq_some_iff.1 hs1).1
  have hw2 : (w1.windows.set (w0.windows.length + nW) (win.update record))[
      w0.windows.length + nW]? = some (win.update record) := by
    simp [hlen]
  have hs2 : (w1.sessions.set sa (sess.addWindow (w0.windows.length + nW)))[sa]? =
      some (sess.addWindow (w0.windows.length + nW)) := by
    simp [hslen]
  have hx1 : (win.update record).sess = some sa := by simp [hsa]
  have hx2 : (win.update record).state = .stateApplied := by simp
  have hx3 : (sess.addWindow (w0.windows.length + nW)).state ≠ .stateClosed := hsc
  rw [windowRunCommands_applied _ hctx hw2 hx1 hs2 hx2 hx3]
  rw [windowSendKeys_eq _ _ hw2 hx1 hs2]
  rw [sendKeysTo_total _ _ _ (fun c calls args => by rw [hrun])]
  refine ⟨_, rfl, ?_⟩
  refine dryTree_add_window ht sess (win.update record) hs ?_ ?_ h1p
    ⟨hx2, hx1, hid, by simp [hpn]⟩
    ([Call.Run (win.newWindowArgs os sess)] ++
      (sess.onWindowCommands ++ win.cmds).map
        (sendKeysCall ((sess.addWindow (w0.windows.length + nW)).name ++ ":" ++
          (win.update record).name))) ?_ ?_ ?_
  · simp [h1s]
  · simp only [h1w]
    rw [← hwl]
    exact set_append_new _ _ _
  · simp only [h1c]
    rw [List.append_assoc]
  · rw [countCmd_append, isCmd_sendKeys _ _ _ (by decide)]
    simp [countCmd, (isCmd_newWindow win os sess).1]
  · rw [countCmd_append, isCmd_sendKeys _ _ _ (by decide)]
    simp [countCmd, (isCmd_newWindow win os sess).2]

/-- A pane of the tree, its window and the session, seen from a world that
has the objects of the tree. -/
theorem dry_pane_at {w0 w w1 : World} {sa nW nP : Nat} (ht : DryTree w0 w sa nW nP)
    (hsw : w1.sessions = w.sessions) (hww : w1.windows = w.windows)
    (hpw : ∀ k, k < w.panes.length → w1.panes[k]? = w.panes[k]?) (j : Nat) (hj : j < nP) :
    ∃ p win sess, w1.panes[w0.panes.length + j]? = some p ∧ p.state = .stateApplied ∧
      (∃ i, i < nW ∧ p.win = some (w0.windows.length + i) ∧
        w1.windows[w0.windows.length + i]? = some win) ∧
      win.state = .stateApplied ∧ win.sess = some sa ∧
      w1.sessions[sa]? = some sess ∧ sess.state = .stateApplied := by
  obtain ⟨sess, hs, happ, _, _⟩ := dryTree_session ht
  obtain ⟨p, hp, h1, _, ⟨i, hi, h3⟩, _⟩ := ht.panes j hj
  obtain ⟨win, hwin, h4, h5, _, _⟩ := ht.wins i hi
  refine ⟨p, win, sess, ?_, h1, ⟨i, hi, h3, by rw [hww]; exact hwin⟩, h4, h5,
    by rw [hsw]; exact hs, happ⟩
  rw [hpw _ (by rw [ht.plen]; omega)]
  exact hp

theorem dry_paneName {w0 w w1 : World} {sa nW nP : Nat} (ht : DryTree w0 w sa nW nP)
    (hsw : w1.sessions = w.sessions) (hww : w1.windows = w.windows)
    (hpw : ∀ k, k < w.panes.length → w1.panes[k]? = w.panes[k]?) (j : Nat) (hj : j < nP) :
    ∃ t, Pane.Name (some (w0.panes.length + j)) w1 = .ok t w1 := by
  obtain ⟨p, win, sess, hp, h1, ⟨i, hi, h3, hwin⟩, h4, h5, hs, happ⟩ :=
    dry_pane_at ht hsw hww hpw j hj
  simp [Pane.Name, getPane, hp, Window.Name, getWindow, h3, hwin, getSession, h5, hs]

theorem dry_paneCheckState {w0 w w1 : World} {sa nW nP : Nat} (ht : DryTree w0 w sa nW nP)
    (hsw : w1.sessions = w.sessions) (hww : w1.windows = w.windows)
    (hpw : ∀ k, k < w.panes.length → w1.panes[k]? = w.panes[k]?) (j : Nat) (hj : j < nP) :
    Pane.checkState (some (w0.panes.length + j)) w1 = .ok none w1 := by
  obtain ⟨p, win, sess, hp, h1, ⟨i, hi, h3, hwin⟩, h4, h5, hs, happ⟩ :=
    dry_pane_at ht hsw hww hpw j hj
  simp [Pane.checkState, Pane.IsClosed, getPane, hp, h1, Window.IsClosed, getWindow, h3, hwin,
    h4, getSession, h5, hs, Session.IsClosed, happ, Pane.IsApplied]

/-- The record of a pane in dry-run mode. -/
theorem dry_paneApply {os : OS} {R : Runner} {ctx : Context} {w0 w : World}
    {sa nW nP : Nat} (w1 : World) (pane : Pane) (i : Nat)
    (hctx : ctx.Err = none) (hdry : R.IsDryRun = true)
    (hrun : ∀ c calls args, R.Run c calls args = ("", none))
    (ht : DryTree w0 w sa nW nP) (hi : i < nW)
    (h1s : w1.sessions = w.sessions) (h1w : w1.windows = w.windows)
    (h1p : w1.panes = w.panes ++ [pane]) (h1c : w1.calls = w.calls)
    (hnew : pane.state = .stateNew) (hsa : pane.sess = some sa)
    (hwa : pane.win = some (w0.windows.length + i))
    (hpar : ∀ pp, pane.pane = some pp → ∃ j, j < nP ∧ pp = w0.panes.length + j)
    (hpath : cleanText pane.path = true) :
    ∃ w2, Pane.Apply os R ctx (some (w0.panes.length + nP)) w1 = .ok none w2 ∧
      DryTree w0 w2 sa nW (nP + 1) := by
  obtain ⟨sess, hs, happ, hws, hnum⟩ := dryTree_session ht
  obtain ⟨win, hwin, hwapp, hwsa, _, _⟩ := ht.wins i hi
  have hpl := ht.plen
  have hsc : sess.state ≠ .stateClosed := by rw [happ]; decide
  have hwc : win.state ≠ .stateClosed := by rw [hwapp]; decide
  have hpc : pane.state ≠ .stateClosed := by rw [hnew]; decide
  have hp1 : w1.panes[w0.panes.length + nP]? = some pane := by
    rw [h1p, ← hpl]
    exact getElem?_append_new _ _
  have hw1 : w1.windows[w0.windows.length + i]? = some win := by rw [h1w]; exact hwin
  have hs1 : w1.sessions[sa]? = some sess := by rw [h1s]; exact hs
  have hpw : ∀ k, k < w.panes.length → w1.panes[k]? = w.panes[k]? := by
    intro k hk
    rw [h1p]
    exact getElem?_append_old _ _ _ hk
  have hcl : Pane.IsClosed (some (w0.panes.length + nP)) w1 = .ok false w1 := by
    simp [Pane.IsClosed, getPane, hp1, hpc, Window.IsClosed, getWindow, hwa, hw1, hwc,
      getSession, hwsa, hs1, Session.IsClosed, hsc]
  have hn : Window.Name pane.win w1 = .ok (sess.Name ++ ":" ++ win.name) w1 := by
    simp [Window.Name, getWindow, hwa, hw1, getSession, hwsa, hs1]
  have htm : ∃ target, match pane.pane with
      | none => target = sess.Name ++ ":" ++ win.name
      | some pp => Pane.Name (some pp) w1 = .ok target w1 := by
    cases hpp : pane.pane with
    | none => exact ⟨_, rfl⟩
    | some pp =>
      obtain ⟨j, hj, rfl⟩ := hpar pp hpp
      exact dry_paneName ht h1s h1w hpw j hj
  obtain ⟨target, htm⟩ := htm
  have hen : ∃ env, Pane.envArgs os (some (w0.panes.length + nP)) w1 = .ok env w1 := by
    cases hpp : pane.pane with
    | none =>
      simp [Pane.envArgs, getPane, hp1, hpp, getSession, hsa, hs1, getWindow, hwa, hw1]
    | some pp =>
      obtain ⟨j, hj, rfl⟩ := hpar pp hpp
      obtain ⟨p, _, _, hp, _⟩ := dry_pane_at ht h1s h1w hpw j hj
      simp [Pane.envArgs, getPane, hp1, hpp, getSession, hsa, hs1, getWindow, hwa, hw1, hp]
  obtain ⟨env, hen⟩ := hen
  have hcount : ∀ calls, countPanes (List.range' w0.windows.length nW) 0
      { w1 with calls := calls } = .ok nP { w1 with calls := calls } := by
    intro calls
    refine countPanes_of_sum w0 _ nW nP ?_ ?_
    · intro k hk
      obtain ⟨x, hx, _⟩ := ht.wins k hk
      exact ⟨x, by simp only [h1w]; exact hx⟩
    · simp only [h1w]
      exact dryTree_sum ht
  have hrec := paneDryRun_parse (nP + 1) (win.NumPanes + 1) pane.path hpath
  have hout : (if R.IsDryRun then
      (Pane.dryRunRecord (some (w0.panes.length + nP))
        { w1 with calls := w1.calls ++ [.Run (pane.splitWindowArgs target env)] }).val?
      else some "") = some (outputRecord.String
        [("pane_id", "%" ++ toString (nP + 1)), ("pane_path", pane.path),
         ("pane_index", toString (win.NumPanes + 1)),
         ("pane_width", "40"), ("pane_height", "12")]) := by
    simp [hdry, Pane.dryRunRecord, getPane, hp1, Session.NumPanes, getSession, hsa, hs1, hws,
      hcount, getWindow, hwa, hw1]
  have hid := paneUpdate_dry_id pane ("%" ++ toString (nP + 1)) pane.path
    (toString (win.NumPanes + 1)) (string_append_ne_empty '%' _)
  generalize [("pane_id", "%" ++ toString (nP + 1)), ("pane_path", pane.path),
    ("pane_index", toString (win.NumPanes + 1)),
    ("pane_width", "40"), ("pane_height", "12")] = record at hrec hout hid
  have hcr := paneApply_created hctx hp1 hcl hnew hwa hw1 hsa hs1 hn htm hen (hrun _ _ _)
    hout hrec
  rw [hcr]
  have hlen : w0.panes.length + nP < w1.panes.length := by
    rw [h1p]
    simp [hpl]
  have hwlen := (List.getElem?_eq_some_iff.1 hw1).1
  have hp2 : (w1.panes.set (w0.panes.length + nP)
      (pane.created (w0.panes.length + nP) record))[w0.panes.length + nP]? =
      some (pane.created (w0.panes.length + nP) record) := by
    simp [hlen]
  have hw2 : (w1.windows.set (w0.windows.length + i)
      (win.addPane (w0.panes.length + nP)))[w0.windows.length + i]? =
      some (win.addPane (w0.panes.length + nP)) := by
    simp [hwlen]
  have hx1 : (pane.created (w0.panes.length + nP) record).state = .stateApplied :=
    paneCreated_state _ _ _
  have hx2 : (pane.created (w0.panes.length + nP) record).win =
      some (w0.windows.length + i) := by
    rw [(paneCreated_fields _ _ _).1, hwa]
  have hx3 : (pane.created (w0.panes.length + nP) record).sess = some sa := by
    rw [(paneCreated_keeps _ _ _).1, hsa]
  have hx4 : (pane.created (w0.panes.length + nP) record).id = "%" ++ toString (nP + 1) := by
    rw [(paneCreated_keeps _ _ _).2, hid]
  have hx5 : (win.addPane (w0.panes.length + nP)).state ≠ .stateClosed := hwc
  have hx6 : (win.addPane (w0.panes.length + nP)).sess = some sa := hwsa
  have e1 : Pane.RunCommands R ctx (some (w0.panes.length + nP))
      (sess.onPaneCommands ++ pane.cmds)
      { sessions := w1.sessions,
        windows := w1.windows.set (w0.windows.length + i) (win.addPane (w0.panes.length + nP)),
        panes := w1.panes.set (w0.panes.length + nP)
          (pane.created (w0.panes.length + nP) record),
        calls := w1.calls ++ [Call.Run (pane.splitWindowArgs target env)] } =
      Pane.sendKeys R ctx (some (w0.panes.length + nP)) (sess.onPaneCommands ++ pane.cmds)
      { sessions := w1.sessions,
        windows := w1.windows.set (w0.windows.length + i) (win.addPane (w0.panes.length + nP)),
        panes := w1.panes.set (w0.panes.length + nP)
          (pane.created (w0.panes.length + nP) record),
        calls := w1.calls ++ [Call.Run (pane.splitWindowArgs target env)] } :=
    paneRunCommands_applied _ hctx hp2 hx1 hx2 hw2 hx5 hx6 hs1 hsc
  have e2 : Pane.sendKeys R ctx (some (w0.panes.length + nP))
      (sess.onPaneCommands ++ pane.cmds)
      { sessions := w1.sessions,
        windows := w1.windows.set (w0.windows.length + i) (win.addPane (w0.panes.length + nP)),
        panes := w1.panes.set (w0.panes.length + nP)
          (pane.created (w0.panes.length + nP) record),
        calls := w1.calls ++ [Call.Run (pane.splitWindowArgs target env)] } = _ :=
    paneSendKeys_eq _ _ hp2 hx2 hw2 hx6 hs1
  rw [e1, e2]
  rw [sendKeysTo_total _ _ _ (fun c calls args => by rw [hrun])]
  refine ⟨_, rfl, ?_⟩
  refine dryTree_add_pane ht i hi win (pane.created (w0.panes.length + nP) record) hwin h1s
    ?_ ?_ ⟨hx1, hx3, hx2, hx4⟩
    ([Call.Run (pane.splitWindowArgs target env)] ++
      (sess.onPaneCommands ++ pane.cmds).map
        (sendKeysCall (sess.name ++ ":" ++ (win.addPane (w0.panes.length + nP)).name ++ "." ++
          (pane.created (w0.panes.length + nP) record).index))) ?_ ?_ ?_
  · simp [h1w]
  · simp only [h1p]
    rw [← hpl]
    exact set_append_new _ _ _
  · simp only [h1c]
    rw [List.append_assoc]
  · rw [countCmd_append, isCmd_sendKeys _ _ _ (by decide)]
    simp [countCmd, (isCmd_splitWindow pane target env).2]
  · rw [countCmd_append, isCmd_sendKeys _ _ _ (by decide)]
    simp [countCmd, (isCmd_splitWindow pane target env).1]

/-! ## Selecting the active window in dry-run mode -/

theorem findActivePane_total (w : World) (panes : List Nat) (acc : Option Nat)
    (h : ∀ q ∈ panes, ∃ p, w.panes[q]? = some p) :
    ∃ r, findActivePane panes acc w = .ok r w ∧ (r = acc ∨ ∃ a ∈ panes, r = some a) := by
  induction panes generalizing acc with
  | nil => exact ⟨acc, rfl, Or.inl rfl⟩
  | cons q rest ih =>
    obtain ⟨p, hp⟩ := h q (by simp)
    have hrest : ∀ x ∈ rest, ∃ p, w.panes[x]? = some p := fun x hx => h x (by simp [hx])
    by_cases ha : p.IsActive = true
    · obtain ⟨r, hr, hmem⟩ := ih (some q) hrest
      refine ⟨r, by simp [findActivePane, getPane, hp, ha, hr], ?_⟩
      rcases hmem with hmem | ⟨a, ha1, ha2⟩
      · exact Or.inr ⟨q, by simp, hmem⟩
      · exact Or.inr ⟨a, by simp [ha1], ha2⟩
    · obtain ⟨r, hr, hmem⟩ := ih acc hrest
      refine ⟨r, by simp [findActivePane, getPane, hp, ha, hr], ?_⟩
      rcases hmem with hmem | ⟨a, ha1, ha2⟩
      · exact Or.inl hmem
      · exact Or.inr ⟨a, by simp [ha1], ha2⟩

theorem findActiveWindow_total (w : World) (l : List Nat) (acc : Nat)
    (h : ∀ q ∈ l, ∃ x, w.windows[q]? = some x) :
    ∃ r, findActiveWindow l acc w = .ok r w ∧ (r = acc ∨ r ∈ l) := by
  induction l generalizing acc with
  | nil => exact ⟨acc, rfl, Or.inl rfl⟩
  | cons q rest ih =>
    obtain ⟨x, hx⟩ := h q (by simp)
    have hrest : ∀ y ∈ rest, ∃ x, w.windows[y]? = some x := fun y hy => h y (by simp [hy])
    by_cases ha : x.IsActive = true
    · obtain ⟨r, hr, hmem⟩ := ih q hrest
      refine ⟨r, by simp [findActiveWindow, getWindow, hx, ha, hr], ?_⟩
      rcases hmem with hmem | hmem
      · exact Or.inr (by simp [hmem])
      · exact Or.inr (by simp [hmem])
    · obtain ⟨r, hr, hmem⟩ := ih acc hrest
      refine ⟨r, by simp [findActiveWindow, getWindow, hx, ha, hr], ?_⟩
      rcases hmem with hmem | hmem
      · exact Or.inl hmem
      · exact Or.inr (by simp [hmem])

theorem dry_paneSelect {R : Runner} {ctx : Context} {w0 w w1 : World} {sa nW nP : Nat}
    (hctx : ctx.Err = none) (hrun : ∀ c calls args, R.Run c calls args = ("", none))
    (ht : DryTree w0 w sa nW nP)
    (hsw : w1.sessions = w.sessions) (hww : w1.windows = w.windows)
    (hpw : ∀ k, k < w.panes.length → w1.panes[k]? = w.panes[k]?) (j : Nat) (hj : j < nP) :
    ∃ w2, Pane.Select R ctx (some (w0.panes.length + j)) w1 = .ok none w2 := by
  obtain ⟨t, hname⟩ := dry_paneName ht hsw hww hpw j hj
  simp [Pane.Select, hctx, dry_paneCheckState ht hsw hww hpw j hj, hname, Run, hrun]

theorem dry_windowCheckState {w0 w w1 : World} {sa nW nP : Nat} (ht : DryTree w0 w sa nW nP)
    (hsw : w1.sessions = w.sessions) (hww : w1.windows = w.windows) (i : Nat) (hi : i < nW) :
    Window.checkState (some (w0.windows.length + i)) w1 = .ok none w1 ∧
    ∃ t, Window.Name (some (w0.windows.length + i)) w1 = .ok t w1 := by
  obtain ⟨sess, hs, happ, _, _⟩ := dryTree_session ht
  obtain ⟨win, hwin, hwapp, hwsa, _, _⟩ := ht.wins i hi
  rw [← hww] at hwin
  rw [← hsw] at hs
  constructor
  · simp [Window.checkState, Window.IsClosed, getWindow, hwin, hwapp, getSession, hwsa, hs,
      Session.IsClosed, happ, Window.IsApplied]
  · simp [Window.Name, getWindow, hwin, getSession, hwsa, hs]

theorem dry_selectPane {R : Runner} {ctx : Context} {w0 w w1 : World} {sa nW nP : Nat}
    (hctx : ctx.Err = none) (hrun : ∀ c calls args, R.Run c calls args = ("", none))
    (ht : DryTree w0 w sa nW nP)
    (hsw : w1.sessions = w.sessions) (hww : w1.windows = w.windows)
    (hpw : w1.panes = w.panes) (i : Nat) (hi : i < nW) :
    ∃ w2, Window.selectPane R ctx (some (w0.windows.length + i)) w1 = .ok none w2 := by
  obtain ⟨hcs, t, hname⟩ := dry_windowCheckState ht hsw hww i hi
  obtain ⟨win, hwin, _, _, _, hpanes⟩ := ht.wins i hi
  rw [← hww] at hwin
  have hpw1 : ∀ k, k < w.panes.length → w1.panes[k]? = w.panes[k]? := by
    intro k _
    rw [hpw]
  by_cases h0 : win.NumPanes = 0
  · simp [Window.selectPane, hctx, hcs, getWindow, hwin, h0]
  · have hall : ∀ q ∈ win.panes, ∃ p, w1.panes[q]? = some p := by
      intro q hq
      have hb := hpanes q hq
      obtain ⟨p, _, _, hp, _⟩ := dry_pane_at ht hsw hww hpw1 (q - w0.panes.length) (by omega)
      exact ⟨p, by rw [← hp]; congr 1; omega⟩
    obtain ⟨r, hr, hmem⟩ := findActivePane_total w1 win.panes none hall
    rcases hmem with hmem | ⟨a, ha, hmem⟩
    · subst hmem
      have hname1 := (@dry_windowCheckState w0 w
        { w1 with calls := w1.calls ++ [Call.Run ["show-option", "-gqv", "pane-base-index"]] }
        sa nW nP ht hsw hww i hi).2
      obtain ⟨t1, hname1⟩ := hname1
      simp [Window.selectPane, hctx, hcs, getWindow, hwin, h0, hr, Run, hrun, hname1]
    · subst hmem
      have hb := hpanes a ha
      obtain ⟨w2, h2⟩ := dry_paneSelect hctx hrun ht hsw hww hpw1 (a - w0.panes.length)
        (by omega)
      have ha2 : w0.panes.length + (a - w0.panes.length) = a := by omega
      rw [ha2] at h2
      exact ⟨w2, by simp [Window.selectPane, hctx, hcs, getWindow, hwin, h0, hr, h2]⟩

theorem dry_windowSelect {R : Runner} {ctx : Context} {w0 w w1 : World} {sa nW nP : Nat}
    (hctx : ctx.Err = none) (hrun : ∀ c calls args, R.Run c calls args = ("", none))
    (ht : DryTree w0 w sa nW nP)
    (hsw : w1.sessions = w.sessions) (hww : w1.windows = w.windows)
    (hpw : w1.panes = w.panes) (i : Nat) (hi : i < nW) :
    ∃ w2, Window.Select R ctx (some (w0.windows.length + i)) w1 = .ok none w2 := by
  obtain ⟨hcs, t, hname⟩ := dry_windowCheckState ht hsw hww i hi
  obtain ⟨w2, h2⟩ := @dry_selectPane R ctx w0 w
    { w1 with calls := w1.calls ++ [Call.Run ["select-window", "-t", t]] }
    sa nW nP hctx hrun ht hsw hww hpw i hi
  exact ⟨w2, by simp [Window.Select, hctx, hcs, hname, Run, hrun, h2]⟩

theorem countCmd_of_isRun (name : String) (names : List String) (l : List Call)
    (hn : name ∉ names) (h : ∀ c ∈ l, Call.isRun names c) : countCmd name l = 0 := by
  unfold countCmd
  rw [List.length_eq_zero, List.filter_eq_nil_iff]
  intro c hc
  have hk := h c hc
  cases c with
  | Run args =>
    cases args with
    | nil => simp [Call.isCmd]
    | cons n rest =>
      simp only [Call.isRun] at hk
      simp only [Call.isCmd, beq_iff_eq]
      intro e
      exact hn (e ▸ hk)
  | Execve args => simp [Call.isCmd]

/-- Selecting the active window of a tree with at least one window succeeds in
dry-run mode and leaves the tree as it is. -/
theorem dry_selectActive {R : Runner} {ctx : Context} {w0 w : World} {sa nW nP : Nat}
    (hctx : ctx.Err = none) (hrun : ∀ c calls args, R.Run c calls args = ("", none))
    (ht : DryTree w0 w sa nW nP) (hN : 1 ≤ nW) :
    ∃ w2, Session.SelectActive R ctx (some sa) w = .ok none w2 ∧
      DryTree w0 w2 sa nW nP := by
  obtain ⟨sess, hs, happ, hws, hnum⟩ := dryTree_session ht
  have hsc : sess.state ≠ .stateClosed := by rw [happ]; decide
  have hval : ∃ w2, Session.SelectActive R ctx (some sa) w = .ok none w2 := by
    by_cases h1 : nW = 1
    · subst h1
      obtain ⟨w2, h2⟩ := dry_selectPane hctx hrun ht rfl rfl rfl 0 (by omega)
      have hwsl : sess.windows = [w0.windows.length] := by rw [hws]; rfl
      refine ⟨w2, ?_⟩
      simpa [Session.SelectActive, hctx, getSession, hs, Session.checkState,
        Session.IsClosed, Session.IsApplied, happ, hnum, hwsl] using h2
    · obtain ⟨m, rfl⟩ : ∃ m, nW = m + 2 := ⟨nW - 2, by omega⟩
      have hwsl : sess.windows =
          w0.windows.length :: List.range' (w0.windows.length + 1) (m + 1) := by
        rw [hws]
        rfl
      have hall : ∀ q ∈ List.range' (w0.windows.length + 1) (m + 1),
          ∃ x, w.windows[q]? = some x := by
        intro q hq
        obtain ⟨k, hk, rfl⟩ := List.mem_range'.1 hq
        obtain ⟨x, hx, _⟩ := ht.wins (1 + k) (by omega)
        exact ⟨x, by rw [← hx]; congr 1; omega⟩
      obtain ⟨r, hr, hmem⟩ := findActiveWindow_total w _ w0.windows.length hall
      have hri : ∃ i, i < m + 2 ∧ r = w0.windows.length + i := by
        rcases hmem with hmem | hmem
        · exact ⟨0, by omega, by omega⟩
        · obtain ⟨k, hk, rfl⟩ := List.mem_range'.1 hmem
          exact ⟨1 + k, by omega, by omega⟩
      obtain ⟨i, hi, rfl⟩ := hri
      obtain ⟨w2, h2⟩ := dry_windowSelect hctx hrun ht rfl rfl rfl i hi
      refine ⟨w2, ?_⟩
      have hnum2 : ¬ sess.NumWindows = 1 := by rw [hnum]; omega
      simp [Session.SelectActive, hctx, getSession, hs, Session.checkState,
        Session.IsClosed, Session.IsApplied, happ, hnum2, hwsl, hr, h2]
  obtain ⟨w2, h2⟩ := hval
  refine ⟨w2, h2, ?_⟩
  have hk := keeps_SessionSelectActive R ctx (some sa) w
  rw [h2] at hk
  obtain ⟨hk1, hk2, hk3, l, hk4, hk5⟩ := hk
  exact dryTree_calls ht hk1 hk2 hk3 l hk4
    (countCmd_of_isRun _ _ l (by decide) hk5) (countCmd_of_isRun _ _ l (by decide) hk5)

/-! ## The loops of `config.Apply` in dry-run mode -/

mutual

/-- A pane configuration with clean paths, applied in dry-run mode to a window
of the tree: the pane and the panes nested in it join the tree. -/
theorem dry_applyPaneCfg {os : OS} {R : Runner} {ctx : Context} {w0 : World} {sa nW : Nat}
    (hctx : ctx.Err = none) (hdry : R.IsDryRun = true)
    (hrun : ∀ c calls args, R.Run c calls args = ("", none)) (i : Nat) (hi : i < nW) :
    (pCfg : PaneConfig) → (w : World) → (nP : Nat) → (parent : Option Nat) →
      DryTree w0 w sa nW nP →
      (∀ pp, parent = some pp → ∃ j, j < nP ∧ pp = w0.panes.length + j) →
      pCfg.cleanPaths = true →
      ∃ w2, applyPaneCfg os R ctx (some (w0.windows.length + i)) parent pCfg w =
          .ok (some (w0.panes.length + nP), none) w2 ∧
        DryTree w0 w2 sa nW (nP + pCfg.count)
  | .mk env path command commands size horizontal panes active, w, nP, parent, ht, hpar,
      hclean => by
    obtain ⟨sess, hs, happ, _, _⟩ := dryTree_session ht
    obtain ⟨win, hwin, _, hwsa, _, _⟩ := ht.wins i hi
    simp only [PaneConfig.cleanPaths, Bool.and_eq_true] at hclean
    have hnp := @newPane_run R (w0.windows.length + i) sa win sess parent
      (makePaneOpts (.mk env path command commands size horizontal panes active))
      (configuredPane sa (w0.windows.length + i) parent
        (.mk env path command commands size horizontal panes active)) w hwin hwsa hs happ
      (by
        intro pp hpp
        obtain ⟨j, hj, rfl⟩ := hpar pp hpp
        exact dry_paneCheckState ht rfl rfl (fun _ _ => rfl) j hj)
      (by rw [hwsa]; exact applyOpts_makePaneOpts _ _ _ _)
    rw [ht.plen] at hnp
    obtain ⟨w2, h2, ht2⟩ := dry_paneApply
      { w with panes := w.panes ++ [configuredPane sa (w0.windows.length + i) parent
        (.mk env path command commands size horizontal panes active)] }
      (configuredPane sa (w0.windows.length + i) parent
        (.mk env path command commands size horizontal panes active)) i hctx hdry hrun ht hi
      rfl rfl rfl rfl rfl rfl rfl hpar hclean.1
    obtain ⟨w3, h3, ht3⟩ := dry_applyPaneCfgs hctx hdry hrun i hi panes w2 (nP + 1)
      (some (w0.panes.length + nP)) ht2
      (by
        intro pp hpp
        cases hpp
        exact ⟨nP, by omega, rfl⟩)
      hclean.2
    refine ⟨w3, ?_, ?_⟩
    · unfold applyPaneCfg
      simp only [bind_run, hnp]
      rw [h2]
      simp only [bind_run]
      rw [h3]
      rfl
    · have hc : nP + (PaneConfig.mk env path command commands size horizontal panes
          active).count = nP + 1 + countPaneCfgs panes := by
        simp only [PaneConfig.count]
        omega
      rw [hc]
      exact ht3

/-- The loop over pane configurations with clean paths, in dry-run mode. -/
theorem dry_applyPaneCfgs {os : OS} {R : Runner} {ctx : Context} {w0 : World} {sa nW : Nat}
    (hctx : ctx.Err = none) (hdry : R.IsDryRun = true)
    (hrun : ∀ c calls args, R.Run c calls args = ("", none)) (i : Nat) (hi : i < nW) :
    (cfgs : List PaneConfig) → (w : World) → (nP : Nat) → (parent : Option Nat) →
      DryTree w0 w sa nW nP →
      (∀ pp, parent = some pp → ∃ j, j < nP ∧ pp = w0.panes.length + j) →
      cleanPanePaths cfgs = true →
      ∃ w2, applyPaneCfgs os R ctx (some (w0.windows.length + i)) parent cfgs w =
          .ok none w2 ∧
        DryTree w0 w2 sa nW (nP + countPaneCfgs cfgs)
  | [], w, nP, parent, ht, _, _ => ⟨w, rfl, by simpa [countPaneCfgs] using ht⟩
  | pCfg :: rest, w, nP, parent, ht, hpar, hclean => by
    simp only [cleanPanePaths, Bool.and_eq_true] at hclean
    obtain ⟨w2, h2, ht2⟩ := dry_applyPaneCfg hctx hdry hrun i hi pCfg w nP parent ht hpar
      hclean.1
    obtain ⟨w3, h3, ht3⟩ := dry_applyPaneCfgs hctx hdry hrun i hi rest w2 (nP + pCfg.count)
      parent ht2
      (by
        intro pp hpp
        obtain ⟨j, hj, hjj⟩ := hpar pp hpp
        exact ⟨j, by omega, hjj⟩)
      hclean.2
    refine ⟨w3, ?_, ?_⟩
    · unfold applyPaneCfgs
      simp only [bind_run]
      rw [h2]
      exact h3
    · have hc : nP + countPaneCfgs (pCfg :: rest) = nP + pCfg.count + countPaneCfgs rest := by
        simp only [countPaneCfgs]
        omega
      rw [hc]
      exact ht3

end

/-- A window configuration with a name and clean paths, applied in dry-run
mode: the window and its panes join the tree. -/
theorem dry_applyWindowCfg {os : OS} {R : Runner} {ctx : Context} {w0 w : World}
    {sa nW nP : Nat} (wCfg : WindowConfig)
    (hctx : ctx.Err = none) (hdry : R.IsDryRun = true)
    (hrun : ∀ c calls args, R.Run c calls args = ("", none))
    (ht : DryTree w0 w sa nW nP) (hn : wCfg.Name ≠ "")
    (hname : ∀ c ∈ wCfg.Name.data, (isWordChar c || c = '.' || c = '_' || c = '-') = true)
    (hpath : cleanText wCfg.Path = true) (hpanes : cleanPanePaths wCfg.Panes = true) :
    ∃ w2, applyWindowCfg os R ctx (some sa) wCfg w =
        .ok (some (w0.windows.length + nW), none) w2 ∧
      DryTree w0 w2 sa (nW + 1) (nP + countPaneCfgs wCfg.Panes) := by
  obtain ⟨sess, hs, happ, _, _⟩ := dryTree_session ht
  have hnw := @newWindow_run R sa sess (makeWindowOpts wCfg) (configuredWindow sa wCfg) w hs
    happ (applyOpts_makeWindowOpts sa wCfg hn)
  rw [ht.wlen] at hnw
  obtain ⟨w2, h2, ht2⟩ := dry_windowApply
    { w with windows := w.windows ++ [configuredWindow sa wCfg] } (configuredWindow sa wCfg)
    hctx hdry hrun ht rfl rfl rfl rfl rfl rfl rfl hname hpath
  obtain ⟨w3, h3, ht3⟩ := dry_applyPaneCfgs hctx hdry hrun nW (by omega) wCfg.Panes w2 nP
    none ht2 (by intro pp hpp; cases hpp) hpanes
  refine ⟨w3, ?_, ht3⟩
  unfold applyWindowCfg
  simp only [bind_run, hnw]
  rw [h2]
  simp only [bind_run]
  rw [h3]
  rfl

/-- The loop over window configurations with names and clean paths, in dry-run
mode. -/
theorem dry_applyWindowCfgs {os : OS} {R : Runner} {ctx : Context} {w0 : World} {sa : Nat}
    (hctx : ctx.Err = none) (hdry : R.IsDryRun = true)
    (hrun : ∀ c calls args, R.Run c calls args = ("", none)) (cfgs : List WindowConfig)
    (w : World) (nW nP : Nat) (ht : DryTree w0 w sa nW nP)
    (hall : ∀ wCfg ∈ cfgs, wCfg.Name ≠ "" ∧
      (∀ c ∈ wCfg.Name.data, (isWordChar c || c = '.' || c = '_' || c = '-') = true) ∧
      cleanText wCfg.Path = true ∧ cleanPanePaths wCfg.Panes = true) :
    ∃ w2, applyWindowCfgs os R ctx (some sa) cfgs w = .ok none w2 ∧
      DryTree w0 w2 sa (nW + cfgs.length) (nP + countWindowPanes cfgs) := by
  induction cfgs generalizing w nW nP with
  | nil => exact ⟨w, rfl, by simpa [countWindowPanes] using ht⟩
  | cons wCfg rest ih =>
    obtain ⟨h1, h2, h3, h4⟩ := hall wCfg (by simp)
    obtain ⟨w2, hw2, ht2⟩ := dry_applyWindowCfg wCfg hctx hdry hrun ht h1 h2 h3 h4
    obtain ⟨w3, hw3, ht3⟩ := ih w2 (nW + 1) (nP + countPaneCfgs wCfg.Panes) ht2
      (fun x hx => hall x (by simp [hx]))
    refine ⟨w3, ?_, ?_⟩
    · unfold applyWindowCfgs
      simp only [bind_run]
      rw [hw2]
      exact hw3
    · have e1 : nW + (wCfg :: rest).length = nW + 1 + rest.length := by
        simp only [List.length_cons]
        omega
      have e2 : nP + countWindowPanes (wCfg :: rest) =
          nP + countPaneCfgs wCfg.Panes + countWindowPanes rest := by
        simp only [countWindowPanes]
        omega
      rw [e1, e2]
      exact ht3

/-! ## The whole of `config.Apply` in dry-run mode -/

theorem validateSlice_cons_ne (l : List (Option Error)) (i : Nat) (f : String)
    (e errs : Error) : validateSlice l i (.ErrorsCons f e errs) ≠ none := by
  induction l generalizing i f e errs with
  | nil => simp [validateSlice, Error.noFields]
  | cons r rest ih =>
    cases r with
    | none => simpa [validateSlice] using ih _ f e errs
    | some err =>
      simp only [validateSlice, Error.addField, ne_eq]
      exact ih _ _ _ _

theorem validateSlice_none (l : List (Option Error)) (i : Nat)
    (h : validateSlice l i .ErrorsNil = none) : ∀ r ∈ l, r = none := by
  induction l generalizing i with
  | nil => simp
  | cons r rest ih =>
    cases r with
    | none =>
      intro x hx
      rcases List.mem_cons.1 hx with hx | hx
      · exact hx
      · exact ih (i + 1) (by simpa [validateSlice] using h) x hx
    | some err =>
      exfalso
      simp only [validateSlice, Error.addField] at h
      exact validateSlice_cons_ne _ _ _ _ _ h

/-- The window names of a valid configuration pass the rule of names. -/
theorem validate_window_names {os : OS} {cfg : Config} (h : cfg.Validate os = none) :
    ∀ wCfg ∈ cfg.Session.Windows, nameMatchRule wCfg.Name = none := by
  unfold Config.Validate at h
  have h1 := validateStruct_none_head (validateStruct_none_tail h)
  have h2 : cfg.Session.Validate os = none := by
    cases hv : cfg.Session.Validate os with
    | none => rfl
    | some e => simp [firstError, hv] at h1
  unfold SessionConfig.Validate at h2
  have h3 := validateStruct_none_head
    (validateStruct_none_tail (validateStruct_none_tail (validateStruct_none_tail h2)))
  intro wCfg hw
  have h4 := validateSlice_none _ _ h3 (WindowConfig.Validate os wCfg)
    (List.mem_map.2 ⟨wCfg, hw, rfl⟩)
  unfold WindowConfig.Validate at h4
  exact validateStruct_none_head h4

/-- The tree of an applied session that has no window yet. -/
theorem dryTree_init (w : World) (sa : Nat) (s : Session) (hs : w.sessions[sa]? = some s)
    (happ : s.state = .stateApplied) (hw : s.windows = []) : DryTree w w sa 0 0 :=
  ⟨⟨s, hs, happ, by rw [hw]; rfl⟩, rfl, fun i hi => absurd hi (Nat.not_lt_zero i), rfl,
    fun j hj => absurd hj (Nat.not_lt_zero j), rfl, ⟨[], by simp, rfl, rfl⟩⟩

/-- The tree seen from an earlier world that has the same windows and panes
and has issued no creation command for them since. -/
theorem dryTree_rebase {w w0 w2 : World} {sa nW nP : Nat} (ht : DryTree w0 w2 sa nW nP)
    (hw : w0.windows = w.windows) (hp : w0.panes = w.panes) (l0 : List Call)
    (hc : w0.calls = w.calls ++ l0) (h1 : countCmd "new-window" l0 = 0)
    (h2 : countCmd "split-window" l0 = 0) : DryTree w w2 sa nW nP := by
  obtain ⟨l, hl, c1, c2⟩ := ht.calls
  refine ⟨by rw [← hw]; exact ht.sess, by rw [← hw]; exact ht.wlen,
    by rw [← hw, ← hp]; exact ht.wins, by rw [← hp]; exact ht.plen,
    by rw [← hw, ← hp]; exact ht.panes, by rw [← hw]; exact ht.count,
    ⟨l0 ++ l, by rw [hl, hc, List.append_assoc], ?_, ?_⟩⟩
  · rw [countCmd_append, h1, c1, Nat.zero_add]
  · rw [countCmd_append, h2, c2, Nat.zero_add]

/-- The dry-run application of a valid configuration whose windows have names
and whose paths are clean. -/
theorem dry_apply {os : OS} {ctx : Context} {cfg : Config} {R : Runner} (w : World)
    (hctx : ctx.Err = none) (hval : cfg.Validate os = none) (hdry : R.IsDryRun = true)
    (hrun : ∀ c calls args, R.Run c calls args = ("", none))
    (hN : 1 ≤ cfg.Session.Windows.length)
    (hnames : ∀ wCfg ∈ cfg.Session.Windows, wCfg.Name ≠ "")
    (hspath : cleanText cfg.Session.Path = true)
    (hpaths : ∀ wCfg ∈ cfg.Session.Windows,
      cleanText wCfg.Path = true ∧ cleanPanePaths wCfg.Panes = true) :
    ∃ w2, Apply os ctx cfg (some R) w = .ok (some w.sessions.length, none) w2 ∧
      DryTree w w2 w.sessions.length cfg.Session.Windows.length
        (countWindowPanes cfg.Session.Windows) := by
  obtain ⟨record, hp2⟩ := sessionDryRun_parse (configuredSession cfg.Session)
    (validate_name_chars hval) hspath
  have happly := @apply_creates_session os ctx cfg R w "" "" [] [] record hctx hval
    (hrun _ _ _) (parseOutput_blank "" (by simp)) (by simp [listedSessions]) (hrun _ _ _)
    (by rw [hdry]; simpa using hp2)
  simp only [List.length_nil, Nat.add_zero, listedSessions, List.map_nil,
    List.append_nil] at happly
  have hs0 : (w.sessions ++ [(configuredSession cfg.Session).update record])[
      w.sessions.length]? = some ((configuredSession cfg.Session).update record) :=
    getElem?_append_new _ _
  have ht0 := dryTree_init
    { w with
      sessions := w.sessions ++ [(configuredSession cfg.Session).update record]
      calls := w.calls ++
        [Call.Run listSessionsArgs,
         Call.Run (configuredSession cfg.Session).newSessionArgs] }
    w.sessions.length _ hs0 (by simp) (by simp [configuredSession])
  obtain ⟨w2, h2, ht2⟩ := dry_applyWindowCfgs hctx hdry hrun cfg.Session.Windows _ 0 0 ht0
    (fun wCfg hw => ⟨hnames wCfg hw, nameMatchRule_chars (validate_window_names hval wCfg hw),
      hpaths wCfg hw⟩)
  simp only [Nat.zero_add] at ht2
  obtain ⟨w3, h3, ht3⟩ := dry_selectActive hctx hrun ht2 hN
  refine ⟨w3, ?_, ?_⟩
  · rw [happly]
    simp only [bind_run]
    rw [h2]
    simp only [bind_run]
    rw [h3]
    rfl
  · refine dryTree_rebase ht3 rfl rfl
      [Call.Run listSessionsArgs, Call.Run (configuredSession cfg.Session).newSessionArgs]
      rfl ?_ ?_
    · have hns : ∃ t, (configuredSession cfg.Session).newSessionArgs = "new-session" :: t := by
        unfold Session.newSessionArgs
        by_cases hn : (configuredSession cfg.Session).name = "" <;> simp [hn]
      obtain ⟨t, hns⟩ := hns
      rw [hns]
      simp [countCmd, Call.isCmd, listSessionsArgs]
    · have hns : ∃ t, (configuredSession cfg.Session).newSessionArgs = "new-session" :: t := by
        unfold Session.newSessionArgs
        by_cases hn : (configuredSession cfg.Session).name = "" <;> simp [hn]
      obtain ⟨t, hns⟩ := hns
      rw [hns]
      simp [countCmd, Call.isCmd, listSessionsArgs]

/-! # The properties C1 to C30 -/

/-- C1: for a valid configuration and a live context, when the list-sessions
command prints a record whose session_name is the configured session name,
config.Apply returns without error a session of that name in state applied,
and list-sessions is the only command it issues. Consequently, when Apply
against the simulated multiplexer, started with no session, has returned a
session, a second Apply of the same configuration returns a session of the
same name, the configured one, and issues list-sessions only. -/
theorem apply_returns_existing_session (os : OS) (ctx : Context) (cfg : Config)
    (hctx : ctx.Err = none) (hval : cfg.Validate os = none) :
    (∀ (R : Runner) (w : World) (out : String) (records : List outputRecord),
      R.Run ctx w.calls listSessionsArgs = (out, none) → parseOutput out = .ok records →
      (∃ r ∈ records, Map.get? r "session_name" = some cfg.Session.Name) →
      ∃ a sess w1, Apply os ctx cfg (some R) w = .ok (some a, none) w1 ∧
        w1.sessions[a]? = some sess ∧ sess.name = cfg.Session.Name ∧
        sess.state = .stateApplied ∧ w1.calls = w.calls ++ [.Run listSessionsArgs]) ∧
    (∀ (w0 w1 : World) (a1 : Nat), w0.calls = [] →
      Apply os ctx cfg (some simTmux) w0 = .ok (some a1, none) w1 →
      ∃ a2 s1 s2 w2, Apply os ctx cfg (some simTmux) w1 = .ok (some a2, none) w2 ∧
        w1.sessions[a1]? = some s1 ∧ w2.sessions[a2]? = some s2 ∧
        s1.name = cfg.Session.Name ∧ s2.name = cfg.Session.Name ∧
        s2.state = .stateApplied ∧ w2.calls = w1.calls ++ [.Run listSessionsArgs]) := by
  constructor
  · intro R w out records hr hp hmem
    obtain ⟨a, sess, hA, hs, hn, hst⟩ := apply_finds_listed hctx hval hr hp hmem
    exact ⟨a, sess, _, hA, hs, hn, hst, rfl⟩
  · intro w0 w1 a1 hfresh h1
    obtain ⟨⟨s1, hs1, hn1⟩, hsim⟩ := apply_sim_first hctx hval hfresh h1
    have hr : simTmux.Run ctx w1.calls listSessionsArgs =
        ("session_name:" ++ cfg.Session.Name, none) := by
      rw [simTmux_list, hsim]
      rfl
    have hp := parseOutput_sessionName cfg.Session.Name (validate_name_chars hval)
    obtain ⟨a2, s2, hA, hs2, hn2, hst2⟩ :=
      apply_finds_listed hctx hval hr hp
        ⟨[("session_name", cfg.Session.Name)], by simp, by simp [Map.get?]⟩
    exact ⟨a2, s1, s2, _, hA, hs1, hs2, hn1, hn2, hst2, rfl⟩

/-- The witness of C1: list-sessions prints the record of `demo`, and the
simulated multiplexer, started with no session, is applied to twice. -/
theorem apply_returns_existing_session_witness :
    Background.Err = none ∧ exampleConfig.Validate exampleOS = none ∧
    (∃ a sess w1,
      Apply exampleOS Background exampleConfig
        (some (exampleRunner [] "session_name:demo")) {} = .ok (some a, none) w1 ∧
      w1.sessions[a]? = some sess ∧ sess.name = exampleConfig.Session.Name ∧
      sess.state = .stateApplied ∧
      w1.calls = ({} : World).calls ++ [.Run listSessionsArgs]) ∧
    Apply exampleOS Background exampleConfig (some simTmux) {} =
      .ok (some 0, none) appliedWorld ∧
    (∃ a2 s1 s2 w2,
      Apply exampleOS Background exampleConfig (some simTmux) appliedWorld =
        .ok (some a2, none) w2 ∧
      appliedWorld.sessions[0]? = some s1 ∧ w2.sessions[a2]? = some s2 ∧
      s1.name = exampleConfig.Session.Name ∧ s2.name = exampleConfig.Session.Name ∧
      s2.state = .stateApplied ∧ w2.calls = appliedWorld.calls ++ [.Run listSessionsArgs]) :=
  ⟨rfl, by decide,
    (apply_returns_existing_session exampleOS Background exampleConfig rfl (by decide)).1
      (exampleRunner [] "session_name:demo") {} "session_name:demo"
      [[("session_name", "demo")]] (by decide) (by decide)
      ⟨[("session_name", "demo")], by decide, by decide⟩,
    by decide,
    (apply_returns_existing_session exampleOS Background exampleConfig rfl (by decide)).2
      {} appliedWorld 0 rfl (by decide)⟩

/-- C2: when the session was created (list-sessions found no session of the
configured name, NewSession and Session.Apply succeeded) and the loop over the
configured windows, which constructs and applies every window and pane at any
depth, returns an error, config.Apply issues kill-session for the session as
its last command, after every command of the loop, and that is the only
kill-session command it issues; it returns a nil session and an error that
wraps the error of the loop, joined with the wrapped kill-session error when
that command fails too. -/
theorem apply_kills_session_once_on_window_failure (os : OS) (R : Runner) (ctx : Context)
    (cfg : Config) (w w1 w2 w3 w4 : World) (sessions : List Nat) (a : Nat) (e : Error)
    (hctx : ctx.Err = none) (hval : cfg.Validate os = none)
    (h1 : GetSessions ctx (some R) w = .ok (sessions, none) w1)
    (h2 : findSession cfg.Session.Name sessions w1 = .ok none w1)
    (h3 : NewSession (some R) (makeSessionOpts cfg.Session) w1 = .ok (some a, none) w2)
    (h4 : Session.Apply R ctx (some a) w2 = .ok none w3)
    (h5 : applyWindowCfgs os R ctx (some a) cfg.Session.Windows w3 = .ok (some e) w4) :
    ∃ sess err,
      w4.sessions[a]? = some sess ∧ sess.state = .stateApplied ∧
      (Apply os ctx cfg (some R) w).val? = some (none, some err) ∧
      (Apply os ctx cfg (some R) w).world.calls =
        w4.calls ++ [.Run ["kill-session", "-t", sess.name]] ∧
      (((Apply os ctx cfg (some R) w).world.calls.drop w.calls.length).filter
        Call.isKillSession).length = 1 ∧
      err.Is e = true ∧
      ((R.Run Background w4.calls ["kill-session", "-t", sess.name]).2 = none →
        err = .Wrapf "applying window configuration: %w" [] e) ∧
      (∀ ke, (R.Run Background w4.calls ["kill-session", "-t", sess.name]).2 = some ke →
        err = .Join (.Wrapf "applying window configuration: %w" [] e)
          (.Wrapf "closing failed session: %w" []
            (.Wrapf "running kill-session command: %w" [] ke)) ∧
        err.Is ke = true) := by
  have hc1 := getSessions_ok_calls h1
  rw [newSession_run] at h3
  simp only [Result.ok.injEq, Prod.mk.injEq, Option.some.injEq, and_true] at h3
  obtain ⟨ha, hw2⟩ := h3
  subst ha
  subst hw2
  have hs2 : (w1.sessions ++ [configuredSession cfg.Session])[w1.sessions.length]? =
      some (configuredSession cfg.Session) := by
    simp
  obtain ⟨record, hw3⟩ := sessionApply_new_ok hs2 rfl h4
  have hlen2 := (List.getElem?_eq_some_iff.1 hs2).1
  have hs3 : w3.sessions[w1.sessions.length]? =
      some ((configuredSession cfg.Session).update record) := by
    rw [hw3]
    simp
  have hadv := advances_applyWindowCfgs os R ctx (some w1.sessions.length)
    cfg.Session.Windows w3
  rw [h5] at hadv
  obtain ⟨⟨l, hl, hK⟩, hkeep⟩ := hadv
  obtain ⟨sess, hs4, hst, hname⟩ := hkeep _ _ hs3
  simp only [world_ok] at hs4 hl
  have happ : sess.state = .stateApplied := by rw [hst]; simp
  have hApply : Apply os ctx cfg (some R) w =
      fatalf R (some w1.sessions.length)
        (.Wrapf "applying window configuration: %w" [] e) w4 := by
    simp [Apply, hctx, hval, h1, h2, newSession_run, h4, h5]
  obtain ⟨hcalls, hval4⟩ :=
    @fatalf_applied R _ _ _ (.Wrapf "applying window configuration: %w" [] e) hs4 happ
  have hw3c : w3.calls = w1.calls ++ [.Run (configuredSession cfg.Session).newSessionArgs] := by
    rw [hw3]
  have hcount : (((fatalf R (some w1.sessions.length) (.Wrapf "applying window configuration: %w" [] e)
      w4).world.calls.drop w.calls.length).filter Call.isKillSession).length = 1 := by
    rw [hcalls, hl, hw3c, hc1]
    simp only [List.append_assoc, List.drop_left]
    rw [List.filter_append, List.filter_append, List.filter_append,
      @filter_kill_of_isRun creationKinds (by decide) l hK]
    have hns : Call.isKillSession
        (.Run (configuredSession cfg.Session).newSessionArgs) = false :=
      @isKillSession_of_isRun ["new-session"] (by decide) _ (isRun_newSession _)
    have hls : Call.isKillSession (.Run listSessionsArgs) = false := rfl
    have hks : Call.isKillSession (.Run ["kill-session", "-t", sess.name]) = true := rfl
    simp [List.filter, hns, hls, hks]
  rw [hApply]
  cases hr : (R.Run Background w4.calls ["kill-session", "-t", sess.name]).2 with
  | none =>
    rw [hr] at hval4
    refine ⟨sess, _, hs4, happ, hval4, hcalls, hcount, ?_, fun _ => rfl, ?_⟩
    · simp [Error.Is, errorIs_refl]
    · intro ke hke
      rw [hr] at hke
      cases hke
  | some ke =>
    rw [hr] at hval4
    refine ⟨sess, _, hs4, happ, hval4, hcalls, hcount, ?_, ?_, ?_⟩
    · simp [Error.Is, errorIs_refl]
    · intro h
      rw [hr] at h
      cases h
    · intro ke1 hke
      rw [hr] at hke
      cases hke
      exact ⟨rfl, by simp [Error.Is, errorIs_refl]⟩

/-- The witness of C2: the new-window command of `exampleConfig` fails. -/
theorem apply_kills_session_once_on_window_failure_witness :
    (Background.Err = none ∧ exampleConfig.Validate exampleOS = none ∧
      GetSessions Background (some (exampleRunner ["new-window"] "")) {} =
        .ok ([], none) listedWorld ∧
      findSession exampleConfig.Session.Name [] listedWorld = .ok none listedWorld ∧
      NewSession (some (exampleRunner ["new-window"] ""))
        (makeSessionOpts exampleConfig.Session) listedWorld =
        .ok (some 0, none) constructedWorld ∧
      Session.Apply (exampleRunner ["new-window"] "") Background (some 0) constructedWorld =
        .ok none createdWorld ∧
      applyWindowCfgs exampleOS (exampleRunner ["new-window"] "") Background (some 0)
        exampleConfig.Session.Windows createdWorld =
        .ok (some (.Wrapf "applying %s: %w" ["window demo:code"]
          (.Wrapf "running new-window command: %w" [] (.New "exit status 1"))))
          failedWorld) ∧
    ∃ sess err,
      failedWorld.sessions[0]? = some sess ∧ sess.state = .stateApplied ∧
      (Apply exampleOS Background exampleConfig (some (exampleRunner ["new-window"] ""))
        {}).val? = some (none, some err) ∧
      (Apply exampleOS Background exampleConfig (some (exampleRunner ["new-window"] ""))
        {}).world.calls = failedWorld.calls ++ [.Run ["kill-session", "-t", sess.name]] ∧
      (((Apply exampleOS Background exampleConfig (some (exampleRunner ["new-window"] ""))
        {}).world.calls.drop ({} : World).calls.length).filter
          Call.isKillSession).length = 1 ∧
      err.Is (.Wrapf "applying %s: %w" ["window demo:code"]
        (.Wrapf "running new-window command: %w" [] (.New "exit status 1"))) = true ∧
      (((exampleRunner ["new-window"] "").Run Background failedWorld.calls
          ["kill-session", "-t", sess.name]).2 = none →
        err = .Wrapf "applying window configuration: %w" []
          (.Wrapf "applying %s: %w" ["window demo:code"]
            (.Wrapf "running new-window command: %w" [] (.New "exit status 1")))) ∧
      (∀ ke, ((exampleRunner ["new-window"] "").Run Background failedWorld.calls
          ["kill-session", "-t", sess.name]).2 = some ke →
        err = .Join (.Wrapf "applying window configuration: %w" []
            (.Wrapf "applying %s: %w" ["window demo:code"]
              (.Wrapf "running new-window command: %w" [] (.New "exit status 1"))))
          (.Wrapf "closing failed session: %w" []
            (.Wrapf "running kill-session command: %w" [] ke)) ∧
        err.Is ke = true) :=
  ⟨⟨rfl, by decide, by decide, by decide, by decide, by decide, by decide⟩,
    apply_kills_session_once_on_window_failure exampleOS (exampleRunner ["new-window"] "")
      Background exampleConfig {} listedWorld constructedWorld createdWorld failedWorld [] 0
      (.Wrapf "applying %s: %w" ["window demo:code"]
        (.Wrapf "running new-window command: %w" [] (.New "exit status 1")))
      rfl (by decide) (by decide) (by decide) (by decide) (by decide) (by decide)⟩

/-- C3: Session.Close on a session in state new or closed returns nil, issues
no command and changes nothing; on an applied session it issues exactly the
command kill-session -t <session name>, and when that command succeeds the
session is closed and has no windows. So when the new-session command of
config.Apply fails, the commands issued are list-sessions and new-session
only: no kill-session. -/
theorem session_close_contract (os : OS) (R : Runner) (w : World) (a : Nat)
    (sess : Session) (hs : w.sessions[a]? = some sess) :
    ((sess.state = .stateNew ∨ sess.state = .stateClosed) →
      Session.Close R (some a) w = .ok none w) ∧
    (sess.state = .stateApplied →
      (Session.Close R (some a) w).world.calls =
        w.calls ++ [.Run ["kill-session", "-t", sess.name]] ∧
      ((R.Run Background w.calls ["kill-session", "-t", sess.name]).2 = none →
        ∃ w1 sess1, Session.Close R (some a) w = .ok none w1 ∧
          w1.sessions[a]? = some sess1 ∧ sess1.state = .stateClosed ∧
          sess1.NumWindows = 0)) ∧
    (∀ (ctx : Context) (cfg : Config) (out out2 : String) (records : List outputRecord)
        (e : Error),
      ctx.Err = none → cfg.Validate os = none →
      R.Run ctx w.calls listSessionsArgs = (out, none) →
      parseOutput out = .ok records →
      (∀ x ∈ listedSessions records, x.Name ≠ cfg.Session.Name) →
      R.Run ctx (w.calls ++ [.Run listSessionsArgs])
        (configuredSession cfg.Session).newSessionArgs = (out2, some e) →
      ∃ err w1, Apply os ctx cfg (some R) w = .ok (none, some err) w1 ∧
        w1.calls = w.calls ++
          [.Run listSessionsArgs, .Run (configuredSession cfg.Session).newSessionArgs]) := by
  refine ⟨?_, ?_, ?_⟩
  · intro h
    have hna : sess.state ≠ .stateApplied := by
      rcases h with h | h <;> rw [h] <;> decide
    by_cases hc : sess.state = .stateClosed
    · simp [Session.Close, getSession, hs, Session.IsClosed, hc]
    · simp [Session.Close, getSession, hs, Session.IsClosed, Session.IsApplied, hna]
  · intro happ
    cases hr : R.Run Background w.calls ["kill-session", "-t", sess.name] with
    | mk output err =>
    cases err with
    | some e =>
      simp [Session.Close, getSession, hs, Session.IsClosed, Session.IsApplied, happ, Run, hr]
    | none =>
      have hlen := (List.getElem?_eq_some_iff.1 hs).1
      simp [Session.Close, getSession, hs, Session.IsClosed, Session.IsApplied, happ, Run, hr,
        setSession, hlen, Session.NumWindows]
  · intro ctx cfg out out2 records e hctx hval hr hp hno hr2
    have hfind := findSession_none cfg.Session.Name (listedSessions records)
      { w with
        sessions := w.sessions ++ listedSessions records
        calls := w.calls ++ [.Run listSessionsArgs] }
      w.sessions.length w.sessions rfl rfl hno
    have hlen : (listedSessions records).length = records.length := by
      simp [listedSessions]
    rw [hlen] at hfind
    have hlast : (w.sessions ++ (listedSessions records ++ [configuredSession cfg.Session]))[
        w.sessions.length + records.length]? = some (configuredSession cfg.Session) := by
      rw [← List.append_assoc, List.getElem?_append_right (by simp [hlen])]
      simp [hlen]
    have hApply : Apply os ctx cfg (some R) w =
        .ok (none, some (.Wrapf "applying %s: %w" [(configuredSession cfg.Session).String]
            (.Wrapf "running new-session command: %w" [] e)))
          { w with
            sessions := w.sessions ++ listedSessions records ++ [configuredSession cfg.Session]
            calls := w.calls ++
              [.Run listSessionsArgs, .Run (configuredSession cfg.Session).newSessionArgs] } := by
      have hst : (configuredSession cfg.Session).state = .stateNew := rfl
      simp [Apply, hctx, hval, getSessions_run hctx hr hp, hfind, newSession_run,
        Session.Apply, getSession, hlen, hlast, Session.IsClosed, Session.IsApplied, hst,
        Run, hr2, fatalf, Session.Close]
    exact ⟨_, _, hApply, rfl⟩

/-- The witness of C3: Close on the applied session `demo` and on the new
session `draft`, and an application whose new-session command fails. -/
theorem session_close_contract_witness :
    (exampleWorld.sessions[0]? = some demoSession ∧
      exampleWorld.sessions[1]? = some draftSession ∧
      demoSession.state = .stateApplied ∧ draftSession.state = .stateNew) ∧
    Session.Close simTmux (some 1) exampleWorld = .ok none exampleWorld ∧
    ((Session.Close simTmux (some 0) exampleWorld).world.calls =
        exampleWorld.calls ++ [.Run ["kill-session", "-t", demoSession.name]] ∧
      ((simTmux.Run Background exampleWorld.calls
          ["kill-session", "-t", demoSession.name]).2 = none →
        ∃ w1 sess1, Session.Close simTmux (some 0) exampleWorld = .ok none w1 ∧
          w1.sessions[0]? = some sess1 ∧ sess1.state = .stateClosed ∧
          sess1.NumWindows = 0)) ∧
    ∃ err w1,
      Apply exampleOS Background exampleConfig (some (exampleRunner ["new-session"] ""))
        exampleWorld = .ok (none, some err) w1 ∧
      w1.calls = exampleWorld.calls ++
        [.Run listSessionsArgs, .Run (configuredSession exampleConfig.Session).newSessionArgs] :=
  ⟨⟨by decide, by decide, rfl, rfl⟩,
    (session_close_contract exampleOS simTmux exampleWorld 1 draftSession (by decide)).1
      (Or.inl rfl),
    (session_close_contract exampleOS simTmux exampleWorld 0 demoSession (by decide)).2.1 rfl,
    (session_close_contract exampleOS (exampleRunner ["new-session"] "") exampleWorld 0
      demoSession (by decide)).2.2 Background exampleConfig "" "" [] (.New "exit status 1")
      rfl (by decide) (by decide) (by decide) (by decide) (by decide)⟩

/-- C4: when Validate returns an error, config.Apply returns a nil session and
an error, and leaves the world as it is, so that no runner command is issued
(not even list-sessions); with a live context the error is the validation
error wrapped as `invalid configuration file`. -/
theorem apply_invalid_config_issues_no_command (os : OS) (ctx : Context) (cfg : Config)
    (runner : Option Runner) (w : World) (e : Error) (hval : cfg.Validate os = some e) :
    ∃ err, Apply os ctx cfg runner w = .ok (none, some err) w ∧
      (ctx.Err = none →
        err = .Wrapf "invalid configuration file: %w" [] e ∧ err.Is e = true) := by
  cases hctx : ctx.Err with
  | some cerr =>
    refine ⟨cerr, ?_, fun h => by cases h⟩
    simp [Apply, hctx]
  | none =>
    refine ⟨.Wrapf "invalid configuration file: %w" [] e, ?_, fun _ => ⟨rfl, ?_⟩⟩
    · simp [Apply, hctx, hval]
    · simp [Error.Is, errorIs_refl]

/-- The witness of C4: a session name with a space. -/
theorem apply_invalid_config_issues_no_command_witness :
    invalidConfig.Validate exampleOS =
      some (.ErrorsCons "session"
        (.ErrorsCons "name"
          (.New "must only contain alphanumeric characters, underscores, dots, and dashes")
          .ErrorsNil)
        .ErrorsNil) ∧
    ∃ err, Apply exampleOS Background invalidConfig (some simTmux) {} =
        .ok (none, some err) {} ∧
      (Background.Err = none →
        err = .Wrapf "invalid configuration file: %w" []
          (.ErrorsCons "session"
            (.ErrorsCons "name"
              (.New
                "must only contain alphanumeric characters, underscores, dots, and dashes")
              .ErrorsNil)
            .ErrorsNil) ∧
        err.Is (.ErrorsCons "session"
          (.ErrorsCons "name"
            (.New "must only contain alphanumeric characters, underscores, dots, and dashes")
            .ErrorsNil)
          .ErrorsNil) = true) :=
  ⟨by decide,
    apply_invalid_config_issues_no_command exampleOS Background invalidConfig (some simTmux)
      {} _ (by decide)⟩

/-- C5: each of config.Apply, GetSessions, Session.Apply, Session.SelectActive,
Session.Attach, Window.Apply, Window.Select, Window.RunCommands, Pane.Apply,
Pane.Select and Pane.RunCommands, called with a cancelled context, returns
the error of the context and leaves the world as it is: no Run or Execve call
is recorded and no object changes. -/
theorem cancelled_context_returns_its_error (os : OS) (R : Runner) (ctx : Context)
    (err : Error) (h : ctx.Err = some err) (w : World) (cfg : Config)
    (runner : Option Runner) (p : Option Nat) (cmds : List String) :
    Apply os ctx cfg runner w = .ok (none, some err) w ∧
    GetSessions ctx runner w = .ok ([], some err) w ∧
    Session.Apply R ctx p w = .ok (some err) w ∧
    Session.SelectActive R ctx p w = .ok (some err) w ∧
    Session.Attach os R ctx p w = .ok (some err) w ∧
    Window.Apply os R ctx p w = .ok (some err) w ∧
    Window.Select R ctx p w = .ok (some err) w ∧
    Window.RunCommands R ctx p cmds w = .ok (some err) w ∧
    Pane.Apply os R ctx p w = .ok (some err) w ∧
    Pane.Select R ctx p w = .ok (some err) w ∧
    Pane.RunCommands R ctx p cmds w = .ok (some err) w := by
  simp [Apply, GetSessions, Session.Apply, Session.SelectActive, Session.Attach,
    Window.Apply, Window.Select, Window.RunCommands, Pane.Apply, Pane.Select,
    Pane.RunCommands, h]

/-- The witness of C5: the eleven operations with a cancelled context. -/
theorem cancelled_context_returns_its_error_witness :
    cancelled.Err = some (.New "context canceled") ∧
    Apply exampleOS cancelled exampleConfig (some simTmux) exampleWorld =
      .ok (none, some (.New "context canceled")) exampleWorld ∧
    GetSessions cancelled (some simTmux) exampleWorld =
      .ok ([], some (.New "context canceled")) exampleWorld ∧
    Session.Apply simTmux cancelled (some 1) exampleWorld =
      .ok (some (.New "context canceled")) exampleWorld ∧
    Session.SelectActive simTmux cancelled (some 1) exampleWorld =
      .ok (some (.New "context canceled")) exampleWorld ∧
    Session.Attach exampleOS simTmux cancelled (some 1) exampleWorld =
      .ok (some (.New "context canceled")) exampleWorld ∧
    Window.Apply exampleOS simTmux cancelled (some 1) exampleWorld =
      .ok (some (.New "context canceled")) exampleWorld ∧
    Window.Select simTmux cancelled (some 1) exampleWorld =
      .ok (some (.New "context canceled")) exampleWorld ∧
    Window.RunCommands simTmux cancelled (some 1) ["ls"] exampleWorld =
      .ok (some (.New "context canceled")) exampleWorld ∧
    Pane.Apply exampleOS simTmux cancelled (some 1) exampleWorld =
      .ok (some (.New "context canceled")) exampleWorld ∧
    Pane.Select simTmux cancelled (some 1) exampleWorld =
      .ok (some (.New "context canceled")) exampleWorld ∧
    Pane.RunCommands simTmux cancelled (some 1) ["ls"] exampleWorld =
      .ok (some (.New "context canceled")) exampleWorld :=
  ⟨rfl,
    cancelled_context_returns_its_error exampleOS simTmux cancelled (.New "context canceled")
      rfl exampleWorld exampleConfig (some simTmux) (some 1) ["ls"]⟩

/-- C6: with the lifecycle states ordered new < applied < closed, no public
operation (Apply, RunCommands, Select, SelectActive, Attach, Close) on a
session, window or pane decreases the state of any entity; so an applied
entity never becomes new again and a closed session stays closed. An entity
that leaves the state new becomes applied, and the operation is then that
entity's own Apply. -/
theorem lifecycle_states_never_decrease (os : OS) (R : Runner) (ctx : Context) (op : Op)
    (w : World) (e : Ref) (st : state) (hst : w.stateOf e = some st) :
    ∃ st1, (op.run os R ctx w).world.stateOf e = some st1 ∧ st.rank ≤ st1.rank ∧
      (st = .stateClosed → st1 = .stateClosed) ∧
      (st = .stateApplied → st1 ≠ .stateNew) ∧
      (st = .stateNew → st1 ≠ .stateNew → op.isApplyOf e ∧ st1 = .stateApplied) := by
  have key : stateStep op w (op.run os R ctx w).world := by
    cases op with
    | SessionApply s => exact stateStep_sessionApply R ctx s w
    | SessionSelectActive s => exact stateStep_keeps _ (keeps_SessionSelectActive R ctx s) w
    | SessionAttach s => exact stateStep_keeps _ (keeps_SessionAttach os R ctx s) w
    | SessionClose s => exact stateStep_sessionClose R s w
    | WindowApply p => exact stateStep_windowApply os R ctx p w
    | WindowRunCommands p cmds =>
      exact stateStep_keeps _ (keeps_WindowRunCommands R ctx p cmds) w
    | WindowSelect p => exact stateStep_keeps _ (keeps_WindowSelect R ctx p) w
    | PaneApply p => exact stateStep_paneApply os R ctx p w
    | PaneRunCommands p cmds =>
      exact stateStep_keeps _ (keeps_PaneRunCommands R ctx p cmds) w
    | PaneSelect p => exact stateStep_keeps _ (keeps_PaneSelect R ctx p) w
  obtain ⟨st1, h1, h2, h3⟩ := key e st hst
  refine ⟨st1, h1, h2, ?_, ?_, h3⟩
  · intro hc
    subst hc
    cases st1 <;> simp [state.rank] at h2 ⊢
  · intro ha
    subst ha
    cases st1 <;> simp [state.rank] at h2 ⊢

/-- The witness of C6: a new window of an applied session, whose creation
command answers with a window record, becomes applied by its own Apply. -/
theorem lifecycle_states_never_decrease_witness :
    (World.stateOf
        { sessions := [{ name := "demo", state := .stateApplied }],
          windows := [{ sess := some 0, name := "code" }] }
        (.window 0) = some .stateNew) ∧
    ∃ st1,
      ((Op.WindowApply (some 0)).run
          { Getenv := fun _ => "", ExpandEnv := id, Abs := .ok,
            Stat := fun _ => .ok .dir, LookPath := .ok }
          { Run := fun _ _ _ => ("window_id:@1", none), Execve := fun _ _ => none,
            IsDryRun := false }
          { Err := none }
          { sessions := [{ name := "demo", state := .stateApplied }],
            windows := [{ sess := some 0, name := "code" }] }).world.stateOf
        (.window 0) = some st1 ∧
      state.stateNew.rank ≤ st1.rank ∧
      (state.stateNew = .stateClosed → st1 = .stateClosed) ∧
      (state.stateNew = .stateApplied → st1 ≠ .stateNew) ∧
      (state.stateNew = .stateNew → st1 ≠ .stateNew →
        (Op.WindowApply (some 0)).isApplyOf (.window 0) ∧ st1 = .stateApplied) :=
  ⟨by decide, lifecycle_states_never_decrease _ _ _ _ _ _ _ (by decide)⟩

/-- The counterexample to C7 as stated: the window `logs` is new, its
new-window command succeeds and the send-keys command of its own command
fails; Window.Apply returns the send-keys error, and the window is applied and
listed among the windows of its session. The same holds of the new pane. -/
theorem apply_error_leaves_entity_applied :
    (exampleWorld.windows[1]?).map (fun x => x.state) = some .stateNew ∧
    (Window.Apply exampleOS (exampleRunner ["send-keys"] "") Background (some 1)
      exampleWorld).val? =
      some (some (.Wrapf "running send-keys command: %w" [] (.New "exit status 1"))) ∧
    ((Window.Apply exampleOS (exampleRunner ["send-keys"] "") Background (some 1)
      exampleWorld).world.windows[1]?).map (fun x => x.state) = some .stateApplied ∧
    ((Window.Apply exampleOS (exampleRunner ["send-keys"] "") Background (some 1)
      exampleWorld).world.sessions[0]?).map (fun x => x.windows) = some [0, 1] ∧
    (exampleWorld.panes[1]?).map (fun x => x.state) = some .stateNew ∧
    (Pane.Apply exampleOS (exampleRunner ["send-keys"] "") Background (some 1)
      exampleWorld).val? =
      some (some (.Wrapf "running send-keys command: %w" [] (.New "exit status 1"))) ∧
    ((Pane.Apply exampleOS (exampleRunner ["send-keys"] "") Background (some 1)
      exampleWorld).world.panes[1]?).map (fun x => x.state) = some .stateApplied ∧
    ((Pane.Apply exampleOS (exampleRunner ["send-keys"] "") Background (some 1)
      exampleWorld).world.windows[0]?).map (fun x => x.panes) = some [0, 1] := by
  decide

/-- C7, amended: when Apply on a window or pane in state new returns an
error, either no object has changed (the entity is still new and no child
list has grown), or the creation succeeded and the error is that of a
send-keys command for the entity's hook or own commands. In that case the
entity is already applied and registered: the window is the last of the
windows of its session, which are otherwise as before; the pane is the last
of the panes of its window, which are otherwise as before. A pane without
parent pane keeps its own list of panes; a pane with a parent pane is also the
last of its own list of panes, and the object of the parent pane is as
before. -/
theorem apply_error_keeps_new_unless_send_keys_fails (os : OS) (R : Runner)
    (ctx : Context) (w w1 : World) (a : Nat) (e : Error) :
    (∀ win, w.windows[a]? = some win → win.state = .stateNew →
      Window.Apply os R ctx (some a) w = .ok (some e) w1 →
      (w1.sessions = w.sessions ∧ w1.windows = w.windows ∧ w1.panes = w.panes) ∨
      ∃ e1 sa sess win1 sess1, e = .Wrapf "running send-keys command: %w" [] e1 ∧
        win.sess = some sa ∧ w.sessions[sa]? = some sess ∧
        w1.windows[a]? = some win1 ∧ win1.state = .stateApplied ∧
        w1.sessions[sa]? = some sess1 ∧ sess1.windows = sess.windows ++ [a]) ∧
    (∀ pane, w.panes[a]? = some pane → pane.state = .stateNew →
      Pane.Apply os R ctx (some a) w = .ok (some e) w1 →
      (w1.sessions = w.sessions ∧ w1.windows = w.windows ∧ w1.panes = w.panes) ∨
      ∃ e1 wa win pane1 win1, e = .Wrapf "running send-keys command: %w" [] e1 ∧
        pane.win = some wa ∧ w.windows[wa]? = some win ∧
        w1.panes[a]? = some pane1 ∧ pane1.state = .stateApplied ∧
        w1.windows[wa]? = some win1 ∧ win1.panes = win.panes ++ [a] ∧
        (pane.pane = none → pane1.panes = pane.panes) ∧
        (∀ pp, pane.pane = some pp →
          pane1.panes = pane.panes ++ [a] ∧ (pp ≠ a → w1.panes[pp]? = w.panes[pp]?))) := by
  constructor
  · intro win hw hnew h
    rcases windowApply_outcome os R ctx (some a) w with
      hl | ⟨a1, sa, win1, sess, record, ha, hw1, hsa, hs, _, hsc, hctx, hg⟩
    · left
      rw [h] at hl
      exact ⟨hl.1.1, hl.1.2.1, hl.1.2.2.1⟩
    · right
      cases ha
      rw [hw] at hw1
      cases hw1
      rw [hg, windowApply_good record _ _ hctx hw hsa hs hsc] at h
      obtain ⟨e1, he1⟩ := windowSendKeys_error h
      have hk := keeps_WindowSendKeys R ctx (some a) (sess.onWindowCommands ++ win.cmds)
        { w with
          windows := w.windows.set a (win.update record)
          sessions := w.sessions.set sa (sess.addWindow a)
          calls := w.calls ++ [.Run (win.newWindowArgs os sess)] }
      rw [h] at hk
      refine ⟨e1, sa, sess, win.update record, sess.addWindow a, he1, hsa, hs, ?_, by simp,
        ?_, rfl⟩
      · rw [show w1.windows = w.windows.set a (win.update record) from hk.2.1]
        simp [(List.getElem?_eq_some_iff.1 hw).1]
      · rw [show w1.sessions = w.sessions.set sa (sess.addWindow a) from hk.1]
        simp [(List.getElem?_eq_some_iff.1 hs).1]
  · intro pane hp hnew h
    rcases paneApply_outcome os R ctx (some a) w with
      hl | ⟨a1, pane1, wa, win, sa, sess, record, args, ha, hp1, _, hwa, hw, _, _, hcl, hctx,
        _, hg⟩
    · left
      rw [h] at hl
      exact ⟨hl.1.1, hl.1.2.1, hl.1.2.2.1⟩
    · right
      cases ha
      rw [hp] at hp1
      cases hp1
      rw [hg, paneApply_good record _ _ hctx hp hwa hw hcl] at h
      obtain ⟨e1, he1⟩ := paneSendKeys_error h
      have hk := keeps_PaneSendKeys R ctx (some a) (sess.onPaneCommands ++ pane.cmds)
        { w with
          panes := w.panes.set a (pane.created a record)
          windows := w.windows.set wa (win.addPane a)
          calls := w.calls ++ [.Run args] }
      rw [h] at hk
      have hpanes : w1.panes = w.panes.set a (pane.created a record) := hk.2.2.1
      refine ⟨e1, wa, win, pane.created a record, win.addPane a, he1, hwa, hw, ?_,
        paneCreated_state _ _ _, ?_, rfl, ?_, ?_⟩
      · rw [hpanes]
        simp [(List.getElem?_eq_some_iff.1 hp).1]
      · rw [show w1.windows = w.windows.set wa (win.addPane a) from hk.2.1]
        simp [(List.getElem?_eq_some_iff.1 hw).1]
      · intro hnone
        simp [Pane.created, hnone]
      · intro pp hpp
        refine ⟨by simp [Pane.created, hpp], ?_⟩
        intro hne
        rw [hpanes, List.getElem?_set_ne (fun h0 => hne h0.symm)]

/-- The witness of the amended C7: a failing send-keys command for the new
window and for the new pane of the example world, and for the new pane of the
world of the hooks, which has a parent pane. -/
theorem apply_error_keeps_new_unless_send_keys_fails_witness :
    (exampleWorld.windows[1]? = some logsWindow ∧ logsWindow.state = .stateNew ∧
      exampleWorld.panes[1]? = some shellPane ∧ shellPane.state = .stateNew ∧
      hookWorld.panes[1]? = some nestedPane ∧ nestedPane.state = .stateNew ∧
      nestedPane.pane = some 0) ∧
    (((Window.Apply exampleOS (exampleRunner ["send-keys"] "") Background (some 1)
          exampleWorld).world.sessions = exampleWorld.sessions ∧
        (Window.Apply exampleOS (exampleRunner ["send-keys"] "") Background (some 1)
          exampleWorld).world.windows = exampleWorld.windows ∧
        (Window.Apply exampleOS (exampleRunner ["send-keys"] "") Background (some 1)
          exampleWorld).world.panes = exampleWorld.panes) ∨
      ∃ e1 sa sess win1 sess1,
        Error.Wrapf "running send-keys command: %w" [] (.New "exit status 1") =
          .Wrapf "running send-keys command: %w" [] e1 ∧
        logsWindow.sess = some sa ∧ exampleWorld.sessions[sa]? = some sess ∧
        (Window.Apply exampleOS (exampleRunner ["send-keys"] "") Background (some 1)
          exampleWorld).world.windows[1]? = some win1 ∧
        win1.state = .stateApplied ∧
        (Window.Apply exampleOS (exampleRunner ["send-keys"] "") Background (some 1)
          exampleWorld).world.sessions[sa]? = some sess1 ∧
        sess1.windows = sess.windows ++ [1]) ∧
    (((Pane.Apply exampleOS (exampleRunner ["send-keys"] "") Background (some 1)
          exampleWorld).world.sessions = exampleWorld.sessions ∧
        (Pane.Apply exampleOS (exampleRunner ["send-keys"] "") Background (some 1)
          exampleWorld).world.windows = exampleWorld.windows ∧
        (Pane.Apply exampleOS (exampleRunner ["send-keys"] "") Background (some 1)
          exampleWorld).world.panes = exampleWorld.panes) ∨
      ∃ e1 wa win pane1 win1,
        Error.Wrapf "running send-keys command: %w" [] (.New "exit status 1") =
          .Wrapf "running send-keys command: %w" [] e1 ∧
        shellPane.win = some wa ∧ exampleWorld.windows[wa]? = some win ∧
        (Pane.Apply exampleOS (exampleRunner ["send-keys"] "") Background (some 1)
          exampleWorld).world.panes[1]? = some pane1 ∧
        pane1.state = .stateApplied ∧
        (Pane.Apply exampleOS (exampleRunner ["send-keys"] "") Background (some 1)
          exampleWorld).world.windows[wa]? = some win1 ∧
        win1.panes = win.panes ++ [1] ∧
        (shellPane.pane = none → pane1.panes = shellPane.panes) ∧
        (∀ pp, shellPane.pane = some pp →
          pane1.panes = shellPane.panes ++ [1] ∧
          (pp ≠ 1 →
            (Pane.Apply exampleOS (exampleRunner ["send-keys"] "") Background (some 1)
          exampleWorld).world.panes[pp]? = exampleWorld.panes[pp]?))) ∧
    (((Pane.Apply exampleOS (exampleRunner ["send-keys"] "") Background (some 1)
          hookWorld).world.sessions = hookWorld.sessions ∧
        (Pane.Apply exampleOS (exampleRunner ["send-keys"] "") Background (some 1)
          hookWorld).world.windows = hookWorld.windows ∧
        (Pane.Apply exampleOS (exampleRunner ["send-keys"] "") Background (some 1)
          hookWorld).world.panes = hookWorld.panes) ∨
      ∃ e1 wa win pane1 win1,
        Error.Wrapf "running send-keys command: %w" [] (.New "exit status 1") =
          .Wrapf "running send-keys command: %w" [] e1 ∧
        nestedPane.win = some wa ∧ hookWorld.windows[wa]? = some win ∧
        (Pane.Apply exampleOS (exampleRunner ["send-keys"] "") Background (some 1)
          hookWorld).world.panes[1]? = some pane1 ∧
        pane1.state = .stateApplied ∧
        (Pane.Apply exampleOS (exampleRunner ["send-keys"] "") Background (some 1)
          hookWorld).world.windows[wa]? = some win1 ∧
        win1.panes = win.panes ++ [1] ∧
        (nestedPane.pane = none → pane1.panes = nestedPane.panes) ∧
        (∀ pp, nestedPane.pane = some pp →
          pane1.panes = nestedPane.panes ++ [1] ∧
          (pp ≠ 1 →
            (Pane.Apply exampleOS (exampleRunner ["send-keys"] "") Background (some 1)
          hookWorld).world.panes[pp]? = hookWorld.panes[pp]?))) :=
  ⟨⟨by decide, rfl, by decide, rfl, by decide, rfl, rfl⟩,
    (apply_error_keeps_new_unless_send_keys_fails exampleOS (exampleRunner ["send-keys"] "")
      Background exampleWorld _ 1 _).1 logsWindow (by decide) rfl (by decide),
    (apply_error_keeps_new_unless_send_keys_fails exampleOS (exampleRunner ["send-keys"] "")
      Background exampleWorld _ 1 _).2 shellPane (by decide) rfl (by decide),
    (apply_error_keeps_new_unless_send_keys_fails exampleOS (exampleRunner ["send-keys"] "")
      Background hookWorld _ 1 _).2 nestedPane (by decide) rfl (by decide)⟩

/-- C8: Apply on a session, window or pane that is already applied, with a
live context and no closed session (nor window) above it, returns nil, issues
no command and changes nothing; and whenever Apply returns nil, a second Apply
returns nil without a command or a change, so the creation command and the
registration happen once. -/
theorem apply_on_applied_entity_is_noop (os : OS) (R : Runner) (ctx : Context)
    (w : World) (hctx : ctx.Err = none) :
    (∀ a sess, w.sessions[a]? = some sess → sess.state = .stateApplied →
      Session.Apply R ctx (some a) w = .ok none w) ∧
    (∀ a win sa sess, w.windows[a]? = some win → win.state = .stateApplied →
      win.sess = some sa → w.sessions[sa]? = some sess → sess.state ≠ .stateClosed →
      Window.Apply os R ctx (some a) w = .ok none w) ∧
    (∀ a pane wa win sa sess, w.panes[a]? = some pane → pane.state = .stateApplied →
      pane.win = some wa → w.windows[wa]? = some win → win.state ≠ .stateClosed →
      win.sess = some sa → w.sessions[sa]? = some sess → sess.state ≠ .stateClosed →
      Pane.Apply os R ctx (some a) w = .ok none w) ∧
    (∀ a w1, Session.Apply R ctx (some a) w = .ok none w1 →
      Session.Apply R ctx (some a) w1 = .ok none w1) ∧
    (∀ a w1, Window.Apply os R ctx (some a) w = .ok none w1 →
      Window.Apply os R ctx (some a) w1 = .ok none w1) ∧
    (∀ a w1, Pane.Apply os R ctx (some a) w = .ok none w1 →
      Pane.Apply os R ctx (some a) w1 = .ok none w1) := by
  have hS : ∀ (w : World) a sess, w.sessions[a]? = some sess → sess.state = .stateApplied →
      Session.Apply R ctx (some a) w = .ok none w := by
    intro w a sess hs happ
    simp [Session.Apply, hctx, getSession, hs, Session.IsClosed, Session.IsApplied, happ]
  have hW : ∀ (w : World) a win sa sess, w.windows[a]? = some win →
      win.state = .stateApplied → win.sess = some sa → w.sessions[sa]? = some sess →
      sess.state ≠ .stateClosed → Window.Apply os R ctx (some a) w = .ok none w := by
    intro w a win sa sess hw happ hsa hs hsc
    simp [Window.Apply, hctx, Window.IsClosed, getWindow, hw, happ, getSession, hsa, hs,
      Session.IsClosed, hsc, Window.IsApplied]
  have hP : ∀ (w : World) a pane wa win sa sess, w.panes[a]? = some pane →
      pane.state = .stateApplied → pane.win = some wa → w.windows[wa]? = some win →
      win.state ≠ .stateClosed → win.sess = some sa → w.sessions[sa]? = some sess →
      sess.state ≠ .stateClosed → Pane.Apply os R ctx (some a) w = .ok none w := by
    intro w a pane wa win sa sess hp happ hwa hw hwc hsa hs hsc
    simp [Pane.Apply, hctx, Pane.IsClosed, getPane, hp, happ, Window.IsClosed, getWindow, hwa,
      hw, hwc, getSession, hsa, hs, Session.IsClosed, hsc, Pane.IsApplied]
  refine ⟨hS w, hW w, hP w, ?_, ?_, ?_⟩
  · intro a w1 h
    rcases sessionApply_outcome R ctx (some a) w with hl | ⟨a1, sess, record, ha, hs, _, _, hg⟩
    · obtain ⟨heq, a1, sess, ha, hs, happ⟩ := hl.2 (by rw [h]; rfl)
      cases ha
      rw [heq] at h
      cases h
      exact heq
    · cases ha
      rw [hg] at h
      cases h
      exact hS _ a (sess.update record) (by simp [(List.getElem?_eq_some_iff.1 hs).1])
        (by simp)
  · intro a w1 h
    rcases windowApply_outcome os R ctx (some a) w with
      hl | ⟨a1, sa, win, sess, record, ha, hw, hsa, hs, _, hsc, _, hg⟩
    · obtain ⟨heq, a1, win, ha, hw, happ⟩ := hl.2 (by rw [h]; rfl)
      cases ha
      rw [heq] at h
      cases h
      exact heq
    · cases ha
      have hk := keeps_WindowRunCommands R ctx (some a) (sess.onWindowCommands ++ win.cmds)
        { w with
          windows := w.windows.set a (win.update record)
          sessions := w.sessions.set sa (sess.addWindow a)
          calls := w.calls ++ [.Run (win.newWindowArgs os sess)] }
      rw [← hg, h] at hk
      obtain ⟨hk1, hk2, _, _⟩ := hk
      simp only [world_ok] at hk1 hk2
      exact hW w1 a (win.update record) sa (sess.addWindow a)
        (by rw [hk2]; simp [(List.getElem?_eq_some_iff.1 hw).1]) (by simp) (by simp [hsa])
        (by rw [hk1]; simp [(List.getElem?_eq_some_iff.1 hs).1])
        (by simpa [Session.addWindow] using hsc)
  · intro a w1 h
    rcases paneApply_outcome os R ctx (some a) w with
      hl | ⟨a1, pane, wa, win, sa, sess, record, args, ha, hp, _, hwa, hw, _, _, hcl, _,
        _, hg⟩
    · obtain ⟨heq, a1, pane, ha, hp, happ⟩ := hl.2 (by rw [h]; rfl)
      cases ha
      rw [heq] at h
      cases h
      exact heq
    · cases ha
      obtain ⟨_, wa1, win1, sa1, sess1, hwa1, hw1, hwc, hsa1, hs1, hsc⟩ :=
        paneIsClosed_false_inv hp hcl
      rw [hwa] at hwa1
      cases hwa1
      rw [hw] at hw1
      cases hw1
      have hk := keeps_PaneRunCommands R ctx (some a) (sess.onPaneCommands ++ pane.cmds)
        { w with
          panes := w.panes.set a (pane.created a record)
          windows := w.windows.set wa (win.addPane a)
          calls := w.calls ++ [.Run args] }
      rw [← hg, h] at hk
      obtain ⟨hk1, hk2, hk3, _⟩ := hk
      simp only [world_ok] at hk1 hk2 hk3
      have hcw : (pane.created a record).win = some wa := by
        unfold Pane.created
        split <;> simp [hwa]
      exact hP w1 a (pane.created a record) wa (win.addPane a) sa1 sess1
        (by rw [hk3]; simp [(List.getElem?_eq_some_iff.1 hp).1])
        (paneCreated_state _ _ _) hcw
        (by rw [hk2]; simp [(List.getElem?_eq_some_iff.1 hw).1])
        (by simpa [Window.addPane] using hwc) (by simpa [Window.addPane] using hsa1)
        (by rw [hk1]; exact hs1) hsc

/-- The witness of C8: Apply on the applied session, window and pane of the
example world, and Apply twice on its new window and its new pane. -/
theorem apply_on_applied_entity_is_noop_witness :
    (Background.Err = none ∧
      Window.Apply exampleOS simTmux Background (some 1) exampleWorld =
        .ok none (Window.Apply exampleOS simTmux Background (some 1) exampleWorld).world ∧
      Pane.Apply exampleOS simTmux Background (some 1) exampleWorld =
        .ok none (Pane.Apply exampleOS simTmux Background (some 1) exampleWorld).world) ∧
    Session.Apply simTmux Background (some 0) exampleWorld = .ok none exampleWorld ∧
    Window.Apply exampleOS simTmux Background (some 0) exampleWorld = .ok none exampleWorld ∧
    Pane.Apply exampleOS simTmux Background (some 0) exampleWorld = .ok none exampleWorld ∧
    Window.Apply exampleOS simTmux Background (some 1)
        (Window.Apply exampleOS simTmux Background (some 1) exampleWorld).world =
      .ok none (Window.Apply exampleOS simTmux Background (some 1) exampleWorld).world ∧
    Pane.Apply exampleOS simTmux Background (some 1)
        (Pane.Apply exampleOS simTmux Background (some 1) exampleWorld).world =
      .ok none (Pane.Apply exampleOS simTmux Background (some 1) exampleWorld).world :=
  ⟨⟨rfl, by decide, by decide⟩,
    (apply_on_applied_entity_is_noop exampleOS simTmux Background exampleWorld rfl).1
      0 demoSession (by decide) rfl,
    (apply_on_applied_entity_is_noop exampleOS simTmux Background exampleWorld rfl).2.1
      0 codeWindow 0 demoSession (by decide) rfl rfl (by decide) (by decide),
    (apply_on_applied_entity_is_noop exampleOS simTmux Background exampleWorld rfl).2.2.1
      0 codePane 0 codeWindow 0 demoSession (by decide) rfl rfl (by decide) (by decide) rfl
      (by decide) (by decide),
    (apply_on_applied_entity_is_noop exampleOS simTmux Background exampleWorld rfl).2.2.2.2.1
      1 _ (by decide),
    (apply_on_applied_entity_is_noop exampleOS simTmux Background exampleWorld rfl).2.2.2.2.2
      1 _ (by decide)⟩

/-- C9: once Session.Close has succeeded on the applied session of a pane,
Select and RunCommands (with at least one command) on the pane issue no
command and return the error of Pane.checkState, which is ErrPaneNotApplied
and not ErrSessionClosed. -/
theorem pane_commands_after_close_return_pane_not_applied (R : Runner) (ctx : Context)
    (w w1 : World) (a wa sa : Nat) (pane : Pane) (win : Window) (sess : Session)
    (cmds : List String) (hctx : ctx.Err = none) (hc : cmds ≠ [])
    (hp : w.panes[a]? = some pane) (hwa : pane.win = some wa)
    (hw : w.windows[wa]? = some win) (hsa : win.sess = some sa)
    (hs : w.sessions[sa]? = some sess) (happ : sess.state = .stateApplied)
    (hclose : Session.Close R (some sa) w = .ok none w1) :
    Pane.Select R ctx (some a) w1 =
      .ok (some (.Wrapf "checking pane state: %w" [] ErrPaneNotApplied)) w1 ∧
    Pane.RunCommands R ctx (some a) cmds w1 =
      .ok (some (.Wrapf "checking pane state: %w" [] ErrPaneNotApplied)) w1 ∧
    (Error.Wrapf "checking pane state: %w" [] ErrPaneNotApplied).Is ErrSessionClosed =
      false := by
  have hlen := (List.getElem?_eq_some_iff.1 hs).1
  have hw1 : w1 =
      { w with
        sessions := w.sessions.set sa { sess with state := .stateClosed, windows := [] }
        calls := w.calls ++ [.Run ["kill-session", "-t", sess.name]] } := by
    cases hr : R.Run Background w.calls ["kill-session", "-t", sess.name] with
    | mk output kerr =>
    cases kerr with
    | some ke =>
      simp [Session.Close, getSession, hs, Session.IsClosed, Session.IsApplied, happ,
        Run, hr] at hclose
    | none =>
      simp [Session.Close, getSession, hs, Session.IsClosed, Session.IsApplied, happ,
        Run, hr, setSession] at hclose
      exact hclose.symm
  have hne : cmds.length ≠ 0 := by
    cases cmds with
    | nil => exact absurd rfl hc
    | cons c rest => simp
  subst hw1
  refine ⟨?_, ?_, by decide⟩
  · by_cases hpc : pane.state = .stateClosed <;> by_cases hwc : win.state = .stateClosed <;>
      simp [Pane.Select, hctx, Pane.checkState, Pane.IsClosed, getPane, hp, hpc,
        Window.IsClosed, getWindow, hwa, hw, hwc, getSession, hsa, hlen, Session.IsClosed]
  · by_cases hpc : pane.state = .stateClosed <;> by_cases hwc : win.state = .stateClosed <;>
      simp [Pane.RunCommands, hctx, hne, Pane.checkState, Pane.IsClosed, getPane, hp, hpc,
        Window.IsClosed, getWindow, hwa, hw, hwc, getSession, hsa, hlen, Session.IsClosed]

/-- The witness of C9: the session `demo` is closed, then Select and
RunCommands are called on its applied pane. -/
theorem pane_commands_after_close_return_pane_not_applied_witness :
    (Background.Err = none ∧ ["ls"] ≠ [] ∧ exampleWorld.panes[0]? = some codePane ∧
      codePane.win = some 0 ∧ exampleWorld.windows[0]? = some codeWindow ∧
      codeWindow.sess = some 0 ∧ exampleWorld.sessions[0]? = some demoSession ∧
      demoSession.state = .stateApplied ∧
      Session.Close simTmux (some 0) exampleWorld =
        .ok none (Session.Close simTmux (some 0) exampleWorld).world) ∧
    Pane.Select simTmux Background (some 0)
        (Session.Close simTmux (some 0) exampleWorld).world =
      .ok (some (.Wrapf "checking pane state: %w" [] ErrPaneNotApplied))
        (Session.Close simTmux (some 0) exampleWorld).world ∧
    Pane.RunCommands simTmux Background (some 0) ["ls"]
        (Session.Close simTmux (some 0) exampleWorld).world =
      .ok (some (.Wrapf "checking pane state: %w" [] ErrPaneNotApplied))
        (Session.Close simTmux (some 0) exampleWorld).world ∧
    (Error.Wrapf "checking pane state: %w" [] ErrPaneNotApplied).Is ErrSessionClosed =
      false :=
  ⟨⟨rfl, by decide, by decide, rfl, by decide, rfl, by decide, rfl, by decide⟩,
    pane_commands_after_close_return_pane_not_applied simTmux Background exampleWorld _ 0 0 0
      codePane codeWindow demoSession ["ls"] rfl (by decide) (by decide) rfl (by decide) rfl
      (by decide) rfl (by decide)⟩

/-- C10: with a live context, RunCommands with at least one command and Select
on a window in state new under an applied session return an error that is
ErrWindowNotApplied, on a pane in state new under an applied session an error
that is ErrPaneNotApplied, and SelectActive and Attach on a session in state
new an error that is ErrSessionNotApplied; each call leaves the world as it
is, so that no runner command is issued. -/
theorem unapplied_entities_reject_commands (os : OS) (R : Runner) (ctx : Context)
    (w : World) (hctx : ctx.Err = none) :
    (∀ a win sa sess cmds, w.windows[a]? = some win → win.state = .stateNew →
      win.sess = some sa → w.sessions[sa]? = some sess → sess.state = .stateApplied →
      cmds ≠ [] →
      ∃ err, err.Is ErrWindowNotApplied = true ∧
        Window.RunCommands R ctx (some a) cmds w = .ok (some err) w ∧
        Window.Select R ctx (some a) w = .ok (some err) w) ∧
    (∀ a pane wa win sa sess cmds, w.panes[a]? = some pane → pane.state = .stateNew →
      pane.win = some wa → w.windows[wa]? = some win → win.sess = some sa →
      w.sessions[sa]? = some sess → sess.state = .stateApplied → cmds ≠ [] →
      ∃ err, err.Is ErrPaneNotApplied = true ∧
        Pane.RunCommands R ctx (some a) cmds w = .ok (some err) w ∧
        Pane.Select R ctx (some a) w = .ok (some err) w) ∧
    (∀ a sess, w.sessions[a]? = some sess → sess.state = .stateNew →
      ∃ err, err.Is ErrSessionNotApplied = true ∧
        Session.SelectActive R ctx (some a) w = .ok (some err) w ∧
        Session.Attach os R ctx (some a) w = .ok (some err) w) := by
  refine ⟨?_, ?_, ?_⟩
  · intro a win sa sess cmds hw hnew hsa hs happ hc
    have hne : cmds.length ≠ 0 := by
      cases cmds with
      | nil => exact absurd rfl hc
      | cons c rest => simp
    refine ⟨.Wrapf "checking window state: %w" [] ErrWindowNotApplied, by decide, ?_, ?_⟩
    · simp [Window.RunCommands, hctx, hne, Window.checkState, Window.IsClosed, getWindow, hw,
        hnew, getSession, hsa, hs, Session.IsClosed, happ, Window.IsApplied]
    · simp [Window.Select, hctx, Window.checkState, Window.IsClosed, getWindow, hw,
        hnew, getSession, hsa, hs, Session.IsClosed, happ, Window.IsApplied]
  · intro a pane wa win sa sess cmds hp hnew hwa hw hsa hs happ hc
    have hne : cmds.length ≠ 0 := by
      cases cmds with
      | nil => exact absurd rfl hc
      | cons c rest => simp
    refine ⟨.Wrapf "checking pane state: %w" [] ErrPaneNotApplied, by decide, ?_, ?_⟩
    · by_cases hwc : win.state = .stateClosed <;>
        simp [Pane.RunCommands, hctx, hne, Pane.checkState, Pane.IsClosed, getPane, hp, hnew,
          Window.IsClosed, getWindow, hwa, hw, hwc, getSession, hsa, hs, Session.IsClosed,
          happ, Pane.IsApplied]
    · by_cases hwc : win.state = .stateClosed <;>
        simp [Pane.Select, hctx, Pane.checkState, Pane.IsClosed, getPane, hp, hnew,
          Window.IsClosed, getWindow, hwa, hw, hwc, getSession, hsa, hs, Session.IsClosed,
          happ, Pane.IsApplied]
  · intro a sess hs hnew
    refine ⟨.Wrapf "checking session state: %w" [] ErrSessionNotApplied, by decide, ?_, ?_⟩
    · simp [Session.SelectActive, hctx, getSession, hs, Session.checkState, Session.IsClosed,
        Session.IsApplied, hnew]
    · simp [Session.Attach, hctx, getSession, hs, Session.checkState, Session.IsClosed,
        Session.IsApplied, hnew]

/-- The witness of C10: the new window, the new pane and the new session of
the example world. -/
theorem unapplied_entities_reject_commands_witness :
    (Background.Err = none ∧ exampleWorld.windows[1]? = some logsWindow ∧
      logsWindow.state = .stateNew ∧ exampleWorld.panes[1]? = some shellPane ∧
      shellPane.state = .stateNew ∧ exampleWorld.sessions[1]? = some draftSession ∧
      draftSession.state = .stateNew ∧ demoSession.state = .stateApplied) ∧
    (∃ err, err.Is ErrWindowNotApplied = true ∧
      Window.RunCommands simTmux Background (some 1) ["ls"] exampleWorld =
        .ok (some err) exampleWorld ∧
      Window.Select simTmux Background (some 1) exampleWorld =
        .ok (some err) exampleWorld) ∧
    (∃ err, err.Is ErrPaneNotApplied = true ∧
      Pane.RunCommands simTmux Background (some 1) ["ls"] exampleWorld =
        .ok (some err) exampleWorld ∧
      Pane.Select simTmux Background (some 1) exampleWorld = .ok (some err) exampleWorld) ∧
    (∃ err, err.Is ErrSessionNotApplied = true ∧
      Session.SelectActive simTmux Background (some 1) exampleWorld =
        .ok (some err) exampleWorld ∧
      Session.Attach exampleOS simTmux Background (some 1) exampleWorld =
        .ok (some err) exampleWorld) :=
  ⟨⟨rfl, by decide, rfl, by decide, rfl, by decide, rfl, rfl⟩,
    (unapplied_entities_reject_commands exampleOS simTmux Background exampleWorld rfl).1
      1 logsWindow 0 demoSession ["ls"] (by decide) rfl rfl (by decide) rfl (by decide),
    (unapplied_entities_reject_commands exampleOS simTmux Background exampleWorld rfl).2.1
      1 shellPane 0 codeWindow 0 demoSession ["ls"] (by decide) rfl rfl (by decide) rfl
      (by decide) rfl (by decide),
    (unapplied_entities_reject_commands exampleOS simTmux Background exampleWorld rfl).2.2
      1 draftSession (by decide) rfl⟩

/-- C11: with a live context, RunCommands on an applied window (of a session
that is not closed) and on an applied pane (of a window and a session that are
not closed) issues send-keys -t <Name()> <command> C-m for the commands in
order: nothing and nil for the empty list; the commands up to and with the
first that fails, and an error that wraps the runner's error; all commands and
nil when none fails. -/
theorem run_commands_sends_keys_in_order (R : Runner) (ctx : Context) (w : World)
    (hctx : ctx.Err = none) :
    (∀ a win sa sess, w.windows[a]? = some win → win.state = .stateApplied →
      win.sess = some sa → w.sessions[sa]? = some sess → sess.state ≠ .stateClosed →
      Window.Name (some a) w = .ok (sess.name ++ ":" ++ win.name) w ∧
      sendsKeysInOrder R ctx (sess.name ++ ":" ++ win.name)
        (Window.RunCommands R ctx (some a)) w) ∧
    (∀ a pane wa win sa sess, w.panes[a]? = some pane → pane.state = .stateApplied →
      pane.win = some wa → w.windows[wa]? = some win → win.state ≠ .stateClosed →
      win.sess = some sa → w.sessions[sa]? = some sess → sess.state ≠ .stateClosed →
      Pane.Name (some a) w =
        .ok (sess.name ++ ":" ++ win.name ++ "." ++ pane.index) w ∧
      sendsKeysInOrder R ctx (sess.name ++ ":" ++ win.name ++ "." ++ pane.index)
        (Pane.RunCommands R ctx (some a)) w) := by
  constructor
  · intro a win sa sess hw happ hsa hs hsc
    refine ⟨by simp [Window.Name, getWindow, hw, getSession, hsa, hs, Session.Name], ?_⟩
    apply sendsKeysInOrder_of_eq
    intro cmds
    rw [windowRunCommands_applied cmds hctx hw hsa hs happ hsc,
      windowSendKeys_eq cmds w hw hsa hs]
  · intro a pane wa win sa sess hp happ hwa hw hwc hsa hs hsc
    refine ⟨by simp [Pane.Name, getPane, hp, Window.Name, getWindow, hwa, hw, getSession,
      hsa, hs, Session.Name], ?_⟩
    apply sendsKeysInOrder_of_eq
    intro cmds
    rw [paneRunCommands_applied cmds hctx hp happ hwa hw hwc hsa hs hsc,
      paneSendKeys_eq cmds w hp hwa hw hsa hs]

/-- The witness of C11: three commands of which the second fails, in the
applied window `code`; two commands that succeed, in its applied pane. -/
theorem run_commands_sends_keys_in_order_witness :
    (Background.Err = none ∧ exampleWorld.windows[0]? = some codeWindow ∧
      exampleWorld.panes[0]? = some codePane ∧
      exampleWorld.sessions[0]? = some demoSession) ∧
    Window.RunCommands pickyRunner Background (some 0) ["ls", "false", "pwd"] exampleWorld =
      .ok (some (.Wrapf "running send-keys command: %w" [] (.New "exit status 1")))
        { exampleWorld with
          calls := exampleWorld.calls ++
            (["ls", "false", "pwd"].take (1 + 1)).map
              (sendKeysCall (demoSession.name ++ ":" ++ codeWindow.name)) } ∧
    Pane.RunCommands pickyRunner Background (some 0) ["ls", "pwd"] exampleWorld =
      .ok none
        { exampleWorld with
          calls := exampleWorld.calls ++
            ["ls", "pwd"].map
              (sendKeysCall
                (demoSession.name ++ ":" ++ codeWindow.name ++ "." ++ codePane.index)) } :=
  ⟨⟨rfl, by decide, by decide, by decide⟩,
    (((run_commands_sends_keys_in_order pickyRunner Background exampleWorld rfl).1
      0 codeWindow 0 demoSession (by decide) rfl rfl (by decide) (by decide)).2.2
      ["ls", "false", "pwd"]).1 1 "false" (.New "exit status 1") (by decide)
      (fun i ci hi hci => by
        have h0 : i = 0 := by omega
        subst h0
        simp at hci
        subst hci
        decide)
      (by decide),
    (((run_commands_sends_keys_in_order pickyRunner Background exampleWorld rfl).2
      0 codePane 0 codeWindow 0 demoSession (by decide) rfl rfl (by decide) (by decide) rfl
      (by decide) (by decide)).2.2
      ["ls", "pwd"]).2
      (fun i ci hci => by
        have hi : i < 2 := by
          by_contra h
          have : 2 ≤ i := by omega
          rw [List.getElem?_eq_none (by simpa using this)] at hci
          cases hci
        interval_cases i <;> simp at hci <;> subst hci <;> decide)⟩

/-- C12: when the new-window command of Window.Apply on a new window succeeds
(no error, and an output of which a first record is read), the commands after
it are the send-keys commands, to the window, of the on-any hook (if not
empty), the on-window hook (if not empty) and the window's own commands, in
that order, up to and with the first that fails. When the split-window command
of Pane.Apply on a new pane, nested or not, succeeds, the commands after it
are the send-keys commands, to the pane, of the on-any hook, the on-pane hook
and the pane's own commands, in that order, and no other: none for a command
of its window. -/
theorem apply_runs_hooks_then_own_commands (os : OS) (R : Runner) (ctx : Context)
    (w : World) (a : Nat) (out text : String) (record : outputRecord)
    (rest : List outputRecord) (hctx : ctx.Err = none)
    (hp : parseOutput text = .ok (record :: rest)) :
    (∀ win sa sess, w.windows[a]? = some win → win.state = .stateNew →
      win.sess = some sa → w.sessions[sa]? = some sess → sess.state ≠ .stateClosed →
      R.Run ctx w.calls (win.newWindowArgs os sess) = (out, none) →
      (if R.IsDryRun then
        (Window.dryRunRecord (some a)
          { w with calls := w.calls ++ [.Run (win.newWindowArgs os sess)] }).val?
        else some out) = some text →
      sendKeysOutcome R ctx (sess.name ++ ":" ++ (win.update record).name)
        ((if sess.anyCmd ≠ "" then [sess.anyCmd] else []) ++
          (if sess.winCmd ≠ "" then [sess.winCmd] else []) ++ win.cmds)
        { w with
          windows := w.windows.set a (win.update record)
          sessions := w.sessions.set sa (sess.addWindow a)
          calls := w.calls ++ [.Run (win.newWindowArgs os sess)] }
        (Window.Apply os R ctx (some a) w)) ∧
    (∀ pane wa win sa sess target0 target env, w.panes[a]? = some pane →
      Pane.IsClosed (some a) w = .ok false w → pane.state = .stateNew →
      pane.win = some wa → w.windows[wa]? = some win →
      pane.sess = some sa → w.sessions[sa]? = some sess →
      Window.Name pane.win w = .ok target0 w →
      (match pane.pane with
        | none => target = target0
        | some pp => Pane.Name (some pp) w = .ok target w) →
      Pane.envArgs os (some a) w = .ok env w →
      R.Run ctx w.calls (pane.splitWindowArgs target env) = (out, none) →
      (if R.IsDryRun then
        (Pane.dryRunRecord (some a)
          { w with calls := w.calls ++ [.Run (pane.splitWindowArgs target env)] }).val?
        else some out) = some text →
      sendKeysOutcome R ctx (target0 ++ "." ++ (pane.update record).index)
        ((if sess.anyCmd ≠ "" then [sess.anyCmd] else []) ++
          (if sess.paneCmd ≠ "" then [sess.paneCmd] else []) ++ pane.cmds)
        { w with
          panes := w.panes.set a (pane.created a record)
          windows := w.windows.set wa (win.addPane a)
          calls := w.calls ++ [.Run (pane.splitWindowArgs target env)] }
        (Pane.Apply os R ctx (some a) w)) := by
  constructor
  · intro win sa sess hw hnew hsa hs hsc hr hout
    have hl1 := (List.getElem?_eq_some_iff.1 hw).1
    have hl2 := (List.getElem?_eq_some_iff.1 hs).1
    rw [windowApply_created hctx hw hnew hsa hs hsc hr hout hp,
      windowApply_good record _ _ hctx hw hsa hs hsc, ← onWindowCommands_eq,
      @windowSendKeys_eq R ctx a sa (win.update record) (sess.addWindow a)
        (sess.onWindowCommands ++ win.cmds)
        { w with
          windows := w.windows.set a (win.update record)
          sessions := w.sessions.set sa (sess.addWindow a)
          calls := w.calls ++ [.Run (win.newWindowArgs os sess)] }
        (by simp [hl1]) (by simp [hsa]) (by simp [hl2])]
    exact sendKeysTo_trace _ _ _ _ _
  · intro pane wa win sa sess target0 target env hpn hcl hnew hwa hw hsa hs hn htm hen hr
      hout
    obtain ⟨_, wa1, win1, sa1, sess1, hwa1, hw1, hwc, hsa1, hs1, hsc1⟩ :=
      paneIsClosed_false_inv hpn hcl
    rw [hwa] at hwa1
    cases hwa1
    rw [hw] at hw1
    cases hw1
    have hl1 := (List.getElem?_eq_some_iff.1 hpn).1
    have hl2 := (List.getElem?_eq_some_iff.1 hw).1
    have ht0 : target0 = sess1.name ++ ":" ++ win.name := by
      simp [Window.Name, hwa, getWindow, hw, getSession, hsa1, hs1, Session.Name] at hn
      exact hn.symm
    have hcw : (pane.created a record).win = some wa := by
      rw [(paneCreated_fields pane a record).1, hwa]
    rw [paneApply_created hctx hpn hcl hnew hwa hw hsa hs hn htm hen hr hout hp,
      paneApply_good record _ _ hctx hpn hwa hw hcl, ← onPaneCommands_eq,
      @paneSendKeys_eq R ctx a wa sa1 (pane.created a record) (win.addPane a) sess1
        (sess.onPaneCommands ++ pane.cmds)
        { w with
          panes := w.panes.set a (pane.created a record)
          windows := w.windows.set wa (win.addPane a)
          calls := w.calls ++ [.Run (pane.splitWindowArgs target env)] }
        (by simp [hl1]) hcw (by simp [hl2]) (by simpa [Window.addPane] using hsa1) hs1,
      (paneCreated_fields pane a record).2, ht0]
    simp only [Window.addPane]
    exact sendKeysTo_trace _ _ _ _ _

/-- The witness of C12: the new window `logs` and a new nested pane, in a
session with the three hooks; no command fails. -/
theorem apply_runs_hooks_then_own_commands_witness :
    (Background.Err = none ∧
      parseOutput "window_id:@1" = .ok [[("window_id", "@1")]] ∧
      parseOutput "pane_id:%1" = .ok [[("pane_id", "%1")]] ∧
      hookWorld.windows[1]? = some logsWindow ∧ hookWorld.panes[1]? = some nestedPane ∧
      hookWorld.sessions[0]? = some hookSession ∧
      hookWorld.windows[0]? = some topWindow ∧
      Pane.IsClosed (some 1) hookWorld = .ok false hookWorld ∧
      Window.Name nestedPane.win hookWorld = .ok "demo:code" hookWorld ∧
      Pane.Name (some 0) hookWorld = .ok "demo:code.1" hookWorld ∧
      Pane.envArgs exampleOS (some 1) hookWorld = .ok [] hookWorld) ∧
    Window.Apply exampleOS simTmux Background (some 1) hookWorld =
      .ok none
        { hookWorld with
          windows := hookWorld.windows.set 1 (logsWindow.update [("window_id", "@1")])
          sessions := hookWorld.sessions.set 0 (hookSession.addWindow 1)
          calls := hookWorld.calls ++
            [.Run (logsWindow.newWindowArgs exampleOS hookSession)] ++
            ["echo any", "echo win", "tail -f log"].map (sendKeysCall "demo:logs") } ∧
    Pane.Apply exampleOS simTmux Background (some 1) hookWorld =
      .ok none
        { hookWorld with
          panes := hookWorld.panes.set 1 (nestedPane.created 1 [("pane_id", "%1")])
          windows := hookWorld.windows.set 0 (topWindow.addPane 1)
          calls := hookWorld.calls ++
            [.Run (nestedPane.splitWindowArgs "demo:code.1" [])] ++
            ["echo any", "echo pane", "ls"].map (sendKeysCall "demo:code.") } :=
  ⟨⟨rfl, by decide, by decide, by decide, by decide, by decide, by decide, by decide,
      by decide, by decide, by decide⟩,
    ((apply_runs_hooks_then_own_commands exampleOS simTmux Background hookWorld 1
      "window_id:@1" "window_id:@1" [("window_id", "@1")] [] rfl (by decide)).1
      logsWindow 0 hookSession (by decide) rfl rfl (by decide) (by decide) rfl rfl).2
      (fun _ _ _ => rfl),
    ((apply_runs_hooks_then_own_commands exampleOS simTmux Background hookWorld 1
      "pane_id:%1" "pane_id:%1" [("pane_id", "%1")] [] rfl (by decide)).2
      nestedPane 0 topWindow 0 hookSession "demo:code" "demo:code.1" [] (by decide)
      (by decide) rfl rfl (by decide) rfl (by decide) (by decide)
      (show Pane.Name (some 0) hookWorld = .ok "demo:code.1" hookWorld by decide) (by decide)
      rfl rfl).2
      (fun _ _ _ => rfl)⟩

/-- C13: parseOutput returns no record and no error for an input that is empty
or all white space. For an input that is not blank, in which every
comma-separated token of every line has a colon and no key repeats within a
line, it returns without error one record per line, in line order, each
mapping the text before the first colon of a token to the text after it; so a
value may contain colons. -/
theorem parseOutput_records_of_lines :
    (∀ output : String, (∀ c ∈ output.data, isSpace c = true) →
      parseOutput output = .ok []) ∧
    (∀ output : String, trimSpace output.data ≠ [] →
      (∀ line ∈ outputLines output,
        (∀ tok ∈ lineTokens line, (cutChars colon tok).isSome = true) ∧
        ((lineRecord line).map Prod.fst).Nodup) →
      parseOutput output = .ok ((outputLines output).map lineRecord) ∧
      1 ≤ ((outputLines output).map lineRecord).length) ∧
    (∀ key val : List Char, colon ∉ key →
      tokenPair (key ++ colon :: val) = some (String.mk key, String.mk val)) := by
  refine ⟨?_, ?_, ?_⟩
  · intro output h
    unfold parseOutput
    simp [trimSpace_of_allSpace _ h]
  · intro output hne h
    rw [parseOutput_eq_parseLines output hne,
      parseLines_ok _ (outputLines_length_pos output) _ [] h]
    refine ⟨by simp, ?_⟩
    have := outputLines_length_pos output
    simp only [List.length_map]
    omega
  · intro key val hk
    simp [tokenPair, cutChars_append colon key val hk]

/-- The witness of C13: a blank input, and two lines of which the first has a
value with a colon. -/
theorem parseOutput_records_of_lines_witness :
    ((∀ c ∈ " \n\t ".data, isSpace c = true) ∧ trimSpace " a:1,b:x:y\nc:3\n".data ≠ [] ∧
      (∀ line ∈ outputLines " a:1,b:x:y\nc:3\n",
        (∀ tok ∈ lineTokens line, (cutChars colon tok).isSome = true) ∧
        ((lineRecord line).map Prod.fst).Nodup) ∧
      colon ∉ "b".data) ∧
    parseOutput " \n\t " = .ok [] ∧
    (parseOutput " a:1,b:x:y\nc:3\n" =
        .ok ((outputLines " a:1,b:x:y\nc:3\n").map lineRecord) ∧
      1 ≤ ((outputLines " a:1,b:x:y\nc:3\n").map lineRecord).length) ∧
    (outputLines " a:1,b:x:y\nc:3\n").map lineRecord =
      [[("a", "1"), ("b", "x:y")], [("c", "3")]] ∧
    tokenPair ("b".data ++ colon :: "x:y".data) = some (String.mk "b".data, String.mk "x:y".data) :=
  ⟨⟨by decide, by decide, by decide, by decide⟩,
    parseOutput_records_of_lines.1 " \n\t " (by decide),
    parseOutput_records_of_lines.2.1 " a:1,b:x:y\nc:3\n" (by decide) (by decide),
    by decide,
    parseOutput_records_of_lines.2.2 "b".data "x:y".data (by decide)⟩

/-- C14: for an input that is not blank, parseOutput returns an error, and so
no records, when some token of some line has no colon; and it returns the
duplicate-key error when every token has a colon and some line has two tokens
with the same key. Hence the records it returns have no repeated key, and are
the records of the lines: no token has replaced an earlier one. -/
theorem parseOutput_rejects_malformed_and_duplicate :
    (∀ output : String, trimSpace output.data ≠ [] →
      (∃ line ∈ outputLines output, ∃ tok ∈ lineTokens line, cutChars colon tok = none) →
      ∃ e, parseOutput output = .error e) ∧
    (∀ output : String, trimSpace output.data ≠ [] →
      (∀ line ∈ outputLines output, ∀ tok ∈ lineTokens line,
        (cutChars colon tok).isSome = true) →
      (∃ line ∈ outputLines output, ¬ ((lineRecord line).map Prod.fst).Nodup) →
      ∃ key, parseOutput output =
        .error (.Errorf "duplicate key in command output: %s" [key])) ∧
    (∀ (output : String) (records : List outputRecord), parseOutput output = .ok records →
      (∀ r ∈ records, (r.map Prod.fst).Nodup) ∧
      (trimSpace output.data ≠ [] → records = (outputLines output).map lineRecord)) := by
  refine ⟨?_, ?_, ?_⟩
  · intro output hne h
    rw [parseOutput_eq_parseLines output hne]
    exact parseLines_malformed _ (outputLines_length_pos output) _ [] h
  · intro output hne hc h
    rw [parseOutput_eq_parseLines output hne]
    exact parseLines_duplicate _ (outputLines_length_pos output) _ [] hc h
  · intro output records hok
    refine ⟨parseOutput_nodup hok, fun hne => ?_⟩
    rw [parseOutput_eq_parseLines output hne] at hok
    by_cases hc : ∀ line ∈ outputLines output, ∀ tok ∈ lineTokens line,
        (cutChars colon tok).isSome = true
    · by_cases hd : ∀ line ∈ outputLines output, ((lineRecord line).map Prod.fst).Nodup
      · rw [parseLines_ok _ (outputLines_length_pos output) _ []
          (fun l hl => ⟨hc l hl, hd l hl⟩)] at hok
        simp only [List.nil_append, Except.ok.injEq] at hok
        exact hok.symm
      · push_neg at hd
        obtain ⟨k, hk⟩ := parseLines_duplicate _ (outputLines_length_pos output) _ [] hc hd
        rw [hk] at hok
        cases hok
    · push_neg at hc
      obtain ⟨line, hl, tok, ht, hbad⟩ := hc
      have hnone : cutChars colon tok = none := by
        cases hcut : cutChars colon tok with
        | none => rfl
        | some kv => simp [hcut] at hbad
      obtain ⟨e, he⟩ := parseLines_malformed _ (outputLines_length_pos output) _ []
        ⟨line, hl, tok, ht, hnone⟩
      rw [he] at hok
      cases hok

/-- The witness of C14: a token without colon, a repeated key, and an output
that parses. -/
theorem parseOutput_rejects_malformed_and_duplicate_witness :
    (trimSpace "a:1,b".data ≠ [] ∧
      (∃ line ∈ outputLines "a:1,b", ∃ tok ∈ lineTokens line, cutChars colon tok = none) ∧
      trimSpace "a:1,a:2".data ≠ [] ∧
      (∀ line ∈ outputLines "a:1,a:2", ∀ tok ∈ lineTokens line,
        (cutChars colon tok).isSome = true) ∧
      (∃ line ∈ outputLines "a:1,a:2", ¬ ((lineRecord line).map Prod.fst).Nodup) ∧
      parseOutput "a:1,b:2" = .ok [[("a", "1"), ("b", "2")]]) ∧
    (∃ e, parseOutput "a:1,b" = .error e) ∧
    (∃ key, parseOutput "a:1,a:2" =
      .error (.Errorf "duplicate key in command output: %s" [key])) ∧
    parseOutput "a:1,a:2" = .error (.Errorf "duplicate key in command output: %s" ["a"]) ∧
    ((∀ r ∈ [[("a", "1"), ("b", "2")]], (r.map Prod.fst).Nodup) ∧
      (trimSpace "a:1,b:2".data ≠ [] →
        [[("a", "1"), ("b", "2")]] = (outputLines "a:1,b:2").map lineRecord)) :=
  ⟨⟨by decide, by decide, by decide, by decide, by decide, by decide⟩,
    parseOutput_rejects_malformed_and_duplicate.1 "a:1,b" (by decide) (by decide),
    parseOutput_rejects_malformed_and_duplicate.2.1 "a:1,a:2" (by decide) (by decide)
      (by decide),
    by decide,
    parseOutput_rejects_malformed_and_duplicate.2.2 "a:1,b:2" [[("a", "1"), ("b", "2")]]
      (by decide)⟩

/-- C15: for a chain of maps (each a Go map: no key twice; nil is the empty
map), envArgs is the list of the flags -e k=v for the keys k of the chain in
strictly ascending order, each key of any map exactly once, with v the
expanded value of k in the last map that defines it; and the result is the
same for every order in which the entries of each map are iterated. -/
theorem envArgs_sorted_last_wins (os : OS) (maps : List Map)
    (hm : ∀ m ∈ maps, (m.map Prod.fst).Nodup) :
    (∃ keys : List String,
      envArgs os maps =
        keys.flatMap
          (fun k => ["-e", k ++ "=" ++ os.ExpandEnv ((chainValue maps k).getD "")]) ∧
      keys.Pairwise (fun a b => lessChars a.data b.data = true) ∧ keys.Nodup ∧
      ∀ k, k ∈ keys ↔ ∃ m ∈ maps, k ∈ m.map Prod.fst) ∧
    (∀ maps1 : List Map, List.Forall₂ (fun m m1 => m.Perm m1) maps maps1 →
      envArgs os maps1 = envArgs os maps) := by
  constructor
  · obtain ⟨keys, h1, h2, h3⟩ := envArgs_flags os maps hm
    refine ⟨keys, h1, h2, ?_, h3⟩
    refine h2.imp ?_
    intro a b hab e
    subst e
    rw [lessChars_irrefl] at hab
    cases hab
  · intro maps1 hp
    have hm1 : ∀ m ∈ maps1, (m.map Prod.fst).Nodup := by
      intro m1 hmem
      obtain ⟨m, hmm, hperm⟩ : ∃ m ∈ maps, m.Perm m1 := by
        clear hm
        induction hp with
        | nil => simp at hmem
        | cons h _ ih =>
          rcases List.mem_cons.1 hmem with e | e
          · subst e
            exact ⟨_, by simp, h⟩
          · obtain ⟨m, hmm, hperm⟩ := ih e
            exact ⟨m, by simp [hmm], hperm⟩
      exact (hperm.map Prod.fst).nodup_iff.1 (hm m hmm)
    have hkeys : ∀ k, (∃ m ∈ maps, k ∈ m.map Prod.fst) ↔
        (∃ m ∈ maps1, k ∈ m.map Prod.fst) := by
      intro k
      clear hm hm1
      induction hp with
      | nil => simp
      | cons h _ ih =>
        simp only [List.mem_cons, exists_eq_or_imp, ih, (h.map Prod.fst).mem_iff]
    obtain ⟨keys, h1, h2, h3⟩ := envArgs_flags os maps hm
    obtain ⟨keys1, g1, g2, g3⟩ := envArgs_flags os maps1 hm1
    have hk : keys1 = keys :=
      eq_of_strictly_ascending g2 h2 (fun k => by rw [g3, h3, hkeys])
    rw [g1, h1, hk]
    congr 1
    funext k
    rw [chainValue_perm hp hm]

/-- The witness of C15: a session, a window and a pane map with overlapping
keys; the entries of the first map in two orders. -/
theorem envArgs_sorted_last_wins_witness :
    ((∀ m ∈ [[("B", "1"), ("A", "s")], [], [("A", "p"), ("C", "3")]],
        (m.map Prod.fst).Nodup) ∧
      List.Forall₂ (fun m m1 => List.Perm m m1)
        [[("B", "1"), ("A", "s")], [], [("A", "p"), ("C", "3")]]
        [[("A", "s"), ("B", "1")], [], [("A", "p"), ("C", "3")]]) ∧
    (∃ keys : List String,
      envArgs exampleOS [[("B", "1"), ("A", "s")], [], [("A", "p"), ("C", "3")]] =
        keys.flatMap
          (fun k => ["-e", k ++ "=" ++ exampleOS.ExpandEnv
            ((chainValue [[("B", "1"), ("A", "s")], [], [("A", "p"), ("C", "3")]] k).getD
              "")]) ∧
      keys.Pairwise (fun a b => lessChars a.data b.data = true) ∧ keys.Nodup ∧
      ∀ k, k ∈ keys ↔
        ∃ m ∈ [[("B", "1"), ("A", "s")], [], [("A", "p"), ("C", "3")]],
          k ∈ m.map Prod.fst) ∧
    envArgs exampleOS [[("A", "s"), ("B", "1")], [], [("A", "p"), ("C", "3")]] =
      envArgs exampleOS [[("B", "1"), ("A", "s")], [], [("A", "p"), ("C", "3")]] ∧
    envArgs exampleOS [[("B", "1"), ("A", "s")], [], [("A", "p"), ("C", "3")]] =
      ["-e", "A=p", "-e", "B=1", "-e", "C=3"] :=
  ⟨⟨by decide,
      .cons (List.Perm.swap _ _ _) (.cons (List.Perm.refl _) (.cons (List.Perm.refl _) .nil))⟩,
    (envArgs_sorted_last_wins exampleOS _ (by decide)).1,
    (envArgs_sorted_last_wins exampleOS _ (by decide)).2 _
      (.cons (List.Perm.swap _ _ _) (.cons (List.Perm.refl _) (.cons (List.Perm.refl _) .nil))),
    by decide⟩

/-- The counterexample to C16 as stated: the new pane is nested in a pane that
is nested in a pane; the variable OUTER of its grandparent is among the flags
of the chain of all its ancestors, and is not among the flags of the
split-window command that Pane.Apply issues, which has the variable MIDDLE of
its parent only. -/
theorem grandparent_env_is_not_inherited :
    envArgs exampleOS
        [demoSession.env, codeWindow.env, outerPane.env, middlePane.env, innerPane.env] =
      ["-e", "MIDDLE=2", "-e", "OUTER=1"] ∧
    (Pane.Apply exampleOS simTmux Background (some 2) nestedWorld).world.calls =
      [.Run ["split-window", "-d", "-P", "-F", paneOutputFormat, "-t", "demo:code.2",
        "-e", "MIDDLE=2"]] := by
  decide

/-- C16, amended: the -e flags of the split-window command that Pane.Apply
issues for a new pane are envArgs of the chain: session environment, window
environment, the environment of the parent pane if the pane has one, and the
pane's own environment. The environment of a pane further out than the parent
is not in the chain. -/
theorem pane_env_flags_use_immediate_parent (os : OS) (R : Runner) (ctx : Context)
    (w : World) (a : Nat) (pane : Pane) (wa : Nat) (win : Window) (sa : Nat)
    (sess : Session) (target0 target : String) (penv : List Map)
    (hctx : ctx.Err = none) (hp : w.panes[a]? = some pane)
    (hcl : Pane.IsClosed (some a) w = .ok false w) (hnew : pane.state = .stateNew)
    (hwa : pane.win = some wa) (hw : w.windows[wa]? = some win)
    (hsa : pane.sess = some sa) (hs : w.sessions[sa]? = some sess)
    (hn : Window.Name pane.win w = .ok target0 w)
    (htm : match pane.pane with
      | none => target = target0
      | some pp => Pane.Name (some pp) w = .ok target w)
    (hpar : match pane.pane with
      | none => penv = []
      | some pp => ∃ parent, w.panes[pp]? = some parent ∧ penv = [parent.env]) :
    Pane.envArgs os (some a) w =
      .ok (envArgs os ([sess.env, win.env] ++ penv ++ [pane.env])) w ∧
    pane.splitWindowArgs target (envArgs os ([sess.env, win.env] ++ penv ++ [pane.env])) =
      ["split-window", "-d", "-P", "-F", paneOutputFormat, "-t", target] ++
        envArgs os ([sess.env, win.env] ++ penv ++ [pane.env]) ++
        (if pane.path ≠ "" then ["-c", pane.path] else []) ++
        (if pane.size ≠ "" then ["-l", pane.size] else []) ++
        (if pane.horizontal then ["-h"] else []) ∧
    ∃ l, (Pane.Apply os R ctx (some a) w).world.calls =
      w.calls ++
        .Run (pane.splitWindowArgs target
          (envArgs os ([sess.env, win.env] ++ penv ++ [pane.env]))) :: l := by
  have hen : Pane.envArgs os (some a) w =
      .ok (envArgs os ([sess.env, win.env] ++ penv ++ [pane.env])) w := by
    cases hpp : pane.pane with
    | none =>
      simp only [hpp] at hpar
      subst hpar
      simp [Pane.envArgs, getPane, hp, hpp, getSession, hsa, hs, getWindow, hwa, hw]
    | some pp =>
      simp only [hpp] at hpar
      obtain ⟨parent, hparent, hpenv⟩ := hpar
      subst hpenv
      simp [Pane.envArgs, getPane, hp, hpp, getSession, hsa, hs, getWindow, hwa, hw, hparent]
  refine ⟨hen, ?_, ?_⟩
  · unfold Pane.splitWindowArgs
    by_cases h1 : pane.path = "" <;> by_cases h2 : pane.size = "" <;>
      by_cases h3 : pane.horizontal = true <;> simp [h1, h2, h3]
  · rw [paneApply_eq hctx hp hcl (by rw [hnew]; decide) hwa hw hsa hs hn htm hen]
    exact paneApplyResult_calls _ _ _ _ _ _ _ _ _

/-- The witness of the amended C16: the innermost of three nested panes. -/
theorem pane_env_flags_use_immediate_parent_witness :
    (Background.Err = none ∧ nestedWorld.panes[2]? = some innerPane ∧
      Pane.IsClosed (some 2) nestedWorld = .ok false nestedWorld ∧
      innerPane.state = .stateNew ∧ innerPane.win = some 0 ∧
      nestedWorld.windows[0]? = some { codeWindow with panes := [0, 1] } ∧
      innerPane.sess = some 0 ∧ nestedWorld.sessions[0]? = some demoSession ∧
      Window.Name innerPane.win nestedWorld = .ok "demo:code" nestedWorld ∧
      Pane.Name (some 1) nestedWorld = .ok "demo:code.2" nestedWorld ∧
      nestedWorld.panes[1]? = some middlePane) ∧
    Pane.envArgs exampleOS (some 2) nestedWorld =
      .ok (envArgs exampleOS
        ([demoSession.env, codeWindow.env] ++ [middlePane.env] ++ [innerPane.env]))
        nestedWorld ∧
    envArgs exampleOS
        ([demoSession.env, codeWindow.env] ++ [middlePane.env] ++ [innerPane.env]) =
      ["-e", "MIDDLE=2"] ∧
    ∃ l, (Pane.Apply exampleOS simTmux Background (some 2) nestedWorld).world.calls =
      nestedWorld.calls ++
        .Run (innerPane.splitWindowArgs "demo:code.2"
          (envArgs exampleOS
            ([demoSession.env, codeWindow.env] ++ [middlePane.env] ++ [innerPane.env]))) ::
          l :=
  ⟨⟨rfl, by decide, by decide, rfl, rfl, by decide, rfl, by decide, by decide, by decide,
      by decide⟩,
    (pane_env_flags_use_immediate_parent exampleOS simTmux Background nestedWorld 2 innerPane
      0 { codeWindow with panes := [0, 1] } 0 demoSession "demo:code" "demo:code.2"
      [middlePane.env] rfl (by decide) (by decide) rfl rfl (by decide) rfl (by decide)
      (by decide)
      (show Pane.Name (some 1) nestedWorld = .ok "demo:code.2" nestedWorld by decide)
      ⟨middlePane, by decide, rfl⟩).1,
    by decide,
    (pane_env_flags_use_immediate_parent exampleOS simTmux Background nestedWorld 2 innerPane
      0 { codeWindow with panes := [0, 1] } 0 demoSession "demo:code" "demo:code.2"
      [middlePane.env] rfl (by decide) (by decide) rfl rfl (by decide) rfl (by decide)
      (by decide)
      (show Pane.Name (some 1) nestedWorld = .ok "demo:code.2" nestedWorld by decide)
      ⟨middlePane, by decide, rfl⟩).2.2⟩

/-- C17: the name of a window is the name of its session, a colon and the
window's name; the name of a pane is the name of its window, a dot and the
pane's index. When Pane.Apply creates a pane, nested or not, the split-window
command targets the name of the parent pane if there is one and the name of
the window otherwise, and afterwards the pane's index is the pane_index value
of its creation record (when that value is not empty, and always when the
pane had no index before), so that its name is made of the window's name and
its own index, and of nothing of its parent. A pane that NewPane builds from
the options of a pane configuration has no index before it is applied. -/
theorem entity_names (os : OS) (R : Runner) (ctx : Context) (w : World)
    (hctx : ctx.Err = none) :
    (∀ a win sa sess, w.windows[a]? = some win → win.sess = some sa →
      w.sessions[sa]? = some sess →
      Window.Name (some a) w = .ok (sess.name ++ ":" ++ win.name) w) ∧
    (∀ a pane wname, w.panes[a]? = some pane → Window.Name pane.win w = .ok wname w →
      Pane.Name (some a) w = .ok (wname ++ "." ++ pane.index) w) ∧
    (∀ a pane wa win sa sess target0 target env out text record rest,
      w.panes[a]? = some pane → Pane.IsClosed (some a) w = .ok false w →
      pane.state = .stateNew → pane.win = some wa → w.windows[wa]? = some win →
      pane.sess = some sa → w.sessions[sa]? = some sess →
      Window.Name pane.win w = .ok target0 w →
      (match pane.pane with
        | none => target = target0
        | some pp => Pane.Name (some pp) w = .ok target w) →
      Pane.envArgs os (some a) w = .ok env w →
      R.Run ctx w.calls (pane.splitWindowArgs target env) = (out, none) →
      (if R.IsDryRun then
        (Pane.dryRunRecord (some a)
          { w with calls := w.calls ++ [.Run (pane.splitWindowArgs target env)] }).val?
        else some out) = some text →
      parseOutput text = .ok (record :: rest) →
      (pane.splitWindowArgs target env).take 7 =
        ["split-window", "-d", "-P", "-F", paneOutputFormat, "-t", target] ∧
      (∃ l, (Pane.Apply os R ctx (some a) w).world.calls =
        w.calls ++ .Run (pane.splitWindowArgs target env) :: l) ∧
      ∃ pane1, (Pane.Apply os R ctx (some a) w).world.panes[a]? = some pane1 ∧
        pane1.index =
          (if (Map.get? record "pane_index").getD "" = "" then pane.index
            else (Map.get? record "pane_index").getD "") ∧
        (pane.index = "" → pane1.index = (Map.get? record "pane_index").getD "") ∧
        Pane.Name (some a) (Pane.Apply os R ctx (some a) w).world =
          .ok (target0 ++ "." ++ pane1.index) (Pane.Apply os R ctx (some a) w).world) ∧
    (∀ runner window parent pCfg a w1,
      NewPane runner window parent (makePaneOpts pCfg) w = .ok (some a, none) w1 →
      ∃ pane, w1.panes[a]? = some pane ∧ pane.index = "") := by
  refine ⟨?_, ?_, ?_, fun _ _ _ _ _ _ h => newPane_index h⟩
  · intro a win sa sess hw hsa hs
    simp [Window.Name, getWindow, hw, getSession, hsa, hs, Session.Name]
  · intro a pane wname hp hn
    simp [Pane.Name, getPane, hp, hn]
  · intro a pane wa win sa sess target0 target env out text record rest hp hcl hnew hwa hw
      hsa hs hn htm hen hr hout hpo
    obtain ⟨_, wa1, win1, sa1, sess1, hwa1, hw1, hwc, hsa1, hs1, hsc1⟩ :=
      paneIsClosed_false_inv hp hcl
    rw [hwa] at hwa1
    cases hwa1
    rw [hw] at hw1
    cases hw1
    have hl1 := (List.getElem?_eq_some_iff.1 hp).1
    have hl2 := (List.getElem?_eq_some_iff.1 hw).1
    have ht0 : target0 = sess1.name ++ ":" ++ win.name := by
      simp [Window.Name, hwa, getWindow, hw, getSession, hsa1, hs1, Session.Name] at hn
      exact hn.symm
    have hnd : (record.map Prod.fst).Nodup := parseOutput_nodup hpo record (by simp)
    have hA := paneApply_created hctx hp hcl hnew hwa hw hsa hs hn htm hen hr hout hpo
    obtain ⟨hk1, hk2, hk3, l, hl, _⟩ := keeps_PaneRunCommands R ctx (some a)
      (sess.onPaneCommands ++ pane.cmds)
      { w with
        panes := w.panes.set a (pane.created a record)
        windows := w.windows.set wa (win.addPane a)
        calls := w.calls ++ [.Run (pane.splitWindowArgs target env)] }
    rw [← hA] at hk1 hk2 hk3 hl
    simp only at hk1 hk2 hk3 hl
    refine ⟨?_, ⟨l, by rw [hl]; simp⟩, pane.created a record, ?_, ?_, ?_, ?_⟩
    · unfold Pane.splitWindowArgs
      by_cases h1 : pane.path = "" <;> by_cases h2 : pane.size = "" <;>
        by_cases h3 : pane.horizontal = true <;> simp [h1, h2, h3]
    · rw [hk3]
      simp [hl1]
    · rw [(paneCreated_fields pane a record).2, paneUpdate_index record pane hnd]
    · intro hi
      rw [(paneCreated_fields pane a record).2, paneUpdate_index record pane hnd]
      split
      · next hv => rw [hi, hv]
      · rfl
    · have hcw : (pane.created a record).win = some wa := by
        rw [(paneCreated_fields pane a record).1, hwa]
      simp [Pane.Name, getPane, hk3, hl1, hcw, Window.Name, getWindow, hk2, hl2,
        Window.addPane, hsa1, getSession, hk1, hs1, Session.Name, ht0]

/-- The witness of C17: the innermost of three nested panes is created with
the index 3; its parent has the index 2. -/
theorem entity_names_witness :
    (Background.Err = none ∧
      nestedWorld.windows[0]? = some { codeWindow with panes := [0, 1] } ∧
      nestedWorld.sessions[0]? = some demoSession ∧
      nestedWorld.panes[1]? = some middlePane ∧
      Window.Name middlePane.win nestedWorld = .ok "demo:code" nestedWorld ∧
      nestedWorld.panes[2]? = some innerPane ∧
      Pane.IsClosed (some 2) nestedWorld = .ok false nestedWorld ∧
      Pane.Name (some 1) nestedWorld = .ok "demo:code.2" nestedWorld ∧
      Pane.envArgs exampleOS (some 2) nestedWorld = .ok ["-e", "MIDDLE=2"] nestedWorld ∧
      parseOutput "pane_id:%3,pane_index:3" =
        .ok [[("pane_id", "%3"), ("pane_index", "3")]] ∧
      NewPane (some pickyRunner) (some 0) (some 1) (makePaneOpts sidePaneConfig) nestedWorld =
        .ok (some 3, none)
          (NewPane (some pickyRunner) (some 0) (some 1) (makePaneOpts sidePaneConfig)
            nestedWorld).world) ∧
    Window.Name (some 0) nestedWorld =
      .ok (demoSession.name ++ ":" ++ ({ codeWindow with panes := [0, 1] } : Window).name)
        nestedWorld ∧
    Pane.Name (some 1) nestedWorld = .ok ("demo:code" ++ "." ++ middlePane.index)
      nestedWorld ∧
    ((innerPane.splitWindowArgs "demo:code.2" ["-e", "MIDDLE=2"]).take 7 =
        ["split-window", "-d", "-P", "-F", paneOutputFormat, "-t", "demo:code.2"] ∧
      (∃ l, (Pane.Apply exampleOS (recordRunner "pane_id:%3,pane_index:3") Background
          (some 2) nestedWorld).world.calls =
        nestedWorld.calls ++
          .Run (innerPane.splitWindowArgs "demo:code.2" ["-e", "MIDDLE=2"]) :: l) ∧
      ∃ pane1, (Pane.Apply exampleOS (recordRunner "pane_id:%3,pane_index:3") Background
          (some 2) nestedWorld).world.panes[2]? = some pane1 ∧
        pane1.index =
          (if (Map.get? [("pane_id", "%3"), ("pane_index", "3")] "pane_index").getD "" = ""
            then innerPane.index
            else (Map.get? [("pane_id", "%3"), ("pane_index", "3")] "pane_index").getD "") ∧
        (innerPane.index = "" → pane1.index =
          (Map.get? [("pane_id", "%3"), ("pane_index", "3")] "pane_index").getD "") ∧
        Pane.Name (some 2)
            (Pane.Apply exampleOS (recordRunner "pane_id:%3,pane_index:3") Background
              (some 2) nestedWorld).world =
          .ok ("demo:code" ++ "." ++ pane1.index)
            (Pane.Apply exampleOS (recordRunner "pane_id:%3,pane_index:3") Background
              (some 2) nestedWorld).world) ∧
    (∃ pane, (NewPane (some pickyRunner) (some 0) (some 1) (makePaneOpts sidePaneConfig)
        nestedWorld).world.panes[3]? = some pane ∧ pane.index = "") ∧
    (Pane.Name (some 2)
        (Pane.Apply exampleOS (recordRunner "pane_id:%3,pane_index:3") Background
          (some 2) nestedWorld).world).val? = some "demo:code.3" :=
  ⟨⟨rfl, by decide, by decide, by decide, by decide, by decide, by decide, by decide,
      by decide, by decide, by decide⟩,
    (entity_names exampleOS (recordRunner "pane_id:%3,pane_index:3") Background nestedWorld
      rfl).1 0 _ 0 demoSession (by decide) rfl (by decide),
    (entity_names exampleOS (recordRunner "pane_id:%3,pane_index:3") Background nestedWorld
      rfl).2.1 1 middlePane "demo:code" (by decide) (by decide),
    (entity_names exampleOS (recordRunner "pane_id:%3,pane_index:3") Background nestedWorld
      rfl).2.2.1 2 innerPane 0 { codeWindow with panes := [0, 1] } 0 demoSession "demo:code"
      "demo:code.2" ["-e", "MIDDLE=2"] "pane_id:%3,pane_index:3" "pane_id:%3,pane_index:3"
      [("pane_id", "%3"), ("pane_index", "3")] [] (by decide) (by decide) rfl rfl (by decide)
      rfl (by decide) (by decide)
      (show Pane.Name (some 1) nestedWorld = .ok "demo:code.2" nestedWorld by decide)
      (by decide) rfl rfl (by decide),
    (entity_names exampleOS (recordRunner "pane_id:%3,pane_index:3") Background nestedWorld
      rfl).2.2.2 (some pickyRunner) (some 0) (some 1) sidePaneConfig 3 _ (by decide),
    by decide⟩

/-- C18: where Apply registers a created entity. A window is appended to the
windows of its session, once. A pane, nested or not, is appended to the panes
of its window, once. A pane without parent pane keeps its own list of panes. A
pane with a parent pane is appended to its own list of panes, and the list of
the parent pane stays as it is. -/
theorem apply_registers_with_parent (os : OS) (R : Runner) (ctx : Context) (w : World)
    (a : Nat) (out text : String) (record : outputRecord) (rest : List outputRecord)
    (hctx : ctx.Err = none) (hpo : parseOutput text = .ok (record :: rest)) :
    (∀ win sa sess, w.windows[a]? = some win → win.state = .stateNew →
      win.sess = some sa → w.sessions[sa]? = some sess → sess.state ≠ .stateClosed →
      R.Run ctx w.calls (win.newWindowArgs os sess) = (out, none) →
      (if R.IsDryRun then
        (Window.dryRunRecord (some a)
          { w with calls := w.calls ++ [.Run (win.newWindowArgs os sess)] }).val?
        else some out) = some text →
      ∃ sess1 win1,
        (Window.Apply os R ctx (some a) w).world.sessions[sa]? = some sess1 ∧
        sess1.windows = sess.windows ++ [a] ∧
        (Window.Apply os R ctx (some a) w).world.windows[a]? = some win1 ∧
        win1.state = .stateApplied) ∧
    (∀ pane wa win sa sess target0 target env, w.panes[a]? = some pane →
      Pane.IsClosed (some a) w = .ok false w → pane.state = .stateNew →
      pane.win = some wa → w.windows[wa]? = some win →
      pane.sess = some sa → w.sessions[sa]? = some sess →
      Window.Name pane.win w = .ok target0 w →
      (match pane.pane with
        | none => target = target0
        | some pp => Pane.Name (some pp) w = .ok target w) →
      Pane.envArgs os (some a) w = .ok env w →
      R.Run ctx w.calls (pane.splitWindowArgs target env) = (out, none) →
      (if R.IsDryRun then
        (Pane.dryRunRecord (some a)
          { w with calls := w.calls ++ [.Run (pane.splitWindowArgs target env)] }).val?
        else some out) = some text →
      ∃ win1 pane1,
        (Pane.Apply os R ctx (some a) w).world.windows[wa]? = some win1 ∧
        win1.panes = win.panes ++ [a] ∧
        (Pane.Apply os R ctx (some a) w).world.panes[a]? = some pane1 ∧
        pane1.state = .stateApplied ∧
        (pane.pane = none → pane1.panes = pane.panes) ∧
        (∀ pp, pane.pane = some pp →
          pane1.panes = pane.panes ++ [a] ∧
          (pp ≠ a → (Pane.Apply os R ctx (some a) w).world.panes[pp]? = w.panes[pp]?))) := by
  constructor
  · intro win sa sess hw hnew hsa hs hsc hr hout
    have hl1 := (List.getElem?_eq_some_iff.1 hw).1
    have hl2 := (List.getElem?_eq_some_iff.1 hs).1
    have hA := windowApply_created hctx hw hnew hsa hs hsc hr hout hpo
    obtain ⟨hk1, hk2, _, _⟩ := keeps_WindowRunCommands R ctx (some a)
      (sess.onWindowCommands ++ win.cmds)
      { w with
        windows := w.windows.set a (win.update record)
        sessions := w.sessions.set sa (sess.addWindow a)
        calls := w.calls ++ [.Run (win.newWindowArgs os sess)] }
    rw [← hA] at hk1 hk2
    simp only at hk1 hk2
    refine ⟨sess.addWindow a, win.update record, ?_, rfl, ?_, by simp⟩
    · rw [hk1]
      simp [hl2]
    · rw [hk2]
      simp [hl1]
  · intro pane wa win sa sess target0 target env hp hcl hnew hwa hw hsa hs hn htm hen hr
      hout
    have hl1 := (List.getElem?_eq_some_iff.1 hp).1
    have hl2 := (List.getElem?_eq_some_iff.1 hw).1
    have hA := paneApply_created hctx hp hcl hnew hwa hw hsa hs hn htm hen hr hout hpo
    obtain ⟨_, hk2, hk3, _⟩ := keeps_PaneRunCommands R ctx (some a)
      (sess.onPaneCommands ++ pane.cmds)
      { w with
        panes := w.panes.set a (pane.created a record)
        windows := w.windows.set wa (win.addPane a)
        calls := w.calls ++ [.Run (pane.splitWindowArgs target env)] }
    rw [← hA] at hk2 hk3
    simp only at hk2 hk3
    refine ⟨win.addPane a, pane.created a record, ?_, rfl, ?_, paneCreated_state _ _ _,
      ?_, ?_⟩
    · rw [hk2]
      simp [hl2]
    · rw [hk3]
      simp [hl1]
    · intro hnone
      simp [Pane.created, hnone]
    · intro pp hsome
      refine ⟨by simp [Pane.created, hsome], fun hne => ?_⟩
      rw [hk3, List.getElem?_set_ne (Ne.symm hne)]

/-- The witness of C18: the innermost of three nested panes is created; it is
listed in its own panes and in the panes of the window, and its parent pane
has the one pane it had. -/
theorem apply_registers_with_parent_witness :
    (Background.Err = none ∧
      parseOutput "pane_id:%3,pane_index:3" =
        .ok [[("pane_id", "%3"), ("pane_index", "3")]] ∧
      nestedWorld.panes[2]? = some innerPane ∧
      Pane.IsClosed (some 2) nestedWorld = .ok false nestedWorld ∧
      nestedWorld.windows[0]? = some { codeWindow with panes := [0, 1] } ∧
      nestedWorld.sessions[0]? = some demoSession ∧
      Window.Name innerPane.win nestedWorld = .ok "demo:code" nestedWorld ∧
      Pane.Name (some 1) nestedWorld = .ok "demo:code.2" nestedWorld ∧
      Pane.envArgs exampleOS (some 2) nestedWorld = .ok ["-e", "MIDDLE=2"] nestedWorld ∧
      innerPane.pane = some 1 ∧ innerPane.panes = [] ∧
      nestedWorld.panes[1]? = some middlePane ∧ middlePane.NumPanes = 1) ∧
    ∃ win1 pane1,
      (Pane.Apply exampleOS (recordRunner "pane_id:%3,pane_index:3") Background (some 2)
        nestedWorld).world.windows[0]? = some win1 ∧
      win1.panes = ({ codeWindow with panes := [0, 1] } : Window).panes ++ [2] ∧
      (Pane.Apply exampleOS (recordRunner "pane_id:%3,pane_index:3") Background (some 2)
        nestedWorld).world.panes[2]? = some pane1 ∧
      pane1.state = .stateApplied ∧
      (innerPane.pane = none → pane1.panes = innerPane.panes) ∧
      (∀ pp, innerPane.pane = some pp →
        pane1.panes = innerPane.panes ++ [2] ∧
        (pp ≠ 2 →
          (Pane.Apply exampleOS (recordRunner "pane_id:%3,pane_index:3") Background (some 2)
            nestedWorld).world.panes[pp]? = nestedWorld.panes[pp]?)) :=
  ⟨⟨rfl, by decide, by decide, by decide, by decide, by decide, by decide, by decide,
      by decide, rfl, rfl, by decide, rfl⟩,
    (apply_registers_with_parent exampleOS (recordRunner "pane_id:%3,pane_index:3")
      Background nestedWorld 2 "pane_id:%3,pane_index:3" "pane_id:%3,pane_index:3"
      [("pane_id", "%3"), ("pane_index", "3")] [] rfl (by decide)).2
      innerPane 0 { codeWindow with panes := [0, 1] } 0 demoSession "demo:code"
      "demo:code.2" ["-e", "MIDDLE=2"] (by decide) (by decide) rfl rfl (by decide) rfl
      (by decide) (by decide)
      (show Pane.Name (some 1) nestedWorld = .ok "demo:code.2" nestedWorld by decide)
      (by decide) rfl rfl⟩

/-- C19: for an applied session with at least two windows of which at most
one is flagged active, and a live context, the first command of
Session.SelectActive is select-window for the name of the flagged window, or
of the first window when none is flagged; it is the only select-window
command, and every command after it is show-option or select-pane. -/
theorem select_active_selects_flagged_window (R : Runner) (ctx : Context) (w : World)
    (a : Nat) (sess : Session) (t : Nat) (twin : Window) (ts : Nat) (tsess : Session)
    (hctx : ctx.Err = none) (hs : w.sessions[a]? = some sess)
    (happ : sess.state = .stateApplied) (hlen : 2 ≤ sess.windows.length)
    (hvalid : ∀ x ∈ sess.windows, (w.windows[x]?).isSome = true)
    (hone : (sess.windows.filter w.windowActive).length ≤ 1)
    (ht : selectedWindow w sess.windows = some t)
    (htw : w.windows[t]? = some twin) (htapp : twin.state = .stateApplied)
    (hts : twin.sess = some ts) (htsess : w.sessions[ts]? = some tsess)
    (hnc : tsess.state ≠ .stateClosed) :
    Window.Name (some t) w = .ok (tsess.name ++ ":" ++ twin.name) w ∧
    ∃ l, (Session.SelectActive R ctx (some a) w).world.calls =
        w.calls ++ .Run ["select-window", "-t", tsess.name ++ ":" ++ twin.name] :: l ∧
      ∀ c ∈ l, Call.isRun ["show-option", "select-pane"] c := by
  refine ⟨by simp [Window.Name, getWindow, htw, getSession, hts, htsess, Session.Name], ?_⟩
  cases hws : sess.windows with
  | nil => simp [hws] at hlen
  | cons w0 rest =>
  rw [hws] at hlen hvalid hone ht
  have hrest : rest ≠ [] := by
    intro e
    subst e
    simp at hlen
  have hfind := findActiveWindow_eq w rest w0 (fun x hx => hvalid x (by simp [hx]))
  have htarget : ((rest.filter w.windowActive).getLast?).getD w0 = t := by
    simp only [selectedWindow, List.filter_cons] at ht hone
    by_cases h0 : w.windowActive w0 = true
    · simp only [h0, if_true, List.length_cons] at ht hone
      have : rest.filter w.windowActive = [] := by
        cases hf : rest.filter w.windowActive with
        | nil => rfl
        | cons y l => simp [hf] at hone
      simpa [this] using ht
    · simp only [h0] at ht hone
      cases hf : rest.filter w.windowActive with
      | nil => simpa [hf] using ht
      | cons y l =>
        rw [hf] at hone ht
        have hl : l = [] := by
          cases l with
          | nil => rfl
          | cons z l1 => simp at hone
        subst hl
        simpa using ht
  rw [htarget] at hfind
  have hnw : sess.NumWindows ≠ 1 := by
    simp only [Session.NumWindows, hws, List.length_cons]
    cases rest with
    | nil => exact absurd rfl hrest
    | cons y l => simp
  have hsel : Session.SelectActive R ctx (some a) w = Window.Select R ctx (some t) w := by
    simp [Session.SelectActive, hctx, getSession, hs, Session.checkState, Session.IsClosed,
      Session.IsApplied, happ, hnw, hws, hfind]
  rw [hsel]
  cases hr : R.Run ctx w.calls ["select-window", "-t", tsess.name ++ ":" ++ twin.name] with
  | mk output err =>
  cases err with
  | some e =>
    refine ⟨[], ?_, by simp⟩
    simp [Window.Select, hctx, Window.checkState, Window.IsClosed, getWindow, htw, htapp,
      getSession, hts, htsess, Session.IsClosed, hnc, Window.IsApplied, Window.Name,
      Session.Name, Run, hr]
  | none =>
    have hsp : Window.Select R ctx (some t) w =
        Window.selectPane R ctx (some t)
          { w with calls := w.calls ++
            [.Run ["select-window", "-t", tsess.name ++ ":" ++ twin.name]] } := by
      simp [Window.Select, hctx, Window.checkState, Window.IsClosed, getWindow, htw, htapp,
        getSession, hts, htsess, Session.IsClosed, hnc, Window.IsApplied, Window.Name,
        Session.Name, Run, hr]
    obtain ⟨_, _, _, l, hl, hK⟩ := keeps_WindowSelectPane R ctx (some t)
      { w with calls := w.calls ++
        [.Run ["select-window", "-t", tsess.name ++ ":" ++ twin.name]] }
    rw [← hsp] at hl
    exact ⟨l, by rw [hl]; simp, hK⟩

/-- The witness of C19: of the two windows of the session, the second is
flagged active. -/
theorem select_active_selects_flagged_window_witness :
    (Background.Err = none ∧ twoWindowWorld.sessions[0]? = some twoWindowSession ∧
      twoWindowSession.state = .stateApplied ∧ 2 ≤ twoWindowSession.windows.length ∧
      (∀ x ∈ twoWindowSession.windows, (twoWindowWorld.windows[x]?).isSome = true) ∧
      (twoWindowSession.windows.filter twoWindowWorld.windowActive).length ≤ 1 ∧
      selectedWindow twoWindowWorld twoWindowSession.windows = some 1 ∧
      twoWindowWorld.windows[1]? = some flaggedWindow) ∧
    Window.Name (some 1) twoWindowWorld =
      .ok (twoWindowSession.name ++ ":" ++ flaggedWindow.name) twoWindowWorld ∧
    (∃ l, (Session.SelectActive simTmux Background (some 0) twoWindowWorld).world.calls =
        twoWindowWorld.calls ++
          .Run ["select-window", "-t",
            twoWindowSession.name ++ ":" ++ flaggedWindow.name] :: l ∧
      ∀ c ∈ l, Call.isRun ["show-option", "select-pane"] c) ∧
    (Session.SelectActive simTmux Background (some 0) twoWindowWorld).world.calls =
      [.Run ["select-window", "-t", "demo:logs"],
       .Run ["show-option", "-gqv", "pane-base-index"],
       .Run ["select-pane", "-t", "demo:logs."]] :=
  ⟨⟨rfl, by decide, rfl, by decide, by decide, by decide, by decide, by decide⟩,
    (select_active_selects_flagged_window simTmux Background twoWindowWorld 0
      twoWindowSession 1 flaggedWindow 0 twoWindowSession rfl (by decide) rfl (by decide)
      (by decide) (by decide) (by decide) (by decide) rfl rfl (by decide) (by decide)).1,
    (select_active_selects_flagged_window simTmux Background twoWindowWorld 0
      twoWindowSession 1 flaggedWindow 0 twoWindowSession rfl (by decide) rfl (by decide)
      (by decide) (by decide) (by decide) (by decide) rfl rfl (by decide) (by decide)).2,
    by decide⟩

/-- The counterexample to C20 as stated: the session has one applied window
and the window has no panes; Session.SelectActive returns nil and the world is
as before: no select-window, show-option or select-pane command is issued. -/
theorem select_active_single_window_without_panes_issues_nothing :
    appliedWorld.sessions[0]? =
      some { name := "demo", windows := [0], state := .stateApplied } ∧
    appliedWorld.windows[0]? =
      some { sess := some 0, id := "@1", name := "code", state := .stateApplied } ∧
    Session.SelectActive simTmux Background (some 0) appliedWorld = .ok none appliedWorld := by
  decide

/-- C20, amended: for an applied session with exactly one window, applied,
and a live context, Session.SelectActive issues no select-window command. When
the window has no panes it issues no command and returns nil. When the window
has panes of which none is flagged active and the show-option query for
pane-base-index succeeds, the commands issued are that query and then
select-pane for the window's name, a dot and the trimmed answer of the query,
whatever the answer is. In every case, a pane flagged active included, the
commands issued are show-option and select-pane commands only, and the objects
are as before. -/
theorem select_active_single_window (R : Runner) (ctx : Context) (w : World) (a : Nat)
    (sess : Session) (x : Nat) (win : Window) (ts : Nat) (tsess : Session)
    (hctx : ctx.Err = none) (hs : w.sessions[a]? = some sess)
    (happ : sess.state = .stateApplied) (hone : sess.windows = [x])
    (hw : w.windows[x]? = some win) (hwapp : win.state = .stateApplied)
    (hts : win.sess = some ts) (htsess : w.sessions[ts]? = some tsess)
    (hnc : tsess.state ≠ .stateClosed) :
    (win.panes = [] → Session.SelectActive R ctx (some a) w = .ok none w) ∧
    (∀ base : String, win.panes ≠ [] →
      (∀ p ∈ win.panes, ∃ pane, w.panes[p]? = some pane ∧ pane.active = false) →
      R.Run ctx w.calls ["show-option", "-gqv", "pane-base-index"] = (base, none) →
      (Session.SelectActive R ctx (some a) w).world =
        { w with
          calls := w.calls ++
            [.Run ["show-option", "-gqv", "pane-base-index"],
             .Run ["select-pane", "-t",
               tsess.name ++ ":" ++ win.name ++ "." ++ TrimSpace base]] }) ∧
    ((Session.SelectActive R ctx (some a) w).world.sessions = w.sessions ∧
      (Session.SelectActive R ctx (some a) w).world.windows = w.windows ∧
      (Session.SelectActive R ctx (some a) w).world.panes = w.panes ∧
      ∃ l, (Session.SelectActive R ctx (some a) w).world.calls = w.calls ++ l ∧
        (∀ c ∈ l, Call.isRun ["show-option", "select-pane"] c) ∧
        ∀ args, Call.Run ("select-window" :: args) ∉ l) := by
  have hsel : Session.SelectActive R ctx (some a) w = Window.selectPane R ctx (some x) w := by
    simp [Session.SelectActive, hctx, getSession, hs, Session.checkState, Session.IsClosed,
      Session.IsApplied, happ, Session.NumWindows, hone]
  rw [hsel]
  refine ⟨?_, ?_, ?_⟩
  · intro hp
    simp [Window.selectPane, hctx, Window.checkState, Window.IsClosed, getWindow, hw, hwapp,
      getSession, hts, htsess, Session.IsClosed, hnc, Window.IsApplied, Window.NumPanes, hp]
  rotate_left
  · obtain ⟨h1, h2, h3, l, h4, h5⟩ := keeps_WindowSelectPane R ctx (some x) w
    refine ⟨h1, h2, h3, l, h4, h5, ?_⟩
    intro args hmem
    have hk := h5 _ hmem
    simp [Call.isRun] at hk
  · intro base hp hna hr
    have hnp : ¬ win.panes.length = 0 := by
      cases hpl : win.panes with
      | nil => exact absurd hpl hp
      | cons p l => simp
    have hfind := findActivePane_none w win.panes hna
    cases hr2 : R.Run ctx
        (w.calls ++ [.Run ["show-option", "-gqv", "pane-base-index"]])
        ["select-pane", "-t", tsess.name ++ ":" ++ win.name ++ "." ++ TrimSpace base] with
    | mk out2 err2 =>
    cases err2 <;>
      simp [Window.selectPane, hctx, Window.checkState, Window.IsClosed, getWindow, hw, hwapp,
        getSession, hts, htsess, Session.IsClosed, hnc, Window.IsApplied, Window.NumPanes,
        hnp, hp, hfind, Run, hr, Window.Name, Session.Name, hr2]

/-- The witness of the amended C20: a session with one window without panes,
a session with one window with a pane, the base index being 1 and then 0, and
a session with one window with a pane flagged active. -/
theorem select_active_single_window_witness :
    (Background.Err = none ∧
      appliedWorld.sessions[0]? =
        some { name := "demo", windows := [0], state := .stateApplied } ∧
      appliedWorld.windows[0]? =
        some { sess := some 0, id := "@1", name := "code", state := .stateApplied } ∧
      hookWorld.sessions[0]? = some hookSession ∧ hookSession.windows = [0] ∧
      hookWorld.windows[0]? = some topWindow ∧ topWindow.panes ≠ [] ∧
      (∀ p ∈ topWindow.panes,
        ∃ pane, hookWorld.panes[p]? = some pane ∧ pane.active = false) ∧
      (baseIndexRunner " 1\n").Run Background hookWorld.calls
        ["show-option", "-gqv", "pane-base-index"] = (" 1\n", none) ∧
      (baseIndexRunner "0").Run Background hookWorld.calls
        ["show-option", "-gqv", "pane-base-index"] = ("0", none) ∧
      TrimSpace " 1\n" = "1" ∧ TrimSpace "0" = "0" ∧
      editorWorld.sessions[0]? = some demoSession ∧ demoSession.windows = [0] ∧
      editorWorld.windows[0]? = some editorWindow ∧
      editorWorld.panes[1]? = some activePane ∧ activePane.active = true) ∧
    Session.SelectActive simTmux Background (some 0) appliedWorld = .ok none appliedWorld ∧
    (Session.SelectActive (baseIndexRunner " 1\n") Background (some 0) hookWorld).world =
      { hookWorld with
        calls := hookWorld.calls ++
          [.Run ["show-option", "-gqv", "pane-base-index"],
           .Run ["select-pane", "-t",
             hookSession.name ++ ":" ++ topWindow.name ++ "." ++ TrimSpace " 1\n"]] } ∧
    (Session.SelectActive (baseIndexRunner "0") Background (some 0) hookWorld).world =
      { hookWorld with
        calls := hookWorld.calls ++
          [.Run ["show-option", "-gqv", "pane-base-index"],
           .Run ["select-pane", "-t",
             hookSession.name ++ ":" ++ topWindow.name ++ "." ++ TrimSpace "0"]] } ∧
    ((Session.SelectActive simTmux Background (some 0) editorWorld).world.sessions =
        editorWorld.sessions ∧
      (Session.SelectActive simTmux Background (some 0) editorWorld).world.windows =
        editorWorld.windows ∧
      (Session.SelectActive simTmux Background (some 0) editorWorld).world.panes =
        editorWorld.panes ∧
      ∃ l, (Session.SelectActive simTmux Background (some 0) editorWorld).world.calls =
          editorWorld.calls ++ l ∧
        (∀ c ∈ l, Call.isRun ["show-option", "select-pane"] c) ∧
        ∀ args, Call.Run ("select-window" :: args) ∉ l) :=
  ⟨⟨rfl, by decide, by decide, by decide, rfl, by decide, by decide, by decide, by decide,
      by decide, by decide, by decide, by decide, rfl, by decide, by decide, rfl⟩,
    (select_active_single_window simTmux Background appliedWorld 0
      { name := "demo", windows := [0], state := .stateApplied } 0
      { sess := some 0, id := "@1", name := "code", state := .stateApplied } 0
      { name := "demo", windows := [0], state := .stateApplied }
      rfl (by decide) rfl rfl (by decide) rfl rfl (by decide) (by decide)).1 rfl,
    (select_active_single_window (baseIndexRunner " 1\n") Background hookWorld 0 hookSession
      0 topWindow 0 hookSession rfl (by decide) rfl rfl (by decide) rfl rfl (by decide)
      (by decide)).2.1 " 1\n" (by decide) (by decide) (by decide),
    (select_active_single_window (baseIndexRunner "0") Background hookWorld 0 hookSession
      0 topWindow 0 hookSession rfl (by decide) rfl rfl (by decide) rfl rfl (by decide)
      (by decide)).2.1 "0" (by decide) (by decide) (by decide),
    (select_active_single_window simTmux Background editorWorld 0 demoSession 0 editorWindow
      0 demoSession rfl (by decide) rfl rfl (by decide) rfl rfl (by decide)
      (by decide)).2.2⟩

/-- C21: for an applied window (of a session that is not closed) with at
least one registered pane, a live context and a select-window command that
succeeds. If one registered pane is flagged active (an applied pane of the
window) and no other is, Window.Select issues select-window for the name of
the window and then select-pane for the name of that pane, and no query. If no
registered pane is flagged active and the query show-option -gqv
pane-base-index succeeds, Window.Select issues select-window, the query, and
select-pane for the name of the window, a dot and the trimmed output of the
query. -/
theorem window_select_selects_its_pane (R : Runner) (ctx : Context) (w : World) (a : Nat)
    (win : Window) (sa : Nat) (sess : Session) (hctx : ctx.Err = none)
    (hw : w.windows[a]? = some win) (happ : win.state = .stateApplied)
    (hsa : win.sess = some sa) (hs : w.sessions[sa]? = some sess)
    (hnc : sess.state ≠ .stateClosed) (hp : win.panes ≠ [])
    (hr : (R.Run ctx w.calls ["select-window", "-t", sess.name ++ ":" ++ win.name]).2 =
      none) :
    Window.Name (some a) w = .ok (sess.name ++ ":" ++ win.name) w ∧
    (∀ p pane, p ∈ win.panes → w.panes[p]? = some pane → pane.active = true →
      pane.state = .stateApplied → pane.win = some a →
      (∀ q ∈ win.panes, q ≠ p →
        ∃ other, w.panes[q]? = some other ∧ other.active = false) →
      Pane.Name (some p) w = .ok (sess.name ++ ":" ++ win.name ++ "." ++ pane.index) w ∧
      (Window.Select R ctx (some a) w).world =
        { w with
          calls := w.calls ++
            [.Run ["select-window", "-t", sess.name ++ ":" ++ win.name],
             .Run ["select-pane", "-t",
               sess.name ++ ":" ++ win.name ++ "." ++ pane.index]] }) ∧
    (∀ base : String,
      (∀ q ∈ win.panes, ∃ other, w.panes[q]? = some other ∧ other.active = false) →
      R.Run ctx (w.calls ++ [.Run ["select-window", "-t", sess.name ++ ":" ++ win.name]])
        ["show-option", "-gqv", "pane-base-index"] = (base, none) →
      (Window.Select R ctx (some a) w).world =
        { w with
          calls := w.calls ++
            [.Run ["select-window", "-t", sess.name ++ ":" ++ win.name],
             .Run ["show-option", "-gqv", "pane-base-index"],
             .Run ["select-pane", "-t",
               sess.name ++ ":" ++ win.name ++ "." ++ TrimSpace base]] }) := by
  have hnp : ¬ win.panes.length = 0 := by
    cases hpl : win.panes with
    | nil => exact absurd hpl hp
    | cons p l => simp
  have hname : ∀ calls, Window.Name (some a) { w with calls := calls } =
      .ok (sess.name ++ ":" ++ win.name) { w with calls := calls } := by
    intro calls
    simp [Window.Name, getWindow, hw, getSession, hsa, hs, Session.Name]
  cases hr1 : R.Run ctx w.calls ["select-window", "-t", sess.name ++ ":" ++ win.name] with
  | mk out1 err1 =>
  rw [hr1] at hr
  simp only at hr
  subst hr
  refine ⟨hname w.calls, ?_, ?_⟩
  · intro p pane hmem hpane hact hpapp hpw hothers
    have hfind : ∀ calls, findActivePane win.panes none { w with calls := calls } =
        .ok (some p) { w with calls := calls } := by
      intro calls
      have := findActivePane_some { w with calls := calls } p pane win.panes none hpane hact
        hothers
      simpa [hmem] using this
    refine ⟨by simp [Pane.Name, getPane, hpane, hpw, Window.Name, getWindow, hw, getSession,
      hsa, hs, Session.Name], ?_⟩
    cases hr2 : R.Run ctx
        (w.calls ++ [.Run ["select-window", "-t", sess.name ++ ":" ++ win.name]])
        ["select-pane", "-t", sess.name ++ ":" ++ win.name ++ "." ++ pane.index] with
    | mk out2 err2 =>
    cases err2 <;>
      simp [Window.Select, hctx, Window.checkState, Window.IsClosed, getWindow, hw, happ,
        getSession, hsa, hs, Session.IsClosed, hnc, Window.IsApplied, Window.Name,
        Session.Name, Run, hr1, Window.selectPane, Window.NumPanes, hnp, hp, hfind,
        Pane.Select, Pane.checkState, Pane.IsClosed, getPane, hpane, hpapp, hpw,
        Pane.IsApplied, Pane.Name, hr2, Result.world]
  · intro base hna hrb
    have hfind : ∀ calls, findActivePane win.panes none { w with calls := calls } =
        .ok none { w with calls := calls } :=
      fun calls => findActivePane_none { w with calls := calls } win.panes hna
    cases hr2 : R.Run ctx
        (w.calls ++ [.Run ["select-window", "-t", sess.name ++ ":" ++ win.name]] ++
          [.Run ["show-option", "-gqv", "pane-base-index"]])
        ["select-pane", "-t", sess.name ++ ":" ++ win.name ++ "." ++ TrimSpace base] with
    | mk out2 err2 =>
    simp only [List.append_assoc, List.singleton_append] at hr2
    cases err2 <;>
      simp [Window.Select, hctx, Window.checkState, Window.IsClosed, getWindow, hw, happ,
        getSession, hsa, hs, Session.IsClosed, hnc, Window.IsApplied, Window.Name,
        Session.Name, Run, hr1, Window.selectPane, Window.NumPanes, hnp, hp, hfind, hrb,
        hr2, Result.world]

/-- The witness of C21: a window whose second pane is flagged active, and a
window without active pane with the base index 1. -/
theorem window_select_selects_its_pane_witness :
    (Background.Err = none ∧ editorWorld.windows[0]? = some editorWindow ∧
      editorWindow.state = .stateApplied ∧ editorWindow.sess = some 0 ∧
      editorWorld.sessions[0]? = some demoSession ∧ demoSession.state ≠ .stateClosed ∧
      editorWindow.panes ≠ [] ∧ 1 ∈ editorWindow.panes ∧
      editorWorld.panes[1]? = some activePane ∧ activePane.active = true ∧
      (∀ q ∈ editorWindow.panes, q ≠ 1 →
        ∃ other, editorWorld.panes[q]? = some other ∧ other.active = false) ∧
      hookWorld.windows[0]? = some topWindow ∧ hookWorld.sessions[0]? = some hookSession ∧
      topWindow.panes ≠ [] ∧
      (∀ q ∈ topWindow.panes,
        ∃ other, hookWorld.panes[q]? = some other ∧ other.active = false) ∧
      TrimSpace " 1\n" = "1") ∧
    (Pane.Name (some 1) editorWorld =
        .ok (demoSession.name ++ ":" ++ editorWindow.name ++ "." ++ activePane.index)
          editorWorld ∧
      (Window.Select simTmux Background (some 0) editorWorld).world =
        { editorWorld with
          calls := editorWorld.calls ++
            [.Run ["select-window", "-t", demoSession.name ++ ":" ++ editorWindow.name],
             .Run ["select-pane", "-t",
               demoSession.name ++ ":" ++ editorWindow.name ++ "." ++ activePane.index]] }) ∧
    (Window.Select (baseIndexRunner " 1\n") Background (some 0) hookWorld).world =
      { hookWorld with
        calls := hookWorld.calls ++
          [.Run ["select-window", "-t", hookSession.name ++ ":" ++ topWindow.name],
           .Run ["show-option", "-gqv", "pane-base-index"],
           .Run ["select-pane", "-t",
             hookSession.name ++ ":" ++ topWindow.name ++ "." ++ TrimSpace " 1\n"]] } :=
  ⟨⟨rfl, rfl, rfl, rfl, rfl, by decide, by decide, by decide, rfl, rfl, by decide,
      by decide, by decide, by decide, by decide, by decide⟩,
    (window_select_selects_its_pane simTmux Background editorWorld 0 editorWindow 0
      demoSession rfl rfl rfl rfl rfl (by decide) (by decide) (by decide)).2.1 1 activePane
      (by decide) rfl rfl rfl rfl (by decide),
    (window_select_selects_its_pane (baseIndexRunner " 1\n") Background hookWorld 0
      topWindow 0 hookSession rfl (by decide) (by decide) (by decide) (by decide)
      (by decide) (by decide) (by decide)).2.2 " 1\n" (by decide) (by decide)⟩

/-- The counterexample of C22: two valid configurations with one window on
which config.Apply in dry-run mode returns an error and no session. The window
of the first has no name, and the window option of the name rejects the empty
name; the window of the second has a path with a comma, and the synthetic
record of the window, whose pairs are joined by commas, does not parse. -/
theorem dry_run_apply_fails_for_nameless_window :
    (namelessConfig.Validate exampleOS = none ∧
      namelessConfig.Session.Windows.length = 1 ∧
      (Apply exampleOS Background namelessConfig (some dryRunner) {}).val? =
        some (none, some (.Wrapf "applying window configuration: %w" []
          (.Wrapf "creating window: %w" []
            (.Wrapf "applying window option: %w" []
              (.Errorf "window name cannot be empty" [])))))) ∧
    (commaConfig.Validate exampleOS = none ∧
      commaConfig.Session.Windows.length = 1 ∧
      (Apply exampleOS Background commaConfig (some dryRunner) {}).val? =
        some (none, some (.Wrapf "applying window configuration: %w" []
          (.Wrapf "applying %s: %w" ["window demo:code"]
            (.Wrapf "parsing new-window command output: %w" []
              (.Errorf "invalid key-value pair in command output: %s" ["b"])))))) :=
  ⟨⟨by decide, rfl, by decide⟩, ⟨by decide, rfl, by decide⟩⟩

/-- C22 (amended): for every configuration that is valid, has N >= 1 windows
that all have a name, and whose paths (of the session, of the windows and of
the panes at every nesting depth) have no comma and no line break, config.Apply
with a runner in dry-run mode (every command succeeds with an empty output)
and a context that is not cancelled returns the new session without error. The
world it ends in holds the tree of that session: N new-window and M
split-window commands were issued, M being the number of panes declared at
every nesting depth; the N windows allocated, in creation order, have the
identities @1, @2, ... and the M panes allocated, in creation order, the
identities %1, %2, ...; the session, the windows and the panes are in state
applied; the session reports NumWindows() = N and NumPanes() = M. -/
theorem dry_run_apply_builds_the_tree (os : OS) (ctx : Context) (cfg : Config) (R : Runner)
    (w : World) (hctx : ctx.Err = none) (hval : cfg.Validate os = none)
    (hdry : R.IsDryRun = true) (hrun : ∀ c calls args, R.Run c calls args = ("", none))
    (hN : 1 ≤ cfg.Session.Windows.length)
    (hnames : ∀ wCfg ∈ cfg.Session.Windows, wCfg.Name ≠ "")
    (hspath : cleanText cfg.Session.Path = true)
    (hpaths : ∀ wCfg ∈ cfg.Session.Windows,
      cleanText wCfg.Path = true ∧ cleanPanePaths wCfg.Panes = true) :
    ∃ w2 sess, Apply os ctx cfg (some R) w = .ok (some w.sessions.length, none) w2 ∧
      DryTree w w2 w.sessions.length cfg.Session.Windows.length
        (countWindowPanes cfg.Session.Windows) ∧
      w2.sessions[w.sessions.length]? = some sess ∧ sess.state = .stateApplied ∧
      sess.NumWindows = cfg.Session.Windows.length ∧
      Session.NumPanes (some w.sessions.length) w2 =
        .ok (countWindowPanes cfg.Session.Windows) w2 := by
  obtain ⟨w2, h2, ht⟩ := dry_apply w hctx hval hdry hrun hN hnames hspath hpaths
  obtain ⟨sess, hs, happ, hws, hnum⟩ := dryTree_session ht
  refine ⟨w2, sess, h2, ht, hs, happ, hnum, ?_⟩
  simp only [Session.NumPanes, bind_run, getSession, hs, hws]
  exact ht.count

/-- The witness of C22: the configuration `treeConfig`, with two windows and
two panes, one nested in the other, applied to the empty world in dry-run
mode. -/
theorem dry_run_apply_builds_the_tree_witness :
    (Background.Err = none ∧ treeConfig.Validate exampleOS = none ∧
      dryRunner.IsDryRun = true ∧ treeConfig.Session.Windows.length = 2 ∧
      countWindowPanes treeConfig.Session.Windows = 2 ∧
      (∀ wCfg ∈ treeConfig.Session.Windows, wCfg.Name ≠ "") ∧
      cleanText treeConfig.Session.Path = true ∧
      (∀ wCfg ∈ treeConfig.Session.Windows,
        cleanText wCfg.Path = true ∧ cleanPanePaths wCfg.Panes = true)) ∧
    ∃ w2 sess, Apply exampleOS Background treeConfig (some dryRunner) {} =
        .ok (some 0, none) w2 ∧
      DryTree {} w2 0 2 2 ∧
      w2.sessions[0]? = some sess ∧ sess.state = .stateApplied ∧ sess.NumWindows = 2 ∧
      Session.NumPanes (some 0) w2 = .ok 2 w2 :=
  ⟨⟨rfl, by decide, rfl, rfl, by decide, by decide, by decide, by decide⟩,
    dry_run_apply_builds_the_tree exampleOS Background treeConfig dryRunner {} rfl
      (by decide) rfl (fun _ _ _ => rfl) (by decide) (by decide) (by decide) (by decide)⟩

/-- The counterexample to C23 as stated: the context is cancelled; a runner
in dry-run mode returns an empty output and no error, and a runner that is not
in dry-run mode invokes its command runner and returns its result, here an
output and no error. -/
theorem default_runner_ignores_cancelled_context :
    cancelled.Err ≠ none ∧
    DefaultRunner.Run { echoRunner with dryRun := true } cancelled ["list-sessions"] [] =
      (("", none), []) ∧
    DefaultRunner.Run echoRunner cancelled ["list-sessions"] [] =
      (("ok", none), [{ name := "tmux", args := ["list-sessions"] }]) := by
  decide

/-- C23, amended: DefaultRunner.Run does not look at the context itself. In
dry-run mode it returns an empty output and no error without invoking the
command runner, whatever the context; otherwise it invokes the command runner
once, with the context, the name of the executable and the runner's options
followed by the arguments, and returns what the command runner returns: for a
cancelled context that is an error only if the command runner returns one. -/
theorem default_runner_run_passes_context (c : DefaultRunner) (ctx : Context)
    (args : List String) (invoked : List Invocation) :
    (c.dryRun = true → c.Run ctx args invoked = (("", none), invoked)) ∧
    (c.dryRun = false →
      c.Run ctx args invoked =
        (c.cmdRunner ctx c.tmux (c.tmuxOpts ++ args),
          invoked ++ [{ name := c.tmux, args := c.tmuxOpts ++ args }])) ∧
    (c.dryRun = false → ∀ e, ctx.Err = some e →
      (((c.Run ctx args invoked).1.2 ≠ none ↔
        (c.cmdRunner ctx c.tmux (c.tmuxOpts ++ args)).2 ≠ none) ∧
      (c.Run ctx args invoked).2.length = invoked.length + 1)) := by
  refine ⟨?_, ?_, ?_⟩
  · intro h
    simp [DefaultRunner.Run, h]
  · intro h
    simp [DefaultRunner.Run, h]
  · intro h e _
    simp [DefaultRunner.Run, h]

/-- The witness of C23: a runner with the option `-L test`, in dry-run mode
and not, run with a cancelled context. -/
theorem default_runner_run_passes_context_witness :
    (cancelled.Err = some (.New "context canceled")) ∧
    (DefaultRunner.Run { echoRunner with tmuxOpts := ["-L", "test"], dryRun := true }
        cancelled ["kill-server"] [] = (("", none), [])) ∧
    (DefaultRunner.Run { echoRunner with tmuxOpts := ["-L", "test"] } cancelled
        ["kill-server"] [] =
      (echoRunner.cmdRunner cancelled "tmux" (["-L", "test"] ++ ["kill-server"]),
        [] ++ [{ name := "tmux", args := ["-L", "test"] ++ ["kill-server"] }])) ∧
    ((((DefaultRunner.Run { echoRunner with tmuxOpts := ["-L", "test"] } cancelled
        ["kill-server"] []).1.2 ≠ none ↔
        (echoRunner.cmdRunner cancelled "tmux" (["-L", "test"] ++ ["kill-server"])).2 ≠
          none) ∧
      (DefaultRunner.Run { echoRunner with tmuxOpts := ["-L", "test"] } cancelled
        ["kill-server"] []).2.length = ([] : List Invocation).length + 1)) :=
  ⟨rfl,
    (default_runner_run_passes_context
      { echoRunner with tmuxOpts := ["-L", "test"], dryRun := true } cancelled
      ["kill-server"] []).1 rfl,
    (default_runner_run_passes_context { echoRunner with tmuxOpts := ["-L", "test"] }
      cancelled ["kill-server"] []).2.1 rfl,
    (default_runner_run_passes_context { echoRunner with tmuxOpts := ["-L", "test"] }
      cancelled ["kill-server"] []).2.2 rfl _ rfl⟩

/-- The counterexample to C24 as stated: the new session `work` has the path
/srv/app and the environment GO_ENV=dev, for which envArgs yields the flag -e
GO_ENV=dev; the new-session command that Session.Apply issues has the name
only, and neither -c nor -e. -/
theorem new_session_command_lacks_path_and_env :
    workWorld.sessions[0]? = some workSession ∧ workSession.state = .stateNew ∧
    workSession.path = "/srv/app" ∧
    envArgs exampleOS [workSession.env] = ["-e", "GO_ENV=dev"] ∧
    (Session.Apply simTmux Background (some 0) workWorld).world.calls =
      [.Run ["new-session", "-d", "-P", "-F", sessionOutputFormat, "-s", "work"]] ∧
    "-c" ∉ workSession.newSessionArgs ∧ "-e" ∉ workSession.newSessionArgs := by
  decide

/-- C24, amended: the new-session command that Session.Apply issues for a new
session is new-session -d -P -F <format>, followed by -s and the name when the
name is not empty, and nothing else: the path and the environment of the
session have no part in it. The environment of the session reaches tmux in
the new-window command of each window, whose -e flags are envArgs of the
session environment and the window environment, and the working directory is
given there, as -c with the path of the window. -/
theorem new_session_command_has_name_only (os : OS) (R : Runner) (ctx : Context)
    (w : World) (a : Nat) (sess : Session) (hctx : ctx.Err = none)
    (hs : w.sessions[a]? = some sess) (hnew : sess.state = .stateNew) :
    (Session.Apply R ctx (some a) w).world.calls = w.calls ++ [.Run sess.newSessionArgs] ∧
    sess.newSessionArgs =
      ["new-session", "-d", "-P", "-F", sessionOutputFormat] ++
        (if sess.name ≠ "" then ["-s", sess.name] else []) ∧
    (∀ (path : String) (env : Map),
      ({ sess with path := path, env := env } : Session).newSessionArgs =
        sess.newSessionArgs) ∧
    (∀ win : Window, win.newWindowArgs os sess =
      ["new-window", "-P", "-F", windowOutputFormat] ++
        (if sess.NumWindows = 0 then ["-k", "-t", sess.Name ++ ":^"]
          else ["-t", sess.Name ++ ":"]) ++
        envArgs os [sess.env, win.env] ++
        (if win.name ≠ "" then ["-n", win.name] else []) ++
        (if win.path ≠ "" then ["-c", win.path] else [])) := by
  refine ⟨?_, ?_, ?_, ?_⟩
  · rw [sessionApply_eq hctx hs hnew, sessionApplyResult_calls]
  · unfold Session.newSessionArgs
    by_cases h : sess.name = "" <;> simp [h]
  · intro path env
    rfl
  · intro win
    unfold Window.newWindowArgs
    by_cases h1 : sess.NumWindows = 0 <;> by_cases h2 : win.name = "" <;>
      by_cases h3 : win.path = "" <;> simp [h1, h2, h3]

/-- The witness of C24: the session `work`, and a window `api` of it with a
path and an environment of its own. -/
theorem new_session_command_has_name_only_witness :
    (Background.Err = none ∧ workWorld.sessions[0]? = some workSession ∧
      workSession.state = .stateNew) ∧
    (Session.Apply simTmux Background (some 0) workWorld).world.calls =
      workWorld.calls ++ [.Run workSession.newSessionArgs] ∧
    workSession.newSessionArgs =
      ["new-session", "-d", "-P", "-F", sessionOutputFormat] ++
        (if workSession.name ≠ "" then ["-s", workSession.name] else []) ∧
    ({ workSession with path := "", env := [] } : Session).newSessionArgs =
      workSession.newSessionArgs ∧
    Window.newWindowArgs { name := "api", path := "/srv/app/api", env := [("PORT", "80")] }
        exampleOS workSession =
      ["new-window", "-P", "-F", windowOutputFormat, "-k", "-t", "work:^",
        "-e", "GO_ENV=dev", "-e", "PORT=80", "-n", "api", "-c", "/srv/app/api"] :=
  ⟨⟨rfl, rfl, rfl⟩,
    (new_session_command_has_name_only exampleOS simTmux Background workWorld 0 workSession
      rfl rfl rfl).1,
    (new_session_command_has_name_only exampleOS simTmux Background workWorld 0 workSession
      rfl rfl rfl).2.1,
    (new_session_command_has_name_only exampleOS simTmux Background workWorld 0 workSession
      rfl rfl rfl).2.2.1 "" [],
    ((new_session_command_has_name_only exampleOS simTmux Background workWorld 0 workSession
      rfl rfl rfl).2.2.2
        { name := "api", path := "/srv/app/api", env := [("PORT", "80")] }).trans
      (by decide)⟩

/-- C25: the constructors NewSession, NewWindow and NewPane issue no command;
with a nil runner each returns ErrNilRunner; a constructed entity is in state
new when the options leave the state alone, as the options of the package do.
When NewWindow succeeds, the session is not nil and is applied (so not
closed). When NewPane succeeds, the window is not nil, the session of the
window is applied and the parent pane, if one is given, is applied. The state
of the window is not checked: NewPane succeeds for a window in any state, a
window that is not applied included, when the session of the window is
applied, there is no parent pane and the options succeed. -/
theorem constructors_check_their_arguments (w : World) :
    (∀ runner sopts wopts popts s win pp,
      (NewSession runner sopts w).world.calls = w.calls ∧
      (NewWindow runner s wopts w).world.calls = w.calls ∧
      (NewPane runner win pp popts w).world.calls = w.calls) ∧
    (∀ sopts wopts popts s win pp,
      NewSession none sopts w = .ok (none, some ErrNilRunner) w ∧
      NewWindow none s wopts w = .ok (none, some ErrNilRunner) w ∧
      NewPane none win pp popts w = .ok (none, some ErrNilRunner) w) ∧
    (∀ runner sopts a w1, NewSession runner sopts w = .ok (some a, none) w1 →
      (∀ opt ∈ sopts, ∀ x x1 : Session, opt x = .ok x1 → x1.state = x.state) →
      ∃ x, w1.sessions[a]? = some x ∧ x.state = .stateNew) ∧
    (∀ runner s wopts a w1, NewWindow runner s wopts w = .ok (some a, none) w1 →
      (∃ sa sess, s = some sa ∧ w.sessions[sa]? = some sess ∧
        sess.state = .stateApplied) ∧
      ((∀ opt ∈ wopts, ∀ x x1 : Window, opt x = .ok x1 → x1.state = x.state) →
        ∃ x, w1.windows[a]? = some x ∧ x.state = .stateNew)) ∧
    (∀ runner win pp popts a w1, NewPane runner win pp popts w = .ok (some a, none) w1 →
      (∃ wa window sa sess, win = some wa ∧ w.windows[wa]? = some window ∧
        window.sess = some sa ∧ w.sessions[sa]? = some sess ∧
        sess.state = .stateApplied) ∧
      (∀ p, pp = some p → ∃ parent, w.panes[p]? = some parent ∧
        parent.state = .stateApplied) ∧
      ((∀ opt ∈ popts, ∀ x x1 : Pane, opt x = .ok x1 → x1.state = x.state) →
        ∃ x, w1.panes[a]? = some x ∧ x.state = .stateNew)) ∧
    (∀ R wa window sa sess popts x, w.windows[wa]? = some window →
      window.sess = some sa → w.sessions[sa]? = some sess → sess.state = .stateApplied →
      applyOpts popts
        ({ sess := window.sess, win := some wa, pane := none, state := .stateNew } : Pane) =
          .ok x →
      NewPane (some R) (some wa) none popts w =
        .ok (some w.panes.length, none) { w with panes := w.panes ++ [x] }) := by
  have hnone : ∀ (w1 : World) (l : List Call), w1.calls = w.calls ++ l →
      (∀ c ∈ l, False) → w1.calls = w.calls := by
    intro w1 l hl hf
    cases l with
    | nil => simpa using hl
    | cons c rest => exact (hf c (by simp)).elim
  refine ⟨?_, ?_, ?_, ?_, ?_, ?_⟩
  · intro runner sopts wopts popts s win pp
    refine ⟨?_, ?_, ?_⟩
    · unfold NewSession
      cases runner with
      | none => rfl
      | some R =>
        simp only
        cases applyOpts sopts ({ state := .stateNew } : Session) with
        | error e => rfl
        | ok x => rfl
    · obtain ⟨⟨l, hl, hK⟩, _⟩ := advances_NewWindow (fun _ => False) runner s wopts w
      exact hnone _ l hl hK
    · obtain ⟨⟨l, hl, hK⟩, _⟩ := advances_NewPane (fun _ => False) runner win pp popts w
      exact hnone _ l hl hK
  · intro sopts wopts popts s win pp
    exact ⟨rfl, rfl, rfl⟩
  · intro runner sopts a w1 h hopts
    obtain ⟨_, ha, x, hx, hw1⟩ := newSession_ok h
    refine ⟨x, by rw [hw1, ha]; simp, ?_⟩
    exact applyOpts_state (fun s : Session => s.state) sopts hopts _ x hx
  · intro runner s wopts a w1 h
    obtain ⟨_, ha, sa, sess, x, hs, hsess, happ, hx, hw1⟩ := newWindow_ok h
    refine ⟨⟨sa, sess, hs, hsess, happ⟩, fun hopts => ⟨x, by rw [hw1, ha]; simp, ?_⟩⟩
    exact applyOpts_state (fun s : Window => s.state) wopts hopts _ x hx
  · intro runner win pp popts a w1 h
    obtain ⟨_, ha, wa, window, sa, sess, x, hwin, hw, hsa, hs, happ, hpar, hx, hw1⟩ :=
      newPane_ok h
    refine ⟨⟨wa, window, sa, sess, hwin, hw, hsa, hs, happ⟩,
      fun p hp => paneCheckState_none (hpar p hp),
      fun hopts => ⟨x, by rw [hw1, ha]; simp, ?_⟩⟩
    exact applyOpts_state (fun s : Pane => s.state) popts hopts _ x hx
  · intro R wa window sa sess popts x hw hsa hs happ hx
    exact newPane_run hw hsa hs happ (by simp) hx

/-- The witness of C25: the constructors on the example world, whose session
`demo` and window `code` are applied and whose window `logs` is new. A pane
is constructed for the window `logs`, which is not applied. -/
theorem constructors_check_their_arguments_witness :
    (NewSession (some simTmux) [SessionWithName "api"] exampleWorld =
        .ok (some 2, none)
          { exampleWorld with sessions := exampleWorld.sessions ++ [{ name := "api" }] } ∧
      NewWindow (some simTmux) (some 0) [WindowWithName "api"] exampleWorld =
        .ok (some 2, none)
          { exampleWorld with
            windows := exampleWorld.windows ++ [{ sess := some 0, name := "api" }] } ∧
      NewPane (some simTmux) (some 0) (some 0) [PaneWithSize "50%"] exampleWorld =
        .ok (some 2, none)
          { exampleWorld with
            panes := exampleWorld.panes ++
              [{ sess := some 0, win := some 0, pane := some 0, size := "50%" }] } ∧
      exampleWorld.windows[1]? = some logsWindow ∧ logsWindow.state = .stateNew ∧
      logsWindow.sess = some 0 ∧ exampleWorld.sessions[0]? = some demoSession ∧
      demoSession.state = .stateApplied ∧
      applyOpts [PaneWithSize "50%"]
        ({ sess := logsWindow.sess, win := some 1, pane := none, state := .stateNew } : Pane) =
          .ok { sess := some 0, win := some 1, size := "50%" }) ∧
    ((NewSession (some simTmux) [SessionWithName "api"] exampleWorld).world.calls =
        exampleWorld.calls ∧
      (NewWindow (some simTmux) (some 0) [WindowWithName "api"] exampleWorld).world.calls =
        exampleWorld.calls ∧
      (NewPane (some simTmux) (some 0) (some 0) [PaneWithSize "50%"]
        exampleWorld).world.calls = exampleWorld.calls) ∧
    (NewSession none [SessionWithName "api"] exampleWorld =
        .ok (none, some ErrNilRunner) exampleWorld ∧
      NewWindow none (some 0) [WindowWithName "api"] exampleWorld =
        .ok (none, some ErrNilRunner) exampleWorld ∧
      NewPane none (some 0) (some 0) [PaneWithSize "50%"] exampleWorld =
        .ok (none, some ErrNilRunner) exampleWorld) ∧
    (∃ x : Session,
      ({ exampleWorld with
        sessions := exampleWorld.sessions ++ [{ name := "api" }] } : World).sessions[2]? =
          some x ∧ x.state = .stateNew) ∧
    (∃ sa sess, some 0 = some sa ∧ exampleWorld.sessions[sa]? = some sess ∧
      sess.state = .stateApplied) ∧
    ((∃ wa window sa sess, some 0 = some wa ∧ exampleWorld.windows[wa]? = some window ∧
        window.sess = some sa ∧ exampleWorld.sessions[sa]? = some sess ∧
        sess.state = .stateApplied) ∧
      (∀ p, some 0 = some p → ∃ parent, exampleWorld.panes[p]? = some parent ∧
        parent.state = .stateApplied)) ∧
    NewPane (some simTmux) (some 1) none [PaneWithSize "50%"] exampleWorld =
      .ok (some exampleWorld.panes.length, none)
        { exampleWorld with
          panes := exampleWorld.panes ++ [{ sess := some 0, win := some 1, size := "50%" }] } :=
  ⟨⟨by decide, by decide, by decide, rfl, rfl, rfl, rfl, rfl, by decide⟩,
    (constructors_check_their_arguments exampleWorld).1 (some simTmux)
      [SessionWithName "api"] [WindowWithName "api"] [PaneWithSize "50%"] (some 0) (some 0)
      (some 0),
    (constructors_check_their_arguments exampleWorld).2.1 [SessionWithName "api"]
      [WindowWithName "api"] [PaneWithSize "50%"] (some 0) (some 0) (some 0),
    (constructors_check_their_arguments exampleWorld).2.2.1 (some simTmux)
      [SessionWithName "api"] 2 _ (by decide)
      (by
        intro opt ho x x1 h
        simp only [List.mem_singleton] at ho
        subst ho
        simp only [SessionWithName, Except.ok.injEq] at h
        rw [← h]),
    ((constructors_check_their_arguments exampleWorld).2.2.2.1 (some simTmux) (some 0)
      [WindowWithName "api"] 2
      { exampleWorld with
        windows := exampleWorld.windows ++ [{ sess := some 0, name := "api" }] }
      (by decide)).1,
    ⟨((constructors_check_their_arguments exampleWorld).2.2.2.2.1 (some simTmux) (some 0)
        (some 0) [PaneWithSize "50%"] 2
        { exampleWorld with
          panes := exampleWorld.panes ++
            [{ sess := some 0, win := some 0, pane := some 0, size := "50%" }] }
        (by decide)).1,
      ((constructors_check_their_arguments exampleWorld).2.2.2.2.1 (some simTmux) (some 0)
        (some 0) [PaneWithSize "50%"] 2
        { exampleWorld with
          panes := exampleWorld.panes ++
            [{ sess := some 0, win := some 0, pane := some 0, size := "50%" }] }
        (by decide)).2.1⟩,
    (constructors_check_their_arguments exampleWorld).2.2.2.2.2 simTmux 1 logsWindow 0
      demoSession [PaneWithSize "50%"] _ rfl rfl rfl rfl (by decide)⟩

/-- C26: envVarMapRule returns no error exactly when every key of the map has
a first character that is an upper-case letter or an underscore, followed by
one or more characters that are upper-case letters, digits or underscores: a
key has two characters or more. A key of one character, whatever character it
is, is rejected, so the map with the only key A is. When the rule returns an
error, the error names a key of the map that does not have that form. -/
theorem envVarMapRule_needs_two_characters :
    (∀ m : Map, envVarMapRule m = none ↔
      ∀ k ∈ m.map Prod.fst, ∃ c rest, k.data = c :: rest ∧ isEnvVarStart c = true ∧
        rest ≠ [] ∧ ∀ d ∈ rest, isEnvVarChar d = true) ∧
    (∀ (m : Map) (e : Error), envVarMapRule m = some e →
      ∃ k ∈ m.map Prod.fst, envVarRE k = false ∧
        e = .Errorf "%q is not a valid environment variable name" [k]) ∧
    (∀ (c : Char) (v : String) (m : Map),
      envVarMapRule ((String.mk [c], v) :: m) =
        some (.Errorf "%q is not a valid environment variable name" [String.mk [c]])) ∧
    envVarMapRule [("A", "1")] =
      some (.Errorf "%q is not a valid environment variable name" ["A"]) := by
  refine ⟨?_, envVarMapRule_some, ?_, by decide⟩
  · intro m
    rw [envVarMapRule_none_iff]
    constructor
    · intro h k hk
      exact (envVarRE_iff k).1 (h k hk)
    · intro h k hk
      exact (envVarRE_iff k).2 (h k hk)
  · intro c v m
    simp [envVarMapRule, envVarRE]

/-- The witness of C26: a map with two well-formed keys is accepted, a map
with a lower-case key is rejected with the key in the error, and so is a map
whose key is one underscore. -/
theorem envVarMapRule_needs_two_characters_witness :
    (envVarMapRule [("GO_ENV", "dev"), ("_X1", "")] = none ∧
      envVarMapRule [("GO_ENV", "dev"), ("path", "/tmp")] =
        some (.Errorf "%q is not a valid environment variable name" ["path"])) ∧
    (∀ k ∈ ([("GO_ENV", "dev"), ("_X1", "")] : Map).map Prod.fst,
      ∃ c rest, k.data = c :: rest ∧ isEnvVarStart c = true ∧ rest ≠ [] ∧
        ∀ d ∈ rest, isEnvVarChar d = true) ∧
    (∃ k ∈ ([("GO_ENV", "dev"), ("path", "/tmp")] : Map).map Prod.fst,
      envVarRE k = false ∧
      Error.Errorf "%q is not a valid environment variable name" ["path"] =
        .Errorf "%q is not a valid environment variable name" [k]) ∧
    envVarMapRule [(String.mk ['_'], "1")] =
      some (.Errorf "%q is not a valid environment variable name" [String.mk ['_']]) :=
  ⟨⟨by decide, by decide⟩,
    (envVarMapRule_needs_two_characters.1 [("GO_ENV", "dev"), ("_X1", "")]).1 (by decide),
    envVarMapRule_needs_two_characters.2.1 [("GO_ENV", "dev"), ("path", "/tmp")] _ (by decide),
    envVarMapRule_needs_two_characters.2.2.1 '_' "1" []⟩

/-- C27: after setDefaults succeeds, the windows and their panes are those of
the configuration, in order; a window whose path was empty has the path of the
session, and a pane of a window whose path was empty has the path of its
window. The panes of a pane are left as they were: a pane nested in a pane
whose path was empty still has the empty path. When the working directory and
the absolute paths that the environment yields are not empty, the session, the
windows and the panes of the windows have no empty path. -/
theorem setDefaults_skips_nested_panes (e : WorkEnv) (cfg cfg1 : Config)
    (h : setDefaults e cfg = .ok cfg1) :
    List.Forall₂ (fun w w1 : WindowConfig =>
      (w.Path = "" → w1.Path = cfg1.Session.Path) ∧
      (w.Path ≠ "" → AbsPath e w.Path = .ok w1.Path) ∧
      List.Forall₂ (fun p p1 : PaneConfig =>
        (p.Path = "" → p1.Path = w1.Path) ∧
        (p.Path ≠ "" → AbsPath e p.Path = .ok p1.Path) ∧
        p1.Panes = p.Panes) w.Panes w1.Panes)
      cfg.Session.Windows cfg1.Session.Windows ∧
    ((∀ wd, Getwd e = .ok wd → wd ≠ "") → (∀ p s, AbsPath e p = .ok s → s ≠ "") →
      cfg1.Session.Path ≠ "" ∧
      ∀ w1 ∈ cfg1.Session.Windows, w1.Path ≠ "" ∧ ∀ p1 ∈ w1.Panes, p1.Path ≠ "") := by
  unfold setDefaults at h
  cases hwd : Getwd e with
  | error err => simp [hwd] at h
  | ok wd =>
    simp only [hwd] at h
    cases hd : defaultPath e "session" wd cfg.Session.Path with
    | error err => simp [hd] at h
    | ok spath =>
      simp only [hd] at h
      cases hws : defaultWindows e spath cfg.Session.Windows with
      | error err => simp [hws] at h
      | ok windows =>
        simp only [hws, Except.ok.injEq] at h
        subst h
        have hspec := defaultWindows_spec hws
        refine ⟨hspec, ?_⟩
        intro hwdne habs
        obtain ⟨h1, h2⟩ := defaultPath_spec hd
        have hsne : spath ≠ "" := by
          by_cases hp : cfg.Session.Path = ""
          · rw [h1 hp]
            exact hwdne wd rfl
          · exact habs _ _ (h2 hp)
        refine ⟨hsne, ?_⟩
        simp only
        intro w1 hw1
        obtain ⟨w, _, hw⟩ := forall₂_mem_right hspec hw1
        obtain ⟨hw_a, hw_b, hw_c⟩ := hw
        have hwne : w1.Path ≠ "" := by
          by_cases hp : w.Path = ""
          · rw [hw_a hp]
            exact hsne
          · exact habs _ _ (hw_b hp)
        refine ⟨hwne, ?_⟩
        intro p1 hp1
        obtain ⟨p, _, hp_a, hp_b, _⟩ := forall₂_mem_right hw_c hp1
        by_cases hp : p.Path = ""
        · rw [hp_a hp]
          exact hwne
        · exact habs _ _ (hp_b hp)

/-- The witness of C27: the configuration without paths in the working
directory /home/dev/my app. The window and its pane get that path; the pane
nested in the pane keeps the empty path. -/
theorem setDefaults_skips_nested_panes_witness :
    (setDefaults exampleWorkEnv nestedConfig =
        .ok { Session :=
          { Name := "my_app", Path := "/home/dev/my app"
            Windows :=
              [{ Name := "code", Path := "/home/dev/my app"
                 Panes :=
                  [.mk [] "/home/dev/my app" "" [] "" false [leafPaneConfig] false] }] } } ∧
      leafPaneConfig.Path = "") ∧
    List.Forall₂ (fun w w1 : WindowConfig =>
      (w.Path = "" → w1.Path = "/home/dev/my app") ∧
      (w.Path ≠ "" → AbsPath exampleWorkEnv w.Path = .ok w1.Path) ∧
      List.Forall₂ (fun p p1 : PaneConfig =>
        (p.Path = "" → p1.Path = w1.Path) ∧
        (p.Path ≠ "" → AbsPath exampleWorkEnv p.Path = .ok p1.Path) ∧
        p1.Panes = p.Panes) w.Panes w1.Panes)
      nestedConfig.Session.Windows
      [{ Name := "code", Path := "/home/dev/my app"
         Panes := [.mk [] "/home/dev/my app" "" [] "" false [leafPaneConfig] false] }] :=
  ⟨⟨rfl, rfl⟩,
    (setDefaults_skips_nested_panes exampleWorkEnv nestedConfig
      { Session :=
        { Name := "my_app", Path := "/home/dev/my app"
          Windows :=
            [{ Name := "code", Path := "/home/dev/my app"
               Panes :=
                [.mk [] "/home/dev/my app" "" [] "" false [leafPaneConfig] false] }] } }
      rfl).1⟩

/-- C28: outside dry-run mode, when the creation command of a new session,
window or pane succeeds with an output that is empty or all white space,
parseOutput yields no record and Apply reads the first element of the empty
list: it panics. No error is returned; the command was issued and the objects
of the world are as before, the entity in state new. -/
theorem apply_panics_on_blank_output (os : OS) (R : Runner) (ctx : Context) (w : World)
    (a : Nat) (out : String) (hctx : ctx.Err = none) (hnd : R.IsDryRun = false)
    (hblank : ∀ c ∈ out.data, isSpace c = true) :
    (∀ sess, w.sessions[a]? = some sess → sess.state = .stateNew →
      R.Run ctx w.calls sess.newSessionArgs = (out, none) →
      Session.Apply R ctx (some a) w =
        .panic { w with calls := w.calls ++ [.Run sess.newSessionArgs] }) ∧
    (∀ win sa sess, w.windows[a]? = some win → win.state = .stateNew →
      win.sess = some sa → w.sessions[sa]? = some sess → sess.state ≠ .stateClosed →
      R.Run ctx w.calls (win.newWindowArgs os sess) = (out, none) →
      Window.Apply os R ctx (some a) w =
        .panic { w with calls := w.calls ++ [.Run (win.newWindowArgs os sess)] }) ∧
    (∀ pane wa win sa sess target0 target env, w.panes[a]? = some pane →
      Pane.IsClosed (some a) w = .ok false w → pane.state = .stateNew →
      pane.win = some wa → w.windows[wa]? = some win →
      pane.sess = some sa → w.sessions[sa]? = some sess →
      Window.Name pane.win w = .ok target0 w →
      (match pane.pane with
        | none => target = target0
        | some pp => Pane.Name (some pp) w = .ok target w) →
      Pane.envArgs os (some a) w = .ok env w →
      R.Run ctx w.calls (pane.splitWindowArgs target env) = (out, none) →
      Pane.Apply os R ctx (some a) w =
        .panic { w with calls := w.calls ++ [.Run (pane.splitWindowArgs target env)] }) := by
  have hpo := parseOutput_blank out hblank
  refine ⟨?_, ?_, ?_⟩
  · intro sess hs hnew hr
    rw [sessionApply_eq hctx hs hnew]
    simp [sessionApplyResult, hr, hnd, hpo]
  · intro win sa sess hw hnew hsa hs hsc hr
    rw [windowApply_eq hctx hw hnew hsa hs hsc]
    simp [windowApplyResult, hr, hnd, hpo]
  · intro pane wa win sa sess target0 target env hp hcl hnew hwa hw hsa hs hn htm hen hr
    rw [paneApply_eq hctx hp hcl (by rw [hnew]; decide) hwa hw hsa hs hn htm hen]
    simp [paneApplyResult, hr, hnd, hpo]

/-- The witness of C28: the new session, window and pane of the example world
with a runner whose commands succeed and print a line break only. -/
theorem apply_panics_on_blank_output_witness :
    (Background.Err = none ∧ (blankRunner "\n").IsDryRun = false ∧
      (∀ c ∈ "\n".data, isSpace c = true) ∧
      exampleWorld.sessions[1]? = some draftSession ∧ draftSession.state = .stateNew ∧
      exampleWorld.windows[1]? = some logsWindow ∧ logsWindow.state = .stateNew ∧
      exampleWorld.sessions[0]? = some demoSession ∧
      exampleWorld.panes[1]? = some shellPane ∧ shellPane.state = .stateNew ∧
      exampleWorld.windows[0]? = some codeWindow ∧
      Pane.IsClosed (some 1) exampleWorld = .ok false exampleWorld ∧
      Window.Name shellPane.win exampleWorld = .ok "demo:code" exampleWorld ∧
      Pane.envArgs exampleOS (some 1) exampleWorld = .ok [] exampleWorld) ∧
    Session.Apply (blankRunner "\n") Background (some 1) exampleWorld =
      .panic { exampleWorld with
        calls := exampleWorld.calls ++ [.Run draftSession.newSessionArgs] } ∧
    Window.Apply exampleOS (blankRunner "\n") Background (some 1) exampleWorld =
      .panic { exampleWorld with
        calls := exampleWorld.calls ++ [.Run (logsWindow.newWindowArgs exampleOS demoSession)] } ∧
    Pane.Apply exampleOS (blankRunner "\n") Background (some 1) exampleWorld =
      .panic { exampleWorld with
        calls := exampleWorld.calls ++ [.Run (shellPane.splitWindowArgs "demo:code" [])] } :=
  ⟨⟨rfl, rfl, by decide, rfl, rfl, rfl, rfl, rfl, rfl, rfl, rfl, by decide, by decide,
      by decide⟩,
    (apply_panics_on_blank_output exampleOS (blankRunner "\n") Background exampleWorld 1
      "\n" rfl rfl (by decide)).1 draftSession rfl rfl rfl,
    (apply_panics_on_blank_output exampleOS (blankRunner "\n") Background exampleWorld 1
      "\n" rfl rfl (by decide)).2.1 logsWindow 0 demoSession rfl rfl rfl rfl (by decide) rfl,
    (apply_panics_on_blank_output exampleOS (blankRunner "\n") Background exampleWorld 1
      "\n" rfl rfl (by decide)).2.2 shellPane 0 codeWindow 0 demoSession "demo:code"
      "demo:code" [] rfl (by decide) rfl rfl rfl rfl rfl (by decide) rfl (by decide) rfl⟩

/-- C29: Session.SelectActive on an applied session without windows indexes
the empty list of windows: the count of windows is not one, so the first
window is read as the default of the search for the active window, and the
method panics without issuing a command. So does config.Apply on a valid
configuration without windows, once list-sessions has found no session of the
configured name and new-session has created the session: no session and no
error is returned, and the session is not closed. -/
theorem apply_without_windows_panics (os : OS) (R : Runner) (ctx : Context) (w : World)
    (hctx : ctx.Err = none) :
    (∀ a sess, w.sessions[a]? = some sess → sess.state = .stateApplied →
      sess.windows = [] → Session.SelectActive R ctx (some a) w = .panic w) ∧
    (∀ (cfg : Config) (out out2 : String) (records rest : List outputRecord)
      (record : outputRecord), cfg.Validate os = none → cfg.Session.Windows = [] →
      R.Run ctx w.calls listSessionsArgs = (out, none) → parseOutput out = .ok records →
      (∀ x ∈ listedSessions records, x.Name ≠ cfg.Session.Name) →
      R.Run ctx (w.calls ++ [.Run listSessionsArgs])
        (configuredSession cfg.Session).newSessionArgs = (out2, none) →
      parseOutput
        (if R.IsDryRun then (configuredSession cfg.Session).dryRunRecord else out2) =
          .ok (record :: rest) →
      Apply os ctx cfg (some R) w =
        .panic
          { w with
            sessions := w.sessions ++ listedSessions records ++
              [(configuredSession cfg.Session).update record]
            calls := w.calls ++
              [Call.Run listSessionsArgs,
               Call.Run (configuredSession cfg.Session).newSessionArgs] }) := by
  refine ⟨fun a sess hs happ hnw => selectActive_no_window hctx hs happ hnw, ?_⟩
  intro cfg out out2 records rest record hval hwin hr hp hno hr2 hp2
  rw [apply_creates_session hctx hval hr hp hno hr2 hp2, hwin]
  have hll : (listedSessions records).length = records.length := by simp [listedSessions]
  have hs : (w.sessions ++ listedSessions records ++
      [(configuredSession cfg.Session).update record])[w.sessions.length + records.length]? =
      some ((configuredSession cfg.Session).update record) := by
    rw [List.getElem?_append_right (by simp [hll])]
    simp [hll]
  have hsel := @selectActive_no_window R ctx (w.sessions.length + records.length)
    { w with
      sessions := w.sessions ++ listedSessions records ++
        [(configuredSession cfg.Session).update record]
      calls := w.calls ++
        [Call.Run listSessionsArgs,
         Call.Run (configuredSession cfg.Session).newSessionArgs] }
    ((configuredSession cfg.Session).update record) hctx hs (by simp)
    (by simp [configuredSession])
  simp only [applyWindowCfgs, bind_run, pure_run, hsel]

/-- The witness of C29: an applied session without windows, and the valid
configuration `bareConfig` applied to the empty world with the simulated
multiplexer, whose commands all succeed. -/
theorem apply_without_windows_panics_witness :
    (Background.Err = none ∧ bareWorld.sessions[0]? =
        some { id := "$1", name := "demo", state := .stateApplied } ∧
      bareConfig.Validate exampleOS = none ∧ bareConfig.Session.Windows = [] ∧
      simTmux.Run Background [] listSessionsArgs = ("", none) ∧
      parseOutput "" = .ok [] ∧
      simTmux.Run Background ([] ++ [.Run listSessionsArgs])
        (configuredSession bareConfig.Session).newSessionArgs =
          ("session_name:demo", none) ∧
      parseOutput "session_name:demo" = .ok ([("session_name", "demo")] :: [])) ∧
    Session.SelectActive simTmux Background (some 0) bareWorld = .panic bareWorld ∧
    Apply exampleOS Background bareConfig (some simTmux) {} =
      .panic
        { sessions := [] ++ listedSessions [] ++
            [(configuredSession bareConfig.Session).update [("session_name", "demo")]]
          calls := [] ++
            [Call.Run listSessionsArgs,
             Call.Run (configuredSession bareConfig.Session).newSessionArgs] } :=
  ⟨⟨rfl, rfl, by decide, rfl, by decide, by decide, by decide, by decide⟩,
    (apply_without_windows_panics exampleOS simTmux Background bareWorld rfl).1 0 _ rfl rfl
      rfl,
    (apply_without_windows_panics exampleOS simTmux Background {} rfl).2 bareConfig ""
      "session_name:demo" [] [] [("session_name", "demo")] (by decide) rfl (by decide)
      (by decide) (by simp [listedSessions]) (by decide) (by decide)⟩

/-- C30: a line that is empty after trimming is not skipped. It is parsed as
one token without colon: for an input that is not blank and has such a line,
parseOutput returns an error and no records; when the lines before the first
such line are well formed, the error is that of an invalid key-value pair, the
empty one. The test of the loop that should skip the line never holds: lines
are parsed as long as the number of lines, and not the length of the line, is
not zero. -/
theorem parseOutput_fails_on_blank_line :
    (∀ output : String, trimSpace output.data ≠ [] →
      (∃ line ∈ outputLines output, trimSpace line = []) →
      ∃ e, parseOutput output = .error e) ∧
    (∀ (output : String) (pre post : List (List Char)) (blank : List Char),
      trimSpace output.data ≠ [] → outputLines output = pre ++ blank :: post →
      trimSpace blank = [] →
      (∀ line ∈ pre, (∀ tok ∈ lineTokens line, (cutChars colon tok).isSome = true) ∧
        ((lineRecord line).map Prod.fst).Nodup) →
      parseOutput output =
        .error (.Errorf "invalid key-value pair in command output: %s" [""])) ∧
    (∀ (total : Nat) (line : List Char) (rest : List (List Char))
      (acc : List outputRecord), total ≠ 0 → trimSpace line = [] →
      parseLines total (line :: rest) acc ≠ parseLines total rest acc ∨
        ∃ e, parseLines total rest acc = .error e) := by
  refine ⟨?_, ?_, ?_⟩
  · intro output hne ⟨line, hl, hb⟩
    rw [parseOutput_eq_parseLines output hne]
    refine parseLines_malformed _ (outputLines_length_pos output) _ _ ⟨line, hl, [], ?_, rfl⟩
    simp [lineTokens, hb, splitChars]
  · intro output pre post blank hne hlines hb hpre
    rw [parseOutput_eq_parseLines output hne, hlines,
      parseLines_append _ (by rw [← hlines]; exact outputLines_length_pos output) _ _ _ hpre,
      parseLines_blank _ (by rw [← hlines]; exact outputLines_length_pos output) _ _ _ hb]
  · intro total line rest acc ht hb
    rw [parseLines_blank total ht line rest acc hb]
    cases h : parseLines total rest acc with
    | error e => exact Or.inr ⟨e, rfl⟩
    | ok r => exact Or.inl (by simp)

/-- The witness of C30: two records with an empty line between them. -/
theorem parseOutput_fails_on_blank_line_witness :
    (trimSpace "a:1\n\nb:2".data ≠ [] ∧
      (∃ line ∈ outputLines "a:1\n\nb:2", trimSpace line = []) ∧
      outputLines "a:1\n\nb:2" = ["a:1".data] ++ [] :: ["b:2".data] ∧
      (∀ line ∈ ["a:1".data],
        (∀ tok ∈ lineTokens line, (cutChars colon tok).isSome = true) ∧
        ((lineRecord line).map Prod.fst).Nodup) ∧
      parseOutput "a:1\nb:2" = .ok [[("a", "1")], [("b", "2")]]) ∧
    (∃ e, parseOutput "a:1\n\nb:2" = .error e) ∧
    parseOutput "a:1\n\nb:2" =
      .error (.Errorf "invalid key-value pair in command output: %s" [""]) ∧
    (parseLines 3 ([] :: ["b:2".data]) [[("a", "1")]] ≠
        parseLines 3 ["b:2".data] [[("a", "1")]] ∨
      ∃ e, parseLines 3 ["b:2".data] [[("a", "1")]] = .error e) :=
  ⟨⟨by decide, by decide, by decide, by decide, by decide⟩,
    parseOutput_fails_on_blank_line.1 "a:1\n\nb:2" (by decide) (by decide),
    parseOutput_fails_on_blank_line.2.1 "a:1\n\nb:2" ["a:1".data] ["b:2".data] []
      (by decide) (by decide) rfl (by decide),
    parseOutput_fails_on_blank_line.2.2 3 [] ["b:2".data] [[("a", "1")]] (by decide) rfl⟩

end Tmpl
